import Mathlib

/-!
# A shallow embedding of the software GPU pipeline

The development follows `student/student_pipeline.c`, `student/linearAlgebra.c`
and the frame buffer accessors of `gpu/gpu.cpp`.

Conventions of the embedding:

* a C `float` is read as an exact rational number (`ℚ`); `fminf`/`fmaxf` are
  `min`/`max`;
* `VecN` (a struct holding `float data[N]`) is a function `Fin N → ℚ`;
* a function that writes through an output pointer returns the written value;
* a function that appends to an output array `triangles[*nofTriangles]` and
  increments the counter returns the extended list of triangles;
* `exit(1)` and reads outside an array are `none`.
-/

namespace IzgGpu

/-! ## linearAlgebra.c -/

/-- A `Vec2`: `float data[2]`. -/
abbrev Vec2 := Fin 2 → ℚ

/-- A `Vec3`: `float data[3]`. -/
abbrev Vec3 := Fin 3 → ℚ

/-- A `Vec4`: `float data[4]`. -/
abbrev Vec4 := Fin 4 → ℚ

/-- The function `copy_Vec2`: component-wise copy of the source. -/
def copy_Vec2 (source : Vec2) : Vec2 := fun i => source i

/-- The function `copy_Vec3`: component-wise copy of the source. -/
def copy_Vec3 (source : Vec3) : Vec3 := fun i => source i

/-- The function `copy_Vec4`: component-wise copy of the source. -/
def copy_Vec4 (source : Vec4) : Vec4 := fun i => source i

/-- The function `sub_Vec2`: `output->data[i] = a->data[i] - b->data[i]`. -/
def sub_Vec2 (a b : Vec2) : Vec2 := fun i => a i - b i

/-- The function `dot_Vec2`: `result = 0; result += left[i] * right[i]` for `i = 0, 1`. -/
def dot_Vec2 (left right : Vec2) : ℚ :=
  (0 + left 0 * right 0) + left 1 * right 1

/-- The function `mix_Vec3`: `output->data[i] = (1 - t) * a->data[i] + t * b->data[i]`. -/
def mix_Vec3 (a b : Vec3) (t : ℚ) : Vec3 := fun i => (1 - t) * a i + t * b i

/-- The function `mix_Vec4`: `output->data[i] = (1 - t) * a->data[i] + t * b->data[i]`. -/
def mix_Vec4 (a b : Vec4) (t : ℚ) : Vec4 := fun i => (1 - t) * a i + t * b i

/-! ## Vertex puller (student_pipeline.c) -/

/-- Modelled from the spec: the typedefs `VertexIndex` and `VertexShaderInvocation`
live in `student/fwd.h`, which is not among the sources.  The spec says the vertex id
is the invocation number "unchanged" when no index buffer is bound, so both are read
as the same unsigned integer type and the cast between them is the identity. -/
abbrev VertexIndex := ℕ

/-- See `VertexIndex`. -/
abbrev VertexShaderInvocation := ℕ

/--
The function `gpu_computeGLVertexID`.  The pointer `indices` is `none` for `NULL`
and otherwise the array of indices it points to; reading past the end of that
array has no defined result (`none`).
-/
def gpu_computeGLVertexID (indices : Option (List VertexIndex))
    (vertexShaderInvocation : VertexShaderInvocation) : Option VertexIndex :=
  match indices with
  | none => some vertexShaderInvocation
  | some arr => arr[vertexShaderInvocation]?

/-- Modelled from the spec: `GPUVertexPullerHead` is declared in
`student/vertexPuller.h`, which is not among the sources.  The spec lists its parts:
"source buffer raw pointer, enabled flag, byte stride, byte offset".  The raw pointer
is the byte address of the buffer's storage; addresses, offsets and strides are natural
numbers. -/
structure GPUVertexPullerHead where
  buffer : ℕ
  offset : ℕ
  stride : ℕ
  enabled : ℤ
deriving DecidableEq, Repr

/--
The function `gpu_computeVertexAttributeDataPointer`.  The result is `none` for the
`NULL` pointer and `some a` for the byte address `a`.
-/
def gpu_computeVertexAttributeDataPointer (head : GPUVertexPullerHead)
    (gl_VertexID : VertexIndex) : Option ℕ :=
  if head.enabled ≠ 1 then none
  else some (head.buffer + head.offset + head.stride * gl_VertexID)

/-! ## Clipper (student_pipeline.c) -/

/-- Modelled from the spec: the constant `VERTICES_PER_TRIANGLE` is defined in a header
that is not among the sources.  The spec fixes the "maximum vertices-per-primitive (3,
triangles only)"; the code initialises its per-vertex arrays with three elements. -/
def VERTICES_PER_TRIANGLE : ℕ := 3

/-- Modelled from the spec: the enum `FrustumPlane` is declared in
`student/student_pipeline.h`, which is not among the sources.  The code names its six
values; the spec calls them the planes of the "six-plane" frustum clip. -/
inductive FrustumPlane where
  | LEFT
  | RIGHT
  | BOTTOM
  | TOP
  | NEAR
  | FAR
deriving DecidableEq, Repr

/-- Modelled from the spec: `GPUTriangle` is declared in `student/student_pipeline.h`,
which is not among the sources.  The spec describes the clip triangle as
"3 clip-space positions plus 3 barycentric recipe vectors"; the code reads them
as `positions[v]` (a `Vec4`) and `coords[v]` (a `Vec3`). -/
structure GPUTriangle where
  positions : Fin 3 → Vec4
  coords : Fin 3 → Vec3

/-- Array access `a[i]` on a three-element array with a `size_t` index.  Every index the
code computes is below three, where this is the plain access. -/
def at3 {α : Type} (a : Fin 3 → α) (i : ℕ) : α := a (Fin.ofNat i)

/--
The function `gpu_runFrustumPlaneClippingOnEdge`; the result is the pair
`(*minT, *maxT)`.
-/
def gpu_runFrustumPlaneClippingOnEdge (vertexA vertexB : Vec4) (axis : Fin 4)
    (positive : ℕ) : ℚ × ℚ :=
  let ai := vertexA axis
  let aw := vertexA 3
  let bi := vertexB axis
  let bw := vertexB 3
  let s : ℚ := 2 * (positive : ℚ) - 1
  let M := -bw + aw - s * (bi - ai)
  let N := s * ai + aw
  if M > 0 then (0, min 1 (N / M))
  else if M < 0 then (max 0 (N / M), 1)
  else if N < 0 then (1, 0)
  else (0, 1)

/-- The function `gpu_writeClippedTriangle_OneVertexVisible`. -/
def gpu_writeClippedTriangle_OneVertexVisible (triangles : List GPUTriangle)
    (visible : ℕ) (tMin tMax : Fin 3 → ℚ) (triangle : GPUTriangle) : List GPUTriangle :=
  let vertex := visible >>> 1
  let prevVertex := (vertex + 2) % VERTICES_PER_TRIANGLE
  let nextVertex := (vertex + 1) % VERTICES_PER_TRIANGLE
  let prevT := at3 tMin prevVertex
  let nextT := at3 tMax vertex
  let srcCoords := triangle.coords
  let srcPositions := triangle.positions
  triangles ++ [{
    coords := ![copy_Vec3 (at3 srcCoords vertex),
                mix_Vec3 (at3 srcCoords vertex) (at3 srcCoords nextVertex) nextT,
                mix_Vec3 (at3 srcCoords prevVertex) (at3 srcCoords vertex) prevT],
    positions := ![copy_Vec4 (at3 srcPositions vertex),
                   mix_Vec4 (at3 srcPositions vertex) (at3 srcPositions nextVertex) nextT,
                   mix_Vec4 (at3 srcPositions prevVertex) (at3 srcPositions vertex) prevT] }]

/-- The function `gpu_writeClippedTriangle_TwoVerticesVisible_FirstTriangle`. -/
def gpu_writeClippedTriangle_TwoVerticesVisible_FirstTriangle
    (srcCoords : Fin 3 → Vec3) (srcPositions : Fin 3 → Vec4)
    (vertex nextVertex prevVertex : ℕ) (nextT prevT : ℚ) : GPUTriangle :=
  { coords := ![mix_Vec3 (at3 srcCoords vertex) (at3 srcCoords nextVertex) nextT,
                copy_Vec3 (at3 srcCoords nextVertex),
                mix_Vec3 (at3 srcCoords prevVertex) (at3 srcCoords vertex) prevT],
    positions := ![mix_Vec4 (at3 srcPositions vertex) (at3 srcPositions nextVertex) nextT,
                   copy_Vec4 (at3 srcPositions nextVertex),
                   mix_Vec4 (at3 srcPositions prevVertex) (at3 srcPositions vertex) prevT] }

/-- The function `gpu_writeClippedTriangle_TwoVerticesVisible_SecondTriangle`. -/
def gpu_writeClippedTriangle_TwoVerticesVisible_SecondTriangle
    (srcCoords : Fin 3 → Vec3) (srcPositions : Fin 3 → Vec4)
    (vertex nextVertex prevVertex : ℕ) (prevT : ℚ) : GPUTriangle :=
  { coords := ![mix_Vec3 (at3 srcCoords prevVertex) (at3 srcCoords vertex) prevT,
                copy_Vec3 (at3 srcCoords nextVertex),
                copy_Vec3 (at3 srcCoords prevVertex)],
    positions := ![mix_Vec4 (at3 srcPositions prevVertex) (at3 srcPositions vertex) prevT,
                   copy_Vec4 (at3 srcPositions nextVertex),
                   copy_Vec4 (at3 srcPositions prevVertex)] }

/-- The function `gpu_writeClippedTriangle_TwoVerticesVisible`; `~visible & 0x7` is
computed on a 64-bit `size_t`. -/
def gpu_writeClippedTriangle_TwoVerticesVisible (triangles : List GPUTriangle)
    (visible : ℕ) (tMin tMax : Fin 3 → ℚ) (triangle : GPUTriangle) : List GPUTriangle :=
  let vertex := ((2 ^ 64 - 1 - visible) &&& 7) >>> 1
  let prevVertex := (vertex + 2) % VERTICES_PER_TRIANGLE
  let nextVertex := (vertex + 1) % VERTICES_PER_TRIANGLE
  let prevT := at3 tMax prevVertex
  let nextT := at3 tMin vertex
  (triangles ++
    [gpu_writeClippedTriangle_TwoVerticesVisible_FirstTriangle triangle.coords
      triangle.positions vertex nextVertex prevVertex nextT prevT]) ++
    [gpu_writeClippedTriangle_TwoVerticesVisible_SecondTriangle triangle.coords
      triangle.positions vertex nextVertex prevVertex prevT]

/-- The function `gpu_writeClippedTriangle_ThreeVerticesVisible`. -/
def gpu_writeClippedTriangle_ThreeVerticesVisible (triangles : List GPUTriangle)
    (triangle : GPUTriangle) : List GPUTriangle :=
  triangles ++ [{
    positions := fun v => copy_Vec4 (triangle.positions v),
    coords := fun v => copy_Vec3 (triangle.coords v) }]

/-- The axis chosen for a plane in `gpu_runFrustumPlaneClippingOnTriangle`. -/
def planeAxis (plane : FrustumPlane) : Fin 4 :=
  if plane = .LEFT ∨ plane = .RIGHT then 0
  else if plane = .BOTTOM ∨ plane = .TOP then 1
  else if plane = .FAR ∨ plane = .NEAR then 2
  else 0

/-- The positive flag chosen for a plane in `gpu_runFrustumPlaneClippingOnTriangle`. -/
def planePositive (plane : FrustumPlane) : ℕ :=
  if plane = .LEFT ∨ plane = .BOTTOM ∨ plane = .NEAR then 1
  else if plane = .RIGHT ∨ plane = .TOP ∨ plane = .FAR then 0
  else 0

/-- The bit `(uint32_t) (tMin[i] == 0.f && tMin[i] <= tMax[i])`. -/
def visibleBit (tMin tMax : Fin 3 → ℚ) (i : Fin 3) : ℕ :=
  if tMin i = 0 ∧ tMin i ≤ tMax i then 1 else 0

/-- The binary mask of visible vertices built by the loop
`visible |= bit << i` for `i = 0, 1, 2`. -/
def visibleMask (tMin tMax : Fin 3 → ℚ) : ℕ :=
  ((0 ||| (visibleBit tMin tMax 0 <<< 0)) ||| (visibleBit tMin tMax 1 <<< 1))
    ||| (visibleBit tMin tMax 2 <<< 2)

/-- The function `gpu_runFrustumPlaneClippingOnTriangle`. -/
def gpu_runFrustumPlaneClippingOnTriangle (triangles : List GPUTriangle)
    (triangle : GPUTriangle) (plane : FrustumPlane) : List GPUTriangle :=
  let axis := planeAxis plane
  let positive := planePositive plane
  let edge : Fin 3 → ℚ × ℚ := fun v =>
    gpu_runFrustumPlaneClippingOnEdge (triangle.positions v)
      (at3 triangle.positions ((v.val + 1) % VERTICES_PER_TRIANGLE)) axis positive
  let tMin : Fin 3 → ℚ := fun v => (edge v).1
  let tMax : Fin 3 → ℚ := fun v => (edge v).2
  let visible := visibleMask tMin tMax
  if visible = 0 then triangles
  else if visible = 1 ∨ visible = 2 ∨ visible = 4 then
    gpu_writeClippedTriangle_OneVertexVisible triangles visible tMin tMax triangle
  else if visible = 3 ∨ visible = 5 ∨ visible = 6 then
    gpu_writeClippedTriangle_TwoVerticesVisible triangles visible tMin tMax triangle
  else if visible = 7 then
    gpu_writeClippedTriangle_ThreeVerticesVisible triangles triangle
  else triangles

/-- The function `gpu_runTriangleClipping`: the output list starts empty and only
the near plane is applied. -/
def gpu_runTriangleClipping (input : GPUTriangle) : List GPUTriangle :=
  gpu_runFrustumPlaneClippingOnTriangle [] input .NEAR

/-! ## Rasterizer (student_pipeline.c) -/

/-- A counting loop `for (size_t i = 0; i < n; ++i) body` over a state. -/
def forLoop {σ : Type} (n : ℕ) (body : ℕ → σ → σ) (init : σ) : σ :=
  (List.range n).foldl (fun st i => body i st) init

/-- The function `gpu_computeScreenSpaceBarycentrics`; the result is `*coords`.  The
argument `lines` is not used by the code (`(void) lines`). -/
def gpu_computeScreenSpaceBarycentrics (pixelCenter : Vec2) (vertices : Fin 3 → Vec2)
    (_lines : Fin 3 → Vec3) : Vec3 :=
  let a := sub_Vec2 (vertices 1) (vertices 0)
  let b := sub_Vec2 (vertices 2) (vertices 0)
  let c := sub_Vec2 pixelCenter (vertices 0)
  let aa := dot_Vec2 a a
  let ab := dot_Vec2 a b
  let bb := dot_Vec2 b b
  let ca := dot_Vec2 c a
  let cb := dot_Vec2 c b
  let k := 1 / (aa * bb - ab * ab)
  let coords1 := k * (bb * ca - ab * cb)
  let coords2 := k * (aa * cb - ab * ca)
  ![1 - (coords1 + coords2), coords1, coords2]

/-- The function `gpu_noperspectiveInterpolate`: `result = 0; result += values[i] *
weights[i]` for `i = 0, 1, 2`. -/
def gpu_noperspectiveInterpolate (values weights : Fin 3 → ℚ) : ℚ :=
  ((0 + values 0 * weights 0) + values 1 * weights 1) + values 2 * weights 2

/-- The function `gpu_smoothInterpolate`: with `divInc = weights[i] /
homogeneousCoords[i]`, the loop accumulates `dividend += values[i] * divInc` and
`divisor += divInc` for `i = 0, 1, 2`, and the result is `dividend / divisor`. -/
def gpu_smoothInterpolate (values weights homogeneousCoords : Fin 3 → ℚ) : ℚ :=
  let divInc : Fin 3 → ℚ := fun i => weights i / homogeneousCoords i
  let dividend := ((0 + values 0 * divInc 0) + values 1 * divInc 1) + values 2 * divInc 2
  let divisor := ((0 + divInc 0) + divInc 1) + divInc 2
  dividend / divisor

/-- The enum `AttributeType` of `program.h`. -/
inductive AttributeType where
  | ATTRIB_FLOAT
  | ATTRIB_VEC2
  | ATTRIB_VEC3
  | ATTRIB_VEC4
  | ATTRIB_EMPTY
deriving DecidableEq, Repr

/-- The numeric value of an `AttributeType`, as given by the enum: the cast
`(size_t) type`. -/
def AttributeType.toNat : AttributeType → ℕ
  | .ATTRIB_FLOAT => 1
  | .ATTRIB_VEC2 => 2
  | .ATTRIB_VEC3 => 3
  | .ATTRIB_VEC4 => 4
  | .ATTRIB_EMPTY => 5

/-- The enum `InterpolationType` of `program.h`. -/
inductive InterpolationType where
  | FLAT
  | NOPERSPECTIVE
  | SMOOTH
deriving DecidableEq, Repr

/-- The attribute storage of a vertex or a fragment: `AttributeData
attributes[MAX_ATTRIBUTES]`, each `AttributeData` read as an array of floats
(`((float *) attributes[a])[c]`), so slot `a` and component `c` give a number. -/
abbrev Attributes := ℕ → ℕ → ℚ

/-- The struct `GPUVertexShaderOutput` of `program.h` (the `gpu` handle is left out). -/
structure GPUVertexShaderOutput where
  attributes : Attributes
  gl_Position : Vec4

/-- Modelled from the spec: `GPUPrimitive` is declared in `student/student_pipeline.h`,
which is not among the sources.  The spec describes the assembled primitive as "up to 3
vertices, each holding a clip-space 4-component position and, per attribute slot,"
attribute storage, "plus the program's per-slot type/qualifier snapshot"; the code reads
the fields `vertices`, `types`, `interpolations` and `nofUsedVertices`. -/
structure GPUPrimitive where
  vertices : Fin 3 → GPUVertexShaderOutput
  types : ℕ → AttributeType
  interpolations : ℕ → InterpolationType
  nofUsedVertices : ℕ

/-- The struct `GPUFragmentShaderInput` of `program.h`. -/
structure GPUFragmentShaderInput where
  attributes : Attributes
  coords : Vec2
  depth : ℚ

/-- The struct `GPUFragmentShaderOutput` of `program.h`. -/
structure GPUFragmentShaderOutput where
  color : Vec4
  depth : ℚ

/-- The assignment `((float *) fragment->attributes.attributes[attribute])[component] =
value`. -/
def writeFragmentAttribute (fragment : GPUFragmentShaderInput) (attrib component : ℕ)
    (value : ℚ) : GPUFragmentShaderInput :=
  { fragment with
    attributes := Function.update fragment.attributes attrib
      (Function.update (fragment.attributes attrib) component value) }

/-- The function `gpu_createFlatFragmentAttribute`. -/
def gpu_createFlatFragmentAttribute (fragment : GPUFragmentShaderInput)
    (primitive : GPUPrimitive) (attrib nofComponents : ℕ) : GPUFragmentShaderInput :=
  forLoop nofComponents (fun component fr =>
    writeFragmentAttribute fr attrib component
      ((primitive.vertices 0).attributes attrib component)) fragment

/-- The function `gpu_createNoPerspectiveFragmentAttribute`. -/
def gpu_createNoPerspectiveFragmentAttribute (fragment : GPUFragmentShaderInput)
    (primitive : GPUPrimitive) (attrib nofComponents : ℕ) (barycentrics : Vec3) :
    GPUFragmentShaderInput :=
  forLoop nofComponents (fun component fr =>
    let values : Fin 3 → ℚ :=
      ![(primitive.vertices 0).attributes attrib component,
        (primitive.vertices 1).attributes attrib component,
        (primitive.vertices 2).attributes attrib component]
    writeFragmentAttribute fr attrib component
      (gpu_noperspectiveInterpolate values barycentrics)) fragment

/-- The function `gpu_createSmoothFragmentAttribute`. -/
def gpu_createSmoothFragmentAttribute (fragment : GPUFragmentShaderInput)
    (primitive : GPUPrimitive) (attrib nofComponents : ℕ) (barycentrics : Vec3)
    (homogeneousCoords : Fin 3 → ℚ) : GPUFragmentShaderInput :=
  forLoop nofComponents (fun component fr =>
    let values : Fin 3 → ℚ :=
      ![(primitive.vertices 0).attributes attrib component,
        (primitive.vertices 1).attributes attrib component,
        (primitive.vertices 2).attributes attrib component]
    writeFragmentAttribute fr attrib component
      (gpu_smoothInterpolate values barycentrics homogeneousCoords)) fragment

/-- The function `gpu_createInterpolatedFragmentAttribute`. -/
def gpu_createInterpolatedFragmentAttribute (fragment : GPUFragmentShaderInput)
    (primitive : GPUPrimitive) (attrib : ℕ) (barycentrics : Vec3)
    (homogeneousCoords : Fin 3 → ℚ) : GPUFragmentShaderInput :=
  let nofComponents := (primitive.types attrib).toNat
  if primitive.interpolations attrib = .FLAT then
    gpu_createFlatFragmentAttribute fragment primitive attrib nofComponents
  else if primitive.interpolations attrib = .NOPERSPECTIVE then
    gpu_createNoPerspectiveFragmentAttribute fragment primitive attrib nofComponents
      barycentrics
  else if primitive.interpolations attrib = .SMOOTH then
    gpu_createSmoothFragmentAttribute fragment primitive attrib nofComponents
      barycentrics homogeneousCoords
  else fragment

/-- The function `gpu_createFragment`.  The constant `MAX_ATTRIBUTES` is defined in a
header that is not among the sources and is a parameter here; `fragment` is the content
of the output struct before the call. -/
def gpu_createFragment (MAX_ATTRIBUTES : ℕ) (fragment : GPUFragmentShaderInput)
    (primitive : GPUPrimitive) (barycentrics : Vec3) (pixelCoord : Vec2) :
    GPUFragmentShaderInput :=
  let homogeneousCoords : Fin 3 → ℚ :=
    ![(primitive.vertices 0).gl_Position 3,
      (primitive.vertices 1).gl_Position 3,
      (primitive.vertices 2).gl_Position 3]
  let fragment1 := forLoop MAX_ATTRIBUTES (fun attrib fr =>
    if primitive.types attrib = .ATTRIB_EMPTY then fr
    else gpu_createInterpolatedFragmentAttribute fr primitive attrib barycentrics
      homogeneousCoords) fragment
  let fragment2 := { fragment1 with coords := copy_Vec2 pixelCoord }
  let depths : Fin 3 → ℚ :=
    ![(primitive.vertices 0).gl_Position 3,
      (primitive.vertices 1).gl_Position 3,
      (primitive.vertices 2).gl_Position 3]
  { fragment2 with depth := gpu_smoothInterpolate depths barycentrics homogeneousCoords }

/-! ## Frame buffer (gpu.cpp) -/

/-- The frame buffer members of `GpuImplementation`: the viewport size and the two
`std::vector`s `depthBuffer` and `colorBuffer`. -/
structure Framebuffer where
  viewportWidth : ℕ
  viewportHeight : ℕ
  depthBuffer : List ℚ
  colorBuffer : List Vec4

/-- The constant `GpuImplementation::outOfRange`: the largest `size_t`. -/
def outOfRange : ℕ := 2 ^ 64 - 1

/-- The method `GpuImplementation::getLinearPixelCoord`; `y * w + x` is computed on
64-bit `size_t`. -/
def getLinearPixelCoord (g : Framebuffer) (x y : ℕ) : ℕ :=
  let w := g.viewportWidth
  let h := g.viewportHeight
  if x ≥ w then outOfRange
  else if y ≥ h then outOfRange
  else (y * w + x) % 2 ^ 64

/-- The function `cpu_getColor`; `none` is `exit(1)` or the exception of `vector::at`. -/
def cpu_getColor (g : Framebuffer) (x y : ℕ) : Option Vec4 :=
  let index := getLinearPixelCoord g x y
  if index = outOfRange then none
  else g.colorBuffer[index]?

/-- The function `gpu_getDepth`; `none` is `exit(1)` or the exception of `vector::at`. -/
def gpu_getDepth (g : Framebuffer) (x y : ℕ) : Option ℚ :=
  let index := getLinearPixelCoord g x y
  if index = outOfRange then none
  else g.depthBuffer[index]?

/-- The function `gpu_setDepth`; `none` is `exit(1)` or the exception of `vector::at`. -/
def gpu_setDepth (g : Framebuffer) (x y : ℕ) (depth : ℚ) : Option Framebuffer :=
  let index := getLinearPixelCoord g x y
  if index = outOfRange then none
  else if index < g.depthBuffer.length then
    some { g with depthBuffer := g.depthBuffer.set index depth }
  else none

/-- The function `gpu_setColor`; `none` is `exit(1)` or the exception of `vector::at`. -/
def gpu_setColor (g : Framebuffer) (x y : ℕ) (color : Vec4) : Option Framebuffer :=
  let index := getLinearPixelCoord g x y
  if index = outOfRange then none
  else if index < g.colorBuffer.length then
    some { g with colorBuffer := g.colorBuffer.set index (copy_Vec4 color) }
  else none

/-- The function `gpu_perFragmentOperations`. -/
def gpu_perFragmentOperations (g : Framebuffer) (fragment : GPUFragmentShaderOutput)
    (x y : ℕ) : Option Framebuffer :=
  match gpu_getDepth g x y with
  | none => none
  | some stored =>
    if fragment.depth < stored then
      match gpu_setColor g x y fragment.color with
      | none => none
      | some g1 => gpu_setDepth g1 x y fragment.depth
    else some g

/-! ## Vocabulary of the clipping statements -/

/-- A clip-space point lies in the near half-space: `-w ≤ z`. -/
def inNearHalfSpace (p : Vec4) : Prop := -(p 3) ≤ p 2

instance (p : Vec4) : Decidable (inNearHalfSpace p) := by
  unfold inNearHalfSpace; infer_instance

/-- The number of vertices of a triangle that lie in the near half-space. -/
def nofNearVertices (t : GPUTriangle) : ℕ :=
  (Finset.univ.filter (fun i : Fin 3 => inNearHalfSpace (t.positions i))).card

/-- A clip-space point lies on the near plane: `z = -w`. -/
def onNearPlane (p : Vec4) : Prop := p 2 = -(p 3)

/-- The triangle `(P_v, A, B)` with `A` the point at parameter `s` of the edge
`P_v → P_next`, `B` the point at parameter `t` of the edge `P_prev → P_v`
(`next = v + 1`, `prev = v + 2` modulo three), and recipe vectors mixed with the same
parameters. -/
def cornerTriangle (input : GPUTriangle) (v : Fin 3) (s t : ℚ) : GPUTriangle :=
  { positions := ![input.positions v,
                   mix_Vec4 (input.positions v) (input.positions (v + 1)) s,
                   mix_Vec4 (input.positions (v + 2)) (input.positions v) t],
    coords := ![input.coords v,
                mix_Vec3 (input.coords v) (input.coords (v + 1)) s,
                mix_Vec3 (input.coords (v + 2)) (input.coords v) t] }

/-- Oriented area of a triangle given by the barycentric coordinates of its three
vertices, in units of the area of the reference triangle: the determinant of the
three coordinate rows. -/
def orientedArea (c : Fin 3 → Vec3) : ℚ :=
  c 0 0 * (c 1 1 * c 2 2 - c 1 2 * c 2 1)
    - c 0 1 * (c 1 0 * c 2 2 - c 1 2 * c 2 0)
    + c 0 2 * (c 1 0 * c 2 1 - c 1 1 * c 2 0)

/-- Twice the vector area of a triangle in the space of recipe vectors: the cross
product of its two edge vectors at vertex 0. -/
def vectorArea (c : Fin 3 → Vec3) : Vec3 :=
  ![(c 1 1 - c 0 1) * (c 2 2 - c 0 2) - (c 1 2 - c 0 2) * (c 2 1 - c 0 1),
    (c 1 2 - c 0 2) * (c 2 0 - c 0 0) - (c 1 0 - c 0 0) * (c 2 2 - c 0 2),
    (c 1 0 - c 0 0) * (c 2 1 - c 0 1) - (c 1 1 - c 0 1) * (c 2 0 - c 0 0)]

/-- A triangle with all three vertices in the near half-space and identity recipes. -/
def sampleInside : GPUTriangle :=
  { positions := ![![0, 0, 0, 1], ![1, 0, 0, 1], ![0, 1, 0, 1]],
    coords := ![![1, 0, 0], ![0, 1, 0], ![0, 0, 1]] }

/-- A triangle whose vertex 0 is behind the near plane, the other two in front. -/
def sampleTwoInside : GPUTriangle :=
  { positions := ![![0, 0, -2, 1], ![1, 0, 0, 1], ![0, 1, 0, 1]],
    coords := ![![1, 0, 0], ![0, 1, 0], ![0, 0, 1]] }

/-- A triangle whose vertex 1 is in front of the near plane, the other two behind. -/
def sampleOneInside : GPUTriangle :=
  { positions := ![![0, 0, -2, 1], ![1, 0, 0, 1], ![0, 1, -3, 1]],
    coords := ![![1, 0, 0], ![0, 1, 0], ![0, 0, 1]] }

/-! ## Vocabulary of the rasterizer statements -/

/-- Twice the signed area of a screen-space triangle: the cross product of the edge
vectors `v1 - v0` and `v2 - v0`. -/
def signedArea2 (vertices : Fin 3 → Vec2) : ℚ :=
  (vertices 1 0 - vertices 0 0) * (vertices 2 1 - vertices 0 1)
    - (vertices 1 1 - vertices 0 1) * (vertices 2 0 - vertices 0 0)

/-- The value the interpolation rules prescribe for component `c` of slot `a`: the value
of vertex 0 for flat, the barycentric sum for no-perspective, and the
perspective-correct quotient for smooth, where `l` are the barycentrics and `w` the `w`
components of the three vertex positions. -/
def interpolatedValue (primitive : GPUPrimitive) (l : Vec3) (a c : ℕ) : ℚ :=
  let v : Fin 3 → ℚ := fun i => (primitive.vertices i).attributes a c
  let w : Fin 3 → ℚ := fun i => (primitive.vertices i).gl_Position 3
  match primitive.interpolations a with
  | .FLAT => v 0
  | .NOPERSPECTIVE => v 0 * l 0 + v 1 * l 1 + v 2 * l 2
  | .SMOOTH =>
    (v 0 * l 0 / w 0 + v 1 * l 1 / w 1 + v 2 * l 2 / w 2) /
      (l 0 / w 0 + l 1 / w 1 + l 2 / w 2)

/-- The depth of the spec: the perspective-correct interpolation of the `z` components
of the three vertex positions with the `w` components as weights. -/
def smoothDepth (primitive : GPUPrimitive) (l : Vec3) : ℚ :=
  let z : Fin 3 → ℚ := fun i => (primitive.vertices i).gl_Position 2
  let w : Fin 3 → ℚ := fun i => (primitive.vertices i).gl_Position 3
  (z 0 * l 0 / w 0 + z 1 * l 1 / w 1 + z 2 * l 2 / w 2) /
    (l 0 / w 0 + l 1 / w 1 + l 2 / w 2)

/-- A screen-space triangle with non-zero area. -/
def sampleScreenTriangle : Fin 3 → Vec2 := ![![0, 0], ![4, 0], ![0, 4]]

/-- A primitive after division and viewport transformation whose three vertices have
depth `z = 1/2` and `w = 2`. -/
def sampleDepthPrimitive : GPUPrimitive :=
  { vertices := ![{ attributes := fun _ _ => 0, gl_Position := ![0, 0, 1 / 2, 2] },
                  { attributes := fun _ _ => 0, gl_Position := ![4, 0, 1 / 2, 2] },
                  { attributes := fun _ _ => 0, gl_Position := ![0, 4, 1 / 2, 2] }],
    types := fun _ => .ATTRIB_EMPTY,
    interpolations := fun _ => .SMOOTH,
    nofUsedVertices := 3 }

/-- A fragment with all attributes, coordinates and depth zero. -/
def emptyFragment : GPUFragmentShaderInput :=
  { attributes := fun _ _ => 0, coords := ![0, 0], depth := 0 }

/-- A frame buffer holds one depth and one colour per pixel of the viewport: both
vectors have `width * height` entries, a count that fits a `size_t`. -/
def Framebuffer.WellFormed (g : Framebuffer) : Prop :=
  g.depthBuffer.length = g.viewportWidth * g.viewportHeight ∧
  g.colorBuffer.length = g.viewportWidth * g.viewportHeight ∧
  g.viewportWidth * g.viewportHeight < 2 ^ 64

/-- A cleared 2×2 frame buffer with depth `1` and colour `(0,0,0,1)` at every pixel. -/
def sampleFramebuffer : Framebuffer :=
  { viewportWidth := 2, viewportHeight := 2,
    depthBuffer := [1, 1, 1, 1],
    colorBuffer := [![0, 0, 0, 1], ![0, 0, 0, 1], ![0, 0, 0, 1], ![0, 0, 0, 1]] }

/-- A red fragment of depth `1/2`. -/
def sampleNearFragment : GPUFragmentShaderOutput :=
  { color := ![1, 0, 0, 1], depth := 1 / 2 }

/-- A red fragment of depth `1`, equal to the cleared depth. -/
def sampleEqualFragment : GPUFragmentShaderOutput :=
  { color := ![1, 0, 0, 1], depth := 1 }

/-! ## Division and viewport transformation (student_pipeline.c) -/

/-- The update `primitive->vertices[v].gl_Position.data[k] = f (old value)`.  The code
uses it with `v < nofUsedVertices ≤ 3` and `k < 4`, where the indices are the plain
array indices. -/
def modifyPosition (primitive : GPUPrimitive) (v k : ℕ) (f : ℚ → ℚ) : GPUPrimitive :=
  { primitive with
    vertices := Function.update primitive.vertices (Fin.ofNat v)
      { primitive.vertices (Fin.ofNat v) with
        gl_Position := Function.update (primitive.vertices (Fin.ofNat v)).gl_Position
          (Fin.ofNat k) (f ((primitive.vertices (Fin.ofNat v)).gl_Position (Fin.ofNat k))) } }

/-- The function `gpu_runPerspectiveDivision`. -/
def gpu_runPerspectiveDivision (primitive : GPUPrimitive) : GPUPrimitive :=
  forLoop primitive.nofUsedVertices (fun v pr =>
    let invDivisor : ℚ := 1 / (at3 pr.vertices v).gl_Position 3
    forLoop 3 (fun k pr1 => modifyPosition pr1 v k (fun x => x * invDivisor)) pr) primitive

/-- The function `gpu_runViewportTransformation`; `(float) width` is the exact value of
the width. -/
def gpu_runViewportTransformation (primitive : GPUPrimitive) (width height : ℕ) :
    GPUPrimitive :=
  forLoop primitive.nofUsedVertices (fun v pr =>
    let pr1 := modifyPosition pr v 0 (fun x => (x * (1 / 2) + 1 / 2) * (width : ℚ))
    modifyPosition pr1 v 1 (fun y => (y * (1 / 2) + 1 / 2) * (height : ℚ))) primitive

/-- A primitive of three vertices in clip space with non-zero `w`. -/
def sampleClipPrimitive : GPUPrimitive :=
  { vertices := ![{ attributes := fun _ _ => 1, gl_Position := ![2, 4, 6, 2] },
                  { attributes := fun _ _ => 2, gl_Position := ![-3, 3, 0, 3] },
                  { attributes := fun _ _ => 3, gl_Position := ![1, -1, 1 / 2, 4] }],
    types := fun _ => .ATTRIB_VEC3,
    interpolations := fun _ => .SMOOTH,
    nofUsedVertices := 3 }

/-! ## Primitive assembly (student_pipeline.c) -/

/-- Modelled from the spec: `GPUVertexPullerConfiguration` is declared in
`student/vertexPuller.h`, which is not among the sources.  The spec describes a puller as
"attribute heads ... plus an optional index-buffer raw pointer"; the code reads the
fields `heads[i]` and `indices`.  The raw pointer `indices` is a byte address, `0` for
`NULL`. -/
structure GPUVertexPullerConfiguration where
  heads : ℕ → GPUVertexPullerHead
  indices : ℕ

/-- Modelled from the spec: `GPUVertexPullerOutput` is declared in
`student/vertexPuller.h`, which is not among the sources.  The spec calls it "a struct of
per-slot addresses (or null)"; the code writes `attributes[i]` for every slot `i`. -/
structure GPUVertexPullerOutput where
  attributes : ℕ → Option ℕ

/-- The struct `GPUVertexShaderInput` of `program.h`; the pointer `attributes` is
replaced by the puller output it points to. -/
structure GPUVertexShaderInput where
  attributes : GPUVertexPullerOutput
  gl_VertexID : VertexIndex

/-- The array of indices seen through the pointer `indices`: nothing for `NULL`,
otherwise the `VertexIndex` values that the memory `readIndices` holds at that
address. -/
def indexArray (readIndices : ℕ → List VertexIndex) (indices : ℕ) :
    Option (List VertexIndex) :=
  if indices = 0 then none else some (readIndices indices)

/-- The function `gpu_runVertexPuller`.  The memory behind the index pointer is the
parameter `readIndices`; the result is `none` when the index read has no defined
result. -/
def gpu_runVertexPuller (MAX_ATTRIBUTES : ℕ) (readIndices : ℕ → List VertexIndex)
    (output : GPUVertexPullerOutput) (puller : GPUVertexPullerConfiguration)
    (vertexShaderInvocation : VertexShaderInvocation) : Option GPUVertexPullerOutput :=
  match gpu_computeGLVertexID (indexArray readIndices puller.indices)
      vertexShaderInvocation with
  | none => none
  | some gl_VertexID =>
    some (forLoop MAX_ATTRIBUTES (fun i out =>
      { out with
        attributes := Function.update out.attributes i
          (gpu_computeVertexAttributeDataPointer (puller.heads i) gl_VertexID) }) output)

/-- A vertex shader: it reads its input and writes the output vertex it is given. -/
abbrev VertexShader := GPUVertexShaderOutput → GPUVertexShaderInput → GPUVertexShaderOutput

/-- The state of the loop of `gpu_runPrimitiveAssembly`: the primitive, and the record
of the vertex shader calls made so far (output vertex slot and input of each call). -/
structure AssemblyState where
  primitive : GPUPrimitive
  calls : List (ℕ × GPUVertexShaderInput)

/-- The function `gpu_runPrimitiveAssembly`.  The local `vertexPullerOutput` has
`MAX_ATTRIBUTES` entries, all written by the puller; the result carries the assembled
primitive and the record of the vertex shader calls, and is `none` when an index read
has no defined result. -/
def gpu_runPrimitiveAssembly (MAX_ATTRIBUTES : ℕ) (readIndices : ℕ → List VertexIndex)
    (primitive : GPUPrimitive) (nofPrimitiveVertices : ℕ)
    (puller : GPUVertexPullerConfiguration)
    (baseVertexShaderInvocation : VertexShaderInvocation) (vertexShader : VertexShader) :
    Option AssemblyState :=
  let looped := forLoop nofPrimitiveVertices (fun i (st : Option AssemblyState) =>
    match st with
    | none => none
    | some st =>
      let vertexShaderInvocation := baseVertexShaderInvocation + i
      match gpu_runVertexPuller MAX_ATTRIBUTES readIndices { attributes := fun _ => none }
          puller vertexShaderInvocation with
      | none => none
      | some vertexPullerOutput =>
        match gpu_computeGLVertexID (indexArray readIndices puller.indices)
            vertexShaderInvocation with
        | none => none
        | some gl_VertexID =>
          let vertexShaderInput : GPUVertexShaderInput :=
            { attributes := vertexPullerOutput, gl_VertexID := gl_VertexID }
          some
            { primitive := { st.primitive with
                vertices := Function.update st.primitive.vertices (Fin.ofNat i)
                  (vertexShader (at3 st.primitive.vertices i) vertexShaderInput) },
              calls := st.calls ++ [(i, vertexShaderInput)] })
    (some { primitive := primitive, calls := [] })
  match looped with
  | none => none
  | some st =>
    some { st with primitive := { st.primitive with nofUsedVertices := nofPrimitiveVertices } }

/-- The input the `i`-th vertex shader call of an assembly must receive: the addresses
computed by the puller heads for the vertex id, and the vertex id. -/
def assemblyInput (MAX_ATTRIBUTES : ℕ) (puller : GPUVertexPullerConfiguration)
    (id : VertexIndex) : GPUVertexShaderInput :=
  { attributes :=
      { attributes := fun s =>
          if s < MAX_ATTRIBUTES then gpu_computeVertexAttributeDataPointer (puller.heads s) id
          else none },
    gl_VertexID := id }

/-- A puller with indexing bound at address `100` and one enabled head reading from
address `1000` with offset `8` and stride `24`. -/
def samplePuller : GPUVertexPullerConfiguration :=
  { heads := fun s =>
      if s = 0 then { buffer := 1000, offset := 8, stride := 24, enabled := 1 }
      else { buffer := 0, offset := 0, stride := 0, enabled := 0 },
    indices := 100 }

/-- A memory that holds the index array `[5, 2, 9]` at every address. -/
def sampleIndexMemory : ℕ → List VertexIndex := fun _ => [5, 2, 9]

/-- A vertex shader that writes the vertex id into the `x` component of the position. -/
def sampleVertexShader : VertexShader := fun out inp =>
  { out with gl_Position := ![(inp.gl_VertexID : ℚ), 0, 0, 1] }

/-! ## Resource registry (gpu.cpp) -/

/-- A byte (`uint8_t`). -/
abbrev Byte := Fin 256

/-- A `std::vector<uint8_t>`: its elements, and the address `data()` of its storage. -/
structure ByteVector where
  content : List Byte
  data : ℕ

/-- The class `PullerAttrib`: a pair of a puller id and an attribute index, ordered
lexicographically by `operator<`. -/
abbrev PullerAttrib := ℕ ×ₗ ℕ

/-- The class `PullerReferences`: the index buffer of a puller (`0` for none) and the
map `AttribBuffers` from attribute index to buffer id. -/
structure PullerReferences where
  indexBuffer : ℕ
  attribBuffers : ℕ → Option ℕ

/-- The class `BufferReferences`: the set of pullers that use the buffer for indexing
and the set of puller heads that read from it. -/
structure BufferReferences where
  indexings : Finset ℕ
  attribs : Finset PullerAttrib

/-- The class `AttribInterpolation`. -/
structure AttribInterpolation where
  type : AttributeType
  interpolation : InterpolationType

/-- The class `ProgramSettings`; the two shaders are function pointers, `0` for
`nullptr`. -/
structure ProgramSettings where
  vertexShader : ℕ
  fragmentShader : ℕ
  interpolations : ℕ → AttribInterpolation

/-- The resource members of the class `GpuImplementation`; a `std::map` is a function
from keys to optional values.  The members `uniforms`, `viewportWidth`,
`viewportHeight`, `depthBuffer` and `colorBuffer` are not touched by the operations
below and are kept apart.

Modelled from the spec: the identifier typedefs `BufferID`, `VertexPullerID`,
`ProgramID` and `AttribIndex` are declared in headers that are not among the sources
(`student/fwd.h`, `student/buffer.h`).  The spec speaks of "monotonically increasing
identifiers" with `0` reserved; they are natural numbers here, so the counters do not
overflow. -/
structure GpuImplementation where
  buffers : ℕ → Option ByteVector
  bufferCounter : ℕ
  vaos : ℕ → Option GPUVertexPullerConfiguration
  vaoCounter : ℕ
  activeVao : ℕ
  pullerReferences : ℕ → Option PullerReferences
  bufferReferences : ℕ → Option BufferReferences
  programs : ℕ → Option ProgramSettings
  programCounter : ℕ
  activeProgram : ℕ

/-- How a call ends: it returns, an exception (`std::out_of_range` of `map::at`) leaves
it, or it ends the process with `exit(1)`.  The first two carry the state of the
registry at that moment. -/
inductive Outcome where
  | returned (g : GpuImplementation)
  | thrown (g : GpuImplementation)
  | exited

/-- The function `cpu_createGPU`: the member initialisers of `GpuImplementation`. -/
def cpu_createGPU : GpuImplementation :=
  { buffers := fun _ => none, bufferCounter := 1,
    vaos := fun _ => none, vaoCounter := 1, activeVao := 0,
    pullerReferences := fun _ => none, bufferReferences := fun _ => none,
    programs := fun _ => none, programCounter := 1, activeProgram := 0 }

/-- The function `cpu_createBuffers`; the second component is the output array
`buffers[0..n)`.  An empty vector has the null address as `data()`. -/
def cpu_createBuffers (g : GpuImplementation) (n : ℕ) : GpuImplementation × List ℕ :=
  let looped := forLoop n (fun i (st : GpuImplementation × List ℕ) =>
    let currentId := g.bufferCounter + i
    ({ st.1 with
        buffers := Function.update st.1.buffers currentId (some { content := [], data := 0 }),
        bufferReferences := Function.update st.1.bufferReferences currentId
          (some { indexings := ∅, attribs := ∅ }) },
      st.2 ++ [currentId])) (g, [])
  ({ looped.1 with bufferCounter := g.bufferCounter + n }, looped.2)

/-- The first loop of `cpu_bufferData`: for every puller of the indexing set, in
increasing order, `vaos.at(puller).indices = buf.data()`. -/
def refreshIndexPointers : GpuImplementation → ℕ → List ℕ → Outcome
  | g, _, [] => .returned g
  | g, ptr, puller :: rest =>
    match g.vaos puller with
    | none => .thrown g
    | some vao =>
      refreshIndexPointers
        { g with vaos := Function.update g.vaos puller (some { vao with indices := ptr }) }
        ptr rest

/-- The head `heads[attrib]` of a puller with its `buffer` pointer replaced. -/
def setHeadBuffer (vao : GPUVertexPullerConfiguration) (attrib : ℕ) (ptr : ℕ) :
    GPUVertexPullerConfiguration :=
  { vao with heads := Function.update vao.heads attrib { vao.heads attrib with buffer := ptr } }

/-- The second loop of `cpu_bufferData`: for every puller head of the attribute set, in
increasing order, `vaos.at(puller).heads[attrib].buffer = buf.data()`. -/
def refreshHeadPointers : GpuImplementation → ℕ → List PullerAttrib → Outcome
  | g, _, [] => .returned g
  | g, ptr, pullerAttrib :: rest =>
    match g.vaos (ofLex pullerAttrib).1 with
    | none => .thrown g
    | some vao =>
      refreshHeadPointers
        { g with
          vaos := Function.update g.vaos (ofLex pullerAttrib).1
            (some (setHeadBuffer vao (ofLex pullerAttrib).2 ptr)) }
        ptr rest

/-- The function `cpu_bufferData`.  The source `data` is the memory behind the pointer,
read at offsets `0 .. size - 1`; `newData` is the address of the vector's storage
after `resize`, which the allocator chooses. -/
def cpu_bufferData (g : GpuImplementation) (buffer : ℕ) (size : ℕ) (data : ℕ → Byte)
    (newData : ℕ) : Outcome :=
  match g.buffers buffer with
  | none => .returned g
  | some _ =>
    let buf : ByteVector := { content := (List.range size).map data, data := newData }
    let g1 := { g with buffers := Function.update g.buffers buffer (some buf) }
    match g1.bufferReferences buffer with
    | none => .thrown g1
    | some bufferReferences =>
      match refreshIndexPointers g1 buf.data (bufferReferences.indexings.sort (· ≤ ·)) with
      | .returned g2 =>
        refreshHeadPointers g2 buf.data (bufferReferences.attribs.sort (· ≤ ·))
      | other => other

/-- The head that `cpu_createVertexPullers` writes to every slot. -/
def emptyHead : GPUVertexPullerHead :=
  { buffer := 0, offset := 0, stride := 0, enabled := 0 }

/-- The function `cpu_createVertexPullers`; the second component is the output array
`arrays[0..n)`. -/
def cpu_createVertexPullers (g : GpuImplementation) (n : ℕ) :
    GpuImplementation × List ℕ :=
  let looped := forLoop n (fun i (st : GpuImplementation × List ℕ) =>
    let currentId := g.vaoCounter + i
    ({ st.1 with
        vaos := Function.update st.1.vaos currentId
          (some { heads := fun _ => emptyHead, indices := 0 }),
        pullerReferences := Function.update st.1.pullerReferences currentId
          (some { indexBuffer := 0, attribBuffers := fun _ => none }) },
      st.2 ++ [currentId])) (g, [])
  ({ looped.1 with vaoCounter := g.vaoCounter + n }, looped.2)

/-- The function `cpu_setVertexPullerHead`. -/
def cpu_setVertexPullerHead (MAX_ATTRIBUTES : ℕ) (g : GpuImplementation)
    (puller : ℕ) (attribIndex : ℕ) (buffer : ℕ) (offset stride : ℕ) :
    Outcome :=
  if attribIndex ≥ MAX_ATTRIBUTES then .returned g
  else
    match g.vaos puller with
    | none => .returned g
    | some vao =>
      match g.buffers buffer with
      | none => .returned g
      | some buf =>
        let head : GPUVertexPullerHead :=
          { vao.heads attribIndex with buffer := buf.data, stride := stride, offset := offset }
        let g1 := { g with
          vaos := Function.update g.vaos puller
            (some { vao with heads := Function.update vao.heads attribIndex head }) }
        match g1.pullerReferences puller with
        | none => .thrown g1
        | some pullerReferences =>
          let erased : Option GpuImplementation :=
            match pullerReferences.attribBuffers attribIndex with
            | none => some g1
            | some old =>
              match g1.bufferReferences old with
              | none => none
              | some oldReferences =>
                some { g1 with
                  bufferReferences := Function.update g1.bufferReferences old
                    (some { oldReferences with
                      attribs := oldReferences.attribs.erase (toLex (puller, attribIndex)) }) }
          match erased with
          | none => .thrown g1
          | some g2 =>
            let g3 := { g2 with
              pullerReferences := Function.update g2.pullerReferences puller
                (some { pullerReferences with
                  attribBuffers :=
                    Function.update pullerReferences.attribBuffers attribIndex (some buffer) }) }
            match g3.bufferReferences buffer with
            | none => .thrown g3
            | some bufferReferences =>
              .returned { g3 with
                bufferReferences := Function.update g3.bufferReferences buffer
                  (some { bufferReferences with
                    attribs := insert (toLex (puller, attribIndex)) bufferReferences.attribs }) }

/-- The function `cpu_setIndexing`; `EMPTY_BUFFER_ID` is `0`. -/
def cpu_setIndexing (g : GpuImplementation) (puller : ℕ) (buffer : ℕ)
    (indexSize : ℕ) : Outcome :=
  if indexSize ≠ 1 ∧ indexSize ≠ 2 ∧ indexSize ≠ 4 then .returned g
  else
    match g.vaos puller with
    | none => .returned g
    | some vao =>
      let found : Option ℕ :=
        if buffer ≠ 0 then
          match g.buffers buffer with
          | none => none
          | some buf => some buf.data
        else some 0
      match found with
      | none => .returned g
      | some ptr =>
        let g1 := { g with
          vaos := Function.update g.vaos puller (some { vao with indices := ptr }) }
        match g1.pullerReferences puller with
        | none => .thrown g1
        | some pullerReferences =>
          let erased : Option GpuImplementation :=
            if pullerReferences.indexBuffer ≠ 0 then
              match g1.bufferReferences pullerReferences.indexBuffer with
              | none => none
              | some oldReferences =>
                some { g1 with
                  bufferReferences :=
                    Function.update g1.bufferReferences pullerReferences.indexBuffer
                      (some { oldReferences with
                        indexings := oldReferences.indexings.erase puller }) }
            else some g1
          match erased with
          | none => .thrown g1
          | some g2 =>
            let g3 := { g2 with
              pullerReferences := Function.update g2.pullerReferences puller
                (some { pullerReferences with indexBuffer := buffer }) }
            match g3.bufferReferences buffer with
            | none => .thrown g3
            | some bufferReferences =>
              .returned { g3 with
                bufferReferences := Function.update g3.bufferReferences buffer
                  (some { bufferReferences with
                    indexings := insert puller bufferReferences.indexings }) }

/-- The method `GpuImplementation::setEnableVertexAttrib`. -/
def setEnableVertexAttrib (MAX_ATTRIBUTES : ℕ) (g : GpuImplementation)
    (puller : ℕ) (headIndex : ℕ) (enable : Bool) : GpuImplementation :=
  if headIndex ≥ MAX_ATTRIBUTES then g
  else
    match g.vaos puller with
    | none => g
    | some vao =>
      { g with
        vaos := Function.update g.vaos puller
          (some { vao with
            heads := Function.update vao.heads headIndex
              { vao.heads headIndex with enabled := if enable then 1 else 0 } }) }

/-- The function `cpu_enableVertexPullerHead`. -/
def cpu_enableVertexPullerHead (MAX_ATTRIBUTES : ℕ) (g : GpuImplementation)
    (puller : ℕ) (attribIndex : ℕ) : GpuImplementation :=
  setEnableVertexAttrib MAX_ATTRIBUTES g puller attribIndex true

/-- The function `cpu_disableVertexPullerHead`. -/
def cpu_disableVertexPullerHead (MAX_ATTRIBUTES : ℕ) (g : GpuImplementation)
    (puller : ℕ) (attribIndex : ℕ) : GpuImplementation :=
  setEnableVertexAttrib MAX_ATTRIBUTES g puller attribIndex false

/-- The function `cpu_bindVertexPuller`. -/
def cpu_bindVertexPuller (g : GpuImplementation) (id : ℕ) : GpuImplementation :=
  match g.vaos id with
  | none => g
  | some _ => { g with activeVao := id }

/-- The function `cpu_createProgram`; the second component is the returned id.  A new
`ProgramSettings` has null shaders and every slot `ATTRIB_EMPTY`, `SMOOTH`. -/
def cpu_createProgram (g : GpuImplementation) : GpuImplementation × ℕ :=
  let result := g.programCounter
  ({ g with
      programs := Function.update g.programs result
        (some { vertexShader := 0, fragmentShader := 0,
                interpolations := fun _ =>
                  { type := .ATTRIB_EMPTY, interpolation := .SMOOTH } }),
      programCounter := g.programCounter + 1 }, result)

/-- The function `cpu_deleteProgram`. -/
def cpu_deleteProgram (g : GpuImplementation) (program : ℕ) : GpuImplementation :=
  match g.programs program with
  | none => g
  | some _ => { g with programs := Function.update g.programs program none }

/-- The function `cpu_attachVertexShader`. -/
def cpu_attachVertexShader (g : GpuImplementation) (program : ℕ) (shader : ℕ) :
    GpuImplementation :=
  match g.programs program with
  | none => g
  | some settings =>
    { g with
      programs := Function.update g.programs program
        (some { settings with vertexShader := shader }) }

/-- The function `cpu_attachFragmentShader`. -/
def cpu_attachFragmentShader (g : GpuImplementation) (program : ℕ) (shader : ℕ) :
    GpuImplementation :=
  match g.programs program with
  | none => g
  | some settings =>
    { g with
      programs := Function.update g.programs program
        (some { settings with fragmentShader := shader }) }

/-- The function `cpu_useProgram`. -/
def cpu_useProgram (g : GpuImplementation) (program : ℕ) : GpuImplementation :=
  match g.programs program with
  | none => g
  | some _ => { g with activeProgram := program }

/-- The function `cpu_setAttributeInterpolation`; both error branches call `exit(1)`. -/
def cpu_setAttributeInterpolation (MAX_ATTRIBUTES : ℕ) (g : GpuImplementation)
    (program : ℕ) (attribIndex : ℕ) (type : AttributeType)
    (interpolation : InterpolationType) : Outcome :=
  if attribIndex ≥ MAX_ATTRIBUTES then .exited
  else
    match g.programs program with
    | none => .exited
    | some settings =>
      .returned { g with
        programs := Function.update g.programs program
          (some { settings with
            interpolations := Function.update settings.interpolations attribIndex
              { type := type, interpolation := interpolation } }) }


/-- The operations of the resource registry with their arguments. -/
inductive RegistryOp where
  | createBuffers (n : ℕ)
  | bufferData (buffer : ℕ) (size : ℕ) (data : ℕ → Byte) (newData : ℕ)
  | createVertexPullers (n : ℕ)
  | setVertexPullerHead (puller : ℕ) (attribIndex : ℕ) (buffer : ℕ)
      (offset stride : ℕ)
  | setIndexing (puller : ℕ) (buffer : ℕ) (indexSize : ℕ)
  | enableVertexPullerHead (puller : ℕ) (attribIndex : ℕ)
  | disableVertexPullerHead (puller : ℕ) (attribIndex : ℕ)
  | bindVertexPuller (id : ℕ)
  | createProgram
  | deleteProgram (program : ℕ)
  | attachVertexShader (program : ℕ) (shader : ℕ)
  | attachFragmentShader (program : ℕ) (shader : ℕ)
  | useProgram (program : ℕ)
  | setAttributeInterpolation (program : ℕ) (attribIndex : ℕ) (type : AttributeType)
      (interpolation : InterpolationType)

/-- The result of one registry operation: how the call ends, and the buffer and puller
identifiers it hands out. -/
structure OpResult where
  outcome : Outcome
  bufferIds : List ℕ
  pullerIds : List ℕ

/-- One registry operation applied to a state. -/
def RegistryOp.apply (MAX_ATTRIBUTES : ℕ) (g : GpuImplementation) : RegistryOp → OpResult
  | .createBuffers n =>
    { outcome := .returned (cpu_createBuffers g n).1,
      bufferIds := (cpu_createBuffers g n).2, pullerIds := [] }
  | .bufferData buffer size data newData =>
    { outcome := cpu_bufferData g buffer size data newData, bufferIds := [], pullerIds := [] }
  | .createVertexPullers n =>
    { outcome := .returned (cpu_createVertexPullers g n).1,
      bufferIds := [], pullerIds := (cpu_createVertexPullers g n).2 }
  | .setVertexPullerHead puller attribIndex buffer offset stride =>
    { outcome := cpu_setVertexPullerHead MAX_ATTRIBUTES g puller attribIndex buffer offset stride,
      bufferIds := [], pullerIds := [] }
  | .setIndexing puller buffer indexSize =>
    { outcome := cpu_setIndexing g puller buffer indexSize, bufferIds := [], pullerIds := [] }
  | .enableVertexPullerHead puller attribIndex =>
    { outcome := .returned (cpu_enableVertexPullerHead MAX_ATTRIBUTES g puller attribIndex),
      bufferIds := [], pullerIds := [] }
  | .disableVertexPullerHead puller attribIndex =>
    { outcome := .returned (cpu_disableVertexPullerHead MAX_ATTRIBUTES g puller attribIndex),
      bufferIds := [], pullerIds := [] }
  | .bindVertexPuller id =>
    { outcome := .returned (cpu_bindVertexPuller g id), bufferIds := [], pullerIds := [] }
  | .createProgram =>
    { outcome := .returned (cpu_createProgram g).1, bufferIds := [], pullerIds := [] }
  | .deleteProgram program =>
    { outcome := .returned (cpu_deleteProgram g program), bufferIds := [], pullerIds := [] }
  | .attachVertexShader program shader =>
    { outcome := .returned (cpu_attachVertexShader g program shader),
      bufferIds := [], pullerIds := [] }
  | .attachFragmentShader program shader =>
    { outcome := .returned (cpu_attachFragmentShader g program shader),
      bufferIds := [], pullerIds := [] }
  | .useProgram program =>
    { outcome := .returned (cpu_useProgram g program), bufferIds := [], pullerIds := [] }
  | .setAttributeInterpolation program attribIndex type interpolation =>
    { outcome := cpu_setAttributeInterpolation MAX_ATTRIBUTES g program attribIndex type
        interpolation,
      bufferIds := [], pullerIds := [] }

/-- A run of the registry: the current state, whether the process is still alive, and
the buffer and puller identifiers handed out so far, in the order of issue. -/
structure RegistryRun where
  state : GpuImplementation
  alive : Bool
  bufferIds : List ℕ
  pullerIds : List ℕ

/-- One more operation of a run.  After `exit(1)` nothing happens any more; after an
exception the run continues from the state the call left behind (a caller that catches
it). -/
def RegistryRun.step (MAX_ATTRIBUTES : ℕ) (r : RegistryRun) (op : RegistryOp) : RegistryRun :=
  if r.alive then
    match (op.apply MAX_ATTRIBUTES r.state).outcome with
    | .returned g =>
      { state := g, alive := true,
        bufferIds := r.bufferIds ++ (op.apply MAX_ATTRIBUTES r.state).bufferIds,
        pullerIds := r.pullerIds ++ (op.apply MAX_ATTRIBUTES r.state).pullerIds }
    | .thrown g =>
      { state := g, alive := true,
        bufferIds := r.bufferIds ++ (op.apply MAX_ATTRIBUTES r.state).bufferIds,
        pullerIds := r.pullerIds ++ (op.apply MAX_ATTRIBUTES r.state).pullerIds }
    | .exited => { r with alive := false }
  else r

/-- The run of a sequence of registry operations on a new GPU. -/
def runRegistry (MAX_ATTRIBUTES : ℕ) (ops : List RegistryOp) : RegistryRun :=
  ops.foldl (RegistryRun.step MAX_ATTRIBUTES)
    { state := cpu_createGPU, alive := true, bufferIds := [], pullerIds := [] }

/-- The agreement of forward and back references, with the facts about the keys of the
maps that it rests on. -/
structure RegistryInv (g : GpuImplementation) : Prop where
  bufferCounter_pos : 1 ≤ g.bufferCounter
  vaoCounter_pos : 1 ≤ g.vaoCounter
  buffers_bound : ∀ b, g.buffers b ≠ none → 1 ≤ b ∧ b < g.bufferCounter
  bufferReferences_iff : ∀ b, g.bufferReferences b = none ↔ g.buffers b = none
  vaos_bound : ∀ p, g.vaos p ≠ none → 1 ≤ p ∧ p < g.vaoCounter
  pullerReferences_iff : ∀ p, g.pullerReferences p = none ↔ g.vaos p = none
  attribs_iff : ∀ b refs, g.bufferReferences b = some refs → ∀ p a,
    toLex (p, a) ∈ refs.attribs ↔
      ∃ pr, g.pullerReferences p = some pr ∧ pr.attribBuffers a = some b
  indexings_iff : ∀ b refs, g.bufferReferences b = some refs → ∀ p,
    p ∈ refs.indexings ↔ ∃ pr, g.pullerReferences p = some pr ∧ pr.indexBuffer = b
  attrib_exists : ∀ p pr a b, g.pullerReferences p = some pr → pr.attribBuffers a = some b →
    g.bufferReferences b ≠ none
  index_exists : ∀ p pr, g.pullerReferences p = some pr → pr.indexBuffer ≠ 0 →
    g.bufferReferences pr.indexBuffer ≠ none

/-- The state a call leaves behind, if the process is still alive. -/
def Outcome.state : Outcome → Option GpuImplementation
  | .returned g => some g
  | .thrown g => some g
  | .exited => none

/-- Two registry states with the same counters, active ids, references and programs,
and the same keys in the maps of buffers and pullers. -/
structure SameKeys (g g' : GpuImplementation) : Prop where
  bufferCounter_eq : g'.bufferCounter = g.bufferCounter
  vaoCounter_eq : g'.vaoCounter = g.vaoCounter
  pullerReferences_eq : g'.pullerReferences = g.pullerReferences
  bufferReferences_eq : g'.bufferReferences = g.bufferReferences
  buffers_none : ∀ b, g'.buffers b = none ↔ g.buffers b = none
  vaos_none : ∀ p, g'.vaos p = none ↔ g.vaos p = none

/-- The back references after `cpu_setVertexPullerHead (puller, attribIndex, buffer)` in
a state with agreeing references: the head is in the attribute set of `buffer` and of no
other buffer. -/
def referencesAfterSetHead (g : GpuImplementation) (puller : ℕ)
    (attribIndex : ℕ) (buffer : ℕ) : ℕ → Option BufferReferences := fun x =>
  (g.bufferReferences x).map (fun r =>
    { r with
      attribs := if x = buffer then insert (toLex (puller, attribIndex)) r.attribs
        else r.attribs.erase (toLex (puller, attribIndex)) })

/-- The back references after `cpu_setIndexing (puller, buffer, _)` in a state with
agreeing references: the puller is in the indexing set of `buffer` and of no other
buffer. -/
def referencesAfterSetIndexing (g : GpuImplementation) (puller : ℕ)
    (buffer : ℕ) : ℕ → Option BufferReferences := fun x =>
  (g.bufferReferences x).map (fun r =>
    { r with
      indexings := if x = buffer then insert puller r.indexings
        else r.indexings.erase puller })

/-- What holds of every run of the registry: the references agree, and the identifiers
handed out so far are positive, below the counter and strictly increasing. -/
structure RunInv (r : RegistryRun) : Prop where
  inv : RegistryInv r.state
  bufferIds_bound : ∀ id ∈ r.bufferIds, 1 ≤ id ∧ id < r.state.bufferCounter
  bufferIds_increasing : r.bufferIds.Pairwise (· < ·)
  pullerIds_bound : ∀ id ∈ r.pullerIds, 1 ≤ id ∧ id < r.state.vaoCounter
  pullerIds_increasing : r.pullerIds.Pairwise (· < ·)

/-- A run that creates one puller. -/
def sampleOpsPuller : List RegistryOp := [.createVertexPullers 1]

/-- The buffer recorded as the source of slot `a` of puller `p` (by
`cpu_setVertexPullerHead`), if there is one. -/
def recordedAttribBuffer (g : GpuImplementation) (p a : ℕ) : Option ℕ :=
  match g.pullerReferences p with
  | none => none
  | some pr => pr.attribBuffers a

/-- The buffer recorded as the index buffer of puller `p` (by `cpu_setIndexing`), `0`
for none. -/
def recordedIndexBuffer (g : GpuImplementation) (p : ℕ) : ℕ :=
  match g.pullerReferences p with
  | none => 0
  | some pr => pr.indexBuffer

/-- The byte found at the address `ptr` when the address lies in the storage of the
vector `buf`. -/
def byteThrough (buf : ByteVector) (ptr : ℕ) : Option Byte :=
  if buf.data ≤ ptr then buf.content[ptr - buf.data]? else none

/-- A run that creates a buffer and a puller, makes head `0` of the puller read from the
buffer with offset `8` and stride `24`, enables the head and binds the buffer as index
buffer. -/
def sampleOpsAttached : List RegistryOp :=
  [.createBuffers 1, .createVertexPullers 1, .setVertexPullerHead 1 0 1 8 24,
    .enableVertexPullerHead 1 0, .setIndexing 1 1 4]

/-! ## Scanline rasterization (student_pipeline.c, linearAlgebra.c) -/

/-- Modelled from the spec: the constant `PIXEL_CENTER`, the offset `0.5` of the centre
of a pixel from its integer coordinate. -/
def PIXEL_CENTER : ℚ := 1 / 2

/-- Modelled from the spec: the constant `EDGES_PER_TRIANGLE`. -/
def EDGES_PER_TRIANGLE : ℕ := 3

/-- A `float` of the scanline computations: a number, `-INFINITY` or `+INFINITY`. -/
inductive ExtFloat where
  | negInf
  | fin (value : ℚ)
  | posInf

/-- The comparison `a < b` of two floats. -/
def ExtFloat.lt : ExtFloat → ExtFloat → Prop
  | .negInf, .negInf => False
  | .negInf, _ => True
  | .fin a, .fin b => a < b
  | .fin _, .posInf => True
  | .fin _, .negInf => False
  | .posInf, _ => False

/-- The comparison `a <= b` of two floats. -/
def ExtFloat.le : ExtFloat → ExtFloat → Prop
  | .negInf, _ => True
  | .fin a, .fin b => a ≤ b
  | .fin _, .posInf => True
  | .fin _, .negInf => False
  | .posInf, .posInf => True
  | .posInf, _ => False

instance (a b : ExtFloat) : Decidable (a.lt b) := by
  cases a <;> cases b <;> unfold ExtFloat.lt <;> infer_instance

instance (a b : ExtFloat) : Decidable (a.le b) := by
  cases a <;> cases b <;> unfold ExtFloat.le <;> infer_instance

/-- The library function `fmaxf`. -/
def fmaxf (a b : ExtFloat) : ExtFloat := if a.lt b then b else a

/-- The library function `fminf`. -/
def fminf (a b : ExtFloat) : ExtFloat := if b.lt a then b else a

/-- The library function `truncf` on a finite value: rounding towards zero. -/
def truncf (x : ℚ) : ℤ := if 0 ≤ x then ⌊x⌋ else ⌈x⌉

/-- The function `dot_Vec3`: `result = 0; result += left[i] * right[i]`. -/
def dot_Vec3 (left right : Vec3) : ℚ :=
  ((0 + left 0 * right 0) + left 1 * right 1) + left 2 * right 2

/-- The function `length_Vec3`; the library function `sqrtf` is a parameter. -/
def length_Vec3 (sqrtf : ℚ → ℚ) (vec : Vec3) : ℚ := sqrtf (dot_Vec3 vec vec)

/-- The function `multiply_Vec3_Float`. -/
def multiply_Vec3_Float (left : Vec3) (constant : ℚ) : Vec3 := fun i => left i * constant

/-- The function `normalize_Vec3`: `output` is left as it is when the length is zero. -/
def normalize_Vec3 (sqrtf : ℚ → ℚ) (output input : Vec3) : Vec3 :=
  let length := length_Vec3 sqrtf input
  if length = 0 then output
  else
    let length := 1 / length
    multiply_Vec3_Float input length

/-- The function `construct2DLine`; the result is `*line`. -/
def construct2DLine (sqrtf : ℚ → ℚ) (a b : Vec2) : Vec3 :=
  let line : Vec3 := ![a 1 - b 1, b 0 - a 0, 0]
  let line := normalize_Vec3 sqrtf line line
  ![line 0, line 1, -(line 0) * a 0 - line 1 * a 1]

/-- The function `distanceTo2DLine`. -/
def distanceTo2DLine (line : Vec3) (vertex : Vec2) : ℚ :=
  line 0 * vertex 0 + line 1 * vertex 1 + line 2

/-- The function `copy_Vec4_To_Vec2`. -/
def copy_Vec4_To_Vec2 (source : Vec4) : Vec2 := ![source 0, source 1]

/-- The function `gpu_computeTriangleLines`: the loop over the three vertices, written
out; the line of edge `v` runs from vertex `v` to vertex `(v + 1) % 3`. -/
def gpu_computeTriangleLines (sqrtf : ℚ → ℚ) (vertices : Fin 3 → Vec2) : Fin 3 → Vec3 :=
  ![construct2DLine sqrtf (vertices 0) (vertices 1),
    construct2DLine sqrtf (vertices 1) (vertices 2),
    construct2DLine sqrtf (vertices 2) (vertices 0)]

/-- The function `gpu_roundDownPixelCoord`.  The result is `none` when the assertion
`coord >= 0` fails and when `coord` is infinite, where the conversion to `size_t` is
undefined; `size_t` values are natural numbers. -/
def gpu_roundDownPixelCoord : ExtFloat → Option ℕ
  | .fin coord =>
    if 0 ≤ coord then
      let fractional := coord - truncf coord
      let integer := (truncf coord).toNat
      some (integer + if fractional > PIXEL_CENTER then 1 else 0)
    else none
  | _ => none

/-- The function `gpu_roundUpPixelCoord`, with the conventions of
`gpu_roundDownPixelCoord`. -/
def gpu_roundUpPixelCoord : ExtFloat → Option ℕ
  | .fin coord =>
    if 0 ≤ coord then
      let fractional := coord - truncf coord
      let integer := (truncf coord).toNat
      some (integer + if fractional ≥ PIXEL_CENTER then 1 else 0)
    else none
  | _ => none

/-- The function `gpu_restrictLineBorders`; the result is the pair `(*minX, *maxX)`. -/
def gpu_restrictLineBorders (minX maxX : ExtFloat) (y : ℚ) (edgeLine : Vec3) :
    ExtFloat × ExtFloat :=
  let a := edgeLine 0
  let b := edgeLine 1
  let c := edgeLine 2
  let d := -b * y - c
  if a > 0 then (fmaxf minX (.fin (d / a)), maxX)
  else if a < 0 then (minX, fminf maxX (.fin (d / a)))
  else if d > 0 then (.posInf, .negInf)
  else (minX, maxX)

/-- The function `gpu_computeLineBorders`; the result is the pair `(*minX, *maxX)`. -/
def gpu_computeLineBorders (y : ℚ) (triangleLines : Fin 3 → Vec3) : ExtFloat × ExtFloat :=
  forLoop EDGES_PER_TRIANGLE
    (fun edge (borders : ExtFloat × ExtFloat) =>
      gpu_restrictLineBorders borders.1 borders.2 y (at3 triangleLines edge))
    (.negInf, .posInf)

/-- The type `FragmentShader` of `program.h`: the callback writes its output from the
output object it is given and the fragment. -/
abbrev FragmentShader :=
  GPUFragmentShaderOutput → GPUFragmentShaderInput → GPUFragmentShaderOutput

/-- The body of the loop of `gpu_clampFragmentColor` for the channel `i`: the two
conditional assignments `if (c < 0.f) c = 0.f; if (c > 1.f) c = 1.f;`. -/
def clampChannel (out : GPUFragmentShaderOutput) (i : Fin 4) : GPUFragmentShaderOutput :=
  let out1 : GPUFragmentShaderOutput :=
    if out.color i < 0 then { out with color := Function.update out.color i 0 }
    else out
  if out1.color i > 1 then { out1 with color := Function.update out1.color i 1 }
  else out1

/-- The function `gpu_clampFragmentColor`. -/
def gpu_clampFragmentColor (fragmentShaderOutput : GPUFragmentShaderOutput) :
    GPUFragmentShaderOutput :=
  forLoop 4 (fun i out => clampChannel out (Fin.ofNat i)) fragmentShaderOutput

/-- One pass of the inner loop of `gpu_rasterizeTriangle`, recorded: the pixel
coordinates given to `gpu_perFragmentOperations`, the fragment given to the fragment
shader, the output of the shader and the output given to the depth test. -/
structure FragmentCall where
  x : ℕ
  y : ℕ
  input : GPUFragmentShaderInput
  shaded : GPUFragmentShaderOutput
  tested : GPUFragmentShaderOutput

/-- The state threaded through `gpu_rasterizeTriangle`: the frame buffer and the record
of the fragment shader invocations made so far. -/
structure RasterState where
  framebuffer : Framebuffer
  calls : List FragmentCall

/-- A loop `for (size_t i = lo; i < hi; ++i) body` whose body may end the program
(`none`). -/
def forRange {σ : Type} (lo hi : ℕ) (body : ℕ → σ → Option σ) (init : σ) : Option σ :=
  forLoop (hi - lo) (fun i st => st.bind (body (lo + i))) (some init)

/-- The body of the inner loop of `gpu_rasterizeTriangle` up to the call of
`gpu_perFragmentOperations`, for the pixel `x` of a scanline with centre `pixelCoord1`.
The locals `fragmentShaderInput` and `fragmentShaderOutput` are not initialised by the
code; their initial contents are the parameters `localInput` and `localOutput`. -/
def rasterizeTriangle_fragment (MAX_ATTRIBUTES : ℕ) (fragmentShader : FragmentShader)
    (localInput : GPUFragmentShaderInput) (localOutput : GPUFragmentShaderOutput)
    (primitive : GPUPrimitive) (triangleVertices : Fin 3 → Vec2)
    (triangleLines : Fin 3 → Vec3) (pixelCoord1 : ℚ) (x : ℕ) : FragmentCall :=
  let pixelCoord : Vec2 := ![(x : ℚ) + PIXEL_CENTER, pixelCoord1]
  let barycentrics :=
    gpu_computeScreenSpaceBarycentrics pixelCoord triangleVertices triangleLines
  let fragmentShaderInput :=
    gpu_createFragment MAX_ATTRIBUTES localInput primitive barycentrics pixelCoord
  let fragmentShaderOutput :=
    fragmentShader { localOutput with depth := fragmentShaderInput.depth }
      fragmentShaderInput
  { x := (truncf (pixelCoord 0)).toNat,
    y := (truncf (pixelCoord 1)).toNat,
    input := fragmentShaderInput,
    shaded := fragmentShaderOutput,
    tested := gpu_clampFragmentColor fragmentShaderOutput }

/-- The body of the inner loop of `gpu_rasterizeTriangle`. -/
def rasterizeTriangle_pixel (MAX_ATTRIBUTES : ℕ) (fragmentShader : FragmentShader)
    (localInput : GPUFragmentShaderInput) (localOutput : GPUFragmentShaderOutput)
    (primitive : GPUPrimitive) (triangleVertices : Fin 3 → Vec2)
    (triangleLines : Fin 3 → Vec3) (pixelCoord1 : ℚ) (x : ℕ) (st : RasterState) :
    Option RasterState :=
  let call := rasterizeTriangle_fragment MAX_ATTRIBUTES fragmentShader localInput
    localOutput primitive triangleVertices triangleLines pixelCoord1 x
  match gpu_perFragmentOperations st.framebuffer call.tested call.x call.y with
  | none => none
  | some framebuffer => some { framebuffer := framebuffer, calls := st.calls ++ [call] }

/-- The clamp `if (v < 0.f) v = 0.f` of a bound of the bounding interval. -/
def clampNegative (v : ExtFloat) : ExtFloat := if v.lt (.fin 0) then .fin 0 else v

/-- The body of the outer loop of `gpu_rasterizeTriangle`: the scanline `y`. -/
def rasterizeTriangle_scanline (MAX_ATTRIBUTES : ℕ) (fragmentShader : FragmentShader)
    (localInput : GPUFragmentShaderInput) (localOutput : GPUFragmentShaderOutput)
    (primitive : GPUPrimitive) (triangleVertices : Fin 3 → Vec2)
    (triangleLines : Fin 3 → Vec3) (width : ℕ) (y : ℕ) (st : RasterState) :
    Option RasterState :=
  let pixelCoord1 : ℚ := (y : ℚ) + PIXEL_CENTER
  let borders := gpu_computeLineBorders pixelCoord1 triangleLines
  let xMin := clampNegative borders.1
  let xMax := clampNegative borders.2
  if xMax.le xMin then some st
  else
    match gpu_roundDownPixelCoord xMin, gpu_roundUpPixelCoord xMax with
    | some xMinI, some xMaxI =>
      let xMaxI := if xMaxI ≥ width then width else xMaxI
      forRange xMinI xMaxI
        (rasterizeTriangle_pixel MAX_ATTRIBUTES fragmentShader localInput localOutput
          primitive triangleVertices triangleLines pixelCoord1)
        st
    | _, _ => none

/-- The function `gpu_rasterizeTriangle` on the frame buffer `g`.  The argument
`activeFragmentShader` is the result of `gpu_getActiveFragmentShader`: `none` when no
program is active (`exit(1)`) or no fragment shader is attached to it.  The result is
`none` when the program ends. -/
def gpu_rasterizeTriangle (MAX_ATTRIBUTES : ℕ) (sqrtf : ℚ → ℚ)
    (activeFragmentShader : Option FragmentShader)
    (localInput : GPUFragmentShaderInput) (localOutput : GPUFragmentShaderOutput)
    (g : Framebuffer) (primitive : GPUPrimitive) (width height : ℕ) :
    Option RasterState :=
  let bounds := forLoop primitive.nofUsedVertices
    (fun v (bounds : ExtFloat × ExtFloat) =>
      (fminf bounds.1 (.fin ((at3 primitive.vertices v).gl_Position 1)),
       fmaxf bounds.2 (.fin ((at3 primitive.vertices v).gl_Position 1))))
    (.posInf, .negInf)
  let yMin := clampNegative bounds.1
  let yMax := clampNegative bounds.2
  let triangleVertices : Fin 3 → Vec2 :=
    fun vertex => copy_Vec4_To_Vec2 (primitive.vertices vertex).gl_Position
  let triangleLines := gpu_computeTriangleLines sqrtf triangleVertices
  match gpu_roundDownPixelCoord yMin, gpu_roundUpPixelCoord yMax with
  | some yMinI, some yMaxI =>
    let yMaxI := if yMaxI ≥ height then height else yMaxI
    match activeFragmentShader with
    | none => none
    | some fragmentShader =>
      forRange yMinI yMaxI
        (rasterizeTriangle_scanline MAX_ATTRIBUTES fragmentShader localInput localOutput
          primitive triangleVertices triangleLines width)
        { framebuffer := g, calls := [] }
  | _, _ => none

/-- The frame buffer is well formed and has the size `w × h`. -/
def Framebuffer.Sized (w h : ℕ) (g : Framebuffer) : Prop :=
  g.WellFormed ∧ g.viewportWidth = w ∧ g.viewportHeight = h

/-- The relation between the states before and after a part of the rasterization of a
`w × h` frame buffer that visits the pixels `P`: the frame buffer keeps its size, the
recorded invocations are extended by the invocations `call x y` of the visited pixels,
and the colour and depth of every pixel that is not visited are kept. -/
structure RasterStep (w h : ℕ) (call : ℕ → ℕ → FragmentCall) (P : ℕ → ℕ → Prop)
    (st st' : RasterState) : Prop where
  sized : st'.framebuffer.Sized w h
  calls : ∀ c, c ∈ st'.calls ↔ c ∈ st.calls ∨ ∃ x y, P x y ∧ c = call x y
  frame : ∀ x y, ¬ P x y →
    gpu_getDepth st'.framebuffer x y = gpu_getDepth st.framebuffer x y ∧
    cpu_getColor st'.framebuffer x y = cpu_getColor st.framebuffer x y

/-- The pixel `x` of the scanline `y` is between the rounded borders of the scanline:
the clamped borders computed from the edge lines are not in the order that skips the
scanline, and the centre of the pixel is between them. -/
def scanlineCovers (triangleLines : Fin 3 → Vec3) (y x : ℕ) : Prop :=
  ¬ (clampNegative (gpu_computeLineBorders ((y : ℚ) + PIXEL_CENTER) triangleLines).2).le
      (clampNegative (gpu_computeLineBorders ((y : ℚ) + PIXEL_CENTER) triangleLines).1) ∧
  (clampNegative (gpu_computeLineBorders ((y : ℚ) + PIXEL_CENTER) triangleLines).1).le
      (.fin ((x : ℚ) + PIXEL_CENTER)) ∧
  (ExtFloat.fin ((x : ℚ) + PIXEL_CENTER)).le
      (clampNegative (gpu_computeLineBorders ((y : ℚ) + PIXEL_CENTER) triangleLines).2)

/-- The point `p` satisfies the inequalities `a * x + b * y + c ≥ 0` of the three edge
lines. -/
def insideEdges (lines : Fin 3 → Vec3) (p : Vec2) : Prop :=
  ∀ i, 0 ≤ distanceTo2DLine (lines i) p

/-- The edge function of the edge from `a` to `b` at the point `p`: the cross product of
`b - a` and `p - a`, positive on the left of the edge. -/
def edgeFunction (a b p : Vec2) : ℚ :=
  (b 0 - a 0) * (p 1 - a 1) - (b 1 - a 1) * (p 0 - a 0)

/-- The pixel `(x, y)` is covered by the edge lines: its centre satisfies the three
inequalities, and so does another point of the horizontal line through the centre (the
scanline does not meet the triangle in the centre alone). -/
def pixelCovered (lines : Fin 3 → Vec3) (x y : ℕ) : Prop :=
  insideEdges lines ![(x : ℚ) + 1 / 2, (y : ℚ) + 1 / 2] ∧
  ∃ x' : ℚ, x' ≠ (x : ℚ) + 1 / 2 ∧ insideEdges lines ![x', (y : ℚ) + 1 / 2]

/-- The screen-space positions of the three vertices of a primitive, as copied by
`gpu_rasterizeTriangle` into `triangleVertices`. -/
def screenVertices (primitive : GPUPrimitive) : Fin 3 → Vec2 :=
  fun vertex => copy_Vec4_To_Vec2 (primitive.vertices vertex).gl_Position

/-- A counter-clockwise screen-space triangle with the vertices `(1/2, 1/2)`,
`(9/2, 1/2)` and `(9/2, 7/2)`: its edges have the lengths 4, 3 and 5, and its vertices
are the centres of the pixels `(0, 0)`, `(4, 0)` and `(4, 3)`. -/
def sampleApexPrimitive : GPUPrimitive :=
  { vertices := ![{ attributes := fun _ _ => 0, gl_Position := ![1 / 2, 1 / 2, 0, 1] },
                  { attributes := fun _ _ => 0, gl_Position := ![9 / 2, 1 / 2, 0, 1] },
                  { attributes := fun _ _ => 0, gl_Position := ![9 / 2, 7 / 2, 0, 1] }],
    types := fun _ => .ATTRIB_EMPTY,
    interpolations := fun _ => .SMOOTH,
    nofUsedVertices := 3 }

/-- A square root that is exact on the squared edge lengths 16, 9 and 25 of
`sampleApexPrimitive`. -/
def sampleSqrt (q : ℚ) : ℚ :=
  if q = 16 then 4 else if q = 9 then 3 else if q = 25 then 5 else 1

/-- A cleared 5×4 frame buffer with depth `1` and colour `(0,0,0,1)` at every pixel. -/
def sampleApexFramebuffer : Framebuffer :=
  { viewportWidth := 5, viewportHeight := 4,
    depthBuffer := List.replicate 20 1,
    colorBuffer := List.replicate 20 ![0, 0, 0, 1] }

/-- A fragment shader that writes the colour `(2, -1, 1/2, 1)` and keeps the depth. -/
def sampleFragmentShader : FragmentShader :=
  fun out _ => { out with color := ![2, -1, 1 / 2, 1] }

/-! ## Sub-primitives of clipped triangles (student_pipeline.c) -/

/-- The function `gpu_initTriangle`: the loops over `v` and `k`, written as functions of
the indices. -/
def gpu_initTriangle (primitive : GPUPrimitive) : GPUTriangle :=
  { positions := fun v => copy_Vec4 (primitive.vertices v).gl_Position,
    coords := fun v k => if v = k then 1 else 0 }

/-- The assignment `((float *) primitive->vertices[v].attributes[attrib])[component] =
value`, for `v < 3`. -/
def writeVertexAttribute (primitive : GPUPrimitive) (v attrib component : ℕ) (value : ℚ) :
    GPUPrimitive :=
  { primitive with
    vertices := Function.update primitive.vertices (Fin.ofNat v)
      { primitive.vertices (Fin.ofNat v) with
        attributes := Function.update (primitive.vertices (Fin.ofNat v)).attributes attrib
          (Function.update ((primitive.vertices (Fin.ofNat v)).attributes attrib) component
            value) } }

/-- The function `gpu_createSubPrimitive`; the argument `subPrimitive` is the content of
the output object before the call and the result its content after it. -/
def gpu_createSubPrimitive (MAX_ATTRIBUTES : ℕ) (subPrimitive primitive : GPUPrimitive)
    (clippedTriangle : GPUTriangle) : GPUPrimitive :=
  let sub0 : GPUPrimitive := { subPrimitive with nofUsedVertices := VERTICES_PER_TRIANGLE }
  let sub1 := forLoop MAX_ATTRIBUTES
    (fun a (sub : GPUPrimitive) =>
      { sub with
        interpolations := Function.update sub.interpolations a (primitive.interpolations a),
        types := Function.update sub.types a (primitive.types a) })
    sub0
  forLoop VERTICES_PER_TRIANGLE
    (fun vertexIndex (sub : GPUPrimitive) =>
      let sub2 := forLoop 4
        (fun componentIndex (sub : GPUPrimitive) =>
          let values : Fin 3 → ℚ :=
            fun k => (primitive.vertices k).gl_Position (Fin.ofNat componentIndex)
          modifyPosition sub vertexIndex componentIndex
            (fun _ => gpu_noperspectiveInterpolate values
              (at3 clippedTriangle.coords vertexIndex)))
        sub
      forLoop MAX_ATTRIBUTES
        (fun attributeIndex (sub : GPUPrimitive) =>
          if primitive.types attributeIndex = .ATTRIB_EMPTY then sub
          else
            let dimension := (primitive.types attributeIndex).toNat
            forLoop dimension
              (fun componentIndex (sub : GPUPrimitive) =>
                let values : Fin 3 → ℚ :=
                  fun k => (primitive.vertices k).attributes attributeIndex componentIndex
                writeVertexAttribute sub vertexIndex attributeIndex componentIndex
                  (gpu_noperspectiveInterpolate values
                    (at3 clippedTriangle.coords vertexIndex)))
              sub)
        sub2)
    sub1

/-- A primitive whose vertex 1 alone is in the near half-space. -/
def sampleCutPrimitive : GPUPrimitive :=
  { vertices := ![{ attributes := fun _ _ => 0, gl_Position := ![0, 0, -2, 1] },
                  { attributes := fun _ _ => 0, gl_Position := ![1, 0, 0, 1] },
                  { attributes := fun _ _ => 0, gl_Position := ![0, 1, -3, 1] }],
    types := fun _ => .ATTRIB_EMPTY,
    interpolations := fun _ => .SMOOTH,
    nofUsedVertices := 3 }

/-- The position `pos` is the combination of the three vertex positions of the primitive
with the weights `co`. -/
def RecipeOf (primitive : GPUPrimitive) (pos : Vec4) (co : Vec3) : Prop :=
  ∀ j, pos j = co 0 * (primitive.vertices 0).gl_Position j +
    co 1 * (primitive.vertices 1).gl_Position j +
    co 2 * (primitive.vertices 2).gl_Position j

/-! ## Matrices (linearAlgebra.c) -/

/-- The struct `Mat4` of `linearAlgebra.h`: `m x y` is `m.column[x].data[y]`, the entry in
column `x` and row `y`. -/
abbrev Mat4 := Fin 4 → Vec4

/-- The read `m->column[x].data[y]` with `size_t` indices.  Every index the code computes
is below four, where this is the plain access. -/
def getEntry (m : Mat4) (x y : ℕ) : ℚ := m (Fin.ofNat x) (Fin.ofNat y)

/-- The assignment `m->column[x].data[y] = value` with `size_t` indices below four. -/
def setEntry (m : Mat4) (x y : ℕ) (value : ℚ) : Mat4 :=
  Function.update m (Fin.ofNat x) (Function.update (m (Fin.ofNat x)) (Fin.ofNat y) value)

/-- The function `multiply_Mat4_Vec4`: `output[y] = 0; output[y] += left.column[x].data[y]
* right[x]` for `x = 0, 1, 2, 3`. -/
def multiply_Mat4_Vec4 (left : Mat4) (right : Vec4) : Vec4 :=
  fun y => (((0 + left 0 y * right 0) + left 1 y * right 1) + left 2 y * right 2)
    + left 3 y * right 3

/-- The function `multiply_Mat4_Mat4`: column `x` of the output is `left` times column `x`
of `right`. -/
def multiply_Mat4_Mat4 (left right : Mat4) : Mat4 :=
  fun x => multiply_Mat4_Vec4 left (right x)

/-- The function `identity_Mat4`: `output.column[x].data[y] = (float) (y == x)`. -/
def identity_Mat4 : Mat4 := fun x y => if y = x then 1 else 0

/-- The function `copy_Mat4`. -/
def copy_Mat4 (input : Mat4) : Mat4 := fun x y => input x y

/-- A loop `while (cond) body` with a bound on the number of passes; the result is `none`
when the bound is reached before the condition fails. -/
def whileLoop {σ : Type} (cond : σ → Bool) (body : σ → Option σ) : ℕ → σ → Option σ
  | 0, s => if cond s then none else some s
  | fuel + 1, s =>
    if cond s then
      match body s with
      | none => none
      | some s' => whileLoop cond body fuel s'
    else some s

/-- The function `transpose_Mat4`; `output` is the content of the output object before the
call.  The state of the loops is the pair of the variable `x` and the output.  The inner
loop is `for (size_t y = 0; x < 4; ++x)`: its condition and its increment are on `x`,
and `y` stays `0`. -/
def transpose_Mat4 (fuel : ℕ) (output input : Mat4) : Option Mat4 :=
  (whileLoop (fun s : ℕ × Mat4 => decide (s.1 < 4))
    (fun s =>
      let y := 0
      (whileLoop (fun t : ℕ × Mat4 => decide (t.1 < 4))
        (fun t => some (t.1 + 1, setEntry t.2 y t.1 (getEntry input t.1 y)))
        fuel s).map (fun t => (t.1 + 1, t.2)))
    fuel (0, output)).map Prod.snd

/-- The state of the loop of `invert_Mat4`: the work matrix `c`, the output and whether
the loop was left by `break`. -/
structure InvertState where
  c : Mat4
  output : Mat4
  stopped : Bool

/-- The repair of a zero pivot in `invert_Mat4`: the loop over `k` that adds the first
row `k ≠ x` with a non-zero entry in column `x`, divided by that entry, to row `x`; the
third component is the flag `eliminated`, after which the loop is left. -/
def invertRepair (x : ℕ) (c output : Mat4) : Mat4 × Mat4 × Bool :=
  forLoop 4
    (fun k (s : Mat4 × Mat4 × Bool) =>
      if s.2.2 then s
      else if k = x then s
      else if getEntry s.1 x k ≠ 0 then
        let v := getEntry s.1 x k
        let r := forLoop 4
          (fun l (m : Mat4 × Mat4) =>
            (setEntry m.1 l x (getEntry m.1 l x + getEntry m.1 l k / v),
             setEntry m.2 l x (getEntry m.2 l x + getEntry m.2 l k / v)))
          (s.1, s.2.1)
        (r.1, r.2, true)
      else s)
    (c, output, false)

/-- The division of row `x` by the pivot in `invert_Mat4`. -/
def invertNormalize (x : ℕ) (c output : Mat4) : Mat4 × Mat4 :=
  if getEntry c x x ≠ 1 then
    let v := getEntry c x x
    forLoop 4
      (fun l (m : Mat4 × Mat4) =>
        (setEntry m.1 l x (getEntry m.1 l x / v), setEntry m.2 l x (getEntry m.2 l x / v)))
      (c, output)
  else (c, output)

/-- The elimination of column `x` from the rows `y ≠ x` in `invert_Mat4`. -/
def invertEliminate (x : ℕ) (c output : Mat4) : Mat4 × Mat4 :=
  forLoop 4
    (fun y (m : Mat4 × Mat4) =>
      if y = x then m
      else
        let v := getEntry m.1 x y
        forLoop 4
          (fun l (m : Mat4 × Mat4) =>
            (setEntry m.1 l y (getEntry m.1 l y - v * getEntry m.1 l x),
             setEntry m.2 l y (getEntry m.2 l y - v * getEntry m.2 l x)))
          m)
    (c, output)

/-- The body of the loop over `x` of `invert_Mat4`. -/
def invertStep (x : ℕ) (st : InvertState) : InvertState :=
  let repaired : Mat4 × Mat4 × Bool :=
    if getEntry st.c x x = 0 then invertRepair x st.c st.output
    else (st.c, st.output, true)
  if repaired.2.2 = false then
    { c := repaired.1, output := repaired.2.1, stopped := true }
  else
    let normalized := invertNormalize x repaired.1 repaired.2.1
    let eliminated := invertEliminate x normalized.1 normalized.2
    { c := eliminated.1, output := eliminated.2, stopped := false }

/-- The function `invert_Mat4`; the result is the output matrix. -/
def invert_Mat4 (input : Mat4) : Mat4 :=
  (forLoop 4 (fun x (st : InvertState) => if st.stopped then st else invertStep x st)
    { c := copy_Mat4 input, output := identity_Mat4, stopped := false }).output

/-- An invertible matrix with the rows `(1,1,0,0)`, `(0,0,1,0)`, `(0,1,0,0)`, `(0,0,0,1)`:
after the first elimination step its pivot in row 1 is zero. -/
def samplePivotMatrix : Mat4 :=
  ![![1, 0, 0, 0], ![1, 0, 1, 0], ![0, 1, 0, 0], ![0, 0, 0, 1]]

/-- The inverse of `samplePivotMatrix`, with the rows `(1,0,-1,0)`, `(0,0,1,0)`,
`(0,1,0,0)`, `(0,0,0,1)`. -/
def samplePivotInverse : Mat4 :=
  ![![1, 0, 0, 0], ![0, 0, 1, 0], ![-1, 1, 0, 0], ![0, 0, 0, 1]]

/-- The work matrix for the sample after the repair of the pivot of column 1. -/
def samplePivotR : Mat4 := ![![1, 1, 0, 0], ![1, 1, 1, 0], ![0, 1, 0, 0], ![0, 0, 0, 1]]

/-- The output for the sample after the repair of the pivot of column 1. -/
def samplePivotOutR : Mat4 := ![![1, 1, 0, 0], ![0, 1, 0, 0], ![0, 0, 1, 0], ![0, 0, 0, 1]]

/-- The work matrix for the sample after the pass for column 1. -/
def samplePivotB : Mat4 := ![![0, 1, -1, 0], ![0, 1, 0, 0], ![-1, 1, -1, 0], ![0, 0, 0, 1]]

/-- The output for the sample after the pass for column 1. -/
def samplePivotOutB : Mat4 := ![![0, 1, -1, 0], ![-1, 1, -1, 0], ![0, 0, 1, 0], ![0, 0, 0, 1]]

/-- The work matrix for the sample after the passes for columns 2 and 3. -/
def samplePivotC : Mat4 := ![![1, 0, 1, 0], ![0, 1, 0, 0], ![0, 0, 1, 0], ![0, 0, 0, 1]]

/-- The output for the sample after the passes for columns 2 and 3. -/
def samplePivotOutC : Mat4 := ![![1, 0, 1, 0], ![0, 0, 1, 0], ![-1, 1, -1, 0], ![0, 0, 0, 1]]

/-! ## Colour conversion (swapBuffers.c) -/

/-- The function `floatColorToUint32`: `(uint8_t) (value * 255.f)`.  The conversion of a
float to `uint8_t` drops the fractional part; it is undefined (`none`) when the result is
not a value of `uint8_t`, which is when `value * 255` is not strictly between `-1` and
`256`. -/
def floatColorToUint32 (value : ℚ) : Option ℕ :=
  if -1 < value * 255 ∧ value * 255 < 256 then some (truncf (value * 255)).toNat
  else none

/-! ## Uniforms (gpu.cpp) -/

/-- Modelled from the spec: the enum `UniformType` is declared in `student/uniforms.h`,
which is not among the sources.  The spec lists the types of a uniform as "scalar,
2/3/4-vector, unsigned integer, or 4x4 matrix"; the code names the six values in
`uniformType2Str` and `uniformSize`. -/
inductive UniformType where
  | UNIFORM_FLOAT
  | UNIFORM_VEC2
  | UNIFORM_VEC3
  | UNIFORM_VEC4
  | UNIFORM_UINT
  | UNIFORM_MAT4
deriving DecidableEq, Repr

/-- The size `sizeof(float)` in bytes, which is also `sizeof(uint32_t)`. -/
def sizeofFloat : ℕ := 4

/-- The function `uniformSize`: the size of the blob of a uniform in bytes. -/
def uniformSize : UniformType → ℕ
  | .UNIFORM_FLOAT => sizeofFloat
  | .UNIFORM_VEC2 => sizeofFloat * 2
  | .UNIFORM_VEC3 => sizeofFloat * 3
  | .UNIFORM_VEC4 => sizeofFloat * 4
  | .UNIFORM_UINT => sizeofFloat
  | .UNIFORM_MAT4 => sizeofFloat * 16

/-- The class `UniformImplementation`: the declared type and the blob `data` of
`uniformSize(type)` bytes.  The blob is kept as the list of its four-byte cells, each with
the float stored in it; the `memset` to zero makes every cell the float `0`. -/
structure UniformImplementation where
  type : UniformType
  data : List ℚ

/-- The class `AllUniforms`: the vector `uniforms`, and the map `locations` as the list of
its entries in the order of insertion (an entry is only inserted for a name that has
none, so no name occurs twice). -/
structure AllUniforms where
  uniforms : List UniformImplementation
  locations : List (String × ℕ)

/-- The lookup `locations.find(name)`: the mapped value, or `none` for `end()`. -/
def findLocation : List (String × ℕ) → String → Option ℕ
  | [], _ => none
  | (n, l) :: rest, name => if n = name then some l else findLocation rest name

/-- The uniforms of a new GPU: none. -/
def emptyUniforms : AllUniforms := { uniforms := [], locations := [] }

/-- The function `cpu_reserveUniform`. -/
def cpu_reserveUniform (u : AllUniforms) (name : String) (type : UniformType) : AllUniforms :=
  match findLocation u.locations name with
  | some _ => u
  | none =>
    let location := u.locations.length
    { locations := u.locations ++ [(name, location)],
      uniforms := u.uniforms ++
        [{ type := type, data := List.replicate (uniformSize type / sizeofFloat) 0 }] }

/-- The function `getUniformLocation`; `UniformLocation` is a signed integer. -/
def getUniformLocation (u : AllUniforms) (name : String) : ℤ :=
  match findLocation u.locations name with
  | none => -1
  | some location => (location : ℤ)

/-- The result of an upload: the call returns with the uniforms as given, or it writes
past the end of the blob it was given (undefined behaviour). -/
inductive UploadOutcome where
  | returned (u : AllUniforms)
  | overflow

/-- The writes `ptr[0] = v0; ptr[1] = v1; ...` (or the `memcpy`) of the values to the
first cells of a blob; `none` when there are more values than cells. -/
def writeCells (data values : List ℚ) : Option (List ℚ) :=
  if values.length ≤ data.length then some (values ++ data.drop values.length) else none

/-- The macro `CPU_UNIFORM_UPLOAD_IMPLEMENTATION` followed by the writes through `ptr` of
the functions `cpu_uniform*`: the location is checked to be non-negative and below the
number of uniforms, and the values are written to the blob. -/
def CPU_UNIFORM_UPLOAD_IMPLEMENTATION (u : AllUniforms) (location : ℤ) (values : List ℚ) :
    UploadOutcome :=
  if location < 0 then .returned u
  else
    let index := location.toNat
    if index ≥ u.uniforms.length then .returned u
    else
      match u.uniforms[index]? with
      | none => .returned u
      | some uniform =>
        match writeCells uniform.data values with
        | none => .overflow
        | some data =>
          .returned { u with uniforms := u.uniforms.set index { uniform with data := data } }

/-- The function `cpu_uniform1f`. -/
def cpu_uniform1f (u : AllUniforms) (location : ℤ) (v0 : ℚ) : UploadOutcome :=
  CPU_UNIFORM_UPLOAD_IMPLEMENTATION u location [v0]

/-- The function `cpu_uniform2f`. -/
def cpu_uniform2f (u : AllUniforms) (location : ℤ) (v0 v1 : ℚ) : UploadOutcome :=
  CPU_UNIFORM_UPLOAD_IMPLEMENTATION u location [v0, v1]

/-- The function `cpu_uniform3f`. -/
def cpu_uniform3f (u : AllUniforms) (location : ℤ) (v0 v1 v2 : ℚ) : UploadOutcome :=
  CPU_UNIFORM_UPLOAD_IMPLEMENTATION u location [v0, v1, v2]

/-- The function `cpu_uniform4f`. -/
def cpu_uniform4f (u : AllUniforms) (location : ℤ) (v0 v1 v2 v3 : ℚ) : UploadOutcome :=
  CPU_UNIFORM_UPLOAD_IMPLEMENTATION u location [v0, v1, v2, v3]

/-- The function `cpu_uniformMatrix4fv`: the `memcpy` of `uniformSize(UNIFORM_MAT4)`
bytes, the sixteen floats of `data`. -/
def cpu_uniformMatrix4fv (u : AllUniforms) (location : ℤ) (data : Fin 16 → ℚ) :
    UploadOutcome :=
  CPU_UNIFORM_UPLOAD_IMPLEMENTATION u location (List.ofFn data)

/-- The macro `GPU_UNIFORM_DOWNLOAD_IMPLEMENTATION`; `none` is the null pointer, and a
pointer to the blob of a uniform is given by the content of the blob. -/
def GPU_UNIFORM_DOWNLOAD_IMPLEMENTATION (uniformType : UniformType) (u : AllUniforms)
    (location : ℤ) : Option (List ℚ) :=
  if location < 0 then none
  else
    let index := location.toNat
    if index ≥ u.uniforms.length then none
    else
      match u.uniforms[index]? with
      | none => none
      | some uniform => if uniform.type ≠ uniformType then none else some uniform.data

/-- The function `shader_interpretUniformAsFloat`. -/
def shader_interpretUniformAsFloat (u : AllUniforms) (location : ℤ) : Option (List ℚ) :=
  GPU_UNIFORM_DOWNLOAD_IMPLEMENTATION .UNIFORM_FLOAT u location

/-- The function `shader_interpretUniformAsVec2`. -/
def shader_interpretUniformAsVec2 (u : AllUniforms) (location : ℤ) : Option (List ℚ) :=
  GPU_UNIFORM_DOWNLOAD_IMPLEMENTATION .UNIFORM_VEC2 u location

/-- The function `shader_interpretUniformAsVec3`. -/
def shader_interpretUniformAsVec3 (u : AllUniforms) (location : ℤ) : Option (List ℚ) :=
  GPU_UNIFORM_DOWNLOAD_IMPLEMENTATION .UNIFORM_VEC3 u location

/-- The function `shader_interpretUniformAsVec4`. -/
def shader_interpretUniformAsVec4 (u : AllUniforms) (location : ℤ) : Option (List ℚ) :=
  GPU_UNIFORM_DOWNLOAD_IMPLEMENTATION .UNIFORM_VEC4 u location

/-- The function `shader_interpretUniformAsMat4`. -/
def shader_interpretUniformAsMat4 (u : AllUniforms) (location : ℤ) : Option (List ℚ) :=
  GPU_UNIFORM_DOWNLOAD_IMPLEMENTATION .UNIFORM_MAT4 u location

/-- The uniforms after a sequence of calls of `cpu_reserveUniform` on a new GPU. -/
def reserveAll (calls : List (String × UniformType)) : AllUniforms :=
  calls.foldl (fun u call => cpu_reserveUniform u call.1 call.2) emptyUniforms

/-- The number of names reserved by a sequence of calls: the number of distinct names. -/
def nofReservedNames (calls : List (String × UniformType)) : ℕ :=
  (calls.map Prod.fst).toFinset.card

/-! ## Index reads -/

/-- The unsigned integer stored in a list of bytes, least significant byte first. -/
def littleEndian : List Byte → ℕ
  | [] => 0
  | b :: rest => b.val + 256 * littleEndian rest

/-- The element `n` of a byte array read as an array of unsigned integers of `width`
bytes: the integer stored in the bytes `[width * n, width * n + width)`, least significant
byte first.  For `width = sizeof(T)` this is the value of `((const T *) bytes)[n]` for an
unsigned type `T` on a little-endian machine. -/
def readUnsigned (bytes : List Byte) (width n : ℕ) : ℕ :=
  littleEndian ((bytes.drop (width * n)).take width)

/-- Modelled from the spec: the typedef `VertexIndex` is declared in `student/fwd.h`,
which is not among the sources, so its size `sizeofVertexIndex` is a parameter.  The
memory seen through the pointer `const VertexIndex *indices`: at the address of the
storage of the buffer, the content of the buffer as the array of its complete
`VertexIndex` elements. -/
def indexMemory (sizeofVertexIndex : ℕ) (buf : ByteVector) : ℕ → List VertexIndex :=
  fun address =>
    if address = buf.data then
      (List.range (buf.content.length / sizeofVertexIndex)).map
        (readUnsigned buf.content sizeofVertexIndex)
    else []

/-- A run that creates the buffer `1`, uploads the four bytes `1, 1, 1, 1` to it, stored
at the address `100`, and creates the puller `1`. -/
def sampleOpsIndexed : List RegistryOp :=
  [.createBuffers 1, .bufferData 1 4 (fun _ => 1) 100, .createVertexPullers 1]

/-! ## Vocabulary of the scanline interval -/

/-- The two borders of a scanline are either both the markers of the empty interval,
`+INFINITY` as lower and `-INFINITY` as upper border, or neither of them is. -/
def bordersConsistent (b : ExtFloat × ExtFloat) : Prop :=
  (b.1 = .posInf ∧ b.2 = .negInf) ∨ (b.1 ≠ .posInf ∧ b.2 ≠ .negInf)


/-- A clockwise screen-space triangle: the vertices `(1/2, 1/2)`, `(9/2, 7/2)` and
`(9/2, 1/2)` of `sampleApexPrimitive` in the opposite order. -/
def sampleClockwisePrimitive : GPUPrimitive :=
  { vertices := ![{ attributes := fun _ _ => 0, gl_Position := ![1 / 2, 1 / 2, 0, 1] },
                  { attributes := fun _ _ => 0, gl_Position := ![9 / 2, 7 / 2, 0, 1] },
                  { attributes := fun _ _ => 0, gl_Position := ![9 / 2, 1 / 2, 0, 1] }],
    types := fun _ => .ATTRIB_EMPTY,
    interpolations := fun _ => .SMOOTH,
    nofUsedVertices := 3 }

/-- The uniforms `u'` differ from `u` at most in the uniform at the location `loc`: the
locations of the names, the number of uniforms and every other uniform are the same. -/
def OtherUniformsKept (u u' : AllUniforms) (loc : ℕ) : Prop :=
  u'.locations = u.locations ∧ u'.uniforms.length = u.uniforms.length ∧
  ∀ other, other ≠ loc → u'.uniforms[other]? = u.uniforms[other]?

/-! ## Active program (gpu.cpp) -/

/-- The function `gpu_getActiveVertexShader`: `none` is `exit(1)`, taken when no program
has the identifier `activeProgram`. -/
def gpu_getActiveVertexShader (g : GpuImplementation) : Option ℕ :=
  match g.programs g.activeProgram with
  | none => none
  | some settings => some settings.vertexShader

/-- The function `gpu_getActiveFragmentShader`: `none` is `exit(1)`, taken when no
program has the identifier `activeProgram`. -/
def gpu_getActiveFragmentShader (g : GpuImplementation) : Option ℕ :=
  match g.programs g.activeProgram with
  | none => none
  | some settings => some settings.fragmentShader

/-- Two registry states with the same programs, program counter and active program. -/
def SamePrograms (g g' : GpuImplementation) : Prop :=
  g'.programs = g.programs ∧ g'.programCounter = g.programCounter ∧
  g'.activeProgram = g.activeProgram

/-- What holds of the programs after the operations `ops`: the identifiers of the
programs are positive and below the counter, the active program is `0` or such an
identifier, and an identifier below the counter without a program was deleted by one of
the operations. -/
structure ProgramInv (ops : List RegistryOp) (g : GpuImplementation) : Prop where
  counter_pos : 1 ≤ g.programCounter
  programs_bound : ∀ p, g.programs p ≠ none → 1 ≤ p ∧ p < g.programCounter
  active_bound : g.activeProgram = 0 ∨
    (1 ≤ g.activeProgram ∧ g.activeProgram < g.programCounter)
  deleted : ∀ p, 1 ≤ p → p < g.programCounter → g.programs p = none →
    RegistryOp.deleteProgram p ∈ ops

/-- A run that creates the program `1`, activates it and deletes it. -/
def sampleOpsDeleted : List RegistryOp :=
  [.createProgram, .useProgram 1, .deleteProgram 1]

/-! ## Draw call (student_pipeline.c) -/

/-- The function `gpu_initPrimitive`.  The argument `activeProgram` is the result of the
lookup of the active program made by `gpu_getAttributeInterpolation` and
`gpu_getAttributeType` (`none`: the lookup fails and the getter calls `exit(1)`);
`primitive` is the content of the output object before the call. -/
def gpu_initPrimitive (MAX_ATTRIBUTES : ℕ) (activeProgram : Option ProgramSettings)
    (primitive : GPUPrimitive) : Option GPUPrimitive :=
  forLoop MAX_ATTRIBUTES (fun a (pr : Option GPUPrimitive) =>
    match pr, activeProgram with
    | some pr, some settings =>
      some { pr with
        interpolations :=
          Function.update pr.interpolations a (settings.interpolations a).interpolation,
        types := Function.update pr.types a (settings.interpolations a).type }
    | _, _ => none) (some primitive)

/-- What `cpu_drawTriangles` reads besides the frame buffer and its argument: the constant
`MAX_ATTRIBUTES`, the library function `sqrtf`, the memory behind the index pointer, the
results of the lookups of the active puller, the active shaders and the active program
(`none`: the lookup fails and the getter calls `exit(1)`), and the contents of the locals
that the code does not initialise (`primitive`, `subPrimitive`, `fragmentShaderInput`,
`fragmentShaderOutput`). -/
structure DrawContext where
  MAX_ATTRIBUTES : ℕ
  sqrtf : ℚ → ℚ
  readIndices : ℕ → List VertexIndex
  activePuller : Option GPUVertexPullerConfiguration
  activeVertexShader : Option VertexShader
  activeFragmentShader : Option FragmentShader
  activeProgram : Option ProgramSettings
  localPrimitive : GPUPrimitive
  localSubPrimitive : GPUPrimitive
  localInput : GPUFragmentShaderInput
  localOutput : GPUFragmentShaderOutput

/-- The state threaded through `cpu_drawTriangles`: the frame buffer, and the record of
the assemblies made so far, each with its base invocation and the vertex shader calls
(output vertex slot and input) of `gpu_runPrimitiveAssembly`. -/
structure DrawState where
  framebuffer : Framebuffer
  assemblies : List (ℕ × List (ℕ × GPUVertexShaderInput))

/-- The body of the loop over the clipped triangles in `cpu_drawTriangles`: sub-primitive,
perspective division, viewport transformation and rasterization. -/
def drawTriangles_subPrimitive (ctx : DrawContext) (primitive : GPUPrimitive)
    (width height : ℕ) (g : Framebuffer) (clippedTriangle : GPUTriangle) :
    Option Framebuffer :=
  let subPrimitive := gpu_createSubPrimitive ctx.MAX_ATTRIBUTES ctx.localSubPrimitive
    primitive clippedTriangle
  let subPrimitive := gpu_runPerspectiveDivision subPrimitive
  let subPrimitive := gpu_runViewportTransformation subPrimitive width height
  (gpu_rasterizeTriangle ctx.MAX_ATTRIBUTES ctx.sqrtf ctx.activeFragmentShader ctx.localInput
    ctx.localOutput g subPrimitive width height).map RasterState.framebuffer

/-- The body of the loop over the triangles in `cpu_drawTriangles` for the base invocation
`base`; `none` when the program ends. -/
def drawTriangles_triangle (ctx : DrawContext) (puller : GPUVertexPullerConfiguration)
    (vertexShader : VertexShader) (width height : ℕ) (base : ℕ) (st : DrawState) :
    Option DrawState :=
  match gpu_initPrimitive ctx.MAX_ATTRIBUTES ctx.activeProgram ctx.localPrimitive with
  | none => none
  | some primitive =>
    match gpu_runPrimitiveAssembly ctx.MAX_ATTRIBUTES ctx.readIndices primitive
        VERTICES_PER_TRIANGLE puller base vertexShader with
    | none => none
    | some assembled =>
      let triangle := gpu_initTriangle assembled.primitive
      let clippedTriangles := gpu_runTriangleClipping triangle
      match clippedTriangles.foldlM
          (drawTriangles_subPrimitive ctx assembled.primitive width height)
          st.framebuffer with
      | none => none
      | some framebuffer =>
        some { framebuffer := framebuffer,
               assemblies := st.assemblies ++ [(base, assembled.calls)] }

/-- The condition `base + VERTICES_PER_TRIANGLE - 1 < nofVertices` of the loop of
`cpu_drawTriangles`, computed on 64-bit `size_t`. -/
def drawTriangles_continues (nofVertices base : ℕ) : Bool :=
  decide ((base + VERTICES_PER_TRIANGLE - 1) % 2 ^ 64 < nofVertices)

/-- The increment `base += VERTICES_PER_TRIANGLE` of the loop of `cpu_drawTriangles`,
computed on 64-bit `size_t`. -/
def drawTriangles_next (base : ℕ) : ℕ := (base + VERTICES_PER_TRIANGLE) % 2 ^ 64

/-- The loop of `cpu_drawTriangles` from the base invocation and state `s`, with a bound
on the number of passes. -/
def drawTriangles_loop (fuel : ℕ) (ctx : DrawContext) (puller : GPUVertexPullerConfiguration)
    (vertexShader : VertexShader) (width height : ℕ) (nofVertices : ℕ)
    (s : ℕ × DrawState) : Option (ℕ × DrawState) :=
  whileLoop (fun s : ℕ × DrawState => drawTriangles_continues nofVertices s.1)
    (fun s => (drawTriangles_triangle ctx puller vertexShader width height s.1 s.2).map
      (fun st => (drawTriangles_next s.1, st)))
    fuel s

/-- The function `cpu_drawTriangles` on the frame buffer `g`; `none` when the program
ends, or when the bound `fuel` on the number of passes of the loop is reached. -/
def cpu_drawTriangles (fuel : ℕ) (ctx : DrawContext) (g : Framebuffer) (nofVertices : ℕ) :
    Option DrawState :=
  match ctx.activePuller, ctx.activeVertexShader with
  | some puller, some vertexShader =>
    let width := g.viewportWidth
    let height := g.viewportHeight
    (drawTriangles_loop fuel ctx puller vertexShader width height nofVertices
      (0, { framebuffer := g, assemblies := [] })).map Prod.snd
  | _, _ => none

/-- A vertex shader that puts every vertex at `(0, 0, -2, 1)`, behind the near plane. -/
def sampleHiddenVertexShader : VertexShader := fun out _ =>
  { out with gl_Position := ![0, 0, -2, 1] }

/-- A puller without indexing and with no enabled head. -/
def samplePlainPuller : GPUVertexPullerConfiguration :=
  { heads := fun _ => emptyHead, indices := 0 }

/-- A draw context with eight attribute slots, a puller without indexing, the hidden
vertex shader and a program without attributes. -/
def sampleDrawContext : DrawContext :=
  { MAX_ATTRIBUTES := 8,
    sqrtf := sampleSqrt,
    readIndices := fun _ => [],
    activePuller := some samplePlainPuller,
    activeVertexShader := some sampleHiddenVertexShader,
    activeFragmentShader := some sampleFragmentShader,
    activeProgram := some { vertexShader := 1, fragmentShader := 2,
                            interpolations := fun _ =>
                              { type := .ATTRIB_EMPTY, interpolation := .SMOOTH } },
    localPrimitive := sampleCutPrimitive,
    localSubPrimitive := sampleCutPrimitive,
    localInput := emptyFragment,
    localOutput := sampleNearFragment }

/-- The record `r` of an assembly is the record of a triangle assembled from the vertex
shader invocations `r.1`, `r.1 + 1`, `r.1 + 2` in that order: the index reads for these
invocations are defined, and the three calls of the vertex shader, for the output slots
`0`, `1`, `2`, received the inputs made from the vertex ids read. -/
def AssembledFrom (MAX_ATTRIBUTES : ℕ) (readIndices : ℕ → List VertexIndex)
    (puller : GPUVertexPullerConfiguration)
    (r : ℕ × List (ℕ × GPUVertexShaderInput)) : Prop :=
  ∃ ids : ℕ → VertexIndex,
    (∀ i, i < 3 →
      gpu_computeGLVertexID (indexArray readIndices puller.indices) (r.1 + i) =
        some (ids i)) ∧
    r.2 = [(0, assemblyInput MAX_ATTRIBUTES puller (ids 0)),
           (1, assemblyInput MAX_ATTRIBUTES puller (ids 1)),
           (2, assemblyInput MAX_ATTRIBUTES puller (ids 2))]

/-- The record of the assembly with the base invocation `base` in a draw without
indexing: the vertex id of an invocation is its number. -/
def plainAssembly (MAX_ATTRIBUTES : ℕ) (puller : GPUVertexPullerConfiguration) (base : ℕ) :
    ℕ × List (ℕ × GPUVertexShaderInput) :=
  (base, (List.range 3).map (fun i => (i, assemblyInput MAX_ATTRIBUTES puller (base + i))))

/-- The state of a draw without indexing on the frame buffer `g` after `k` passes that
left the frame buffer as it was: the records of the assemblies with the base invocations
`0, 3, ..., 3 * (k - 1)`. -/
def hiddenDrawState (MAX_ATTRIBUTES : ℕ) (puller : GPUVertexPullerConfiguration)
    (g : Framebuffer) (k : ℕ) : DrawState :=
  { framebuffer := g,
    assemblies := (List.range k).map (fun j => plainAssembly MAX_ATTRIBUTES puller (3 * j)) }

/-- The value-initialised `Vec4`: all components are zero. -/
def zeroVec4 : Vec4 := fun _ => 0

/-- A frame buffer with the viewport size `2^32 × 2^32` and two empty vectors. -/
def sampleWrappedFramebuffer : Framebuffer :=
  { viewportWidth := 2 ^ 32, viewportHeight := 2 ^ 32, depthBuffer := [], colorBuffer := [] }

/-- The size `sizeof(Vec4)` in bytes: the struct holds `float data[4]`. -/
def sizeofVec4 : ℕ := 4 * sizeofFloat

/-- The result of `std::vector::max_size()` for elements of `elementSize` bytes:
`PTRDIFF_MAX / sizeof(T)` with a 64-bit `ptrdiff_t` (the value of libstdc++), which is
`2^59 - 1` for `Vec4` and `2^61 - 1` for `float`. -/
def vectorMaxSize (elementSize : ℕ) : ℕ := (2 ^ 63 - 1) / elementSize

/-- The method `std::vector::resize(n)` on a vector of value-initialised elements of
`elementSize` bytes; `none` is an exception, which leaves the vector as it was.  A vector
that does not grow keeps its first `n` elements.  A vector that grows is filled up to `n`
elements with `fill`; the call throws `std::length_error` when `n` exceeds `max_size()`,
and `std::bad_alloc` when it does not get storage for `n` elements, which the parameter
`allocates` decides from the number of bytes. -/
def vectorResize {α : Type} (elementSize : ℕ) (allocates : ℕ → Bool) (v : List α) (n : ℕ)
    (fill : α) : Option (List α) :=
  if n ≤ v.length then some (v.take n)
  else if vectorMaxSize elementSize < n then none
  else if allocates (n * elementSize) then some (v ++ List.replicate (n - v.length) fill)
  else none

/-- How `cpu_setViewportSize` ends: it returns, or an exception of `vector::resize`
leaves it.  Both carry the frame buffer members at that moment. -/
inductive ViewportOutcome where
  | returned (g : Framebuffer)
  | thrown (g : Framebuffer)

/-- The function `cpu_setViewportSize`; `nofPixels` is a product of two `size_t`.  The
size is stored before the buffers are resized, the colour buffer first. -/
def cpu_setViewportSize (allocates : ℕ → Bool) (g : Framebuffer) (width height : ℕ) :
    ViewportOutcome :=
  let g1 := { g with viewportWidth := width }
  let g2 := { g1 with viewportHeight := height }
  let nofPixels := (g2.viewportWidth * g2.viewportHeight) % 2 ^ 64
  match vectorResize sizeofVec4 allocates g2.colorBuffer nofPixels zeroVec4 with
  | none => .thrown g2
  | some colorBuffer =>
    let g3 := { g2 with colorBuffer := colorBuffer }
    match vectorResize sizeofFloat allocates g3.depthBuffer nofPixels 0 with
    | none => .thrown g3
    | some depthBuffer => .returned { g3 with depthBuffer := depthBuffer }

/-- The condition under which `vector::resize(n)` returns: the vector does not grow, or
`n` is at most `max_size()` and the storage is allocated. -/
def Resizable (elementSize : ℕ) (allocates : ℕ → Bool) (length n : ℕ) : Prop :=
  n ≤ length ∨ (n ≤ vectorMaxSize elementSize ∧ allocates (n * elementSize) = true)

/-- The frame buffer members of a new `GpuImplementation`: a viewport of size `0 × 0` and
two empty vectors. -/
def initialFramebuffer : Framebuffer :=
  { viewportWidth := 0, viewportHeight := 0, depthBuffer := [], colorBuffer := [] }

/-! ## Pixel centres in binary32 (student_pipeline.c) -/

/-- The integer nearest to `x`; a number half-way between two integers goes to the even
one. -/
def roundHalfEven (x : ℚ) : ℤ :=
  if Int.fract x < 1 / 2 then ⌊x⌋
  else if 1 / 2 < Int.fract x then ⌊x⌋ + 1
  else if ⌊x⌋ % 2 = 0 then ⌊x⌋
  else ⌊x⌋ + 1

/-- The `float` (IEEE 754 binary32) nearest to `q`, ties to even, for `|q| < 2^128`: with
`2^e ≤ |q| < 2^(e+1)` the neighbouring floats are the multiples of `2^(e-23)`, and of
`2^(-149)` below the normal range (`e < -126`). -/
def roundBinary32 (q : ℚ) : ℚ :=
  if q = 0 then 0
  else
    let e : ℤ := max (Int.log 2 |q|) (-126)
    (roundHalfEven (q / (2 : ℚ) ^ (e - 23)) : ℚ) * (2 : ℚ) ^ (e - 23)

/-- The expression `(float) n + PIXEL_CENTER` for a loop counter `n` of `gpu_rasterizeTriangle`:
the conversion of the `size_t` to `float` and the sum of two `float`s, each rounded by
`fl`. -/
def pixelCenter (fl : ℚ → ℚ) (n : ℕ) : ℚ := fl (fl (n : ℚ) + PIXEL_CENTER)

/-- The body of the inner loop of `gpu_rasterizeTriangle` up to the call of
`gpu_perFragmentOperations`, as `rasterizeTriangle_fragment`, with the pixel centre
`(float) x + PIXEL_CENTER` rounded by `fl`. -/
def rasterizeTriangle_fragment_rounded (fl : ℚ → ℚ) (MAX_ATTRIBUTES : ℕ)
    (fragmentShader : FragmentShader)
    (localInput : GPUFragmentShaderInput) (localOutput : GPUFragmentShaderOutput)
    (primitive : GPUPrimitive) (triangleVertices : Fin 3 → Vec2)
    (triangleLines : Fin 3 → Vec3) (pixelCoord1 : ℚ) (x : ℕ) : FragmentCall :=
  let pixelCoord : Vec2 := ![pixelCenter fl x, pixelCoord1]
  let barycentrics :=
    gpu_computeScreenSpaceBarycentrics pixelCoord triangleVertices triangleLines
  let fragmentShaderInput :=
    gpu_createFragment MAX_ATTRIBUTES localInput primitive barycentrics pixelCoord
  let fragmentShaderOutput :=
    fragmentShader { localOutput with depth := fragmentShaderInput.depth }
      fragmentShaderInput
  { x := (truncf (pixelCoord 0)).toNat,
    y := (truncf (pixelCoord 1)).toNat,
    input := fragmentShaderInput,
    shaded := fragmentShaderOutput,
    tested := gpu_clampFragmentColor fragmentShaderOutput }

/-- The body of the inner loop of `gpu_rasterizeTriangle`, with the pixel centre rounded
by `fl`. -/
def rasterizeTriangle_pixel_rounded (fl : ℚ → ℚ) (MAX_ATTRIBUTES : ℕ)
    (fragmentShader : FragmentShader)
    (localInput : GPUFragmentShaderInput) (localOutput : GPUFragmentShaderOutput)
    (primitive : GPUPrimitive) (triangleVertices : Fin 3 → Vec2)
    (triangleLines : Fin 3 → Vec3) (pixelCoord1 : ℚ) (x : ℕ) (st : RasterState) :
    Option RasterState :=
  let call := rasterizeTriangle_fragment_rounded fl MAX_ATTRIBUTES fragmentShader localInput
    localOutput primitive triangleVertices triangleLines pixelCoord1 x
  match gpu_perFragmentOperations st.framebuffer call.tested call.x call.y with
  | none => none
  | some framebuffer => some { framebuffer := framebuffer, calls := st.calls ++ [call] }

/-- The body of the outer loop of `gpu_rasterizeTriangle`, the scanline `y`, with the
pixel centres rounded by `fl`. -/
def rasterizeTriangle_scanline_rounded (fl : ℚ → ℚ) (MAX_ATTRIBUTES : ℕ)
    (fragmentShader : FragmentShader)
    (localInput : GPUFragmentShaderInput) (localOutput : GPUFragmentShaderOutput)
    (primitive : GPUPrimitive) (triangleVertices : Fin 3 → Vec2)
    (triangleLines : Fin 3 → Vec3) (width : ℕ) (y : ℕ) (st : RasterState) :
    Option RasterState :=
  let pixelCoord1 : ℚ := pixelCenter fl y
  let borders := gpu_computeLineBorders pixelCoord1 triangleLines
  let xMin := clampNegative borders.1
  let xMax := clampNegative borders.2
  if xMax.le xMin then some st
  else
    match gpu_roundDownPixelCoord xMin, gpu_roundUpPixelCoord xMax with
    | some xMinI, some xMaxI =>
      let xMaxI := if xMaxI ≥ width then width else xMaxI
      forRange xMinI xMaxI
        (rasterizeTriangle_pixel_rounded fl MAX_ATTRIBUTES fragmentShader localInput
          localOutput primitive triangleVertices triangleLines pixelCoord1)
        st
    | _, _ => none

/-- The function `gpu_rasterizeTriangle` on the frame buffer `g`, as
`gpu_rasterizeTriangle`, with the pixel centres `(float) y + PIXEL_CENTER` and
`(float) x + PIXEL_CENTER` of the loop counters rounded by `fl`; every other operation
on `float`s is exact.  With `fl = roundBinary32` the pixel coordinates given to
`gpu_perFragmentOperations`, `(size_t) pixelCoord.data[0]` and
`(size_t) pixelCoord.data[1]`, are the ones the code computes. -/
def gpu_rasterizeTriangle_rounded (fl : ℚ → ℚ) (MAX_ATTRIBUTES : ℕ) (sqrtf : ℚ → ℚ)
    (activeFragmentShader : Option FragmentShader)
    (localInput : GPUFragmentShaderInput) (localOutput : GPUFragmentShaderOutput)
    (g : Framebuffer) (primitive : GPUPrimitive) (width height : ℕ) :
    Option RasterState :=
  let bounds := forLoop primitive.nofUsedVertices
    (fun v (bounds : ExtFloat × ExtFloat) =>
      (fminf bounds.1 (.fin ((at3 primitive.vertices v).gl_Position 1)),
       fmaxf bounds.2 (.fin ((at3 primitive.vertices v).gl_Position 1))))
    (.posInf, .negInf)
  let yMin := clampNegative bounds.1
  let yMax := clampNegative bounds.2
  let triangleVertices : Fin 3 → Vec2 :=
    fun vertex => copy_Vec4_To_Vec2 (primitive.vertices vertex).gl_Position
  let triangleLines := gpu_computeTriangleLines sqrtf triangleVertices
  match gpu_roundDownPixelCoord yMin, gpu_roundUpPixelCoord yMax with
  | some yMinI, some yMaxI =>
    let yMaxI := if yMaxI ≥ height then height else yMaxI
    match activeFragmentShader with
    | none => none
    | some fragmentShader =>
      forRange yMinI yMaxI
        (rasterizeTriangle_scanline_rounded fl MAX_ATTRIBUTES fragmentShader localInput
          localOutput primitive triangleVertices triangleLines width)
        { framebuffer := g, calls := [] }
  | _, _ => none

/-- A cleared frame buffer of the size `1 × 8388610`, one column of `2^23 + 2` pixels,
with depth `1` and colour `(0,0,0,1)` at every pixel. -/
def sampleTallFramebuffer : Framebuffer :=
  { viewportWidth := 1, viewportHeight := 8388610,
    depthBuffer := List.replicate (1 * 8388610) 1,
    colorBuffer := List.replicate (1 * 8388610) ![0, 0, 0, 1] }

/-- A counter-clockwise screen-space triangle over the top row of
`sampleTallFramebuffer`: the vertices `(-1, 8388609)`, `(7, 8388609)` and
`(-1, 8388617)`, all of them `float`s. -/
def sampleTallPrimitive : GPUPrimitive :=
  { vertices := ![{ attributes := fun _ _ => 0, gl_Position := ![-1, 8388609, 0, 1] },
                  { attributes := fun _ _ => 0, gl_Position := ![7, 8388609, 0, 1] },
                  { attributes := fun _ _ => 0, gl_Position := ![-1, 8388617, 0, 1] }],
    types := fun _ => .ATTRIB_EMPTY,
    interpolations := fun _ => .SMOOTH,
    nofUsedVertices := 3 }

/-- The values of `sqrtf` at the squared edge lengths `64` and `128` of
`sampleTallPrimitive`: `8`, and the `float` nearest to the square root of `128`. -/
def sampleTallSqrt (q : ℚ) : ℚ :=
  if q = 64 then 8 else if q = 128 then 11863283 / 1048576 else 1

/-- The call of `gpu_perFragmentOperations` in the pass of the inner loop of
`gpu_rasterizeTriangle` for the loop counters `y = 8388609` and `x = 0` of the sample
triangle, whose pixel centre in binary32 is `(0.5, 8388610)`. -/
def sampleTallCall : FragmentCall :=
  rasterizeTriangle_fragment_rounded roundBinary32 8 sampleFragmentShader emptyFragment
    sampleNearFragment sampleTallPrimitive (screenVertices sampleTallPrimitive)
    (gpu_computeTriangleLines sampleTallSqrt (screenVertices sampleTallPrimitive)) 8388610 0

/-! ## Theorems -/

/-- C1: `gpu_computeGLVertexID` is the identity on the invocation number when no index
buffer is bound (`NULL`), and with an index array `idx` bound it returns `idx[n]` for
every `n` below the length of `idx`; for `idx = [5,2,9]` and `n = 1` the result is `2`. -/
theorem computeGLVertexID_spec :
    (∀ n : VertexShaderInvocation, gpu_computeGLVertexID none n = some n) ∧
    (∀ (idx : List VertexIndex) (n : VertexShaderInvocation) (h : n < idx.length),
      gpu_computeGLVertexID (some idx) n = some (idx.get ⟨n, h⟩)) ∧
    gpu_computeGLVertexID (some [5, 2, 9]) 1 = some 2 := by
  refine ⟨fun n => rfl, ?_, rfl⟩
  intro idx n h
  simp [gpu_computeGLVertexID, List.getElem?_eq_getElem h]

/-- C2: `gpu_computeVertexAttributeDataPointer` returns the null pointer when the head
is not enabled and otherwise the byte address `buffer + offset + stride * v`; with
offset `8`, stride `24` and `v = 3` this is `B + 80`. -/
theorem computeVertexAttributeDataPointer_spec :
    (∀ (head : GPUVertexPullerHead) (v : VertexIndex),
      gpu_computeVertexAttributeDataPointer head v =
        if head.enabled = 1 then some (head.buffer + head.offset + head.stride * v)
        else none) ∧
    (∀ B : ℕ, gpu_computeVertexAttributeDataPointer
        { buffer := B, offset := 8, stride := 24, enabled := 1 } 3 = some (B + 80)) := by
  constructor
  · intro head v
    by_cases h : head.enabled = 1 <;> simp [gpu_computeVertexAttributeDataPointer, h]
  · intro B
    simp [gpu_computeVertexAttributeDataPointer, Nat.add_assoc]

/-! ### Components of vector literals -/

lemma vec4_val2 {α : Type} (a b c d : α) : (![a, b, c, d] : Fin 4 → α) 2 = c := rfl

lemma vec4_val3 {α : Type} (a b c d : α) : (![a, b, c, d] : Fin 4 → α) 3 = d := rfl

lemma vec3_val0 {α : Type} (a b c : α) : (![a, b, c] : Fin 3 → α) 0 = a := rfl

lemma vec3_val1 {α : Type} (a b c : α) : (![a, b, c] : Fin 3 → α) 1 = b := rfl

lemma vec3_val2 {α : Type} (a b c : α) : (![a, b, c] : Fin 3 → α) 2 = c := rfl

/-! ### Clipping -/

/-- The start vertex of an edge passes the visibility test of the clipper exactly when
it satisfies the plane inequality `0 ≤ s * a_i + a_w`. -/
lemma edge_start_visible_iff (A B : Vec4) (axis : Fin 4) (positive : ℕ) :
    ((gpu_runFrustumPlaneClippingOnEdge A B axis positive).1 = 0 ∧
      (gpu_runFrustumPlaneClippingOnEdge A B axis positive).1 ≤
        (gpu_runFrustumPlaneClippingOnEdge A B axis positive).2) ↔
    0 ≤ (2 * (positive : ℚ) - 1) * A axis + A 3 := by
  unfold gpu_runFrustumPlaneClippingOnEdge
  simp only
  split_ifs with h1 h2 h3
  · simp only [true_and, le_min_iff, zero_le_one]
    rw [div_nonneg_iff]
    constructor
    · rintro (⟨hN, _⟩ | ⟨_, hM⟩)
      · exact hN
      · exact absurd h1 (not_lt.mpr hM)
    · intro hN
      exact Or.inl ⟨hN, le_of_lt h1⟩
  · dsimp only
    constructor
    · rintro ⟨h0, _⟩
      have hle : ((2 * (positive : ℚ) - 1) * A axis + A 3) /
          (-B 3 + A 3 - (2 * (positive : ℚ) - 1) * (B axis - A axis)) ≤ 0 := by
        have := le_max_right (0 : ℚ) (((2 * (positive : ℚ) - 1) * A axis + A 3) /
          (-B 3 + A 3 - (2 * (positive : ℚ) - 1) * (B axis - A axis)))
        rw [h0] at this
        exact this
      rw [div_nonpos_iff] at hle
      rcases hle with ⟨hN, _⟩ | ⟨_, hM⟩
      · exact hN
      · exact absurd h2 (not_lt.mpr hM)
    · intro hN
      have hle : ((2 * (positive : ℚ) - 1) * A axis + A 3) /
          (-B 3 + A 3 - (2 * (positive : ℚ) - 1) * (B axis - A axis)) ≤ 0 :=
        div_nonpos_iff.mpr (Or.inl ⟨hN, le_of_lt h2⟩)
      rw [max_eq_left hle]
      exact ⟨rfl, zero_le_one⟩
  · simp only [one_ne_zero, false_and, false_iff, not_le]
    exact h3
  · simp only [true_and, zero_le_one, true_iff]
    exact not_lt.mp h3

/-- For the near plane the visibility bit of vertex `i` is set exactly when the vertex
lies in the near half-space. -/
lemma near_visibleBit (t : GPUTriangle) (i : Fin 3) :
    visibleBit
      (fun v => (gpu_runFrustumPlaneClippingOnEdge (t.positions v)
        (at3 t.positions ((v.val + 1) % VERTICES_PER_TRIANGLE))
        (planeAxis .NEAR) (planePositive .NEAR)).1)
      (fun v => (gpu_runFrustumPlaneClippingOnEdge (t.positions v)
        (at3 t.positions ((v.val + 1) % VERTICES_PER_TRIANGLE))
        (planeAxis .NEAR) (planePositive .NEAR)).2) i
      = if inNearHalfSpace (t.positions i) then 1 else 0 := by
  unfold visibleBit
  have h := edge_start_visible_iff (t.positions i)
    (at3 t.positions ((i.val + 1) % VERTICES_PER_TRIANGLE)) (planeAxis .NEAR)
    (planePositive .NEAR)
  have hiff : (0 ≤ (2 * ((planePositive .NEAR : ℕ) : ℚ) - 1) * t.positions i (planeAxis .NEAR)
      + t.positions i 3) ↔ inNearHalfSpace (t.positions i) := by
    unfold inNearHalfSpace
    have e1 : planePositive .NEAR = 1 := by decide
    have e2 : planeAxis .NEAR = 2 := by decide
    rw [e1, e2]
    constructor <;> intro h <;> push_cast at * <;> linarith
  simp only [h, hiff]

/-- The number of near vertices as a sum of three indicator values. -/
lemma nofNearVertices_eq (t : GPUTriangle) :
    nofNearVertices t =
      (if inNearHalfSpace (t.positions 0) then 1 else 0) +
      (if inNearHalfSpace (t.positions 1) then 1 else 0) +
      (if inNearHalfSpace (t.positions 2) then 1 else 0) := by
  unfold nofNearVertices
  rw [Finset.card_filter, Fin.sum_univ_three]

/-- The clipper applied to the near plane, with the visibility mask written in terms of
the near half-space test of the three vertices. -/
lemma runTriangleClipping_eq (input : GPUTriangle) :
    gpu_runTriangleClipping input =
      (let tMin : Fin 3 → ℚ := fun v => (gpu_runFrustumPlaneClippingOnEdge (input.positions v)
          (at3 input.positions ((v.val + 1) % VERTICES_PER_TRIANGLE)) 2 1).1
       let tMax : Fin 3 → ℚ := fun v => (gpu_runFrustumPlaneClippingOnEdge (input.positions v)
          (at3 input.positions ((v.val + 1) % VERTICES_PER_TRIANGLE)) 2 1).2
       let visible : ℕ :=
          ((0 ||| ((if inNearHalfSpace (input.positions 0) then 1 else 0) <<< 0)) |||
            ((if inNearHalfSpace (input.positions 1) then 1 else 0) <<< 1)) |||
            ((if inNearHalfSpace (input.positions 2) then 1 else 0) <<< 2)
       if visible = 0 then []
       else if visible = 1 ∨ visible = 2 ∨ visible = 4 then
         gpu_writeClippedTriangle_OneVertexVisible [] visible tMin tMax input
       else if visible = 3 ∨ visible = 5 ∨ visible = 6 then
         gpu_writeClippedTriangle_TwoVerticesVisible [] visible tMin tMax input
       else if visible = 7 then
         gpu_writeClippedTriangle_ThreeVerticesVisible [] input
       else []) := by
  unfold gpu_runTriangleClipping gpu_runFrustumPlaneClippingOnTriangle
  simp only [visibleMask, near_visibleBit]
  rfl

/-- C3: the number of triangles emitted by `gpu_runTriangleClipping` is determined by the
number of vertices in the near half-space `-w ≤ z`: none gives 0 triangles, exactly one
gives 1, exactly two give 2, all three give 1. -/
theorem runTriangleClipping_count (input : GPUTriangle) :
    nofNearVertices input ≤ 3 ∧
    (gpu_runTriangleClipping input).length =
      if nofNearVertices input = 0 then 0
      else if nofNearVertices input = 1 then 1
      else if nofNearVertices input = 2 then 2
      else 1 := by
  rw [runTriangleClipping_eq, nofNearVertices_eq]
  by_cases h0 : inNearHalfSpace (input.positions 0) <;>
  by_cases h1 : inNearHalfSpace (input.positions 1) <;>
  by_cases h2 : inNearHalfSpace (input.positions 2) <;>
  simp [h0, h1, h2, gpu_writeClippedTriangle_OneVertexVisible,
    gpu_writeClippedTriangle_TwoVerticesVisible,
    gpu_writeClippedTriangle_ThreeVerticesVisible]

/-- C4: a triangle whose three vertices all satisfy `-w ≤ z` is clipped to exactly one
triangle, with the positions and the recipe vectors of the input in the same order. -/
theorem runTriangleClipping_all_inside (input : GPUTriangle)
    (h : ∀ i : Fin 3, inNearHalfSpace (input.positions i)) :
    gpu_runTriangleClipping input = [input] := by
  rw [runTriangleClipping_eq]
  simp [h 0, h 1, h 2, gpu_writeClippedTriangle_ThreeVerticesVisible]
  rfl

/-- The value of the near-plane inequality at a point: `z + w`, non-negative exactly in
the near half-space. -/
lemma inNearHalfSpace_iff (p : Vec4) : inNearHalfSpace p ↔ 0 ≤ p 2 + p 3 := by
  unfold inNearHalfSpace
  constructor <;> intro h <;> linarith

/-- An edge that leaves the near half-space: the upper end of the interval is a
parameter in `[0,1]` at which the edge meets the plane. -/
lemma edge_exit (A B : Vec4) (hA : inNearHalfSpace A) (hB : ¬ inNearHalfSpace B) :
    0 ≤ (gpu_runFrustumPlaneClippingOnEdge A B 2 1).2 ∧
    (gpu_runFrustumPlaneClippingOnEdge A B 2 1).2 ≤ 1 ∧
    onNearPlane (mix_Vec4 A B (gpu_runFrustumPlaneClippingOnEdge A B 2 1).2) := by
  rw [inNearHalfSpace_iff] at hA hB
  have hM : -B 3 + A 3 - (2 * ((1 : ℕ) : ℚ) - 1) * (B 2 - A 2) > 0 := by
    push_cast; linarith
  have hne : A 2 + A 3 - (B 2 + B 3) ≠ 0 := by
    intro h; linarith
  have hval : (gpu_runFrustumPlaneClippingOnEdge A B 2 1).2 =
      (A 2 + A 3) / (A 2 + A 3 - (B 2 + B 3)) := by
    unfold gpu_runFrustumPlaneClippingOnEdge
    simp only [hM, if_true]
    have e : ((2 * ((1 : ℕ) : ℚ) - 1) * A 2 + A 3) /
        (-B 3 + A 3 - (2 * ((1 : ℕ) : ℚ) - 1) * (B 2 - A 2)) =
        (A 2 + A 3) / (A 2 + A 3 - (B 2 + B 3)) := by
      push_cast; congr 1 <;> ring
    rw [e]
    apply min_eq_right
    rw [div_le_one (by linarith)]
    linarith
  rw [hval]
  refine ⟨div_nonneg hA (by linarith), ?_, ?_⟩
  · rw [div_le_one (by linarith)]
    linarith
  · unfold onNearPlane mix_Vec4
    field_simp
    ring

/-- An edge that enters the near half-space: the lower end of the interval is a
parameter in `[0,1]` at which the edge meets the plane. -/
lemma edge_enter (A B : Vec4) (hA : ¬ inNearHalfSpace A) (hB : inNearHalfSpace B) :
    0 ≤ (gpu_runFrustumPlaneClippingOnEdge A B 2 1).1 ∧
    (gpu_runFrustumPlaneClippingOnEdge A B 2 1).1 ≤ 1 ∧
    onNearPlane (mix_Vec4 A B (gpu_runFrustumPlaneClippingOnEdge A B 2 1).1) := by
  rw [inNearHalfSpace_iff] at hA hB
  have hM : -B 3 + A 3 - (2 * ((1 : ℕ) : ℚ) - 1) * (B 2 - A 2) < 0 := by
    push_cast; linarith
  have hM' : ¬ (-B 3 + A 3 - (2 * ((1 : ℕ) : ℚ) - 1) * (B 2 - A 2) > 0) := by
    intro h; linarith
  have hne : A 2 + A 3 - (B 2 + B 3) ≠ 0 := by
    intro h; linarith
  have hneg : A 2 + A 3 - (B 2 + B 3) < 0 := by linarith
  have hval : (gpu_runFrustumPlaneClippingOnEdge A B 2 1).1 =
      (A 2 + A 3) / (A 2 + A 3 - (B 2 + B 3)) := by
    unfold gpu_runFrustumPlaneClippingOnEdge
    simp only [hM, hM', if_true, if_false]
    have e : ((2 * ((1 : ℕ) : ℚ) - 1) * A 2 + A 3) /
        (-B 3 + A 3 - (2 * ((1 : ℕ) : ℚ) - 1) * (B 2 - A 2)) =
        (A 2 + A 3) / (A 2 + A 3 - (B 2 + B 3)) := by
      push_cast; congr 1 <;> ring
    rw [e]
    apply max_eq_right
    exact div_nonneg_of_nonpos (by linarith) (le_of_lt hneg)
  rw [hval]
  refine ⟨div_nonneg_of_nonpos (by linarith) (le_of_lt hneg), ?_, ?_⟩
  · rw [div_le_one_of_neg hneg]
    linarith
  · unfold onNearPlane mix_Vec4
    field_simp
    ring

/-- The interval of edge `v → v + 1` of a triangle against the near plane. -/
lemma nearEdge_eq (input : GPUTriangle) (v : Fin 3) :
    gpu_runFrustumPlaneClippingOnEdge (input.positions v)
      (at3 input.positions ((v.val + 1) % VERTICES_PER_TRIANGLE)) 2 1 =
    gpu_runFrustumPlaneClippingOnEdge (input.positions v) (input.positions (v + 1)) 2 1 := by
  fin_cases v <;> rfl

/-- The triangle written when only vertex `v` is visible (mask `1 << v`). -/
lemma writeOne_mask (tMin tMax : Fin 3 → ℚ) (input : GPUTriangle) (v : Fin 3) :
    gpu_writeClippedTriangle_OneVertexVisible [] (1 <<< v.val) tMin tMax input =
      [cornerTriangle input v (tMax v) (tMin (v + 2))] := by
  fin_cases v <;> rfl

/-- The two triangles written when only vertex `v` is invisible (mask `7 - (1 << v)`). -/
lemma writeTwo_mask (tMin tMax : Fin 3 → ℚ) (input : GPUTriangle) (v : Fin 3) :
    gpu_writeClippedTriangle_TwoVerticesVisible [] (7 - 1 <<< v.val) tMin tMax input =
      [{ positions := ![mix_Vec4 (input.positions v) (input.positions (v + 1)) (tMin v),
                        input.positions (v + 1),
                        mix_Vec4 (input.positions (v + 2)) (input.positions v) (tMax (v + 2))],
         coords := ![mix_Vec3 (input.coords v) (input.coords (v + 1)) (tMin v),
                     input.coords (v + 1),
                     mix_Vec3 (input.coords (v + 2)) (input.coords v) (tMax (v + 2))] },
       { positions := ![mix_Vec4 (input.positions (v + 2)) (input.positions v) (tMax (v + 2)),
                        input.positions (v + 1),
                        input.positions (v + 2)],
         coords := ![mix_Vec3 (input.coords (v + 2)) (input.coords v) (tMax (v + 2)),
                     input.coords (v + 1),
                     input.coords (v + 2)] }] := by
  fin_cases v <;> rfl

/-- The output of the clipper when exactly the vertex `v` is in the near half-space. -/
lemma clipping_one_visible (input : GPUTriangle) (v : Fin 3)
    (hv : inNearHalfSpace (input.positions v))
    (hn : ¬ inNearHalfSpace (input.positions (v + 1)))
    (hp : ¬ inNearHalfSpace (input.positions (v + 2))) :
    gpu_runTriangleClipping input =
      [cornerTriangle input v
        (gpu_runFrustumPlaneClippingOnEdge (input.positions v) (input.positions (v + 1)) 2 1).2
        (gpu_runFrustumPlaneClippingOnEdge (input.positions (v + 2))
          (input.positions (v + 2 + 1)) 2 1).1] := by
  rw [runTriangleClipping_eq]
  simp only [nearEdge_eq]
  fin_cases v
  · have e := writeOne_mask
      (fun v => (gpu_runFrustumPlaneClippingOnEdge (input.positions v)
        (input.positions (v + 1)) 2 1).1)
      (fun v => (gpu_runFrustumPlaneClippingOnEdge (input.positions v)
        (input.positions (v + 1)) 2 1).2) input 0
    simp at hv hn hp
    simp [hv, hn, hp]
    exact e
  · have e := writeOne_mask
      (fun v => (gpu_runFrustumPlaneClippingOnEdge (input.positions v)
        (input.positions (v + 1)) 2 1).1)
      (fun v => (gpu_runFrustumPlaneClippingOnEdge (input.positions v)
        (input.positions (v + 1)) 2 1).2) input 1
    simp at hv hn hp
    simp [hv, hn, hp]
    exact e
  · have e := writeOne_mask
      (fun v => (gpu_runFrustumPlaneClippingOnEdge (input.positions v)
        (input.positions (v + 1)) 2 1).1)
      (fun v => (gpu_runFrustumPlaneClippingOnEdge (input.positions v)
        (input.positions (v + 1)) 2 1).2) input 2
    simp at hv hn hp
    simp [hv, hn, hp]
    exact e

/-- The output of the clipper when exactly the vertex `v` is outside the near
half-space. -/
lemma clipping_two_visible (input : GPUTriangle) (v : Fin 3)
    (hv : ¬ inNearHalfSpace (input.positions v))
    (hn : inNearHalfSpace (input.positions (v + 1)))
    (hp : inNearHalfSpace (input.positions (v + 2))) :
    gpu_runTriangleClipping input =
      gpu_writeClippedTriangle_TwoVerticesVisible [] (7 - 1 <<< v.val)
        (fun v => (gpu_runFrustumPlaneClippingOnEdge (input.positions v)
          (input.positions (v + 1)) 2 1).1)
        (fun v => (gpu_runFrustumPlaneClippingOnEdge (input.positions v)
          (input.positions (v + 1)) 2 1).2) input := by
  rw [runTriangleClipping_eq]
  simp only [nearEdge_eq]
  fin_cases v
  · simp at hv hn hp
    simp [hv, hn, hp]
  · simp at hv hn hp
    simp [hv, hn, hp]
  · simp at hv hn hp
    simp [hv, hn, hp]

/-- In `Fin 3`, the successor of `v + 2` is `v`. -/
lemma fin3_add_two_add_one (v : Fin 3) : v + 2 + 1 = v := by
  fin_cases v <;> rfl

/-- Exactly one near vertex: it is some `v`, and its two neighbours are not near. -/
lemma exists_of_nofNearVertices_one (input : GPUTriangle) (h : nofNearVertices input = 1) :
    ∃ v : Fin 3, inNearHalfSpace (input.positions v) ∧
      ¬ inNearHalfSpace (input.positions (v + 1)) ∧
      ¬ inNearHalfSpace (input.positions (v + 2)) := by
  rw [nofNearVertices_eq] at h
  by_cases h0 : inNearHalfSpace (input.positions 0) <;>
  by_cases h1 : inNearHalfSpace (input.positions 1) <;>
  by_cases h2 : inNearHalfSpace (input.positions 2) <;>
  simp [h0, h1, h2] at h
  · exact ⟨0, h0, h1, h2⟩
  · exact ⟨1, h1, h2, h0⟩
  · exact ⟨2, h2, h0, h1⟩

/-- Exactly two near vertices: the third is some `v`, and its two neighbours are near. -/
lemma exists_of_nofNearVertices_two (input : GPUTriangle) (h : nofNearVertices input = 2) :
    ∃ v : Fin 3, ¬ inNearHalfSpace (input.positions v) ∧
      inNearHalfSpace (input.positions (v + 1)) ∧
      inNearHalfSpace (input.positions (v + 2)) := by
  rw [nofNearVertices_eq] at h
  by_cases h0 : inNearHalfSpace (input.positions 0) <;>
  by_cases h1 : inNearHalfSpace (input.positions 1) <;>
  by_cases h2 : inNearHalfSpace (input.positions 2) <;>
  simp [h0, h1, h2] at h
  · exact ⟨2, h2, h0, h1⟩
  · exact ⟨1, h1, h2, h0⟩
  · exact ⟨0, h0, h1, h2⟩

/-- The determinant measure of the two triangles of the visible quad: multilinearity of
the determinant in the mixed rows. -/
lemma orientedArea_quad (a b c : Vec3) (s t : ℚ) :
    orientedArea ![mix_Vec3 a b s, b, mix_Vec3 c a t] +
      orientedArea ![mix_Vec3 c a t, b, c] =
    orientedArea ![a, b, c] - orientedArea ![a, mix_Vec3 a b s, mix_Vec3 c a t] := by
  simp only [orientedArea, mix_Vec3, Matrix.cons_val_zero, Matrix.cons_val_one,
    Matrix.head_cons, Matrix.cons_val_two, Matrix.tail_cons]
  ring

/-- The vector area of the two triangles of the visible quad. -/
lemma vectorArea_quad (a b c : Vec3) (s t : ℚ) :
    vectorArea ![mix_Vec3 a b s, b, mix_Vec3 c a t] +
      vectorArea ![mix_Vec3 c a t, b, c] =
    vectorArea ![a, b, c] - vectorArea ![a, mix_Vec3 a b s, mix_Vec3 c a t] := by
  funext i
  fin_cases i <;>
  simp [vectorArea, mix_Vec3] <;> ring

/-- The determinant of the recipe rows is invariant under a cyclic shift of the rows. -/
lemma orientedArea_cyclic (c : Fin 3 → Vec3) (v : Fin 3) :
    orientedArea ![c v, c (v + 1), c (v + 2)] = orientedArea c := by
  fin_cases v <;>
  simp [orientedArea] <;> ring

/-- The vector area is invariant under a cyclic shift of the vertices. -/
lemma vectorArea_cyclic (c : Fin 3 → Vec3) (v : Fin 3) :
    vectorArea ![c v, c (v + 1), c (v + 2)] = vectorArea c := by
  funext i
  fin_cases v <;> fin_cases i <;>
  simp [vectorArea] <;> ring

/-- C5: when exactly two vertices satisfy `-w ≤ z`, the clipper emits exactly two
triangles, and measured in recipe (barycentric) coordinates their oriented areas add up to
the area of the input triangle minus the area of the corner triangle cut off at the
invisible vertex `v` by the two points where the edges at `v` meet the plane `z = -w`;
this holds for the determinant measure and for the vector area. -/
theorem runTriangleClipping_two_inside_area (input : GPUTriangle)
    (h : nofNearVertices input = 2) :
    ∃ (v : Fin 3) (s t : ℚ) (T1 T2 : GPUTriangle),
      ¬ inNearHalfSpace (input.positions v) ∧
      inNearHalfSpace (input.positions (v + 1)) ∧
      inNearHalfSpace (input.positions (v + 2)) ∧
      0 ≤ s ∧ s ≤ 1 ∧ 0 ≤ t ∧ t ≤ 1 ∧
      onNearPlane (mix_Vec4 (input.positions v) (input.positions (v + 1)) s) ∧
      onNearPlane (mix_Vec4 (input.positions (v + 2)) (input.positions v) t) ∧
      gpu_runTriangleClipping input = [T1, T2] ∧
      orientedArea T1.coords + orientedArea T2.coords =
        orientedArea input.coords - orientedArea (cornerTriangle input v s t).coords ∧
      vectorArea T1.coords + vectorArea T2.coords =
        vectorArea input.coords - vectorArea (cornerTriangle input v s t).coords := by
  obtain ⟨v, hv, hn, hp⟩ := exists_of_nofNearVertices_two input h
  have hA := edge_enter (input.positions v) (input.positions (v + 1)) hv hn
  have hB := edge_exit (input.positions (v + 2)) (input.positions (v + 2 + 1)) hp
    (by rw [fin3_add_two_add_one]; exact hv)
  rw [fin3_add_two_add_one] at hB
  have hc := clipping_two_visible input v hv hn hp
  rw [writeTwo_mask] at hc
  simp only [fin3_add_two_add_one] at hc
  refine ⟨v, _, _, _, _, hv, hn, hp, hA.1, hA.2.1, hB.1, hB.2.1, hA.2.2, hB.2.2, hc, ?_, ?_⟩
  · simp only [cornerTriangle]
    rw [orientedArea_quad, orientedArea_cyclic]
  · simp only [cornerTriangle]
    rw [vectorArea_quad, vectorArea_cyclic]

/-- The sample triangle has exactly two vertices in the near half-space, and the
area identity of C5 holds for it. -/
theorem runTriangleClipping_two_inside_area_witness :
    nofNearVertices sampleTwoInside = 2 ∧
    ∃ (v : Fin 3) (s t : ℚ) (T1 T2 : GPUTriangle),
      ¬ inNearHalfSpace (sampleTwoInside.positions v) ∧
      inNearHalfSpace (sampleTwoInside.positions (v + 1)) ∧
      inNearHalfSpace (sampleTwoInside.positions (v + 2)) ∧
      0 ≤ s ∧ s ≤ 1 ∧ 0 ≤ t ∧ t ≤ 1 ∧
      onNearPlane (mix_Vec4 (sampleTwoInside.positions v)
        (sampleTwoInside.positions (v + 1)) s) ∧
      onNearPlane (mix_Vec4 (sampleTwoInside.positions (v + 2))
        (sampleTwoInside.positions v) t) ∧
      gpu_runTriangleClipping sampleTwoInside = [T1, T2] ∧
      orientedArea T1.coords + orientedArea T2.coords =
        orientedArea sampleTwoInside.coords -
          orientedArea (cornerTriangle sampleTwoInside v s t).coords ∧
      vectorArea T1.coords + vectorArea T2.coords =
        vectorArea sampleTwoInside.coords -
          vectorArea (cornerTriangle sampleTwoInside v s t).coords :=
  have h : nofNearVertices sampleTwoInside = 2 := by
    rw [nofNearVertices_eq]
    simp only [inNearHalfSpace, sampleTwoInside, vec3_val0, vec3_val1, vec3_val2, vec4_val2,
      vec4_val3]
    norm_num
  ⟨h, runTriangleClipping_two_inside_area sampleTwoInside h⟩

/-- C6: when exactly one vertex `v` satisfies `-w ≤ z`, the clipper emits the single
triangle `(P_v, A, B)`, where `A` is the point of the edge `P_v → P_next` and `B` the point
of the edge `P_prev → P_v` at which `z = -w`; each emitted recipe vector is the mix
`(1 - t) * a + t * b` of the input recipe vectors with the parameter of its position. -/
theorem runTriangleClipping_one_inside (input : GPUTriangle)
    (h : nofNearVertices input = 1) :
    ∃ (v : Fin 3) (s t : ℚ),
      inNearHalfSpace (input.positions v) ∧
      ¬ inNearHalfSpace (input.positions (v + 1)) ∧
      ¬ inNearHalfSpace (input.positions (v + 2)) ∧
      0 ≤ s ∧ s ≤ 1 ∧ 0 ≤ t ∧ t ≤ 1 ∧
      onNearPlane (mix_Vec4 (input.positions v) (input.positions (v + 1)) s) ∧
      onNearPlane (mix_Vec4 (input.positions (v + 2)) (input.positions v) t) ∧
      gpu_runTriangleClipping input =
        [{ positions := ![input.positions v,
                          mix_Vec4 (input.positions v) (input.positions (v + 1)) s,
                          mix_Vec4 (input.positions (v + 2)) (input.positions v) t],
           coords := ![input.coords v,
                       mix_Vec3 (input.coords v) (input.coords (v + 1)) s,
                       mix_Vec3 (input.coords (v + 2)) (input.coords v) t] }] := by
  obtain ⟨v, hv, hn, hp⟩ := exists_of_nofNearVertices_one input h
  have hA := edge_exit (input.positions v) (input.positions (v + 1)) hv hn
  have hB := edge_enter (input.positions (v + 2)) (input.positions (v + 2 + 1)) hp
    (by rw [fin3_add_two_add_one]; exact hv)
  have hc := clipping_one_visible input v hv hn hp
  rw [fin3_add_two_add_one] at hB hc
  exact ⟨v, _, _, hv, hn, hp, hA.1, hA.2.1, hB.1, hB.2.1, hA.2.2, hB.2.2, hc⟩

/-- The sample triangle has exactly one vertex in the near half-space, and the clipper
emits the corner triangle of C6 for it. -/
theorem runTriangleClipping_one_inside_witness :
    nofNearVertices sampleOneInside = 1 ∧
    ∃ (v : Fin 3) (s t : ℚ),
      inNearHalfSpace (sampleOneInside.positions v) ∧
      ¬ inNearHalfSpace (sampleOneInside.positions (v + 1)) ∧
      ¬ inNearHalfSpace (sampleOneInside.positions (v + 2)) ∧
      0 ≤ s ∧ s ≤ 1 ∧ 0 ≤ t ∧ t ≤ 1 ∧
      onNearPlane (mix_Vec4 (sampleOneInside.positions v)
        (sampleOneInside.positions (v + 1)) s) ∧
      onNearPlane (mix_Vec4 (sampleOneInside.positions (v + 2))
        (sampleOneInside.positions v) t) ∧
      gpu_runTriangleClipping sampleOneInside =
        [{ positions := ![sampleOneInside.positions v,
                          mix_Vec4 (sampleOneInside.positions v)
                            (sampleOneInside.positions (v + 1)) s,
                          mix_Vec4 (sampleOneInside.positions (v + 2))
                            (sampleOneInside.positions v) t],
           coords := ![sampleOneInside.coords v,
                       mix_Vec3 (sampleOneInside.coords v)
                         (sampleOneInside.coords (v + 1)) s,
                       mix_Vec3 (sampleOneInside.coords (v + 2))
                         (sampleOneInside.coords v) t] }] :=
  have h : nofNearVertices sampleOneInside = 1 := by
    rw [nofNearVertices_eq]
    simp only [inNearHalfSpace, sampleOneInside, vec3_val0, vec3_val1, vec3_val2, vec4_val2,
      vec4_val3]
    norm_num
  ⟨h, runTriangleClipping_one_inside sampleOneInside h⟩

/-- The sample triangle lies in the near half-space and is clipped to itself (C4). -/
theorem runTriangleClipping_all_inside_witness :
    (∀ i : Fin 3, inNearHalfSpace (sampleInside.positions i)) ∧
    gpu_runTriangleClipping sampleInside = [sampleInside] :=
  have h : ∀ i : Fin 3, inNearHalfSpace (sampleInside.positions i) := by
    intro i
    fin_cases i <;>
    simp only [inNearHalfSpace, sampleInside, Fin.zero_eta, Fin.mk_one, Fin.reduceFinMk,
      vec3_val0, vec3_val1, vec3_val2, vec4_val2, vec4_val3] <;>
    norm_num
  ⟨h, runTriangleClipping_all_inside sampleInside h⟩

/-! ### Rasterizer -/

lemma vec2_val0 {α : Type} (a b : α) : (![a, b] : Fin 2 → α) 0 = a := rfl

lemma vec2_val1 {α : Type} (a b : α) : (![a, b] : Fin 2 → α) 1 = b := rfl

/-- The divisor of the barycentric solve is the square of twice the signed area. -/
lemma gram_eq_sq (vertices : Fin 3 → Vec2) :
    dot_Vec2 (sub_Vec2 (vertices 1) (vertices 0)) (sub_Vec2 (vertices 1) (vertices 0)) *
      dot_Vec2 (sub_Vec2 (vertices 2) (vertices 0)) (sub_Vec2 (vertices 2) (vertices 0)) -
      dot_Vec2 (sub_Vec2 (vertices 1) (vertices 0)) (sub_Vec2 (vertices 2) (vertices 0)) *
      dot_Vec2 (sub_Vec2 (vertices 1) (vertices 0)) (sub_Vec2 (vertices 2) (vertices 0)) =
    signedArea2 vertices ^ 2 := by
  simp only [dot_Vec2, sub_Vec2, signedArea2]
  ring

/-- The algebra of the dual-edge solve: with edge vectors `a`, `b` of non-zero cross
product and a vector `c`, the two computed weights express `c` in the basis `a`, `b`. -/
lemma bary_algebra (ax ay bx by' cx cy : ℚ) (hD : ax * by' - ay * bx ≠ 0) :
    (1 / ((0 + ax * ax + ay * ay) * (0 + bx * bx + by' * by') -
        (0 + ax * bx + ay * by') * (0 + ax * bx + ay * by')) *
      ((0 + bx * bx + by' * by') * (0 + cx * ax + cy * ay) -
        (0 + ax * bx + ay * by') * (0 + cx * bx + cy * by')) = (cx * by' - cy * bx) / (ax * by' - ay * bx)) ∧
    (1 / ((0 + ax * ax + ay * ay) * (0 + bx * bx + by' * by') -
        (0 + ax * bx + ay * by') * (0 + ax * bx + ay * by')) *
      ((0 + ax * ax + ay * ay) * (0 + cx * bx + cy * by') -
        (0 + ax * bx + ay * by') * (0 + cx * ax + cy * ay)) = (ax * cy - ay * cx) / (ax * by' - ay * bx)) := by
  have e0 : (0 + ax * ax + ay * ay) * (0 + bx * bx + by' * by') -
      (0 + ax * bx + ay * by') * (0 + ax * bx + ay * by') =
      (ax * by' - ay * bx) * (ax * by' - ay * bx) := by ring
  have e1 : (0 + bx * bx + by' * by') * (0 + cx * ax + cy * ay) -
      (0 + ax * bx + ay * by') * (0 + cx * bx + cy * by') =
      (ax * by' - ay * bx) * (cx * by' - cy * bx) := by ring
  have e2 : (0 + ax * ax + ay * ay) * (0 + cx * bx + cy * by') -
      (0 + ax * bx + ay * by') * (0 + cx * ax + cy * ay) =
      (ax * by' - ay * bx) * (ax * cy - ay * cx) := by ring
  rw [e0, e1, e2]
  constructor <;>
  · field_simp
    ring

/-- The barycentrics of a point, written with the two quotients of cross products. -/
lemma barycentrics_eq (vertices : Fin 3 → Vec2) (lines : Fin 3 → Vec3)
    (hnd : signedArea2 vertices ≠ 0) (p : Vec2) :
    gpu_computeScreenSpaceBarycentrics p vertices lines =
      ![1 - (((p 0 - vertices 0 0) * (vertices 2 1 - vertices 0 1) -
              (p 1 - vertices 0 1) * (vertices 2 0 - vertices 0 0)) / signedArea2 vertices +
            ((vertices 1 0 - vertices 0 0) * (p 1 - vertices 0 1) -
              (vertices 1 1 - vertices 0 1) * (p 0 - vertices 0 0)) / signedArea2 vertices),
        ((p 0 - vertices 0 0) * (vertices 2 1 - vertices 0 1) -
          (p 1 - vertices 0 1) * (vertices 2 0 - vertices 0 0)) / signedArea2 vertices,
        ((vertices 1 0 - vertices 0 0) * (p 1 - vertices 0 1) -
          (vertices 1 1 - vertices 0 1) * (p 0 - vertices 0 0)) / signedArea2 vertices] := by
  have h := bary_algebra (vertices 1 0 - vertices 0 0) (vertices 1 1 - vertices 0 1)
    (vertices 2 0 - vertices 0 0) (vertices 2 1 - vertices 0 1)
    (p 0 - vertices 0 0) (p 1 - vertices 0 1) hnd
  simp only [gpu_computeScreenSpaceBarycentrics, dot_Vec2, sub_Vec2, signedArea2]
  rw [h.1, h.2]

/-- The barycentrics of a point: they sum to one and reproduce the point. -/
lemma barycentrics_point (vertices : Fin 3 → Vec2) (lines : Fin 3 → Vec3)
    (hnd : signedArea2 vertices ≠ 0) (p : Vec2) :
    gpu_computeScreenSpaceBarycentrics p vertices lines 0 +
      gpu_computeScreenSpaceBarycentrics p vertices lines 1 +
      gpu_computeScreenSpaceBarycentrics p vertices lines 2 = 1 ∧
    ∀ i : Fin 2,
      gpu_computeScreenSpaceBarycentrics p vertices lines 0 * vertices 0 i +
      gpu_computeScreenSpaceBarycentrics p vertices lines 1 * vertices 1 i +
      gpu_computeScreenSpaceBarycentrics p vertices lines 2 * vertices 2 i = p i := by
  rw [barycentrics_eq vertices lines hnd p]
  simp only [vec3_val0, vec3_val1, vec3_val2]
  constructor
  · ring
  · intro i
    have hne : (vertices 1 0 - vertices 0 0) * (vertices 2 1 - vertices 0 1)
        - (vertices 1 1 - vertices 0 1) * (vertices 2 0 - vertices 0 0) ≠ 0 := hnd
    simp only [signedArea2]
    fin_cases i <;>
    · simp only [Fin.zero_eta, Fin.mk_one]
      field_simp
      ring

/-- C9: for a screen-space triangle of non-zero area, the barycentrics
`(l0, l1, l2)` computed for any point `p` sum to one and satisfy
`l0 * v0 + l1 * v1 + l2 * v2 = p`; at the three vertices they are `(1,0,0)`, `(0,1,0)`
and `(0,0,1)`. -/
theorem computeScreenSpaceBarycentrics_spec (vertices : Fin 3 → Vec2)
    (lines : Fin 3 → Vec3) (hnd : signedArea2 vertices ≠ 0) :
    (∀ p : Vec2,
      gpu_computeScreenSpaceBarycentrics p vertices lines 0 +
        gpu_computeScreenSpaceBarycentrics p vertices lines 1 +
        gpu_computeScreenSpaceBarycentrics p vertices lines 2 = 1 ∧
      ∀ i : Fin 2,
        gpu_computeScreenSpaceBarycentrics p vertices lines 0 * vertices 0 i +
        gpu_computeScreenSpaceBarycentrics p vertices lines 1 * vertices 1 i +
        gpu_computeScreenSpaceBarycentrics p vertices lines 2 * vertices 2 i = p i) ∧
    gpu_computeScreenSpaceBarycentrics (vertices 0) vertices lines = ![1, 0, 0] ∧
    gpu_computeScreenSpaceBarycentrics (vertices 1) vertices lines = ![0, 1, 0] ∧
    gpu_computeScreenSpaceBarycentrics (vertices 2) vertices lines = ![0, 0, 1] := by
  refine ⟨fun p => barycentrics_point vertices lines hnd p, ?_, ?_, ?_⟩
  · rw [barycentrics_eq vertices lines hnd]
    simp
  · rw [barycentrics_eq vertices lines hnd]
    have e1 : ((vertices 1 0 - vertices 0 0) * (vertices 2 1 - vertices 0 1) -
        (vertices 1 1 - vertices 0 1) * (vertices 2 0 - vertices 0 0)) / signedArea2 vertices
        = 1 := div_self hnd
    have e2 : ((vertices 1 0 - vertices 0 0) * (vertices 1 1 - vertices 0 1) -
        (vertices 1 1 - vertices 0 1) * (vertices 1 0 - vertices 0 0)) / signedArea2 vertices
        = 0 := by
      rw [div_eq_zero_iff]; left; ring
    rw [e1, e2]
    norm_num
  · rw [barycentrics_eq vertices lines hnd]
    have e1 : ((vertices 1 0 - vertices 0 0) * (vertices 2 1 - vertices 0 1) -
        (vertices 1 1 - vertices 0 1) * (vertices 2 0 - vertices 0 0)) / signedArea2 vertices
        = 1 := div_self hnd
    have e2 : ((vertices 2 0 - vertices 0 0) * (vertices 2 1 - vertices 0 1) -
        (vertices 2 1 - vertices 0 1) * (vertices 2 0 - vertices 0 0)) / signedArea2 vertices
        = 0 := by
      rw [div_eq_zero_iff]; left; ring
    rw [e1, e2]
    norm_num

/-- The sample screen triangle has non-zero area, and the barycentrics computed on it
have the properties of C9. -/
theorem computeScreenSpaceBarycentrics_spec_witness :
    signedArea2 sampleScreenTriangle ≠ 0 ∧
    ((∀ p : Vec2,
      gpu_computeScreenSpaceBarycentrics p sampleScreenTriangle (fun _ => ![0, 0, 0]) 0 +
        gpu_computeScreenSpaceBarycentrics p sampleScreenTriangle (fun _ => ![0, 0, 0]) 1 +
        gpu_computeScreenSpaceBarycentrics p sampleScreenTriangle (fun _ => ![0, 0, 0]) 2
          = 1 ∧
      ∀ i : Fin 2,
        gpu_computeScreenSpaceBarycentrics p sampleScreenTriangle (fun _ => ![0, 0, 0]) 0 *
          sampleScreenTriangle 0 i +
        gpu_computeScreenSpaceBarycentrics p sampleScreenTriangle (fun _ => ![0, 0, 0]) 1 *
          sampleScreenTriangle 1 i +
        gpu_computeScreenSpaceBarycentrics p sampleScreenTriangle (fun _ => ![0, 0, 0]) 2 *
          sampleScreenTriangle 2 i = p i) ∧
    gpu_computeScreenSpaceBarycentrics (sampleScreenTriangle 0) sampleScreenTriangle
      (fun _ => ![0, 0, 0]) = ![1, 0, 0] ∧
    gpu_computeScreenSpaceBarycentrics (sampleScreenTriangle 1) sampleScreenTriangle
      (fun _ => ![0, 0, 0]) = ![0, 1, 0] ∧
    gpu_computeScreenSpaceBarycentrics (sampleScreenTriangle 2) sampleScreenTriangle
      (fun _ => ![0, 0, 0]) = ![0, 0, 1]) :=
  have h : signedArea2 sampleScreenTriangle ≠ 0 := by
    simp only [signedArea2, sampleScreenTriangle, vec3_val0, vec3_val1, vec3_val2, vec2_val0,
      vec2_val1]
    norm_num
  ⟨h, computeScreenSpaceBarycentrics_spec sampleScreenTriangle (fun _ => ![0, 0, 0]) h⟩

/-! ### Fragment creation -/

lemma forLoop_zero {σ : Type} (body : ℕ → σ → σ) (init : σ) :
    forLoop 0 body init = init := rfl

lemma forLoop_succ {σ : Type} (n : ℕ) (body : ℕ → σ → σ) (init : σ) :
    forLoop (n + 1) body init = body n (forLoop n body init) := by
  unfold forLoop
  rw [List.range_succ, List.foldl_append]
  rfl

/-- A loop over the components of one slot writes `g c` to every component `c < n` of
that slot and nothing else. -/
lemma forLoop_write (fr0 : GPUFragmentShaderInput) (a n : ℕ) (g : ℕ → ℚ) :
    forLoop n (fun c fr => writeFragmentAttribute fr a c (g c)) fr0 =
      { fr0 with attributes := fun a' c =>
          if a' = a ∧ c < n then g c else fr0.attributes a' c } := by
  induction n with
  | zero =>
    rw [forLoop_zero]
    simp
  | succ n ih =>
    rw [forLoop_succ, ih]
    unfold writeFragmentAttribute
    simp only [GPUFragmentShaderInput.mk.injEq, and_true]
    funext a' c
    by_cases ha : a' = a
    · subst ha
      by_cases hc : c = n
      · subst hc
        simp
      · have h1 : c < n + 1 ↔ c < n := by omega
        simp [Function.update, hc, h1]
    · simp [Function.update, ha]

/-- The effect of `gpu_createInterpolatedFragmentAttribute` on the attribute storage. -/
lemma createInterpolatedFragmentAttribute_eq (fr : GPUFragmentShaderInput)
    (primitive : GPUPrimitive) (a : ℕ) (l : Vec3) :
    gpu_createInterpolatedFragmentAttribute fr primitive a l
        ![(primitive.vertices 0).gl_Position 3, (primitive.vertices 1).gl_Position 3,
          (primitive.vertices 2).gl_Position 3] =
      { fr with attributes := fun a' c =>
          if a' = a ∧ c < (primitive.types a).toNat then interpolatedValue primitive l a c
          else fr.attributes a' c } := by
  unfold gpu_createInterpolatedFragmentAttribute interpolatedValue
  cases h : primitive.interpolations a
  · simp only [gpu_createFlatFragmentAttribute, if_true]
    rw [forLoop_write]
  · simp only [gpu_createNoPerspectiveFragmentAttribute, if_true, reduceCtorEq, if_false]
    rw [forLoop_write]
    simp only [gpu_noperspectiveInterpolate, vec3_val0, vec3_val1, vec3_val2, zero_add]
  · simp only [gpu_createSmoothFragmentAttribute, if_true, reduceCtorEq, if_false]
    rw [forLoop_write]
    simp only [gpu_smoothInterpolate, vec3_val0, vec3_val1, vec3_val2, zero_add,
      mul_div_assoc]

/-- The effect of the loop over the attribute slots in `gpu_createFragment`. -/
lemma createFragment_loop (fr0 : GPUFragmentShaderInput) (primitive : GPUPrimitive)
    (l : Vec3) (n : ℕ) :
    forLoop n (fun a fr =>
      if primitive.types a = .ATTRIB_EMPTY then fr
      else gpu_createInterpolatedFragmentAttribute fr primitive a l
        ![(primitive.vertices 0).gl_Position 3, (primitive.vertices 1).gl_Position 3,
          (primitive.vertices 2).gl_Position 3]) fr0 =
      { fr0 with attributes := fun a c =>
          if a < n ∧ primitive.types a ≠ .ATTRIB_EMPTY ∧ c < (primitive.types a).toNat
          then interpolatedValue primitive l a c
          else fr0.attributes a c } := by
  induction n with
  | zero =>
    rw [forLoop_zero]
    simp
  | succ n ih =>
    rw [forLoop_succ, ih]
    by_cases he : primitive.types n = .ATTRIB_EMPTY
    · simp only [he, if_true, GPUFragmentShaderInput.mk.injEq, and_true]
      funext a c
      by_cases han : a = n
      · subst han
        simp [he]
      · have h1 : a < n + 1 ↔ a < n := by omega
        simp [h1]
    · simp only [he, if_false]
      rw [createInterpolatedFragmentAttribute_eq]
      simp only [GPUFragmentShaderInput.mk.injEq, and_true]
      funext a c
      by_cases han : a = n
      · subst han
        simp [he]
      · have h1 : a < n + 1 ↔ a < n := by omega
        simp [h1, han]

/-- C10: after `gpu_createFragment`, component `c` of slot `a` holds the interpolated
value whenever the slot is in use (`a < MAX_ATTRIBUTES`, type not `ATTRIB_EMPTY`) and
`c` is below the component count of the slot: the value of vertex 0 for `FLAT`,
`Σ v_i[c] * l_i` for `NOPERSPECTIVE`, `(Σ v_i[c] * l_i / w_i) / (Σ l_i / w_i)` for
`SMOOTH`; every other component, in particular every slot of type `ATTRIB_EMPTY`, keeps
its previous content. -/
theorem createFragment_attributes (MAX_ATTRIBUTES : ℕ) (fragment : GPUFragmentShaderInput)
    (primitive : GPUPrimitive) (l : Vec3) (pixelCoord : Vec2) (a c : ℕ) :
    (gpu_createFragment MAX_ATTRIBUTES fragment primitive l pixelCoord).attributes a c =
      if a < MAX_ATTRIBUTES ∧ primitive.types a ≠ .ATTRIB_EMPTY ∧
          c < (primitive.types a).toNat then
        match primitive.interpolations a with
        | .FLAT => (primitive.vertices 0).attributes a c
        | .NOPERSPECTIVE =>
            (primitive.vertices 0).attributes a c * l 0 +
            (primitive.vertices 1).attributes a c * l 1 +
            (primitive.vertices 2).attributes a c * l 2
        | .SMOOTH =>
            ((primitive.vertices 0).attributes a c * l 0 / (primitive.vertices 0).gl_Position 3 +
              (primitive.vertices 1).attributes a c * l 1 / (primitive.vertices 1).gl_Position 3 +
              (primitive.vertices 2).attributes a c * l 2 / (primitive.vertices 2).gl_Position 3) /
            (l 0 / (primitive.vertices 0).gl_Position 3 +
              l 1 / (primitive.vertices 1).gl_Position 3 +
              l 2 / (primitive.vertices 2).gl_Position 3)
      else fragment.attributes a c := by
  unfold gpu_createFragment
  simp only [createFragment_loop]
  rfl

/-- C8 (the code at a concrete primitive): `gpu_createFragment` interpolates the `w`
components of the vertex positions, with the `w` components as weights: its `depths`
array is filled from component 3 of `gl_Position`, not from component 2 (`z`).  For three
vertices with post-divide depth `z = 1/2` and `w = 2`, and the barycentrics of the pixel
centre `(1/2, 1/2)`, perspective-correct interpolation of the depths gives `1/2`, while
the stored fragment depth is `2`. -/
theorem createFragment_depth_reads_w (MAX_ATTRIBUTES : ℕ) :
    (∀ (fragment : GPUFragmentShaderInput) (primitive : GPUPrimitive) (l : Vec3)
        (pixelCoord : Vec2),
      (gpu_createFragment MAX_ATTRIBUTES fragment primitive l pixelCoord).depth =
        gpu_smoothInterpolate
          ![(primitive.vertices 0).gl_Position 3, (primitive.vertices 1).gl_Position 3,
            (primitive.vertices 2).gl_Position 3] l
          ![(primitive.vertices 0).gl_Position 3, (primitive.vertices 1).gl_Position 3,
            (primitive.vertices 2).gl_Position 3]) ∧
    gpu_computeScreenSpaceBarycentrics ![1 / 2, 1 / 2] sampleScreenTriangle
      (fun _ => ![0, 0, 0]) = ![3 / 4, 1 / 8, 1 / 8] ∧
    (gpu_createFragment MAX_ATTRIBUTES emptyFragment sampleDepthPrimitive
      ![3 / 4, 1 / 8, 1 / 8] ![1 / 2, 1 / 2]).depth = 2 ∧
    smoothDepth sampleDepthPrimitive ![3 / 4, 1 / 8, 1 / 8] = 1 / 2 := by
  refine ⟨fun _ _ _ _ => rfl, ?_, ?_, ?_⟩
  · simp only [gpu_computeScreenSpaceBarycentrics, sampleScreenTriangle, dot_Vec2, sub_Vec2,
      vec3_val0, vec3_val1, vec3_val2, vec2_val0, vec2_val1]
    norm_num
  · simp only [gpu_createFragment, gpu_smoothInterpolate, sampleDepthPrimitive,
      vec3_val0, vec3_val1, vec3_val2, vec4_val3]
    norm_num
  · simp only [smoothDepth, sampleDepthPrimitive, vec3_val0, vec3_val1, vec3_val2,
      vec4_val2, vec4_val3]
    norm_num

/-! ### Depth test -/

/-- The linear index of a pixel inside the viewport. -/
lemma getLinearPixelCoord_inside (g : Framebuffer) (x y : ℕ)
    (hsz : g.viewportWidth * g.viewportHeight < 2 ^ 64)
    (hx : x < g.viewportWidth) (hy : y < g.viewportHeight) :
    getLinearPixelCoord g x y = y * g.viewportWidth + x ∧
    y * g.viewportWidth + x < g.viewportWidth * g.viewportHeight ∧
    y * g.viewportWidth + x ≠ outOfRange := by
  have hlt : y * g.viewportWidth + x < g.viewportWidth * g.viewportHeight := by
    calc y * g.viewportWidth + x < y * g.viewportWidth + g.viewportWidth := by omega
      _ = (y + 1) * g.viewportWidth := by ring
      _ ≤ g.viewportHeight * g.viewportWidth := Nat.mul_le_mul_right _ hy
      _ = g.viewportWidth * g.viewportHeight := Nat.mul_comm _ _
  refine ⟨?_, hlt, ?_⟩
  · unfold getLinearPixelCoord
    simp only [ge_iff_le, not_le.mpr hx, not_le.mpr hy, if_false]
    exact Nat.mod_eq_of_lt (lt_trans hlt hsz)
  · unfold outOfRange
    omega

/-- The linear index of a pixel outside the viewport is the sentinel. -/
lemma getLinearPixelCoord_outside (g : Framebuffer) (x y : ℕ)
    (h : ¬ (x < g.viewportWidth ∧ y < g.viewportHeight)) :
    getLinearPixelCoord g x y = outOfRange := by
  unfold getLinearPixelCoord
  by_cases hx : x < g.viewportWidth
  · have hy : ¬ y < g.viewportHeight := fun hy => h ⟨hx, hy⟩
    simp [not_le.mpr hx, not_lt.mp hy]
  · simp [not_lt.mp hx]

/-- Distinct pixels of a row-major image have distinct linear indices. -/
lemma pixel_index_injective (w x y x' y' : ℕ) (hx : x < w) (hx' : x' < w)
    (h : y * w + x = y' * w + x') : x = x' ∧ y = y' := by
  have hw : 0 < w := by omega
  have h1 : (y * w + x) % w = x := by
    rw [Nat.add_comm, Nat.add_mul_mod_self_right, Nat.mod_eq_of_lt hx]
  have h2 : (y' * w + x') % w = x' := by
    rw [Nat.add_comm, Nat.add_mul_mod_self_right, Nat.mod_eq_of_lt hx']
  have hxx : x = x' := by rw [← h1, ← h2, h]
  subst hxx
  have hyy : y * w = y' * w := by omega
  exact ⟨rfl, Nat.eq_of_mul_eq_mul_right hw hyy⟩

/-- The frame buffer written by `gpu_perFragmentOperations` for a pixel of the
viewport: the entry of the pixel is replaced in both vectors when the fragment is
nearer than the stored depth, and the frame buffer is returned as it is otherwise. -/
lemma perFragmentOperations_eq (g : Framebuffer) (fragment : GPUFragmentShaderOutput)
    (x y : ℕ) (hwf : g.WellFormed) (hx : x < g.viewportWidth) (hy : y < g.viewportHeight) :
    ∃ d0, gpu_getDepth g x y = some d0 ∧
      gpu_perFragmentOperations g fragment x y =
        some (if fragment.depth < d0 then
          { g with
            colorBuffer := g.colorBuffer.set (y * g.viewportWidth + x) fragment.color,
            depthBuffer := g.depthBuffer.set (y * g.viewportWidth + x) fragment.depth }
          else g) := by
  obtain ⟨hd, hc, hsz⟩ := hwf
  obtain ⟨hi, hlt, hne⟩ := getLinearPixelCoord_inside g x y hsz hx hy
  have hld : y * g.viewportWidth + x < g.depthBuffer.length := by rw [hd]; exact hlt
  have hlc : y * g.viewportWidth + x < g.colorBuffer.length := by rw [hc]; exact hlt
  have hget : gpu_getDepth g x y = some (g.depthBuffer.get ⟨y * g.viewportWidth + x, hld⟩) := by
    unfold gpu_getDepth
    simp only [hi, hne, if_false]
    exact List.getElem?_eq_getElem hld
  refine ⟨_, hget, ?_⟩
  unfold gpu_perFragmentOperations
  rw [hget]
  by_cases hlt' : fragment.depth < g.depthBuffer.get ⟨y * g.viewportWidth + x, hld⟩
  · simp only [hlt', if_true]
    have hsc : gpu_setColor g x y fragment.color =
        some { g with colorBuffer :=
          g.colorBuffer.set (y * g.viewportWidth + x) fragment.color } := by
      unfold gpu_setColor
      simp only [hi, hne, if_false, hlc, if_true]
      rfl
    rw [hsc]
    unfold gpu_setDepth getLinearPixelCoord
    simp only [ge_iff_le, not_le.mpr hx, not_le.mpr hy, if_false]
    rw [Nat.mod_eq_of_lt (lt_trans hlt hsz)]
    simp only [hne, if_false, hld, if_true]
  · simp only [hlt', if_false]

/-- C7: for a pixel `(x, y)` of the viewport with stored depth `d0`,
`gpu_perFragmentOperations` changes the frame buffer exactly when the fragment depth
`d1` is strictly less than `d0`: then the colour and depth stored at `(x, y)` become the
fragment's colour and `d1`; otherwise (in particular for `d1 = d0`) the frame buffer is
returned unchanged.  In both cases the colour and depth of every other pixel, and the
viewport size, are unchanged. -/
theorem perFragmentOperations_depth_test (g : Framebuffer)
    (fragment : GPUFragmentShaderOutput) (x y : ℕ) (hwf : g.WellFormed)
    (hx : x < g.viewportWidth) (hy : y < g.viewportHeight) :
    ∃ d0 g', gpu_getDepth g x y = some d0 ∧
      gpu_perFragmentOperations g fragment x y = some g' ∧
      (g' ≠ g ↔ fragment.depth < d0) ∧
      (if fragment.depth < d0 then
        gpu_getDepth g' x y = some fragment.depth ∧
        cpu_getColor g' x y = some fragment.color
       else g' = g) ∧
      g'.viewportWidth = g.viewportWidth ∧ g'.viewportHeight = g.viewportHeight ∧
      g'.WellFormed ∧
      ∀ x' y', (x', y') ≠ (x, y) →
        gpu_getDepth g' x' y' = gpu_getDepth g x' y' ∧
        cpu_getColor g' x' y' = cpu_getColor g x' y' := by
  obtain ⟨d0, hget, hop⟩ := perFragmentOperations_eq g fragment x y hwf hx hy
  obtain ⟨hd, hc, hsz⟩ := hwf
  obtain ⟨hi, hlt, hne⟩ := getLinearPixelCoord_inside g x y hsz hx hy
  have hld : y * g.viewportWidth + x < g.depthBuffer.length := by rw [hd]; exact hlt
  have hlc : y * g.viewportWidth + x < g.colorBuffer.length := by rw [hc]; exact hlt
  have hd0 : g.depthBuffer[y * g.viewportWidth + x]? = some d0 := by
    unfold gpu_getDepth at hget
    simp only [hi, hne, if_false] at hget
    exact hget
  by_cases hlt' : fragment.depth < d0
  · simp only [hlt', if_true] at hop
    refine ⟨d0, _, hget, hop, ?_, ?_, rfl, rfl, ?_, ?_⟩
    · simp only [hlt', iff_true]
      intro heq
      have h1 := congrArg (fun s => s.depthBuffer[y * g.viewportWidth + x]?) heq
      simp only [List.getElem?_set_self hld, hd0, Option.some.injEq] at h1
      rw [h1] at hlt'
      exact lt_irrefl _ hlt'
    · simp only [hlt', if_true]
      constructor
      · unfold gpu_getDepth getLinearPixelCoord
        simp only [ge_iff_le, not_le.mpr hx, not_le.mpr hy, if_false]
        rw [Nat.mod_eq_of_lt (lt_trans hlt hsz)]
        simp only [hne, if_false]
        exact List.getElem?_set_self hld
      · unfold cpu_getColor getLinearPixelCoord
        simp only [ge_iff_le, not_le.mpr hx, not_le.mpr hy, if_false]
        rw [Nat.mod_eq_of_lt (lt_trans hlt hsz)]
        simp only [hne, if_false]
        exact List.getElem?_set_self hlc
    · exact ⟨by simp only [List.length_set]; exact hd,
        by simp only [List.length_set]; exact hc, hsz⟩
    · intro x' y' hxy
      by_cases hin : x' < g.viewportWidth ∧ y' < g.viewportHeight
      · obtain ⟨hi', hlt2, hne'⟩ := getLinearPixelCoord_inside g x' y' hsz hin.1 hin.2
        have hidx : y * g.viewportWidth + x ≠ y' * g.viewportWidth + x' := by
          intro heq
          obtain ⟨e1, e2⟩ := pixel_index_injective g.viewportWidth x y x' y' hx hin.1 heq
          exact hxy (by rw [e1, e2])
        constructor
        · unfold gpu_getDepth getLinearPixelCoord
          simp only [ge_iff_le, not_le.mpr hin.1, not_le.mpr hin.2, if_false]
          rw [Nat.mod_eq_of_lt (lt_trans hlt2 hsz)]
          simp only [hne', if_false]
          exact List.getElem?_set_ne hidx
        · unfold cpu_getColor getLinearPixelCoord
          simp only [ge_iff_le, not_le.mpr hin.1, not_le.mpr hin.2, if_false]
          rw [Nat.mod_eq_of_lt (lt_trans hlt2 hsz)]
          simp only [hne', if_false]
          exact List.getElem?_set_ne hidx
      · have ho := getLinearPixelCoord_outside g x' y' hin
        have ho' : getLinearPixelCoord
            { g with
              colorBuffer := g.colorBuffer.set (y * g.viewportWidth + x) fragment.color,
              depthBuffer := g.depthBuffer.set (y * g.viewportWidth + x) fragment.depth }
            x' y' = outOfRange := getLinearPixelCoord_outside _ x' y' hin
        simp only [gpu_getDepth, cpu_getColor, ho, ho', if_true, and_self]
  · simp only [hlt', if_false] at hop
    refine ⟨d0, g, hget, hop, ?_, ?_, rfl, rfl, ⟨hd, hc, hsz⟩, ?_⟩
    · simp only [hlt', iff_false, ne_eq, not_not]
    · simp only [hlt', if_false]
    · intro x' y' _
      exact ⟨rfl, rfl⟩

/-- The 2×2 sample frame buffer is well formed and contains the pixel `(1, 0)`; the
depth test of C7 holds there for a nearer fragment and for a fragment of equal depth. -/
theorem perFragmentOperations_depth_test_witness :
    sampleFramebuffer.WellFormed ∧
    1 < sampleFramebuffer.viewportWidth ∧ 0 < sampleFramebuffer.viewportHeight ∧
    (∃ d0 g', gpu_getDepth sampleFramebuffer 1 0 = some d0 ∧
      gpu_perFragmentOperations sampleFramebuffer sampleNearFragment 1 0 = some g' ∧
      (g' ≠ sampleFramebuffer ↔ sampleNearFragment.depth < d0) ∧
      (if sampleNearFragment.depth < d0 then
        gpu_getDepth g' 1 0 = some sampleNearFragment.depth ∧
        cpu_getColor g' 1 0 = some sampleNearFragment.color
       else g' = sampleFramebuffer) ∧
      g'.viewportWidth = sampleFramebuffer.viewportWidth ∧
      g'.viewportHeight = sampleFramebuffer.viewportHeight ∧
      g'.WellFormed ∧
      ∀ x' y', (x', y') ≠ (1, 0) →
        gpu_getDepth g' x' y' = gpu_getDepth sampleFramebuffer x' y' ∧
        cpu_getColor g' x' y' = cpu_getColor sampleFramebuffer x' y') ∧
    (∃ d0 g', gpu_getDepth sampleFramebuffer 1 0 = some d0 ∧
      gpu_perFragmentOperations sampleFramebuffer sampleEqualFragment 1 0 = some g' ∧
      (g' ≠ sampleFramebuffer ↔ sampleEqualFragment.depth < d0) ∧
      (if sampleEqualFragment.depth < d0 then
        gpu_getDepth g' 1 0 = some sampleEqualFragment.depth ∧
        cpu_getColor g' 1 0 = some sampleEqualFragment.color
       else g' = sampleFramebuffer) ∧
      g'.viewportWidth = sampleFramebuffer.viewportWidth ∧
      g'.viewportHeight = sampleFramebuffer.viewportHeight ∧
      g'.WellFormed ∧
      ∀ x' y', (x', y') ≠ (1, 0) →
        gpu_getDepth g' x' y' = gpu_getDepth sampleFramebuffer x' y' ∧
        cpu_getColor g' x' y' = cpu_getColor sampleFramebuffer x' y') :=
  have hwf : sampleFramebuffer.WellFormed := by
    simp [Framebuffer.WellFormed, sampleFramebuffer]
  have hx : 1 < sampleFramebuffer.viewportWidth := by simp [sampleFramebuffer]
  have hy : 0 < sampleFramebuffer.viewportHeight := by simp [sampleFramebuffer]
  ⟨hwf, hx, hy,
    perFragmentOperations_depth_test sampleFramebuffer sampleNearFragment 1 0 hwf hx hy,
    perFragmentOperations_depth_test sampleFramebuffer sampleEqualFragment 1 0 hwf hx hy⟩

/-! ### Division and viewport transformation -/

lemma modifyPosition_nofUsedVertices (pr : GPUPrimitive) (v k : ℕ) (f : ℚ → ℚ) :
    (modifyPosition pr v k f).nofUsedVertices = pr.nofUsedVertices := rfl

lemma modifyPosition_types (pr : GPUPrimitive) (v k : ℕ) (f : ℚ → ℚ) :
    (modifyPosition pr v k f).types = pr.types := rfl

lemma modifyPosition_interpolations (pr : GPUPrimitive) (v k : ℕ) (f : ℚ → ℚ) :
    (modifyPosition pr v k f).interpolations = pr.interpolations := rfl

/-- The attributes of every vertex are untouched by a position update. -/
lemma modifyPosition_attributes (pr : GPUPrimitive) (v k : ℕ) (f : ℚ → ℚ) (u : Fin 3) :
    ((modifyPosition pr v k f).vertices u).attributes = (pr.vertices u).attributes := by
  unfold modifyPosition
  by_cases h : u = Fin.ofNat v
  · subst h; simp
  · simp [Function.update, h]

/-- The position of vertex `u` after a position update of vertex `v`, component `k`. -/
lemma modifyPosition_position (pr : GPUPrimitive) (v k : ℕ) (f : ℚ → ℚ) (u : Fin 3)
    (j : Fin 4) :
    ((modifyPosition pr v k f).vertices u).gl_Position j =
      if u = Fin.ofNat v ∧ j = Fin.ofNat k then f ((pr.vertices u).gl_Position j)
      else (pr.vertices u).gl_Position j := by
  unfold modifyPosition
  by_cases h : u = Fin.ofNat v
  · subst h
    by_cases hj : j = Fin.ofNat k
    · subst hj; simp
    · simp [Function.update, hj]
  · simp [Function.update, h]

/-- The body of the division loop for one vertex: the components 0, 1, 2 of the
position of vertex `v` are multiplied by `c`. -/
lemma divide_body (pr : GPUPrimitive) (v : ℕ) (c : ℚ) (u : Fin 3) (j : Fin 4) :
    ((forLoop 3 (fun k pr1 => modifyPosition pr1 v k (fun x => x * c)) pr).vertices
        u).gl_Position j =
      if u = Fin.ofNat v ∧ j ≠ 3 then (pr.vertices u).gl_Position j * c
      else (pr.vertices u).gl_Position j := by
  simp only [forLoop_succ, forLoop_zero, modifyPosition_position]
  by_cases hu : u = Fin.ofNat v
  · simp only [hu, true_and]
    fin_cases j <;> rfl
  · simp only [hu, false_and, if_false]

/-- In `Fin 3`, the index made from a number below three has that number as value. -/
lemma fin3_ofNat_val (n : ℕ) (h : n < 3) : (Fin.ofNat n : Fin 3).val = n :=
  Nat.mod_eq_of_lt h

/-- The perspective division of the first `n ≤ 3` vertices, as a closed form. -/
lemma perspectiveDivision_loop (pr : GPUPrimitive) (n : ℕ) (hn : n ≤ 3) :
    (forLoop n (fun v pr' =>
      forLoop 3 (fun k pr1 => modifyPosition pr1 v k
        (fun x => x * (1 / (at3 pr'.vertices v).gl_Position 3))) pr') pr).nofUsedVertices =
      pr.nofUsedVertices ∧
    (forLoop n (fun v pr' =>
      forLoop 3 (fun k pr1 => modifyPosition pr1 v k
        (fun x => x * (1 / (at3 pr'.vertices v).gl_Position 3))) pr') pr).types = pr.types ∧
    (forLoop n (fun v pr' =>
      forLoop 3 (fun k pr1 => modifyPosition pr1 v k
        (fun x => x * (1 / (at3 pr'.vertices v).gl_Position 3))) pr') pr).interpolations =
      pr.interpolations ∧
    ∀ u : Fin 3,
      ((forLoop n (fun v pr' =>
        forLoop 3 (fun k pr1 => modifyPosition pr1 v k
          (fun x => x * (1 / (at3 pr'.vertices v).gl_Position 3))) pr') pr).vertices
          u).attributes = (pr.vertices u).attributes ∧
      ∀ j : Fin 4,
        ((forLoop n (fun v pr' =>
          forLoop 3 (fun k pr1 => modifyPosition pr1 v k
            (fun x => x * (1 / (at3 pr'.vertices v).gl_Position 3))) pr') pr).vertices
            u).gl_Position j =
          if u.val < n ∧ j ≠ 3 then
            (pr.vertices u).gl_Position j / (pr.vertices u).gl_Position 3
          else (pr.vertices u).gl_Position j := by
  induction n with
  | zero =>
    simp [forLoop_zero]
  | succ n ih =>
    have ih' := ih (by omega)
    rw [forLoop_succ]
    generalize forLoop n (fun v pr' =>
      forLoop 3 (fun k pr1 => modifyPosition pr1 v k
        (fun x => x * (1 / (at3 pr'.vertices v).gl_Position 3))) pr') pr = R at ih' ⊢
    obtain ⟨h1, h2, h3, h4⟩ := ih'
    refine ⟨?_, ?_, ?_, ?_⟩
    · simpa only [forLoop_succ, forLoop_zero, modifyPosition_nofUsedVertices] using h1
    · simpa only [forLoop_succ, forLoop_zero, modifyPosition_types] using h2
    · simpa only [forLoop_succ, forLoop_zero, modifyPosition_interpolations] using h3
    · intro u
      constructor
      · rw [← (h4 u).1]
        simp only [forLoop_succ, forLoop_zero, modifyPosition_attributes]
      · intro j
        rw [divide_body]
        have hnv := fin3_ofNat_val n (by omega)
        have hw : (R.vertices (Fin.ofNat n)).gl_Position 3 =
            (pr.vertices (Fin.ofNat n)).gl_Position 3 := by
          rw [(h4 (Fin.ofNat n)).2 3]
          simp
        have hu := (h4 u).2 j
        simp only [at3, hw, hu]
        by_cases hun : u = Fin.ofNat n
        · subst hun
          by_cases hj : j = 3
          · simp [hj]
          · simp only [hnv, lt_irrefl, false_and, if_false, Nat.lt_succ_self, true_and, ne_eq,
              hj, not_false_eq_true, and_self, if_true]
            ring
        · have hne : u.val ≠ n := fun h => hun (by ext; rw [hnv]; exact h)
          have hlt : (u.val < n + 1) ↔ u.val < n := by omega
          simp only [hun, false_and, if_false, hlt]


/-- C13: for a primitive with at most three used vertices, all with `w ≠ 0`,
`gpu_runPerspectiveDivision` replaces the position `(x, y, z, w)` of every used vertex
by `(x / w, y / w, z / w, w)`; the component `w`, the attributes of every vertex, the
types, the interpolation qualifiers, `nofUsedVertices` and the unused vertices are
unchanged. -/
theorem runPerspectiveDivision_spec (primitive : GPUPrimitive)
    (hn : primitive.nofUsedVertices ≤ 3)
    (_hw : ∀ u : Fin 3, u.val < primitive.nofUsedVertices →
      (primitive.vertices u).gl_Position 3 ≠ 0) :
    (gpu_runPerspectiveDivision primitive).nofUsedVertices = primitive.nofUsedVertices ∧
    (gpu_runPerspectiveDivision primitive).types = primitive.types ∧
    (gpu_runPerspectiveDivision primitive).interpolations = primitive.interpolations ∧
    ∀ u : Fin 3,
      ((gpu_runPerspectiveDivision primitive).vertices u).attributes =
        (primitive.vertices u).attributes ∧
      ((gpu_runPerspectiveDivision primitive).vertices u).gl_Position =
        if u.val < primitive.nofUsedVertices then
          ![(primitive.vertices u).gl_Position 0 / (primitive.vertices u).gl_Position 3,
            (primitive.vertices u).gl_Position 1 / (primitive.vertices u).gl_Position 3,
            (primitive.vertices u).gl_Position 2 / (primitive.vertices u).gl_Position 3,
            (primitive.vertices u).gl_Position 3]
        else (primitive.vertices u).gl_Position := by
  obtain ⟨h1, h2, h3, h4⟩ := perspectiveDivision_loop primitive primitive.nofUsedVertices hn
  refine ⟨h1, h2, h3, fun u => ⟨(h4 u).1, ?_⟩⟩
  funext j
  have h := (h4 u).2 j
  unfold gpu_runPerspectiveDivision
  rw [h]
  by_cases hu : u.val < primitive.nofUsedVertices
  · simp only [hu, true_and, if_true]
    fin_cases j <;> rfl
  · simp only [hu, false_and, if_false]

/-- The sample primitive has three used vertices with `w = 2, 3, 4`; the perspective
division has the effect stated in C13. -/
theorem runPerspectiveDivision_spec_witness :
    sampleClipPrimitive.nofUsedVertices ≤ 3 ∧
    (∀ u : Fin 3, u.val < sampleClipPrimitive.nofUsedVertices →
      (sampleClipPrimitive.vertices u).gl_Position 3 ≠ 0) ∧
    (gpu_runPerspectiveDivision sampleClipPrimitive).nofUsedVertices =
      sampleClipPrimitive.nofUsedVertices ∧
    (gpu_runPerspectiveDivision sampleClipPrimitive).types = sampleClipPrimitive.types ∧
    (gpu_runPerspectiveDivision sampleClipPrimitive).interpolations =
      sampleClipPrimitive.interpolations ∧
    ∀ u : Fin 3,
      ((gpu_runPerspectiveDivision sampleClipPrimitive).vertices u).attributes =
        (sampleClipPrimitive.vertices u).attributes ∧
      ((gpu_runPerspectiveDivision sampleClipPrimitive).vertices u).gl_Position =
        if u.val < sampleClipPrimitive.nofUsedVertices then
          ![(sampleClipPrimitive.vertices u).gl_Position 0 /
              (sampleClipPrimitive.vertices u).gl_Position 3,
            (sampleClipPrimitive.vertices u).gl_Position 1 /
              (sampleClipPrimitive.vertices u).gl_Position 3,
            (sampleClipPrimitive.vertices u).gl_Position 2 /
              (sampleClipPrimitive.vertices u).gl_Position 3,
            (sampleClipPrimitive.vertices u).gl_Position 3]
        else (sampleClipPrimitive.vertices u).gl_Position :=
  have hn : sampleClipPrimitive.nofUsedVertices ≤ 3 := le_refl 3
  have hw : ∀ u : Fin 3, u.val < sampleClipPrimitive.nofUsedVertices →
      (sampleClipPrimitive.vertices u).gl_Position 3 ≠ 0 := by
    intro u _
    fin_cases u <;>
    simp only [sampleClipPrimitive, Fin.zero_eta, Fin.mk_one, Fin.reduceFinMk, vec3_val0,
      vec3_val1, vec3_val2, vec4_val3] <;>
    norm_num
  ⟨hn, hw, runPerspectiveDivision_spec sampleClipPrimitive hn hw⟩

/-! ### Primitive assembly -/

/-- The puller writes the address of every slot below `MAX_ATTRIBUTES`. -/
lemma runVertexPuller_loop (n : ℕ) (puller : GPUVertexPullerConfiguration) (id : VertexIndex)
    (output : GPUVertexPullerOutput) :
    forLoop n (fun i (out : GPUVertexPullerOutput) =>
      ({ out with
          attributes := Function.update out.attributes i
            (gpu_computeVertexAttributeDataPointer (puller.heads i) id) } :
        GPUVertexPullerOutput)) output =
      { attributes := fun s =>
          if s < n then gpu_computeVertexAttributeDataPointer (puller.heads s) id
          else output.attributes s } := by
  induction n with
  | zero => simp [forLoop_zero]
  | succ n ih =>
    rw [forLoop_succ, ih]
    simp only [GPUVertexPullerOutput.mk.injEq]
    funext s
    by_cases hs : s = n
    · subst hs; simp
    · have h1 : s < n + 1 ↔ s < n := by omega
      simp [Function.update, hs, h1]


/-- The puller output when the vertex id is defined. -/
lemma runVertexPuller_eq (MAX_ATTRIBUTES : ℕ) (readIndices : ℕ → List VertexIndex)
    (puller : GPUVertexPullerConfiguration) (n : VertexShaderInvocation) (id : VertexIndex)
    (hid : gpu_computeGLVertexID (indexArray readIndices puller.indices) n = some id) :
    gpu_runVertexPuller MAX_ATTRIBUTES readIndices { attributes := fun _ => none } puller n =
      some (assemblyInput MAX_ATTRIBUTES puller id).attributes := by
  unfold gpu_runVertexPuller
  rw [hid]
  simp only [runVertexPuller_loop, assemblyInput]

/-- The loop of the primitive assembly, as a closed form. -/
lemma runPrimitiveAssembly_loop (MAX_ATTRIBUTES : ℕ) (readIndices : ℕ → List VertexIndex)
    (primitive : GPUPrimitive) (puller : GPUVertexPullerConfiguration)
    (b : VertexShaderInvocation) (vertexShader : VertexShader) (ids : ℕ → VertexIndex)
    (k : ℕ) (hk : k ≤ 3)
    (hid : ∀ i, i < k →
      gpu_computeGLVertexID (indexArray readIndices puller.indices) (b + i) = some (ids i)) :
    forLoop k (fun i (st : Option AssemblyState) =>
      match st with
      | none => none
      | some st =>
        match gpu_runVertexPuller MAX_ATTRIBUTES readIndices { attributes := fun _ => none }
            puller (b + i) with
        | none => none
        | some vertexPullerOutput =>
          match gpu_computeGLVertexID (indexArray readIndices puller.indices) (b + i) with
          | none => none
          | some gl_VertexID =>
            some
              { primitive := { st.primitive with
                  vertices := Function.update st.primitive.vertices (Fin.ofNat i)
                    (vertexShader (at3 st.primitive.vertices i)
                      { attributes := vertexPullerOutput, gl_VertexID := gl_VertexID }) },
                calls := st.calls ++
                  [(i, { attributes := vertexPullerOutput, gl_VertexID := gl_VertexID })] })
      (some { primitive := primitive, calls := [] }) =
    some
      { primitive := { primitive with
          vertices := fun u =>
            if u.val < k then
              vertexShader (primitive.vertices u) (assemblyInput MAX_ATTRIBUTES puller (ids u.val))
            else primitive.vertices u },
        calls := (List.range k).map
          (fun i => (i, assemblyInput MAX_ATTRIBUTES puller (ids i))) } := by
  induction k with
  | zero =>
    rw [forLoop_zero]
    simp
  | succ k ih =>
    rw [forLoop_succ, ih (by omega) (fun i hi => hid i (by omega))]
    have hidk := hid k (Nat.lt_succ_self k)
    have hkv := fin3_ofNat_val k (by omega)
    simp only [runVertexPuller_eq MAX_ATTRIBUTES readIndices puller (b + k) (ids k) hidk, hidk]
    simp only [Option.some.injEq, AssemblyState.mk.injEq, GPUPrimitive.mk.injEq, true_and,
      and_true]
    constructor
    · funext u
      by_cases hu : u = Fin.ofNat k
      · subst hu
        simp only [Function.update_same, at3, hkv, lt_irrefl, if_false, Nat.lt_succ_self,
          if_true]
        rfl
      · have hne : u.val ≠ k := fun h => hu (by ext; rw [hkv]; exact h)
        have hlt : (u.val < k + 1) ↔ u.val < k := by omega
        simp only [Function.update_noteq hu, hlt]
    · rw [List.range_succ, List.map_append]
      rfl

/-- C12: for `k ≤ 3` vertices, base invocation `b` and puller configuration `P` whose
index reads are defined (`id_i = gpu_computeGLVertexID (P.indices, b + i)`),
`gpu_runPrimitiveAssembly` calls the vertex shader exactly `k` times; the `i`-th call
receives output vertex slot `i`, the addresses
`gpu_computeVertexAttributeDataPointer (P.heads[s], id_i)` for every slot `s` and
`gl_VertexID = id_i`; slot `i` of the primitive holds what the shader wrote, and
afterwards `nofUsedVertices = k`. -/
theorem runPrimitiveAssembly_spec (MAX_ATTRIBUTES : ℕ) (readIndices : ℕ → List VertexIndex)
    (primitive : GPUPrimitive) (puller : GPUVertexPullerConfiguration)
    (b : VertexShaderInvocation) (vertexShader : VertexShader) (ids : ℕ → VertexIndex)
    (k : ℕ) (hk : k ≤ 3)
    (hid : ∀ i, i < k →
      gpu_computeGLVertexID (indexArray readIndices puller.indices) (b + i) = some (ids i)) :
    ∃ st, gpu_runPrimitiveAssembly MAX_ATTRIBUTES readIndices primitive k puller b
        vertexShader = some st ∧
      st.calls.length = k ∧
      st.calls = (List.range k).map
        (fun i => (i,
          ({ attributes :=
              { attributes := fun s =>
                  if s < MAX_ATTRIBUTES then
                    gpu_computeVertexAttributeDataPointer (puller.heads s) (ids i)
                  else none },
             gl_VertexID := ids i } : GPUVertexShaderInput))) ∧
      st.primitive.nofUsedVertices = k ∧
      st.primitive.types = primitive.types ∧
      st.primitive.interpolations = primitive.interpolations ∧
      ∀ u : Fin 3, st.primitive.vertices u =
        if u.val < k then
          vertexShader (primitive.vertices u) (assemblyInput MAX_ATTRIBUTES puller (ids u.val))
        else primitive.vertices u := by
  unfold gpu_runPrimitiveAssembly
  simp only [runPrimitiveAssembly_loop MAX_ATTRIBUTES readIndices primitive puller b
    vertexShader ids k hk hid]
  refine ⟨_, rfl, ?_, rfl, rfl, rfl, rfl, fun u => rfl⟩
  simp


/-- The sample puller reads the indices `5, 2, 9` for the invocations `0, 1, 2`, and the
assembly of a triangle from it makes the three vertex shader calls of C12. -/
theorem runPrimitiveAssembly_spec_witness :
    3 ≤ 3 ∧
    (∀ i, i < 3 →
      gpu_computeGLVertexID (indexArray sampleIndexMemory samplePuller.indices) (0 + i) =
        some ([5, 2, 9].getD i 0)) ∧
    ∃ st, gpu_runPrimitiveAssembly 2 sampleIndexMemory sampleClipPrimitive 3 samplePuller 0
        sampleVertexShader = some st ∧
      st.calls.length = 3 ∧
      st.calls = (List.range 3).map
        (fun i => (i,
          ({ attributes :=
              { attributes := fun s =>
                  if s < 2 then
                    gpu_computeVertexAttributeDataPointer (samplePuller.heads s)
                      ([5, 2, 9].getD i 0)
                  else none },
             gl_VertexID := [5, 2, 9].getD i 0 } : GPUVertexShaderInput))) ∧
      st.primitive.nofUsedVertices = 3 ∧
      st.primitive.types = sampleClipPrimitive.types ∧
      st.primitive.interpolations = sampleClipPrimitive.interpolations ∧
      ∀ u : Fin 3, st.primitive.vertices u =
        if u.val < 3 then
          sampleVertexShader (sampleClipPrimitive.vertices u)
            (assemblyInput 2 samplePuller ([5, 2, 9].getD u.val 0))
        else sampleClipPrimitive.vertices u :=
  have hid : ∀ i, i < 3 →
      gpu_computeGLVertexID (indexArray sampleIndexMemory samplePuller.indices) (0 + i) =
        some ([5, 2, 9].getD i 0) := by
    intro i hi
    interval_cases i <;> rfl
  ⟨le_refl 3, hid,
    runPrimitiveAssembly_spec 2 sampleIndexMemory sampleClipPrimitive samplePuller 0
      sampleVertexShader (fun i => [5, 2, 9].getD i 0) 3 (le_refl 3) hid⟩

/-! ### Resource registry -/

/-- The rejected configuration calls, by function: each returns the state it was given. -/
lemma rejected_calls_eq (MAX_ATTRIBUTES : ℕ) (g : GpuImplementation) :
    (∀ buffer size data newData, g.buffers buffer = none →
      cpu_bufferData g buffer size data newData = .returned g) ∧
    (∀ puller attribIndex buffer offset stride,
      (MAX_ATTRIBUTES ≤ attribIndex ∨ g.vaos puller = none ∨ g.buffers buffer = none) →
      cpu_setVertexPullerHead MAX_ATTRIBUTES g puller attribIndex buffer offset stride =
        .returned g) ∧
    (∀ puller buffer indexSize,
      ((indexSize ≠ 1 ∧ indexSize ≠ 2 ∧ indexSize ≠ 4) ∨ g.vaos puller = none ∨
        (buffer ≠ 0 ∧ g.buffers buffer = none)) →
      cpu_setIndexing g puller buffer indexSize = .returned g) ∧
    (∀ id, g.vaos id = none → cpu_bindVertexPuller g id = g) ∧
    (∀ program, g.programs program = none → cpu_useProgram g program = g) := by
  refine ⟨?_, ?_, ?_, ?_, ?_⟩
  · intro buffer size data newData h
    simp [cpu_bufferData, h]
  · intro puller attribIndex buffer offset stride h
    unfold cpu_setVertexPullerHead
    by_cases h1 : attribIndex ≥ MAX_ATTRIBUTES
    · simp [h1]
    · rcases h with h | h | h
      · exact absurd h h1
      · simp [h1, h]
      · simp only [h1, if_false, h]
        cases g.vaos puller <;> rfl
  · intro puller buffer indexSize h
    unfold cpu_setIndexing
    by_cases h1 : indexSize ≠ 1 ∧ indexSize ≠ 2 ∧ indexSize ≠ 4
    · rw [if_pos h1]
    · rw [if_neg h1]
      rcases h with h | h | h
      · exact absurd h h1
      · simp only [h]
      · simp only [h.1, h.2, ne_eq, not_false_eq_true, if_true]
        cases g.vaos puller <;> rfl
  · intro id h
    simp [cpu_bindVertexPuller, h]
  · intro program h
    simp [cpu_useProgram, h]

/-- C19: a rejected configuration call returns with the registry state unchanged:
`cpu_bufferData` with an unknown buffer id; `cpu_setVertexPullerHead` with an attribute
index `≥ MAX_ATTRIBUTES`, an unknown puller id or an unknown buffer id;
`cpu_setIndexing` with an element width other than 1, 2, 4, an unknown puller id or an
unknown non-zero buffer id; `cpu_bindVertexPuller` and `cpu_useProgram` with an unknown
id. -/
theorem rejected_call_unchanged (MAX_ATTRIBUTES : ℕ) (g : GpuImplementation) :
    (∀ buffer size data newData, g.buffers buffer = none →
      cpu_bufferData g buffer size data newData = .returned g) ∧
    (∀ puller attribIndex buffer offset stride,
      (MAX_ATTRIBUTES ≤ attribIndex ∨ g.vaos puller = none ∨ g.buffers buffer = none) →
      cpu_setVertexPullerHead MAX_ATTRIBUTES g puller attribIndex buffer offset stride =
        .returned g) ∧
    (∀ puller buffer indexSize,
      ((indexSize ≠ 1 ∧ indexSize ≠ 2 ∧ indexSize ≠ 4) ∨ g.vaos puller = none ∨
        (buffer ≠ 0 ∧ g.buffers buffer = none)) →
      cpu_setIndexing g puller buffer indexSize = .returned g) ∧
    (∀ id, g.vaos id = none → cpu_bindVertexPuller g id = g) ∧
    (∀ program, g.programs program = none → cpu_useProgram g program = g) :=
  rejected_calls_eq MAX_ATTRIBUTES g

/-- On a new GPU no buffer, puller or program exists, so every call of C19 is rejected
and returns the state unchanged. -/
theorem rejected_call_unchanged_witness :
    cpu_bufferData cpu_createGPU 7 4 (fun _ => 0) 1000 = .returned cpu_createGPU ∧
    cpu_setVertexPullerHead 8 cpu_createGPU 1 8 1 0 12 = .returned cpu_createGPU ∧
    cpu_setVertexPullerHead 8 cpu_createGPU 1 0 1 0 12 = .returned cpu_createGPU ∧
    cpu_setIndexing cpu_createGPU 1 1 3 = .returned cpu_createGPU ∧
    cpu_setIndexing cpu_createGPU 1 1 4 = .returned cpu_createGPU ∧
    cpu_bindVertexPuller cpu_createGPU 1 = cpu_createGPU ∧
    cpu_useProgram cpu_createGPU 1 = cpu_createGPU :=
  ⟨(rejected_call_unchanged 8 cpu_createGPU).1 7 4 (fun _ => 0) 1000 rfl,
    (rejected_call_unchanged 8 cpu_createGPU).2.1 1 8 1 0 12 (Or.inl (le_refl 8)),
    (rejected_call_unchanged 8 cpu_createGPU).2.1 1 0 1 0 12 (Or.inr (Or.inl rfl)),
    (rejected_call_unchanged 8 cpu_createGPU).2.2.1 1 1 3
      (Or.inl ⟨by decide, by decide, by decide⟩),
    (rejected_call_unchanged 8 cpu_createGPU).2.2.1 1 1 4 (Or.inr (Or.inl rfl)),
    (rejected_call_unchanged 8 cpu_createGPU).2.2.2.1 1 rfl,
    (rejected_call_unchanged 8 cpu_createGPU).2.2.2.2 1 rfl⟩

/-! ### Frame of the registry operations -/

lemma SameKeys.refl (g : GpuImplementation) : SameKeys g g :=
  ⟨rfl, rfl, rfl, rfl, fun _ => Iff.rfl, fun _ => Iff.rfl⟩

lemma SameKeys.trans {g g' g'' : GpuImplementation} (h : SameKeys g g') (h' : SameKeys g' g'') :
    SameKeys g g'' :=
  ⟨h'.bufferCounter_eq.trans h.bufferCounter_eq, h'.vaoCounter_eq.trans h.vaoCounter_eq,
    h'.pullerReferences_eq.trans h.pullerReferences_eq,
    h'.bufferReferences_eq.trans h.bufferReferences_eq,
    fun b => (h'.buffers_none b).trans (h.buffers_none b),
    fun p => (h'.vaos_none p).trans (h.vaos_none p)⟩

/-- Replacing the configuration of an existing puller keeps the keys. -/
lemma SameKeys.update_vao (g : GpuImplementation) (p : ℕ)
    (vao vao' : GPUVertexPullerConfiguration) (h : g.vaos p = some vao) :
    SameKeys g { g with vaos := Function.update g.vaos p (some vao') } := by
  refine ⟨rfl, rfl, rfl, rfl, fun _ => Iff.rfl, fun q => ?_⟩
  by_cases hq : q = p
  · subst hq; simp [h]
  · simp [Function.update, hq]

/-- Replacing the content of an existing buffer keeps the keys. -/
lemma SameKeys.update_buffer (g : GpuImplementation) (b : ℕ) (buf buf' : ByteVector)
    (h : g.buffers b = some buf) :
    SameKeys g { g with buffers := Function.update g.buffers b (some buf') } := by
  refine ⟨rfl, rfl, rfl, rfl, fun q => ?_, fun _ => Iff.rfl⟩
  by_cases hq : q = b
  · subst hq; simp [h]
  · simp [Function.update, hq]

/-- The invariant only depends on the keys of the two maps. -/
lemma RegistryInv.of_sameKeys {g g' : GpuImplementation} (hi : RegistryInv g)
    (h : SameKeys g g') : RegistryInv g' := by
  obtain ⟨c1, c2, r1, r2, k1, k2⟩ := h
  refine ⟨?_, ?_, ?_, ?_, ?_, ?_, ?_, ?_, ?_, ?_⟩
  · rw [c1]; exact hi.bufferCounter_pos
  · rw [c2]; exact hi.vaoCounter_pos
  · intro b hb
    rw [c1]
    exact hi.buffers_bound b (fun hn => hb ((k1 b).mpr hn))
  · intro b
    rw [r2, k1 b]
    exact hi.bufferReferences_iff b
  · intro p hp
    rw [c2]
    exact hi.vaos_bound p (fun hn => hp ((k2 p).mpr hn))
  · intro p
    rw [r1, k2 p]
    exact hi.pullerReferences_iff p
  · rw [r1, r2]; exact hi.attribs_iff
  · rw [r1, r2]; exact hi.indexings_iff
  · rw [r1, r2]; exact hi.attrib_exists
  · rw [r1, r2]; exact hi.index_exists

/-- The first loop of `cpu_bufferData` keeps the keys, however it ends. -/
lemma refreshIndexPointers_sameKeys (ptr : ℕ) (l : List ℕ) :
    ∀ (g g' : GpuImplementation), (refreshIndexPointers g ptr l).state = some g' →
      SameKeys g g' := by
  induction l with
  | nil =>
    intro g g' h
    simp only [refreshIndexPointers, Outcome.state, Option.some.injEq] at h
    subst h
    exact SameKeys.refl g
  | cons p rest ih =>
    intro g g' h
    unfold refreshIndexPointers at h
    cases hv : g.vaos p with
    | none =>
      simp only [hv, Outcome.state, Option.some.injEq] at h
      subst h
      exact SameKeys.refl g
    | some vao =>
      simp only [hv] at h
      exact (SameKeys.update_vao g p vao _ hv).trans (ih _ g' h)

/-- The second loop of `cpu_bufferData` keeps the keys, however it ends. -/
lemma refreshHeadPointers_sameKeys (ptr : ℕ) (l : List PullerAttrib) :
    ∀ (g g' : GpuImplementation), (refreshHeadPointers g ptr l).state = some g' →
      SameKeys g g' := by
  induction l with
  | nil =>
    intro g g' h
    simp only [refreshHeadPointers, Outcome.state, Option.some.injEq] at h
    subst h
    exact SameKeys.refl g
  | cons pa rest ih =>
    intro g g' h
    unfold refreshHeadPointers at h
    cases hv : g.vaos (ofLex pa).1 with
    | none =>
      simp only [hv, Outcome.state, Option.some.injEq] at h
      subst h
      exact SameKeys.refl g
    | some vao =>
      simp only [hv] at h
      exact (SameKeys.update_vao g _ vao _ hv).trans (ih _ g' h)

/-- The two loops of `cpu_bufferData` keep the keys, however they end. -/
lemma refreshPointers_sameKeys (ptr : ℕ) (l1 : List ℕ) (l2 : List PullerAttrib)
    (g g' : GpuImplementation)
    (h : (match refreshIndexPointers g ptr l1 with
      | .returned g2 => refreshHeadPointers g2 ptr l2
      | other => other).state = some g') : SameKeys g g' := by
  cases h2 : refreshIndexPointers g ptr l1 with
  | returned g2 =>
    simp only [h2] at h
    have h3 := refreshIndexPointers_sameKeys ptr l1 g g2 (by rw [h2]; rfl)
    exact h3.trans (refreshHeadPointers_sameKeys ptr l2 g2 g' h)
  | thrown g2 =>
    simp only [h2, Outcome.state, Option.some.injEq] at h
    subst h
    exact refreshIndexPointers_sameKeys ptr l1 g g2 (by rw [h2]; rfl)
  | exited =>
    simp only [h2, Outcome.state] at h
    exact absurd h (by simp)

/-- `cpu_bufferData` keeps the keys, however it ends. -/
lemma bufferData_sameKeys (g g' : GpuImplementation) (buffer : ℕ) (size : ℕ)
    (data : ℕ → Byte) (newData : ℕ)
    (h : (cpu_bufferData g buffer size data newData).state = some g') : SameKeys g g' := by
  unfold cpu_bufferData at h
  cases hb : g.buffers buffer with
  | none =>
    simp only [hb, Outcome.state, Option.some.injEq] at h
    subst h
    exact SameKeys.refl g
  | some buf =>
    simp only [hb] at h
    have h1 := SameKeys.update_buffer g buffer buf
      { content := (List.range size).map data, data := newData } hb
    cases hr : g.bufferReferences buffer with
    | none =>
      simp only [hr, Outcome.state, Option.some.injEq] at h
      subst h
      exact h1
    | some refs =>
      simp only [hr] at h
      exact h1.trans (refreshPointers_sameKeys _ _ _ _ _ h)

/-- The loop of `cpu_createBuffers`, as a closed form. -/
lemma createBuffers_loop (g : GpuImplementation) (c n : ℕ) :
    forLoop n (fun i (st : GpuImplementation × List ℕ) =>
      (({ st.1 with
          buffers := Function.update st.1.buffers (c + i) (some { content := [], data := 0 }),
          bufferReferences := Function.update st.1.bufferReferences (c + i)
            (some { indexings := ∅, attribs := ∅ }) } : GpuImplementation),
        st.2 ++ [c + i])) (g, []) =
      ({ g with
          buffers := fun b =>
            if c ≤ b ∧ b < c + n then some { content := [], data := 0 } else g.buffers b,
          bufferReferences := fun b =>
            if c ≤ b ∧ b < c + n then some { indexings := ∅, attribs := ∅ }
            else g.bufferReferences b },
        (List.range n).map (fun i => c + i)) := by
  induction n with
  | zero =>
    rw [forLoop_zero]
    have h : ∀ b : ℕ, ¬ (c ≤ b ∧ b < c + 0) := by intro b; omega
    simp only [h, if_false, List.range_zero, List.map_nil]
  | succ n ih =>
    rw [forLoop_succ, ih]
    simp only [Prod.mk.injEq, GpuImplementation.mk.injEq, true_and, and_true]
    refine ⟨⟨?_, ?_⟩, ?_⟩
    · funext (b : ℕ)
      by_cases hb : b = c + n
      · subst hb; simp
      · have h1 : (c ≤ b ∧ b < c + (n + 1)) ↔ (c ≤ b ∧ b < c + n) := by omega
        simp only [Function.update_noteq hb, h1]
    · funext (b : ℕ)
      by_cases hb : b = c + n
      · subst hb; simp
      · have h1 : (c ≤ b ∧ b < c + (n + 1)) ↔ (c ≤ b ∧ b < c + n) := by omega
        simp only [Function.update_noteq hb, h1]
    · rw [List.range_succ, List.map_append]
      rfl

/-- The function `cpu_createBuffers`, as a closed form. -/
lemma createBuffers_eq (g : GpuImplementation) (n : ℕ) :
    cpu_createBuffers g n =
      ({ g with
          buffers := fun b =>
            if g.bufferCounter ≤ b ∧ b < g.bufferCounter + n then
              some { content := [], data := 0 }
            else g.buffers b,
          bufferReferences := fun b =>
            if g.bufferCounter ≤ b ∧ b < g.bufferCounter + n then
              some { indexings := ∅, attribs := ∅ }
            else g.bufferReferences b,
          bufferCounter := g.bufferCounter + n },
        (List.range n).map (fun i => g.bufferCounter + i)) := by
  unfold cpu_createBuffers
  simp only [createBuffers_loop]

/-- The loop of `cpu_createVertexPullers`, as a closed form. -/
lemma createVertexPullers_loop (g : GpuImplementation) (c n : ℕ) :
    forLoop n (fun i (st : GpuImplementation × List ℕ) =>
      (({ st.1 with
          vaos := Function.update st.1.vaos (c + i)
            (some { heads := fun _ => emptyHead, indices := 0 }),
          pullerReferences := Function.update st.1.pullerReferences (c + i)
            (some { indexBuffer := 0, attribBuffers := fun _ => none }) } : GpuImplementation),
        st.2 ++ [c + i])) (g, []) =
      ({ g with
          vaos := fun p =>
            if c ≤ p ∧ p < c + n then some { heads := fun _ => emptyHead, indices := 0 }
            else g.vaos p,
          pullerReferences := fun p =>
            if c ≤ p ∧ p < c + n then some { indexBuffer := 0, attribBuffers := fun _ => none }
            else g.pullerReferences p },
        (List.range n).map (fun i => c + i)) := by
  induction n with
  | zero =>
    rw [forLoop_zero]
    have h : ∀ b : ℕ, ¬ (c ≤ b ∧ b < c + 0) := by intro b; omega
    simp only [h, if_false, List.range_zero, List.map_nil]
  | succ n ih =>
    rw [forLoop_succ, ih]
    simp only [Prod.mk.injEq, GpuImplementation.mk.injEq, true_and, and_true]
    refine ⟨⟨?_, ?_⟩, ?_⟩
    · funext (b : ℕ)
      by_cases hb : b = c + n
      · subst hb; simp
      · have h1 : (c ≤ b ∧ b < c + (n + 1)) ↔ (c ≤ b ∧ b < c + n) := by omega
        simp only [Function.update_noteq hb, h1]
    · funext (b : ℕ)
      by_cases hb : b = c + n
      · subst hb; simp
      · have h1 : (c ≤ b ∧ b < c + (n + 1)) ↔ (c ≤ b ∧ b < c + n) := by omega
        simp only [Function.update_noteq hb, h1]
    · rw [List.range_succ, List.map_append]
      rfl

/-- The function `cpu_createVertexPullers`, as a closed form. -/
lemma createVertexPullers_eq (g : GpuImplementation) (n : ℕ) :
    cpu_createVertexPullers g n =
      ({ g with
          vaos := fun p =>
            if g.vaoCounter ≤ p ∧ p < g.vaoCounter + n then
              some { heads := fun _ => emptyHead, indices := 0 }
            else g.vaos p,
          pullerReferences := fun p =>
            if g.vaoCounter ≤ p ∧ p < g.vaoCounter + n then
              some { indexBuffer := 0, attribBuffers := fun _ => none }
            else g.pullerReferences p,
          vaoCounter := g.vaoCounter + n },
        (List.range n).map (fun i => g.vaoCounter + i)) := by
  unfold cpu_createVertexPullers
  simp only [createVertexPullers_loop]


/-- A new GPU satisfies the invariant. -/
lemma createGPU_inv : RegistryInv cpu_createGPU := by
  refine ⟨le_refl 1, le_refl 1, ?_, ?_, ?_, ?_, ?_, ?_, ?_, ?_⟩
  · intro b hb; exact absurd rfl hb
  · intro b; simp [cpu_createGPU]
  · intro p hp; exact absurd rfl hp
  · intro p; simp [cpu_createGPU]
  · intro b refs h; exact absurd h (by simp [cpu_createGPU])
  · intro b refs h; exact absurd h (by simp [cpu_createGPU])
  · intro p pr a b h; exact absurd h (by simp [cpu_createGPU])
  · intro p pr h; exact absurd h (by simp [cpu_createGPU])

/-- `cpu_createBuffers` preserves the invariant. -/
lemma createBuffers_inv (g : GpuImplementation) (n : ℕ) (hi : RegistryInv g) :
    RegistryInv (cpu_createBuffers g n).1 := by
  rw [createBuffers_eq]
  have hnew : ∀ b : ℕ, g.bufferCounter ≤ b → g.bufferReferences b = none := by
    intro b hb
    rw [hi.bufferReferences_iff]
    by_contra hne
    have := (hi.buffers_bound b hne).2
    omega
  refine ⟨?_, hi.vaoCounter_pos, ?_, ?_, hi.vaos_bound, hi.pullerReferences_iff, ?_, ?_, ?_, ?_⟩
  · have := hi.bufferCounter_pos
    show 1 ≤ g.bufferCounter + n
    omega
  · intro (b : ℕ) hb
    show 1 ≤ b ∧ b < g.bufferCounter + n
    by_cases hc : g.bufferCounter ≤ b ∧ b < g.bufferCounter + n
    · have := hi.bufferCounter_pos
      omega
    · simp only [hc, if_false] at hb
      have := hi.buffers_bound b hb
      omega
  · intro (b : ℕ)
    by_cases hc : g.bufferCounter ≤ b ∧ b < g.bufferCounter + n
    · simp [hc]
    · simp only [hc, if_false]
      exact hi.bufferReferences_iff b
  · intro (b : ℕ) refs hrefs p a
    by_cases hc : g.bufferCounter ≤ b ∧ b < g.bufferCounter + n
    · simp only [hc, and_self, if_true, Option.some.injEq] at hrefs
      subst hrefs
      simp only [Finset.not_mem_empty, false_iff, not_exists, not_and]
      intro pr hpr hab
      exact hi.attrib_exists p pr a b hpr hab (hnew b hc.1)
    · simp only [hc, if_false] at hrefs
      exact hi.attribs_iff b refs hrefs p a
  · intro (b : ℕ) refs hrefs p
    by_cases hc : g.bufferCounter ≤ b ∧ b < g.bufferCounter + n
    · simp only [hc, and_self, if_true, Option.some.injEq] at hrefs
      subst hrefs
      simp only [Finset.not_mem_empty, false_iff, not_exists, not_and]
      intro pr hpr hib
      have hb0 : pr.indexBuffer ≠ 0 := by
        have := hi.bufferCounter_pos
        rw [hib]
        omega
      apply hi.index_exists p pr hpr hb0
      rw [hib]
      exact hnew b hc.1
    · simp only [hc, if_false] at hrefs
      exact hi.indexings_iff b refs hrefs p
  · intro p pr a (b : ℕ) hpr hab
    by_cases hc : g.bufferCounter ≤ b ∧ b < g.bufferCounter + n
    · simp [hc]
    · simp only [hc, if_false]
      exact hi.attrib_exists p pr a b hpr hab
  · intro p pr hpr hib
    show (if g.bufferCounter ≤ pr.indexBuffer ∧ pr.indexBuffer < g.bufferCounter + n then _
      else g.bufferReferences pr.indexBuffer) ≠ none
    by_cases hc : g.bufferCounter ≤ pr.indexBuffer ∧ pr.indexBuffer < g.bufferCounter + n
    · simp [hc]
    · simp only [hc, if_false]
      exact hi.index_exists p pr hpr hib

/-- `cpu_createVertexPullers` preserves the invariant. -/
lemma createVertexPullers_inv (g : GpuImplementation) (n : ℕ) (hi : RegistryInv g) :
    RegistryInv (cpu_createVertexPullers g n).1 := by
  rw [createVertexPullers_eq]
  have hnew : ∀ p : ℕ, g.vaoCounter ≤ p → g.pullerReferences p = none := by
    intro p hp
    rw [hi.pullerReferences_iff]
    by_contra hne
    have := (hi.vaos_bound p hne).2
    omega
  have hb0 : ∀ (b : ℕ) refs, g.bufferReferences b = some refs → b ≠ 0 := by
    intro b refs hrefs hb
    have h1 : g.buffers b ≠ none := by
      intro hn
      rw [← hi.bufferReferences_iff, hrefs] at hn
      exact absurd hn (by simp)
    have := (hi.buffers_bound b h1).1
    omega
  refine ⟨hi.bufferCounter_pos, ?_, hi.buffers_bound, hi.bufferReferences_iff, ?_, ?_, ?_, ?_,
    ?_, ?_⟩
  · have := hi.vaoCounter_pos
    show 1 ≤ g.vaoCounter + n
    omega
  · intro (p : ℕ) hp
    show 1 ≤ p ∧ p < g.vaoCounter + n
    by_cases hc : g.vaoCounter ≤ p ∧ p < g.vaoCounter + n
    · have := hi.vaoCounter_pos
      omega
    · simp only [hc, if_false] at hp
      have := hi.vaos_bound p hp
      omega
  · intro (p : ℕ)
    by_cases hc : g.vaoCounter ≤ p ∧ p < g.vaoCounter + n
    · simp [hc]
    · simp only [hc, if_false]
      exact hi.pullerReferences_iff p
  · intro b refs hrefs (p : ℕ) a
    rw [hi.attribs_iff b refs hrefs p a]
    by_cases hc : g.vaoCounter ≤ p ∧ p < g.vaoCounter + n
    · simp [hc, hnew p hc.1]
    · simp only [hc, if_false]
  · intro b refs hrefs (p : ℕ)
    rw [hi.indexings_iff b refs hrefs p]
    by_cases hc : g.vaoCounter ≤ p ∧ p < g.vaoCounter + n
    · have := hb0 b refs hrefs
      simp [hc, hnew p hc.1, Ne.symm this]
    · simp only [hc, if_false]
  · intro (p : ℕ) pr a b hpr hab
    by_cases hc : g.vaoCounter ≤ p ∧ p < g.vaoCounter + n
    · simp only [hc, and_self, if_true, Option.some.injEq] at hpr
      subst hpr
      exact absurd hab (by simp)
    · simp only [hc, if_false] at hpr
      exact hi.attrib_exists p pr a b hpr hab
  · intro (p : ℕ) pr hpr hib
    by_cases hc : g.vaoCounter ≤ p ∧ p < g.vaoCounter + n
    · simp only [hc, and_self, if_true, Option.some.injEq] at hpr
      subst hpr
      exact absurd rfl hib
    · simp only [hc, if_false] at hpr
      exact hi.index_exists p pr hpr hib

/-- A state whose puller `p` got a new configuration and a new record of its attribute
buffer `a ↦ b`, with the back references of `referencesAfterSetHead`, satisfies the
invariant again. -/
lemma setHead_closed_inv (g : GpuImplementation) (p a b : ℕ)
    (vao vao' : GPUVertexPullerConfiguration) (pr : PullerReferences) (hi : RegistryInv g)
    (hv : g.vaos p = some vao) (hpr : g.pullerReferences p = some pr)
    (hb : g.bufferReferences b ≠ none) :
    RegistryInv { g with
      vaos := Function.update g.vaos p (some vao'),
      pullerReferences := Function.update g.pullerReferences p
        (some { pr with attribBuffers := Function.update pr.attribBuffers a (some b) }),
      bufferReferences := referencesAfterSetHead g p a b } := by
  have hmap : ∀ x refs', referencesAfterSetHead g p a b x = some refs' →
      ∃ r, g.bufferReferences x = some r ∧
        refs' = { r with
          attribs := if x = b then insert (toLex (p, a)) r.attribs
            else r.attribs.erase (toLex (p, a)) } := by
    intro x refs' h
    unfold referencesAfterSetHead at h
    cases hx : g.bufferReferences x with
    | none => rw [hx] at h; exact absurd h (by simp)
    | some r =>
      rw [hx] at h
      simp only [Option.map_some', Option.some.injEq] at h
      exact ⟨r, rfl, h.symm⟩
  have hnone : ∀ x, referencesAfterSetHead g p a b x = none ↔ g.bufferReferences x = none := by
    intro x
    unfold referencesAfterSetHead
    simp
  refine ⟨hi.bufferCounter_pos, hi.vaoCounter_pos, hi.buffers_bound, ?_, ?_, ?_, ?_, ?_, ?_, ?_⟩
  · intro x
    show referencesAfterSetHead g p a b x = none ↔ _
    rw [hnone]
    exact hi.bufferReferences_iff x
  · intro q hq
    apply hi.vaos_bound q
    by_cases hqp : q = p
    · rw [hqp, hv]; simp
    · simpa [Function.update, hqp] using hq
  · intro q
    by_cases hqp : q = p
    · subst hqp; simp
    · simp only [Function.update, hqp, dite_false]
      exact hi.pullerReferences_iff q
  · intro x refs' hrefs q c
    obtain ⟨r, hr, hrefs'⟩ := hmap x refs' hrefs
    subst hrefs'
    have hold := hi.attribs_iff x r hr
    by_cases hqp : q = p
    · subst hqp
      simp only [Function.update_same, Option.some.injEq, exists_eq_left']
      by_cases hca : c = a
      · subst hca
        by_cases hxb : x = b
        · simp [hxb]
        · simp [hxb, Ne.symm hxb]
      · have hne : toLex (q, c) ≠ toLex (q, a) := by
          intro h
          exact hca (congrArg (fun z => (ofLex z).2) h)
        have := hold q c
        simp only [Function.update_noteq hca]
        by_cases hxb : x = b
        · simp only [hxb, if_true, Finset.mem_insert, hne, false_or]
          rw [hxb] at this
          rw [this]
          simp [hpr]
        · simp only [hxb, if_false, Finset.mem_erase, ne_eq, hne, not_false_eq_true, true_and]
          rw [this]
          simp [hpr]
    · have hne : toLex (q, c) ≠ toLex (p, a) := by
        intro h
        exact hqp (congrArg (fun z => (ofLex z).1) h)
      simp only [Function.update_noteq hqp]
      rw [← hold q c]
      by_cases hxb : x = b
      · simp [hxb, hne]
      · simp [hxb, hne]
  · intro x refs' hrefs q
    obtain ⟨r, hr, hrefs'⟩ := hmap x refs' hrefs
    subst hrefs'
    have hold := hi.indexings_iff x r hr q
    by_cases hqp : q = p
    · subst hqp
      simp only [Function.update_same, Option.some.injEq, exists_eq_left']
      rw [hold]
      simp [hpr]
    · simp only [Function.update_noteq hqp]
      exact hold
  · intro q pr' c y hq hc
    show referencesAfterSetHead g p a b y ≠ none
    rw [Ne, hnone]
    by_cases hqp : q = p
    · subst hqp
      simp only [Function.update_same, Option.some.injEq] at hq
      subst hq
      by_cases hca : c = a
      · subst hca
        simp only [Function.update_same, Option.some.injEq] at hc
        subst hc
        exact hb
      · simp only [Function.update_noteq hca] at hc
        exact hi.attrib_exists q pr c y hpr hc
    · simp only [Function.update_noteq hqp] at hq
      exact hi.attrib_exists q pr' c y hq hc
  · intro q pr' hq hib
    show referencesAfterSetHead g p a b pr'.indexBuffer ≠ none
    rw [Ne, hnone]
    by_cases hqp : q = p
    · subst hqp
      simp only [Function.update_same, Option.some.injEq] at hq
      subst hq
      exact hi.index_exists q pr hpr hib
    · simp only [Function.update_noteq hqp] at hq
      exact hi.index_exists q pr' hq hib


/-- A record of back references with its attribute set replaced by itself. -/
lemma bufferReferences_eta (r : BufferReferences) :
    ({ r with attribs := r.attribs } : BufferReferences) = r := rfl

/-- In a state with agreeing references, `cpu_setVertexPullerHead` on an existing
puller, a slot below `MAX_ATTRIBUTES` and an existing buffer returns, and the new state
is the closed form. -/
lemma setVertexPullerHead_eq (MAX_ATTRIBUTES : ℕ) (g : GpuImplementation)
    (p a b offset stride : ℕ) (vao : GPUVertexPullerConfiguration) (buf : ByteVector)
    (hi : RegistryInv g) (ha : a < MAX_ATTRIBUTES) (hv : g.vaos p = some vao)
    (hb : g.buffers b = some buf) :
    ∃ pr, g.pullerReferences p = some pr ∧
      cpu_setVertexPullerHead MAX_ATTRIBUTES g p a b offset stride =
        .returned { g with
          vaos := Function.update g.vaos p
            (some { vao with
              heads := Function.update vao.heads a
                { vao.heads a with buffer := buf.data, stride := stride, offset := offset } }),
          pullerReferences := Function.update g.pullerReferences p
            (some { pr with attribBuffers := Function.update pr.attribBuffers a (some b) }),
          bufferReferences := referencesAfterSetHead g p a b } := by
  have hpr0 : g.pullerReferences p ≠ none := by
    rw [Ne, hi.pullerReferences_iff, hv]; simp
  have hbr0 : g.bufferReferences b ≠ none := by
    rw [Ne, hi.bufferReferences_iff, hb]; simp
  obtain ⟨pr, hpr⟩ := Option.ne_none_iff_exists'.mp hpr0
  obtain ⟨br, hbr⟩ := Option.ne_none_iff_exists'.mp hbr0
  refine ⟨pr, hpr, ?_⟩
  unfold cpu_setVertexPullerHead
  simp only [ge_iff_le, not_le.mpr ha, if_false, hv, hb, hpr]
  cases hold : pr.attribBuffers a with
  | none =>
    simp only [hbr, Outcome.returned.injEq, GpuImplementation.mk.injEq, true_and, and_true]
    funext x
    unfold referencesAfterSetHead
    by_cases hxb : x = b
    · subst hxb
      simp [hbr]
    · simp only [Function.update_noteq hxb, hxb, if_false]
      cases hx : g.bufferReferences x with
      | none => rfl
      | some r =>
        have hnot : toLex (p, a) ∉ r.attribs := by
          rw [hi.attribs_iff x r hx p a]
          rintro ⟨pr', hpr', hab⟩
          rw [hpr] at hpr'
          cases hpr'
          rw [hold] at hab
          exact absurd hab (by simp)
        simp only [Option.map_some', Finset.erase_eq_of_not_mem hnot]
  | some old =>
    have hobr0 : g.bufferReferences old ≠ none := hi.attrib_exists p pr a old hpr hold
    obtain ⟨obr, hobr⟩ := Option.ne_none_iff_exists'.mp hobr0
    simp only [hobr]
    by_cases hbo : b = old
    · subst hbo
      simp only [Function.update_same, Outcome.returned.injEq, GpuImplementation.mk.injEq,
        true_and, and_true]
      funext x
      unfold referencesAfterSetHead
      by_cases hxb : x = b
      · subst hxb
        rw [hbr] at hobr
        cases hobr
        simp only [Function.update_same, hbr, Option.map_some', if_true, Option.some.injEq,
          BufferReferences.mk.injEq, true_and]
        ext y
        by_cases hy : y = toLex (p, a)
        · simp [hy]
        · simp [Finset.mem_insert, Finset.mem_erase, hy]
      · simp only [Function.update_noteq hxb, hxb, if_false]
        cases hx : g.bufferReferences x with
        | none => rfl
        | some r =>
          have hnot : toLex (p, a) ∉ r.attribs := by
            rw [hi.attribs_iff x r hx p a]
            rintro ⟨pr', hpr', hab⟩
            rw [hpr] at hpr'
            cases hpr'
            rw [hold] at hab
            exact hxb (Option.some.inj hab).symm
          simp only [Option.map_some', Finset.erase_eq_of_not_mem hnot]
    · simp only [Function.update_noteq hbo, hbr, Outcome.returned.injEq,
        GpuImplementation.mk.injEq, true_and, and_true]
      funext x
      unfold referencesAfterSetHead
      by_cases hxb : x = b
      · subst hxb
        simp [hbr]
      · simp only [Function.update_noteq hxb, hxb, if_false]
        by_cases hxo : x = old
        · subst hxo
          simp [hobr]
        · simp only [Function.update_noteq hxo]
          cases hx : g.bufferReferences x with
          | none => rfl
          | some r =>
            have hnot : toLex (p, a) ∉ r.attribs := by
              rw [hi.attribs_iff x r hx p a]
              rintro ⟨pr', hpr', hab⟩
              rw [hpr] at hpr'
              cases hpr'
              rw [hold] at hab
              exact hxo (Option.some.inj hab).symm
            simp only [Option.map_some', Finset.erase_eq_of_not_mem hnot]


/-- A state whose puller `p` got a new configuration and the record of its index buffer
`b` (zero or an existing buffer), with the back references of
`referencesAfterSetIndexing`, satisfies the invariant again. -/
lemma setIndexing_closed_inv (g : GpuImplementation) (p b : ℕ)
    (vao vao' : GPUVertexPullerConfiguration) (pr : PullerReferences) (hi : RegistryInv g)
    (hv : g.vaos p = some vao) (hpr : g.pullerReferences p = some pr)
    (hb : b ≠ 0 → g.bufferReferences b ≠ none) :
    RegistryInv { g with
      vaos := Function.update g.vaos p (some vao'),
      pullerReferences := Function.update g.pullerReferences p
        (some { pr with indexBuffer := b }),
      bufferReferences := referencesAfterSetIndexing g p b } := by
  have hmap : ∀ x refs', referencesAfterSetIndexing g p b x = some refs' →
      ∃ r, g.bufferReferences x = some r ∧
        refs' = { r with
          indexings := if x = b then insert p r.indexings else r.indexings.erase p } := by
    intro x refs' h
    unfold referencesAfterSetIndexing at h
    cases hx : g.bufferReferences x with
    | none => rw [hx] at h; exact absurd h (by simp)
    | some r =>
      rw [hx] at h
      simp only [Option.map_some', Option.some.injEq] at h
      exact ⟨r, rfl, h.symm⟩
  have hnone : ∀ x, referencesAfterSetIndexing g p b x = none ↔ g.bufferReferences x = none := by
    intro x
    unfold referencesAfterSetIndexing
    simp
  refine ⟨hi.bufferCounter_pos, hi.vaoCounter_pos, hi.buffers_bound, ?_, ?_, ?_, ?_, ?_, ?_, ?_⟩
  · intro x
    show referencesAfterSetIndexing g p b x = none ↔ _
    rw [hnone]
    exact hi.bufferReferences_iff x
  · intro q hq
    apply hi.vaos_bound q
    by_cases hqp : q = p
    · rw [hqp, hv]; simp
    · simpa [Function.update, hqp] using hq
  · intro q
    by_cases hqp : q = p
    · subst hqp; simp
    · simp only [Function.update, hqp, dite_false]
      exact hi.pullerReferences_iff q
  · intro x refs' hrefs q c
    obtain ⟨r, hr, hrefs'⟩ := hmap x refs' hrefs
    subst hrefs'
    have hold := hi.attribs_iff x r hr q c
    by_cases hqp : q = p
    · subst hqp
      simp only [Function.update_same, Option.some.injEq, exists_eq_left']
      rw [hold]
      simp [hpr]
    · simp only [Function.update_noteq hqp]
      exact hold
  · intro x refs' hrefs q
    obtain ⟨r, hr, hrefs'⟩ := hmap x refs' hrefs
    subst hrefs'
    have hold := hi.indexings_iff x r hr q
    by_cases hqp : q = p
    · subst hqp
      simp only [Function.update_same, Option.some.injEq, exists_eq_left']
      by_cases hxb : x = b
      · simp [hxb]
      · simp [hxb, Ne.symm hxb]
    · simp only [Function.update_noteq hqp]
      rw [← hold]
      by_cases hxb : x = b
      · simp [hxb, hqp]
      · simp [hxb, hqp]
  · intro q pr' c y hq hc
    show referencesAfterSetIndexing g p b y ≠ none
    rw [Ne, hnone]
    by_cases hqp : q = p
    · subst hqp
      simp only [Function.update_same, Option.some.injEq] at hq
      subst hq
      exact hi.attrib_exists q pr c y hpr hc
    · simp only [Function.update_noteq hqp] at hq
      exact hi.attrib_exists q pr' c y hq hc
  · intro q pr' hq hib
    show referencesAfterSetIndexing g p b pr'.indexBuffer ≠ none
    rw [Ne, hnone]
    by_cases hqp : q = p
    · subst hqp
      simp only [Function.update_same, Option.some.injEq] at hq
      subst hq
      exact hb hib
    · simp only [Function.update_noteq hqp] at hq
      exact hi.index_exists q pr' hq hib

/-- The back references of a state with agreeing references after an erasure of the
puller `p` from the indexing set of its recorded index buffer: `p` is in no indexing
set afterwards. -/
lemma erase_indexing_eq (g : GpuImplementation) (p : ℕ) (pr : PullerReferences)
    (hi : RegistryInv g) (hpr : g.pullerReferences p = some pr) (x : ℕ) (r : BufferReferences)
    (hx : g.bufferReferences x = some r) (hxo : x ≠ pr.indexBuffer) :
    r.indexings.erase p = r.indexings := by
  apply Finset.erase_eq_of_not_mem
  rw [hi.indexings_iff x r hx p]
  rintro ⟨pr', hpr', hib⟩
  rw [hpr] at hpr'
  cases hpr'
  exact hxo hib.symm

/-- No buffer has the identifier zero. -/
lemma bufferReferences_zero (g : GpuImplementation) (hi : RegistryInv g) :
    g.bufferReferences 0 = none := by
  rw [hi.bufferReferences_iff]
  by_contra h
  have := (hi.buffers_bound 0 h).1
  omega


/-- Erasing the puller from every indexing set but that of its recorded index buffer
changes nothing. -/
lemma map_erase_indexing_eq (g : GpuImplementation) (p : ℕ) (pr : PullerReferences)
    (hi : RegistryInv g) (hpr : g.pullerReferences p = some pr) (x : ℕ)
    (hxo : x ≠ pr.indexBuffer) :
    (g.bufferReferences x).map (fun r => { r with indexings := r.indexings.erase p }) =
      g.bufferReferences x := by
  cases hx : g.bufferReferences x with
  | none => rfl
  | some r =>
    simp only [Option.map_some', erase_indexing_eq g p pr hi hpr x r hx hxo]

/-- In a state with agreeing references, `cpu_setIndexing` with buffer id `0` on an
existing puller and a valid element width ends in the exception of
`bufferReferences.at(0)`; the state it leaves is the closed form. -/
lemma setIndexing_zero_eq (g : GpuImplementation) (p s : ℕ)
    (vao : GPUVertexPullerConfiguration) (hi : RegistryInv g)
    (hs : s = 1 ∨ s = 2 ∨ s = 4) (hv : g.vaos p = some vao) :
    ∃ pr, g.pullerReferences p = some pr ∧
      cpu_setIndexing g p 0 s =
        .thrown { g with
          vaos := Function.update g.vaos p (some { vao with indices := 0 }),
          pullerReferences := Function.update g.pullerReferences p
            (some { pr with indexBuffer := 0 }),
          bufferReferences := referencesAfterSetIndexing g p 0 } := by
  have hpr0 : g.pullerReferences p ≠ none := by
    rw [Ne, hi.pullerReferences_iff, hv]; simp
  obtain ⟨pr, hpr⟩ := Option.ne_none_iff_exists'.mp hpr0
  refine ⟨pr, hpr, ?_⟩
  have hs' : ¬ (s ≠ 1 ∧ s ≠ 2 ∧ s ≠ 4) := by omega
  have hz := bufferReferences_zero g hi
  have hfun : referencesAfterSetIndexing g p 0 =
      fun x => (g.bufferReferences x).map
        (fun r => { r with indexings := r.indexings.erase p }) := by
    funext x
    unfold referencesAfterSetIndexing
    by_cases hx0 : x = 0
    · rw [hx0, hz]; rfl
    · simp only [hx0, if_false]
  unfold cpu_setIndexing
  rw [if_neg hs']
  simp only [hv, ne_eq, not_true_eq_false, if_false, hpr]
  by_cases h0 : pr.indexBuffer = 0
  · simp only [h0, not_true_eq_false, if_false, hz, Outcome.thrown.injEq,
      GpuImplementation.mk.injEq, true_and, and_true]
    rw [hfun]
    funext x
    by_cases hx0 : x = 0
    · rw [hx0, hz]; rfl
    · exact (map_erase_indexing_eq g p pr hi hpr x (by rw [h0]; exact hx0)).symm
  · obtain ⟨obr, hobr⟩ := Option.ne_none_iff_exists'.mp (hi.index_exists p pr hpr h0)
    simp only [h0, not_false_eq_true, if_true, hobr, Function.update_noteq (Ne.symm h0), hz,
      Outcome.thrown.injEq, GpuImplementation.mk.injEq, true_and, and_true]
    rw [hfun]
    funext x
    by_cases hxo : x = pr.indexBuffer
    · rw [hxo]
      simp [hobr]
    · simp only [Function.update_noteq hxo]
      exact (map_erase_indexing_eq g p pr hi hpr x hxo).symm

/-- In a state with agreeing references, `cpu_setIndexing` with an existing buffer on an
existing puller and a valid element width returns, and the new state is the closed
form. -/
lemma setIndexing_eq (g : GpuImplementation) (p b s : ℕ)
    (vao : GPUVertexPullerConfiguration) (buf : ByteVector) (hi : RegistryInv g)
    (hs : s = 1 ∨ s = 2 ∨ s = 4) (hv : g.vaos p = some vao) (hb : g.buffers b = some buf) :
    ∃ pr, g.pullerReferences p = some pr ∧
      cpu_setIndexing g p b s =
        .returned { g with
          vaos := Function.update g.vaos p (some { vao with indices := buf.data }),
          pullerReferences := Function.update g.pullerReferences p
            (some { pr with indexBuffer := b }),
          bufferReferences := referencesAfterSetIndexing g p b } := by
  have hpr0 : g.pullerReferences p ≠ none := by
    rw [Ne, hi.pullerReferences_iff, hv]; simp
  obtain ⟨pr, hpr⟩ := Option.ne_none_iff_exists'.mp hpr0
  have hbr0 : g.bufferReferences b ≠ none := by
    rw [Ne, hi.bufferReferences_iff, hb]; simp
  obtain ⟨br, hbr⟩ := Option.ne_none_iff_exists'.mp hbr0
  refine ⟨pr, hpr, ?_⟩
  have hs' : ¬ (s ≠ 1 ∧ s ≠ 2 ∧ s ≠ 4) := by omega
  have hz := bufferReferences_zero g hi
  have hb0 : b ≠ 0 := by
    intro h
    rw [h, hz] at hbr
    exact absurd hbr (by simp)
  unfold cpu_setIndexing
  rw [if_neg hs']
  simp only [hv, ne_eq, hb0, not_false_eq_true, if_true, hb, hpr]
  by_cases h0 : pr.indexBuffer = 0
  · simp only [h0, not_true_eq_false, if_false, hbr, Outcome.returned.injEq,
      GpuImplementation.mk.injEq, true_and, and_true]
    funext x
    unfold referencesAfterSetIndexing
    by_cases hxb : x = b
    · subst hxb
      simp [hbr]
    · simp only [Function.update_noteq hxb, hxb, if_false]
      by_cases hx0 : x = 0
      · rw [hx0, hz]; rfl
      · exact (map_erase_indexing_eq g p pr hi hpr x (by rw [h0]; exact hx0)).symm
  · obtain ⟨obr, hobr⟩ := Option.ne_none_iff_exists'.mp (hi.index_exists p pr hpr h0)
    simp only [h0, not_false_eq_true, if_true, hobr]
    by_cases hbo : b = pr.indexBuffer
    · rw [← hbo] at hobr ⊢
      rw [hbr] at hobr
      cases hobr
      simp only [Function.update_same, Outcome.returned.injEq, GpuImplementation.mk.injEq,
        true_and, and_true]
      funext x
      unfold referencesAfterSetIndexing
      by_cases hxb : x = b
      · subst hxb
        simp only [Function.update_same, hbr, Option.map_some', if_true, Option.some.injEq,
          BufferReferences.mk.injEq, and_true]
        ext y
        by_cases hy : y = p
        · simp [hy]
        · simp [Finset.mem_insert, Finset.mem_erase, hy]
      · simp only [Function.update_noteq hxb, hxb, if_false]
        exact (map_erase_indexing_eq g p pr hi hpr x (by rw [← hbo]; exact hxb)).symm
    · simp only [Function.update_noteq hbo, hbr, Outcome.returned.injEq,
        GpuImplementation.mk.injEq, true_and, and_true]
      funext x
      unfold referencesAfterSetIndexing
      by_cases hxb : x = b
      · subst hxb
        simp [hbr]
      · simp only [Function.update_noteq hxb, hxb, if_false]
        by_cases hxo : x = pr.indexBuffer
        · rw [hxo]
          simp [hobr]
        · simp only [Function.update_noteq hxo]
          exact (map_erase_indexing_eq g p pr hi hpr x hxo).symm

/-- The operations of the registry other than the two that create buffers and pullers
keep the two counters and the invariant, however they end. -/
lemma apply_other_spec (MAX_ATTRIBUTES : ℕ) (g g' : GpuImplementation) (op : RegistryOp)
    (hi : RegistryInv g) (h : (op.apply MAX_ATTRIBUTES g).outcome.state = some g')
    (hb : ∀ n, op ≠ .createBuffers n) (hp : ∀ n, op ≠ .createVertexPullers n) :
    RegistryInv g' ∧ g'.bufferCounter = g.bufferCounter ∧ g'.vaoCounter = g.vaoCounter ∧
    (op.apply MAX_ATTRIBUTES g).bufferIds = [] ∧ (op.apply MAX_ATTRIBUTES g).pullerIds = [] := by
  have hsame : ∀ g'', SameKeys g g'' → RegistryInv g'' ∧ g''.bufferCounter = g.bufferCounter ∧
      g''.vaoCounter = g.vaoCounter := fun g'' hs =>
    ⟨hi.of_sameKeys hs, hs.bufferCounter_eq, hs.vaoCounter_eq⟩
  cases op with
  | createBuffers n => exact absurd rfl (hb n)
  | createVertexPullers n => exact absurd rfl (hp n)
  | bufferData buffer size data newData =>
    simp only [RegistryOp.apply] at h
    obtain ⟨h1, h2, h3⟩ := hsame g' (bufferData_sameKeys g g' buffer size data newData h)
    exact ⟨h1, h2, h3, rfl, rfl⟩
  | setVertexPullerHead p a b offset stride =>
    simp only [RegistryOp.apply] at h
    refine ⟨?_, ?_, ?_, rfl, rfl⟩ <;>
    · by_cases ha : a < MAX_ATTRIBUTES
      · cases hv : g.vaos p with
        | none =>
          have := (rejected_calls_eq MAX_ATTRIBUTES g).2.1 p a b offset stride
            (Or.inr (Or.inl hv))
          rw [this] at h
          simp only [Outcome.state, Option.some.injEq] at h
          subst h
          first | exact hi | rfl
        | some vao =>
          cases hbuf : g.buffers b with
          | none =>
            have := (rejected_calls_eq MAX_ATTRIBUTES g).2.1 p a b offset stride
              (Or.inr (Or.inr hbuf))
            rw [this] at h
            simp only [Outcome.state, Option.some.injEq] at h
            subst h
            first | exact hi | rfl
          | some buf =>
            obtain ⟨pr, hpr, heq⟩ :=
              setVertexPullerHead_eq MAX_ATTRIBUTES g p a b offset stride vao buf hi ha hv hbuf
            rw [heq] at h
            simp only [Outcome.state, Option.some.injEq] at h
            subst h
            first
              | exact setHead_closed_inv g p a b vao _ pr hi hv hpr
                  (by rw [Ne, hi.bufferReferences_iff, hbuf]; simp)
              | rfl
      · have := (rejected_calls_eq MAX_ATTRIBUTES g).2.1 p a b offset stride
          (Or.inl (not_lt.mp ha))
        rw [this] at h
        simp only [Outcome.state, Option.some.injEq] at h
        subst h
        first | exact hi | rfl
  | setIndexing p b s =>
    simp only [RegistryOp.apply] at h
    refine ⟨?_, ?_, ?_, rfl, rfl⟩ <;>
    · by_cases hs : s = 1 ∨ s = 2 ∨ s = 4
      · cases hv : g.vaos p with
        | none =>
          have := (rejected_calls_eq MAX_ATTRIBUTES g).2.2.1 p b s (Or.inr (Or.inl hv))
          rw [this] at h
          simp only [Outcome.state, Option.some.injEq] at h
          subst h
          first | exact hi | rfl
        | some vao =>
          by_cases hb0 : b = 0
          · subst hb0
            obtain ⟨pr, hpr, heq⟩ := setIndexing_zero_eq g p s vao hi hs hv
            rw [heq] at h
            simp only [Outcome.state, Option.some.injEq] at h
            subst h
            first
              | exact setIndexing_closed_inv g p 0 vao _ pr hi hv hpr (fun h0 => absurd rfl h0)
              | rfl
          · cases hbuf : g.buffers b with
            | none =>
              have := (rejected_calls_eq MAX_ATTRIBUTES g).2.2.1 p b s
                (Or.inr (Or.inr ⟨hb0, hbuf⟩))
              rw [this] at h
              simp only [Outcome.state, Option.some.injEq] at h
              subst h
              first | exact hi | rfl
            | some buf =>
              obtain ⟨pr, hpr, heq⟩ := setIndexing_eq g p b s vao buf hi hs hv hbuf
              rw [heq] at h
              simp only [Outcome.state, Option.some.injEq] at h
              subst h
              first
                | exact setIndexing_closed_inv g p b vao _ pr hi hv hpr
                    (fun _ => by rw [Ne, hi.bufferReferences_iff, hbuf]; simp)
                | rfl
      · have := (rejected_calls_eq MAX_ATTRIBUTES g).2.2.1 p b s
          (Or.inl (by omega))
        rw [this] at h
        simp only [Outcome.state, Option.some.injEq] at h
        subst h
        first | exact hi | rfl
  | enableVertexPullerHead p a =>
    simp only [RegistryOp.apply, Outcome.state, Option.some.injEq] at h
    subst h
    have hs : SameKeys g (cpu_enableVertexPullerHead MAX_ATTRIBUTES g p a) := by
      unfold cpu_enableVertexPullerHead setEnableVertexAttrib
      by_cases ha : a ≥ MAX_ATTRIBUTES
      · rw [if_pos ha]; exact SameKeys.refl g
      · rw [if_neg ha]
        cases hv : g.vaos p with
        | none => exact SameKeys.refl g
        | some vao => exact SameKeys.update_vao g p vao _ hv
    obtain ⟨h1, h2, h3⟩ := hsame _ hs
    exact ⟨h1, h2, h3, rfl, rfl⟩
  | disableVertexPullerHead p a =>
    simp only [RegistryOp.apply, Outcome.state, Option.some.injEq] at h
    subst h
    have hs : SameKeys g (cpu_disableVertexPullerHead MAX_ATTRIBUTES g p a) := by
      unfold cpu_disableVertexPullerHead setEnableVertexAttrib
      by_cases ha : a ≥ MAX_ATTRIBUTES
      · rw [if_pos ha]; exact SameKeys.refl g
      · rw [if_neg ha]
        cases hv : g.vaos p with
        | none => exact SameKeys.refl g
        | some vao => exact SameKeys.update_vao g p vao _ hv
    obtain ⟨h1, h2, h3⟩ := hsame _ hs
    exact ⟨h1, h2, h3, rfl, rfl⟩
  | bindVertexPuller id =>
    simp only [RegistryOp.apply, Outcome.state, Option.some.injEq] at h
    subst h
    have hs : SameKeys g (cpu_bindVertexPuller g id) := by
      unfold cpu_bindVertexPuller
      cases g.vaos id with
      | none => exact SameKeys.refl g
      | some vao => exact ⟨rfl, rfl, rfl, rfl, fun _ => Iff.rfl, fun _ => Iff.rfl⟩
    obtain ⟨h1, h2, h3⟩ := hsame _ hs
    exact ⟨h1, h2, h3, rfl, rfl⟩
  | createProgram =>
    simp only [RegistryOp.apply, Outcome.state, Option.some.injEq] at h
    subst h
    have hs : SameKeys g (cpu_createProgram g).1 :=
      ⟨rfl, rfl, rfl, rfl, fun _ => Iff.rfl, fun _ => Iff.rfl⟩
    obtain ⟨h1, h2, h3⟩ := hsame _ hs
    exact ⟨h1, h2, h3, rfl, rfl⟩
  | deleteProgram program =>
    simp only [RegistryOp.apply, Outcome.state, Option.some.injEq] at h
    subst h
    have hs : SameKeys g (cpu_deleteProgram g program) := by
      unfold cpu_deleteProgram
      cases g.programs program with
      | none => exact SameKeys.refl g
      | some st => exact ⟨rfl, rfl, rfl, rfl, fun _ => Iff.rfl, fun _ => Iff.rfl⟩
    obtain ⟨h1, h2, h3⟩ := hsame _ hs
    exact ⟨h1, h2, h3, rfl, rfl⟩
  | attachVertexShader program shader =>
    simp only [RegistryOp.apply, Outcome.state, Option.some.injEq] at h
    subst h
    have hs : SameKeys g (cpu_attachVertexShader g program shader) := by
      unfold cpu_attachVertexShader
      cases g.programs program with
      | none => exact SameKeys.refl g
      | some st => exact ⟨rfl, rfl, rfl, rfl, fun _ => Iff.rfl, fun _ => Iff.rfl⟩
    obtain ⟨h1, h2, h3⟩ := hsame _ hs
    exact ⟨h1, h2, h3, rfl, rfl⟩
  | attachFragmentShader program shader =>
    simp only [RegistryOp.apply, Outcome.state, Option.some.injEq] at h
    subst h
    have hs : SameKeys g (cpu_attachFragmentShader g program shader) := by
      unfold cpu_attachFragmentShader
      cases g.programs program with
      | none => exact SameKeys.refl g
      | some st => exact ⟨rfl, rfl, rfl, rfl, fun _ => Iff.rfl, fun _ => Iff.rfl⟩
    obtain ⟨h1, h2, h3⟩ := hsame _ hs
    exact ⟨h1, h2, h3, rfl, rfl⟩
  | useProgram program =>
    simp only [RegistryOp.apply, Outcome.state, Option.some.injEq] at h
    subst h
    have hs : SameKeys g (cpu_useProgram g program) := by
      unfold cpu_useProgram
      cases g.programs program with
      | none => exact SameKeys.refl g
      | some st => exact ⟨rfl, rfl, rfl, rfl, fun _ => Iff.rfl, fun _ => Iff.rfl⟩
    obtain ⟨h1, h2, h3⟩ := hsame _ hs
    exact ⟨h1, h2, h3, rfl, rfl⟩
  | setAttributeInterpolation program a type interpolation =>
    simp only [RegistryOp.apply] at h
    have hs : SameKeys g g' := by
      unfold cpu_setAttributeInterpolation at h
      by_cases ha : a ≥ MAX_ATTRIBUTES
      · rw [if_pos ha] at h
        exact absurd h (by simp [Outcome.state])
      · rw [if_neg ha] at h
        cases hp : g.programs program with
        | none =>
          rw [hp] at h
          exact absurd h (by simp [Outcome.state])
        | some st =>
          rw [hp] at h
          simp only [Outcome.state, Option.some.injEq] at h
          subst h
          exact ⟨rfl, rfl, rfl, rfl, fun _ => Iff.rfl, fun _ => Iff.rfl⟩
    obtain ⟨h1, h2, h3⟩ := hsame _ hs
    exact ⟨h1, h2, h3, rfl, rfl⟩


/-- The identifiers `c, c + 1, ..., c + n - 1` are strictly increasing. -/
lemma pairwise_range_add (c n : ℕ) :
    ((List.range n).map (fun i => c + i)).Pairwise (· < ·) := by
  rw [List.pairwise_map]
  exact (List.pairwise_lt_range n).imp (fun h => by omega)

/-- One step of a run preserves what holds of every run. -/
lemma step_runInv (MAX_ATTRIBUTES : ℕ) (r : RegistryRun) (op : RegistryOp) (h : RunInv r) :
    RunInv (r.step MAX_ATTRIBUTES op) := by
  unfold RegistryRun.step
  by_cases ha : r.alive = true
  swap
  · simp only [ha, Bool.false_eq_true, if_false]
    exact h
  simp only [ha, if_true]
  by_cases hb : ∃ n, op = .createBuffers n
  · obtain ⟨n, rfl⟩ := hb
    simp only [RegistryOp.apply, createBuffers_eq, List.append_nil]
    have hinv := createBuffers_inv r.state n h.inv
    rw [createBuffers_eq] at hinv
    refine ⟨hinv, ?_, ?_, h.pullerIds_bound, h.pullerIds_increasing⟩
    · intro id hid
      show 1 ≤ id ∧ id < r.state.bufferCounter + n
      rcases List.mem_append.mp hid with hid | hid
      · have := h.bufferIds_bound id hid
        omega
      · obtain ⟨i, hi, rfl⟩ := List.mem_map.mp hid
        have := List.mem_range.mp hi
        have := h.inv.bufferCounter_pos
        omega
    · rw [List.pairwise_append]
      refine ⟨h.bufferIds_increasing, pairwise_range_add _ _, ?_⟩
      intro a ha' b hb'
      obtain ⟨i, _, rfl⟩ := List.mem_map.mp hb'
      have := h.bufferIds_bound a ha'
      omega
  by_cases hp : ∃ n, op = .createVertexPullers n
  · obtain ⟨n, rfl⟩ := hp
    simp only [RegistryOp.apply, createVertexPullers_eq, List.append_nil]
    have hinv := createVertexPullers_inv r.state n h.inv
    rw [createVertexPullers_eq] at hinv
    refine ⟨hinv, h.bufferIds_bound, h.bufferIds_increasing, ?_, ?_⟩
    · intro id hid
      show 1 ≤ id ∧ id < r.state.vaoCounter + n
      rcases List.mem_append.mp hid with hid | hid
      · have := h.pullerIds_bound id hid
        omega
      · obtain ⟨i, hi, rfl⟩ := List.mem_map.mp hid
        have := List.mem_range.mp hi
        have := h.inv.vaoCounter_pos
        omega
    · rw [List.pairwise_append]
      refine ⟨h.pullerIds_increasing, pairwise_range_add _ _, ?_⟩
      intro a ha' b hb'
      obtain ⟨i, _, rfl⟩ := List.mem_map.mp hb'
      have := h.pullerIds_bound a ha'
      omega
  have hb' : ∀ n, op ≠ .createBuffers n := fun n hn => hb ⟨n, hn⟩
  have hp' : ∀ n, op ≠ .createVertexPullers n := fun n hn => hp ⟨n, hn⟩
  cases ho : (op.apply MAX_ATTRIBUTES r.state).outcome with
  | returned g =>
    obtain ⟨h1, h2, h3, h4, h5⟩ :=
      apply_other_spec MAX_ATTRIBUTES r.state g op h.inv (by rw [ho]; rfl) hb' hp'
    simp only [h4, h5, List.append_nil]
    exact ⟨h1, by rw [h2]; exact h.bufferIds_bound, h.bufferIds_increasing,
      by rw [h3]; exact h.pullerIds_bound, h.pullerIds_increasing⟩
  | thrown g =>
    obtain ⟨h1, h2, h3, h4, h5⟩ :=
      apply_other_spec MAX_ATTRIBUTES r.state g op h.inv (by rw [ho]; rfl) hb' hp'
    simp only [h4, h5, List.append_nil]
    exact ⟨h1, by rw [h2]; exact h.bufferIds_bound, h.bufferIds_increasing,
      by rw [h3]; exact h.pullerIds_bound, h.pullerIds_increasing⟩
  | exited =>
    exact ⟨h.inv, h.bufferIds_bound, h.bufferIds_increasing, h.pullerIds_bound,
      h.pullerIds_increasing⟩

/-- A run from any start that satisfies the run invariant satisfies it at the end. -/
lemma foldl_runInv (MAX_ATTRIBUTES : ℕ) (ops : List RegistryOp) :
    ∀ r, RunInv r → RunInv (ops.foldl (RegistryRun.step MAX_ATTRIBUTES) r) := by
  induction ops with
  | nil => intro r h; exact h
  | cons op rest ih =>
    intro r h
    exact ih _ (step_runInv MAX_ATTRIBUTES r op h)

/-- Every run of the registry satisfies the run invariant. -/
lemma runRegistry_runInv (MAX_ATTRIBUTES : ℕ) (ops : List RegistryOp) :
    RunInv (runRegistry MAX_ATTRIBUTES ops) := by
  unfold runRegistry
  apply foldl_runInv
  refine ⟨createGPU_inv, ?_, List.Pairwise.nil, ?_, List.Pairwise.nil⟩
  · intro id hid; exact absurd hid (List.not_mem_nil _)
  · intro id hid; exact absurd hid (List.not_mem_nil _)

/-- C16: in every sequence of registry operations, the identifiers handed out by
`cpu_createBuffers`, listed in the order of issue, are non-zero and strictly increasing,
so each differs from every identifier handed out before it; the same holds for the
identifiers of `cpu_createVertexPullers`. -/
theorem issued_ids_fresh (MAX_ATTRIBUTES : ℕ) (ops : List RegistryOp) :
    (∀ id ∈ (runRegistry MAX_ATTRIBUTES ops).bufferIds, id ≠ 0) ∧
    (runRegistry MAX_ATTRIBUTES ops).bufferIds.Pairwise (· < ·) ∧
    (runRegistry MAX_ATTRIBUTES ops).bufferIds.Nodup ∧
    (∀ id ∈ (runRegistry MAX_ATTRIBUTES ops).pullerIds, id ≠ 0) ∧
    (runRegistry MAX_ATTRIBUTES ops).pullerIds.Pairwise (· < ·) ∧
    (runRegistry MAX_ATTRIBUTES ops).pullerIds.Nodup := by
  have h := runRegistry_runInv MAX_ATTRIBUTES ops
  refine ⟨?_, h.bufferIds_increasing, ?_, ?_, h.pullerIds_increasing, ?_⟩
  · intro id hid
    have := (h.bufferIds_bound id hid).1
    omega
  · exact h.bufferIds_increasing.imp (fun hab => Nat.ne_of_lt hab)
  · intro id hid
    have := (h.pullerIds_bound id hid).1
    omega
  · exact h.pullerIds_increasing.imp (fun hab => Nat.ne_of_lt hab)

/-- C18: in every state reached from `cpu_createGPU` by registry operations, `(p, a)` is
in the attribute back-reference set of buffer `b` exactly when slot `a` of puller `p` is
recorded as sourced from `b`, and `p` is in the indexing back-reference set of `b`
exactly when the recorded index buffer of `p` is `b`; every `(p, a)` and every `p` is in
the back-reference sets of at most one buffer. -/
theorem references_agree (MAX_ATTRIBUTES : ℕ) (ops : List RegistryOp) :
    (∀ b refs, (runRegistry MAX_ATTRIBUTES ops).state.bufferReferences b = some refs →
      ∀ p a, toLex (p, a) ∈ refs.attribs ↔
        ∃ pr, (runRegistry MAX_ATTRIBUTES ops).state.pullerReferences p = some pr ∧
          pr.attribBuffers a = some b) ∧
    (∀ b refs, (runRegistry MAX_ATTRIBUTES ops).state.bufferReferences b = some refs →
      ∀ p, p ∈ refs.indexings ↔
        ∃ pr, (runRegistry MAX_ATTRIBUTES ops).state.pullerReferences p = some pr ∧
          pr.indexBuffer = b) ∧
    (∀ b b' refs refs' p a,
      (runRegistry MAX_ATTRIBUTES ops).state.bufferReferences b = some refs →
      (runRegistry MAX_ATTRIBUTES ops).state.bufferReferences b' = some refs' →
      toLex (p, a) ∈ refs.attribs → toLex (p, a) ∈ refs'.attribs → b = b') ∧
    (∀ b b' refs refs' p,
      (runRegistry MAX_ATTRIBUTES ops).state.bufferReferences b = some refs →
      (runRegistry MAX_ATTRIBUTES ops).state.bufferReferences b' = some refs' →
      p ∈ refs.indexings → p ∈ refs'.indexings → b = b') := by
  have h := (runRegistry_runInv MAX_ATTRIBUTES ops).inv
  refine ⟨h.attribs_iff, h.indexings_iff, ?_, ?_⟩
  · intro b b' refs refs' p a hb hb' hm hm'
    obtain ⟨pr, hpr, hab⟩ := (h.attribs_iff b refs hb p a).mp hm
    obtain ⟨pr', hpr', hab'⟩ := (h.attribs_iff b' refs' hb' p a).mp hm'
    rw [hpr] at hpr'
    cases hpr'
    rw [hab] at hab'
    exact Option.some.inj hab'
  · intro b b' refs refs' p hb hb' hm hm'
    obtain ⟨pr, hpr, hib⟩ := (h.indexings_iff b refs hb p).mp hm
    obtain ⟨pr', hpr', hib'⟩ := (h.indexings_iff b' refs' hb' p).mp hm'
    rw [hpr] at hpr'
    cases hpr'
    rw [← hib, ← hib']

/-- C20 (the code on every reachable state): for an existing puller `p` and an element
width in `{1, 2, 4}`, `cpu_setIndexing (p, 0, s)` does not return: after it has set the
index pointer of `p` to null, removed `p` from the indexing set of its previous index
buffer and recorded the index buffer `0`, the call `bufferReferences.at(0)` throws
`std::out_of_range`, because no buffer has the identifier `0`. -/
theorem setIndexing_zero_throws (MAX_ATTRIBUTES : ℕ) (ops : List RegistryOp) (p s : ℕ)
    (hp : (runRegistry MAX_ATTRIBUTES ops).state.vaos p ≠ none)
    (hs : s = 1 ∨ s = 2 ∨ s = 4) :
    ∃ g', cpu_setIndexing (runRegistry MAX_ATTRIBUTES ops).state p 0 s = .thrown g' ∧
      (∃ vao', g'.vaos p = some vao' ∧ vao'.indices = 0 ∧
        ∀ n, gpu_computeGLVertexID (indexArray (fun _ => []) vao'.indices) n = some n) ∧
      (∃ pr', g'.pullerReferences p = some pr' ∧ pr'.indexBuffer = 0) ∧
      (∀ b refs, g'.bufferReferences b = some refs → p ∉ refs.indexings) := by
  have hi := (runRegistry_runInv MAX_ATTRIBUTES ops).inv
  obtain ⟨vao, hv⟩ := Option.ne_none_iff_exists'.mp hp
  obtain ⟨pr, hpr, heq⟩ := setIndexing_zero_eq _ p s vao hi hs hv
  have hinv := setIndexing_closed_inv _ p 0 vao { vao with indices := 0 } pr hi hv hpr
    (fun h0 => absurd rfl h0)
  refine ⟨_, heq, ⟨{ vao with indices := 0 }, ?_, rfl, fun n => rfl⟩,
    ⟨{ pr with indexBuffer := 0 }, ?_, rfl⟩, ?_⟩
  · simp
  · simp
  · intro b refs hb hmem
    obtain ⟨pr', hpr', hib⟩ := (hinv.indexings_iff b refs hb p).mp hmem
    simp only [Function.update_same, Option.some.injEq] at hpr'
    subst hpr'
    have hb0 : b = 0 := hib.symm
    rw [hb0, bufferReferences_zero _ hinv] at hb
    exact absurd hb (by simp)

/-- After `cpu_createVertexPullers (1)` on a new GPU the puller `1` exists, and
`cpu_setIndexing (1, 0, 4)` ends in the exception. -/
theorem setIndexing_zero_throws_witness :
    (runRegistry 8 sampleOpsPuller).state.vaos 1 ≠ none ∧ (4 = 1 ∨ 4 = 2 ∨ 4 = 4) ∧
    ∃ g', cpu_setIndexing (runRegistry 8 sampleOpsPuller).state 1 0 4 = .thrown g' ∧
      (∃ vao', g'.vaos 1 = some vao' ∧ vao'.indices = 0 ∧
        ∀ n, gpu_computeGLVertexID (indexArray (fun _ => []) vao'.indices) n = some n) ∧
      (∃ pr', g'.pullerReferences 1 = some pr' ∧ pr'.indexBuffer = 0) ∧
      (∀ b refs, g'.bufferReferences b = some refs → 1 ∉ refs.indexings) :=
  have hp : (runRegistry 8 sampleOpsPuller).state.vaos 1 ≠ none := by
    simp [runRegistry, sampleOpsPuller, RegistryRun.step, RegistryOp.apply,
      createVertexPullers_eq, cpu_createGPU]
  ⟨hp, Or.inr (Or.inr rfl), setIndexing_zero_throws 8 sampleOpsPuller 1 4 hp (Or.inr (Or.inr rfl))⟩

/-! ### Buffer upload -/

/-- The first loop of `cpu_bufferData` over existing pullers, as a closed form. -/
lemma refreshIndexPointers_eq (ptr : ℕ) (l : List ℕ) :
    ∀ g : GpuImplementation, (∀ p ∈ l, g.vaos p ≠ none) →
      refreshIndexPointers g ptr l =
        .returned { g with
          vaos := fun q => (g.vaos q).map
            (fun v => if q ∈ l then { v with indices := ptr } else v) } := by
  induction l with
  | nil =>
    intro g _
    simp only [refreshIndexPointers, List.not_mem_nil, if_false, Outcome.returned.injEq]
    cases g
    simp only [GpuImplementation.mk.injEq, true_and, and_true]
    funext q
    simp
  | cons p rest ih =>
    intro g h
    obtain ⟨vao, hv⟩ := Option.ne_none_iff_exists'.mp (h p (List.mem_cons_self p rest))
    unfold refreshIndexPointers
    simp only [hv]
    rw [ih]
    · simp only [Outcome.returned.injEq, GpuImplementation.mk.injEq, true_and, and_true]
      funext q
      by_cases hq : q = p
      · subst hq
        by_cases hr : q ∈ rest
        · simp [hv, hr]
        · simp [hv, hr]
      · simp [Function.update_noteq hq, hq]
    · intro q hq
      by_cases hqp : q = p
      · subst hqp; simp
      · simp only [Function.update_noteq hqp]
        exact h q (List.mem_cons_of_mem p hq)

/-- The second loop of `cpu_bufferData` over heads of existing pullers, as a closed
form. -/
lemma refreshHeadPointers_eq (ptr : ℕ) (l : List PullerAttrib) :
    ∀ g : GpuImplementation, (∀ pa ∈ l, g.vaos (ofLex pa).1 ≠ none) →
      refreshHeadPointers g ptr l =
        .returned { g with
          vaos := fun q => (g.vaos q).map
            (fun v => { v with
              heads := fun a =>
                if toLex (q, a) ∈ l then { v.heads a with buffer := ptr } else v.heads a }) } := by
  induction l with
  | nil =>
    intro g _
    simp only [refreshHeadPointers, List.not_mem_nil, if_false, Outcome.returned.injEq]
    cases g
    simp only [GpuImplementation.mk.injEq, true_and, and_true]
    funext q
    simp
  | cons pa rest ih =>
    intro g h
    obtain ⟨vao, hv⟩ := Option.ne_none_iff_exists'.mp (h pa (List.mem_cons_self pa rest))
    unfold refreshHeadPointers
    simp only [hv]
    rw [ih]
    · simp only [Outcome.returned.injEq, GpuImplementation.mk.injEq, true_and, and_true]
      funext q
      by_cases hq : q = (ofLex pa).1
      · subst hq
        simp only [Function.update_same, Option.map_some', hv, Option.some.injEq,
          GPUVertexPullerConfiguration.mk.injEq]
        refine ⟨?_, rfl⟩
        funext a
        by_cases ha : a = (ofLex pa).2
        · subst ha
          have hpa : toLex ((ofLex pa).1, (ofLex pa).2) = pa := rfl
          simp only [setHeadBuffer, Function.update_same, hpa, List.mem_cons, true_or, if_true]
          by_cases hr : pa ∈ rest
          · simp [hr]
          · simp [hr]
        · have hne : toLex ((ofLex pa).1, a) ≠ pa := by
            intro h'
            exact ha (congrArg (fun z => (ofLex z).2) h')
          simp only [setHeadBuffer, Function.update_noteq ha, List.mem_cons, hne, false_or]
      · have hne : ∀ a, toLex (q, a) ≠ pa := by
          intro a h'
          exact hq (congrArg (fun z => (ofLex z).1) h')
        simp only [Function.update_noteq hq, List.mem_cons, hne, false_or]
    · intro qa hqa
      by_cases hqp : (ofLex qa).1 = (ofLex pa).1
      · rw [hqp]; simp
      · simp only [Function.update_noteq hqp]
        exact h qa (List.mem_cons_of_mem pa hqa)


/-- In a state with agreeing references, `cpu_bufferData` on an existing buffer returns,
and the new state is the closed form: the buffer holds the new bytes at the new address,
and the pointers of the pullers and heads in its back-reference sets are the new
address. -/
lemma bufferData_eq (g : GpuImplementation) (b size : ℕ) (data : ℕ → Byte) (newData : ℕ)
    (buf : ByteVector) (refs : BufferReferences) (hi : RegistryInv g)
    (hb : g.buffers b = some buf) (hr : g.bufferReferences b = some refs) :
    cpu_bufferData g b size data newData =
      .returned { g with
        buffers := Function.update g.buffers b
          (some { content := (List.range size).map data, data := newData }),
        vaos := fun q => (g.vaos q).map
          (fun v =>
            { heads := fun a =>
                if toLex (q, a) ∈ refs.attribs then { v.heads a with buffer := newData }
                else v.heads a,
              indices := if q ∈ refs.indexings then newData else v.indices }) } := by
  have hex : ∀ q, (∃ pr, g.pullerReferences q = some pr) → g.vaos q ≠ none := by
    rintro q ⟨pr, hpr⟩ hn
    rw [← hi.pullerReferences_iff, hpr] at hn
    exact absurd hn (by simp)
  unfold cpu_bufferData
  simp only [hb, hr]
  rw [refreshIndexPointers_eq]
  · simp only
    rw [refreshHeadPointers_eq]
    · simp only [Outcome.returned.injEq, GpuImplementation.mk.injEq, true_and, and_true,
        Finset.mem_sort]
      funext q
      cases hq : g.vaos q with
      | none => rfl
      | some v =>
        simp only [Option.map_some', Option.some.injEq, GPUVertexPullerConfiguration.mk.injEq,
          true_and]
        by_cases hm : q ∈ refs.indexings
        · simp [hm]
        · simp [hm]
    · intro pa hpa
      rw [Finset.mem_sort] at hpa
      have hpa' : toLex ((ofLex pa).1, (ofLex pa).2) ∈ refs.attribs := hpa
      obtain ⟨pr, hpr, _⟩ := (hi.attribs_iff b refs hr _ _).mp hpa'
      have := hex (ofLex pa).1 ⟨pr, hpr⟩
      cases hq : g.vaos (ofLex pa).1 with
      | none => exact absurd hq this
      | some v => simp [hq]
  · intro p hp
    rw [Finset.mem_sort] at hp
    obtain ⟨pr, hpr, _⟩ := (hi.indexings_iff b refs hr p).mp hp
    exact hex p ⟨pr, hpr⟩


/-- The recorded index buffer of a puller is an existing buffer `b` exactly when the
puller is in the indexing set of `b`. -/
lemma mem_indexings_iff_recorded (g : GpuImplementation) (hi : RegistryInv g) (b p : ℕ)
    (refs : BufferReferences) (hr : g.bufferReferences b = some refs) :
    p ∈ refs.indexings ↔ recordedIndexBuffer g p = b := by
  rw [hi.indexings_iff b refs hr p]
  unfold recordedIndexBuffer
  cases hp : g.pullerReferences p with
  | none =>
    constructor
    · rintro ⟨pr, h, _⟩
      exact absurd h (by simp)
    · intro h0
      rw [← h0, bufferReferences_zero g hi] at hr
      exact absurd hr (by simp)
  | some pr => simp

/-- The recorded source of a head is the buffer `b` exactly when the head is in the
attribute set of `b`. -/
lemma mem_attribs_iff_recorded (g : GpuImplementation) (hi : RegistryInv g) (b p a : ℕ)
    (refs : BufferReferences) (hr : g.bufferReferences b = some refs) :
    toLex (p, a) ∈ refs.attribs ↔ recordedAttribBuffer g p a = some b := by
  rw [hi.attribs_iff b refs hr p a]
  unfold recordedAttribBuffer
  cases hp : g.pullerReferences p with
  | none => simp
  | some pr => simp

/-- The bytes uploaded by `cpu_bufferData`, read back by position. -/
lemma uploaded_getElem (n : ℕ) (data : ℕ → Byte) (i : ℕ) :
    ((List.range n).map data)[i]? = if i < n then some (data i) else none := by
  by_cases hi : i < n
  · simp [hi, List.getElem?_map, List.getElem?_range hi]
  · simp [hi, List.getElem?_eq_none (l := (List.range n).map data) (by simpa using hi)]

/-- C17: in every state reached by registry operations, `cpu_bufferData (b, n, data)`
on an existing buffer `b` returns; afterwards the buffer holds exactly the `n` bytes of
`data` in its new storage, the `buffer` pointer of every head recorded as reading from
`b` and the index pointer of every puller recorded as indexing from `b` are the address
of the new storage, so that an enabled head reads the byte `data[offset + stride * v]`
through its pointer for vertex `v`; the other heads and index pointers, the other
buffers and all references are unchanged. -/
theorem bufferData_spec (MAX_ATTRIBUTES : ℕ) (ops : List RegistryOp) (b n : ℕ)
    (data : ℕ → Byte) (newData : ℕ)
    (hb : (runRegistry MAX_ATTRIBUTES ops).state.buffers b ≠ none) :
    ∃ g', cpu_bufferData (runRegistry MAX_ATTRIBUTES ops).state b n data newData =
        .returned g' ∧
      g'.buffers b = some { content := (List.range n).map data, data := newData } ∧
      ((List.range n).map data).length = n ∧
      (∀ i, i < n → ((List.range n).map data)[i]? = some (data i)) ∧
      (∀ b', b' ≠ b → g'.buffers b' = (runRegistry MAX_ATTRIBUTES ops).state.buffers b') ∧
      g'.pullerReferences = (runRegistry MAX_ATTRIBUTES ops).state.pullerReferences ∧
      g'.bufferReferences = (runRegistry MAX_ATTRIBUTES ops).state.bufferReferences ∧
      (∀ p vao, (runRegistry MAX_ATTRIBUTES ops).state.vaos p = some vao →
        ∃ vao', g'.vaos p = some vao' ∧
          vao'.indices =
            (if recordedIndexBuffer (runRegistry MAX_ATTRIBUTES ops).state p = b then newData
             else vao.indices) ∧
          ∀ a, vao'.heads a =
            if recordedAttribBuffer (runRegistry MAX_ATTRIBUTES ops).state p a = some b then
              { vao.heads a with buffer := newData }
            else vao.heads a) ∧
      (∀ p vao' a v, g'.vaos p = some vao' →
        recordedAttribBuffer (runRegistry MAX_ATTRIBUTES ops).state p a = some b →
        (vao'.heads a).enabled = 1 →
        gpu_computeVertexAttributeDataPointer (vao'.heads a) v =
          some (newData + (vao'.heads a).offset + (vao'.heads a).stride * v) ∧
        byteThrough { content := (List.range n).map data, data := newData }
            (newData + (vao'.heads a).offset + (vao'.heads a).stride * v) =
          if (vao'.heads a).offset + (vao'.heads a).stride * v < n then
            some (data ((vao'.heads a).offset + (vao'.heads a).stride * v))
          else none) := by
  have hi := (runRegistry_runInv MAX_ATTRIBUTES ops).inv
  generalize (runRegistry MAX_ATTRIBUTES ops).state = g at hb hi ⊢
  obtain ⟨buf, hbuf⟩ := Option.ne_none_iff_exists'.mp hb
  have hr0 : g.bufferReferences b ≠ none := by
    rw [Ne, hi.bufferReferences_iff]; exact hb
  obtain ⟨refs, hr⟩ := Option.ne_none_iff_exists'.mp hr0
  have hvao : ∀ p vao, g.vaos p = some vao →
      (g.vaos p).map (fun v =>
        ({ heads := fun a =>
            if toLex (p, a) ∈ refs.attribs then { v.heads a with buffer := newData }
            else v.heads a,
           indices := if p ∈ refs.indexings then newData else v.indices } :
          GPUVertexPullerConfiguration)) =
      some { heads := fun a =>
              if recordedAttribBuffer g p a = some b then { vao.heads a with buffer := newData }
              else vao.heads a,
             indices := if recordedIndexBuffer g p = b then newData else vao.indices } := by
    intro p vao hp
    rw [hp]
    simp only [Option.map_some', mem_indexings_iff_recorded g hi b p refs hr,
      mem_attribs_iff_recorded g hi b p _ refs hr]
  refine ⟨_, bufferData_eq g b n data newData buf refs hi hbuf hr, ?_, ?_, ?_, ?_, rfl, rfl,
    ?_, ?_⟩
  · simp
  · simp
  · intro i hin
    rw [uploaded_getElem, if_pos hin]
  · intro b' hb'
    simp [Function.update_noteq hb']
  · intro p vao hp
    exact ⟨_, hvao p vao hp, rfl, fun a => rfl⟩
  · intro p vao' a v hp hrec hen
    cases hq : g.vaos p with
    | none =>
      simp only [hq, Option.map_none'] at hp
      exact absurd hp (by simp)
    | some vao =>
      have h1 : (g.vaos p).map _ = some vao' := hp
      rw [hvao p vao hq] at h1
      have h2 := Option.some.inj h1
      subst h2
      simp only [hrec, if_true] at hen ⊢
      constructor
      · simp [gpu_computeVertexAttributeDataPointer, hen]
      · unfold byteThrough
        have hle : newData ≤ newData + (vao.heads a).offset + (vao.heads a).stride * v := by
          omega
        have hsub : newData + (vao.heads a).offset + (vao.heads a).stride * v - newData =
            (vao.heads a).offset + (vao.heads a).stride * v := by omega
        simp only [hle, if_true, hsub]
        exact uploaded_getElem n data _

/-- In the sample run the buffer `1` exists, and an upload of four bytes to it has the
effect stated in C17. -/
theorem bufferData_spec_witness :
    (runRegistry 8 sampleOpsAttached).state.buffers 1 ≠ none ∧
    ∃ g', cpu_bufferData (runRegistry 8 sampleOpsAttached).state 1 4 (fun i => Fin.ofNat i)
        1000 = .returned g' ∧
      g'.buffers 1 =
        some { content := (List.range 4).map (fun i => Fin.ofNat i), data := 1000 } ∧
      ((List.range 4).map (fun i => (Fin.ofNat i : Byte))).length = 4 ∧
      (∀ i, i < 4 →
        ((List.range 4).map (fun i => (Fin.ofNat i : Byte)))[i]? = some (Fin.ofNat i)) ∧
      (∀ b', b' ≠ 1 → g'.buffers b' = (runRegistry 8 sampleOpsAttached).state.buffers b') ∧
      g'.pullerReferences = (runRegistry 8 sampleOpsAttached).state.pullerReferences ∧
      g'.bufferReferences = (runRegistry 8 sampleOpsAttached).state.bufferReferences ∧
      (∀ p vao, (runRegistry 8 sampleOpsAttached).state.vaos p = some vao →
        ∃ vao', g'.vaos p = some vao' ∧
          vao'.indices =
            (if recordedIndexBuffer (runRegistry 8 sampleOpsAttached).state p = 1 then 1000
             else vao.indices) ∧
          ∀ a, vao'.heads a =
            if recordedAttribBuffer (runRegistry 8 sampleOpsAttached).state p a = some 1 then
              { vao.heads a with buffer := 1000 }
            else vao.heads a) ∧
      (∀ p vao' a v, g'.vaos p = some vao' →
        recordedAttribBuffer (runRegistry 8 sampleOpsAttached).state p a = some 1 →
        (vao'.heads a).enabled = 1 →
        gpu_computeVertexAttributeDataPointer (vao'.heads a) v =
          some (1000 + (vao'.heads a).offset + (vao'.heads a).stride * v) ∧
        byteThrough { content := (List.range 4).map (fun i => Fin.ofNat i), data := 1000 }
            (1000 + (vao'.heads a).offset + (vao'.heads a).stride * v) =
          if (vao'.heads a).offset + (vao'.heads a).stride * v < 4 then
            some (Fin.ofNat ((vao'.heads a).offset + (vao'.heads a).stride * v))
          else none) :=
  have hb : (runRegistry 8 sampleOpsAttached).state.buffers 1 ≠ none := by
    simp [runRegistry, sampleOpsAttached, RegistryRun.step, RegistryOp.apply,
      createBuffers_eq, createVertexPullers_eq, cpu_createGPU, cpu_setVertexPullerHead,
      cpu_setIndexing, cpu_enableVertexPullerHead, setEnableVertexAttrib]
  ⟨hb, bufferData_spec 8 sampleOpsAttached 1 4 (fun i => Fin.ofNat i) 1000 hb⟩


/-! ### Rasterizer: colour clamp and pixel rounding -/

lemma vec4_val0 {α : Type} (a b c d : α) : (![a, b, c, d] : Fin 4 → α) 0 = a := rfl

lemma vec4_val1 {α : Type} (a b c d : α) : (![a, b, c, d] : Fin 4 → α) 1 = b := rfl

/-- A loop of four passes, written out. -/
lemma forLoop_four {σ : Type} (body : ℕ → σ → σ) (init : σ) :
    forLoop 4 body init = body 3 (body 2 (body 1 (body 0 init))) := by
  simp [forLoop, List.range_succ]

/-- A loop of three passes, written out. -/
lemma forLoop_three {σ : Type} (body : ℕ → σ → σ) (init : σ) :
    forLoop 3 body init = body 2 (body 1 (body 0 init)) := by
  simp [forLoop, List.range_succ]

/-- One pass of the loop of `gpu_clampFragmentColor` clamps the channel `i`. -/
lemma clamp_body (out : GPUFragmentShaderOutput) (i : Fin 4) :
    clampChannel out i =
    { out with color := Function.update out.color i (min (max (out.color i) 0) 1) } := by
  unfold clampChannel
  by_cases h0 : out.color i < 0
  · have h1 : ¬ (0 : ℚ) > 1 := by norm_num
    simp [h0, h1, max_eq_right (le_of_lt h0)]
  · by_cases h1 : out.color i > 1
    · simp [h0, h1, max_eq_left (not_lt.mp h0), min_eq_right (le_of_lt h1)]
    · have h2 : min (out.color i) 1 = out.color i := min_eq_left (not_lt.mp h1)
      simp [h0, h1, max_eq_left (not_lt.mp h0), h2]

/-- The closed form of `gpu_clampFragmentColor`. -/
lemma clampFragmentColor_eq (out : GPUFragmentShaderOutput) :
    gpu_clampFragmentColor out =
      { color := fun i => min (max (out.color i) 0) 1, depth := out.depth } := by
  unfold gpu_clampFragmentColor
  have e0 : (Fin.ofNat 0 : Fin 4) = 0 := rfl
  have e1 : (Fin.ofNat 1 : Fin 4) = 1 := rfl
  have e2 : (Fin.ofNat 2 : Fin 4) = 2 := rfl
  have e3 : (Fin.ofNat 3 : Fin 4) = 3 := rfl
  rw [forLoop_four]
  simp only [e0, e1, e2, e3, clamp_body]
  congr 1
  funext i
  fin_cases i <;> simp [Function.update]

/-- For a non-negative value `truncf` is the floor. -/
lemma truncf_nonneg (c : ℚ) (h : 0 ≤ c) : truncf c = ⌊c⌋ := by
  unfold truncf
  rw [if_pos h]

/-- The conversion `(size_t) pixelCoord` of a pixel centre gives the pixel back. -/
lemma truncf_pixel (n : ℕ) : (truncf ((n : ℚ) + PIXEL_CENTER)).toNat = n := by
  have h0 : (0 : ℚ) ≤ (n : ℚ) + PIXEL_CENTER := by
    unfold PIXEL_CENTER
    positivity
  rw [truncf_nonneg _ h0]
  have : ⌊(n : ℚ) + PIXEL_CENTER⌋ = (n : ℤ) := by
    rw [Int.floor_eq_iff]
    unfold PIXEL_CENTER
    constructor
    · push_cast; linarith
    · push_cast; linarith
  rw [this]
  exact Int.toNat_natCast n

/-- The pixels at or after `gpu_roundDownPixelCoord c` are those whose centre is at or
after `c`. -/
lemma roundDownPixelCoord_spec (c : ℚ) (h : 0 ≤ c) :
    ∃ n0, gpu_roundDownPixelCoord (.fin c) = some n0 ∧
      ∀ n : ℕ, n0 ≤ n ↔ c ≤ (n : ℚ) + 1 / 2 := by
  unfold gpu_roundDownPixelCoord
  simp only [if_pos h, truncf_nonneg c h, PIXEL_CENTER]
  refine ⟨_, rfl, ?_⟩
  intro n
  have hk0 : 0 ≤ ⌊c⌋ := Int.floor_nonneg.mpr h
  have hk : ((⌊c⌋.toNat : ℕ) : ℤ) = ⌊c⌋ := Int.toNat_of_nonneg hk0
  have hq : ((⌊c⌋.toNat : ℕ) : ℚ) = (⌊c⌋ : ℚ) := by
    have := congrArg (Int.cast : ℤ → ℚ) hk
    rw [Int.cast_natCast] at this
    exact this
  have hfl : (⌊c⌋ : ℚ) ≤ c := Int.floor_le c
  have hlt : c < (⌊c⌋ : ℚ) + 1 := Int.lt_floor_add_one c
  by_cases hf : c - (⌊c⌋ : ℚ) > 1 / 2
  · simp only [hf, if_true]
    constructor
    · intro hle
      have : ((⌊c⌋.toNat + 1 : ℕ) : ℚ) ≤ (n : ℚ) := by exact_mod_cast hle
      push_cast at this
      rw [hq] at this
      linarith
    · intro hle
      have h1 : (⌊c⌋ : ℚ) < (n : ℚ) := by linarith
      have h2 : ((⌊c⌋.toNat : ℕ) : ℚ) < (n : ℚ) := by rw [hq]; exact h1
      have h3 : ⌊c⌋.toNat < n := by exact_mod_cast h2
      omega
  · simp only [hf, if_false, add_zero]
    constructor
    · intro hle
      have : ((⌊c⌋.toNat : ℕ) : ℚ) ≤ (n : ℚ) := by exact_mod_cast hle
      rw [hq] at this
      linarith
    · intro hle
      have h1 : (⌊c⌋ : ℚ) < (n : ℚ) + 1 := by linarith
      have h2 : ((⌊c⌋.toNat : ℕ) : ℚ) < ((n + 1 : ℕ) : ℚ) := by
        rw [hq]; push_cast; exact h1
      have h3 : ⌊c⌋.toNat < n + 1 := by exact_mod_cast h2
      omega

/-- The pixels before `gpu_roundUpPixelCoord c` are those whose centre is at or before
`c`. -/
lemma roundUpPixelCoord_spec (c : ℚ) (h : 0 ≤ c) :
    ∃ n1, gpu_roundUpPixelCoord (.fin c) = some n1 ∧
      ∀ n : ℕ, n < n1 ↔ (n : ℚ) + 1 / 2 ≤ c := by
  unfold gpu_roundUpPixelCoord
  simp only [if_pos h, truncf_nonneg c h, PIXEL_CENTER]
  refine ⟨_, rfl, ?_⟩
  intro n
  have hk0 : 0 ≤ ⌊c⌋ := Int.floor_nonneg.mpr h
  have hk : ((⌊c⌋.toNat : ℕ) : ℤ) = ⌊c⌋ := Int.toNat_of_nonneg hk0
  have hq : ((⌊c⌋.toNat : ℕ) : ℚ) = (⌊c⌋ : ℚ) := by
    have := congrArg (Int.cast : ℤ → ℚ) hk
    rw [Int.cast_natCast] at this
    exact this
  have hfl : (⌊c⌋ : ℚ) ≤ c := Int.floor_le c
  have hlt : c < (⌊c⌋ : ℚ) + 1 := Int.lt_floor_add_one c
  by_cases hf : c - (⌊c⌋ : ℚ) ≥ 1 / 2
  · simp only [hf, if_true]
    constructor
    · intro hle
      have h0 : n ≤ ⌊c⌋.toNat := by omega
      have : (n : ℚ) ≤ ((⌊c⌋.toNat : ℕ) : ℚ) := by exact_mod_cast h0
      rw [hq] at this
      linarith
    · intro hle
      have h1 : (n : ℚ) < (⌊c⌋ : ℚ) + 1 := by linarith
      have h2 : (n : ℚ) < ((⌊c⌋.toNat + 1 : ℕ) : ℚ) := by
        push_cast; rw [hq]; exact h1
      exact_mod_cast h2
  · simp only [hf, if_false, add_zero]
    constructor
    · intro hle
      have h0 : n + 1 ≤ ⌊c⌋.toNat := by omega
      have : ((n + 1 : ℕ) : ℚ) ≤ ((⌊c⌋.toNat : ℕ) : ℚ) := by exact_mod_cast h0
      rw [hq] at this
      push_cast at this
      linarith
    · intro hle
      have h1 : (n : ℚ) < (⌊c⌋ : ℚ) := by
        have := not_le.mp hf
        linarith
      have h2 : (n : ℚ) < ((⌊c⌋.toNat : ℕ) : ℚ) := by rw [hq]; exact h1
      exact_mod_cast h2

/-! ### Rasterizer: the interval of a scanline -/

/-- The effect of `gpu_restrictLineBorders` on the numbers between the borders: those
that do not satisfy the inequality of the edge line are removed. -/
lemma restrictLineBorders_spec (minX maxX : ExtFloat) (y : ℚ) (edgeLine : Vec3) (x : ℚ) :
    ((gpu_restrictLineBorders minX maxX y edgeLine).1.le (.fin x) ∧
      (ExtFloat.fin x).le (gpu_restrictLineBorders minX maxX y edgeLine).2) ↔
    ((minX.le (.fin x) ∧ (ExtFloat.fin x).le maxX) ∧
      0 ≤ edgeLine 0 * x + edgeLine 1 * y + edgeLine 2) := by
  unfold gpu_restrictLineBorders
  by_cases ha : edgeLine 0 > 0
  · simp only [ha, if_true]
    have hd : (-edgeLine 1 * y - edgeLine 2) / edgeLine 0 ≤ x ↔
        0 ≤ edgeLine 0 * x + edgeLine 1 * y + edgeLine 2 := by
      rw [div_le_iff₀ ha]
      constructor <;> intro h <;> linarith
    rw [← hd]
    cases minX <;> cases maxX <;> simp only [fmaxf, ExtFloat.lt, ExtFloat.le] <;>
      (try split_ifs) <;> simp only [ExtFloat.le] <;>
      first
        | tauto
        | (constructor
           · intro h; refine ⟨⟨?_, ?_⟩, ?_⟩ <;> first | trivial | linarith [h.1, h.2]
           · intro h; refine ⟨?_, ?_⟩ <;> first | trivial | linarith [h.1.1, h.1.2, h.2])
  · by_cases ha' : edgeLine 0 < 0
    · simp only [ha, ha', if_true, if_false]
      have hd : x ≤ (-edgeLine 1 * y - edgeLine 2) / edgeLine 0 ↔
          0 ≤ edgeLine 0 * x + edgeLine 1 * y + edgeLine 2 := by
        rw [le_div_iff_of_neg ha']
        constructor <;> intro h <;> linarith
      rw [← hd]
      cases minX <;> cases maxX <;> simp only [fminf, ExtFloat.lt, ExtFloat.le] <;>
        (try split_ifs) <;> simp only [ExtFloat.le] <;>
        first
          | tauto
          | (constructor
             · intro h; refine ⟨⟨?_, ?_⟩, ?_⟩ <;> first | trivial | linarith [h.1, h.2]
             · intro h; refine ⟨?_, ?_⟩ <;> first | trivial | linarith [h.1.1, h.1.2, h.2])
    · have h0 : edgeLine 0 = 0 := le_antisymm (not_lt.mp ha) (not_lt.mp ha')
      simp only [ha, ha', if_false]
      by_cases hd : -edgeLine 1 * y - edgeLine 2 > 0
      · simp only [hd, if_true, ExtFloat.le, false_and, false_iff, not_and, not_le]
        intro _
        rw [h0]
        linarith
      · simp only [hd, if_false]
        have : 0 ≤ edgeLine 0 * x + edgeLine 1 * y + edgeLine 2 := by
          rw [h0]
          have := not_lt.mp hd
          linarith
        simp only [this, and_true]

/-- The numbers between the borders computed by `gpu_computeLineBorders` for the scanline
`y` are those that satisfy the inequalities of the three edge lines. -/
lemma computeLineBorders_spec (y : ℚ) (triangleLines : Fin 3 → Vec3) (x : ℚ) :
    ((gpu_computeLineBorders y triangleLines).1.le (.fin x) ∧
      (ExtFloat.fin x).le (gpu_computeLineBorders y triangleLines).2) ↔
    ∀ i, 0 ≤ distanceTo2DLine (triangleLines i) ![x, y] := by
  unfold gpu_computeLineBorders EDGES_PER_TRIANGLE
  rw [forLoop_three]
  simp only [restrictLineBorders_spec, at3, distanceTo2DLine, vec2_val0, vec2_val1]
  have e0 : (Fin.ofNat 0 : Fin 3) = 0 := rfl
  have e1 : (Fin.ofNat 1 : Fin 3) = 1 := rfl
  have e2 : (Fin.ofNat 2 : Fin 3) = 2 := rfl
  rw [e0, e1, e2]
  simp only [ExtFloat.le, true_and]
  constructor
  · rintro ⟨⟨h0, h1⟩, h2⟩ i
    fin_cases i
    · exact h0
    · exact h1
    · exact h2
  · intro h
    exact ⟨⟨h 0, h 1⟩, h 2⟩

/-- The upper border stays below `+INFINITY` once it is. -/
lemma restrictLineBorders_max_ne (minX maxX : ExtFloat) (y : ℚ) (edgeLine : Vec3)
    (h : maxX ≠ .posInf) : (gpu_restrictLineBorders minX maxX y edgeLine).2 ≠ .posInf := by
  unfold gpu_restrictLineBorders
  dsimp only
  split_ifs
  · exact h
  · cases maxX <;> simp only [fminf, ExtFloat.lt] <;> (try split_ifs) <;> simp at h ⊢
  · simp
  · exact h

/-- An edge line with negative `a` makes the upper border finite or `-INFINITY`. -/
lemma restrictLineBorders_max_neg (minX maxX : ExtFloat) (y : ℚ) (edgeLine : Vec3)
    (h : edgeLine 0 < 0) : (gpu_restrictLineBorders minX maxX y edgeLine).2 ≠ .posInf := by
  unfold gpu_restrictLineBorders
  have h' : ¬ edgeLine 0 > 0 := not_lt.mpr (le_of_lt h)
  simp only [h', h, if_true, if_false]
  cases maxX <;> simp only [fminf, ExtFloat.lt] <;> (try split_ifs) <;> simp

/-- When one of the three edge lines has a negative `a`, the upper border computed by
`gpu_computeLineBorders` is not `+INFINITY`. -/
lemma computeLineBorders_max_ne (y : ℚ) (triangleLines : Fin 3 → Vec3)
    (h : ∃ i, triangleLines i 0 < 0) :
    (gpu_computeLineBorders y triangleLines).2 ≠ .posInf := by
  unfold gpu_computeLineBorders EDGES_PER_TRIANGLE
  rw [forLoop_three]
  have e0 : (Fin.ofNat 0 : Fin 3) = 0 := rfl
  have e1 : (Fin.ofNat 1 : Fin 3) = 1 := rfl
  have e2 : (Fin.ofNat 2 : Fin 3) = 2 := rfl
  simp only [at3, e0, e1, e2]
  obtain ⟨i, hi⟩ := h
  fin_cases i
  · exact restrictLineBorders_max_ne _ _ _ _
      (restrictLineBorders_max_ne _ _ _ _ (restrictLineBorders_max_neg _ _ _ _ hi))
  · exact restrictLineBorders_max_ne _ _ _ _ (restrictLineBorders_max_neg _ _ _ _ hi)
  · exact restrictLineBorders_max_neg _ _ _ _ hi

/-! ### Rasterizer: the two loops -/

/-- The depth test of a pixel of the viewport returns a frame buffer of the same size in
which every other pixel has kept its colour and depth. -/
lemma perFragmentOperations_frame (g : Framebuffer) (fragment : GPUFragmentShaderOutput)
    (x y : ℕ) (hwf : g.WellFormed) (hx : x < g.viewportWidth) (hy : y < g.viewportHeight) :
    ∃ g', gpu_perFragmentOperations g fragment x y = some g' ∧
      g'.WellFormed ∧ g'.viewportWidth = g.viewportWidth ∧
      g'.viewportHeight = g.viewportHeight ∧
      ∀ x' y', ¬ (x' = x ∧ y' = y) →
        gpu_getDepth g' x' y' = gpu_getDepth g x' y' ∧
        cpu_getColor g' x' y' = cpu_getColor g x' y' := by
  obtain ⟨d0, _, hop⟩ := perFragmentOperations_eq g fragment x y hwf hx hy
  obtain ⟨hd, hc, hsz⟩ := hwf
  obtain ⟨hi, hlt, hne⟩ := getLinearPixelCoord_inside g x y hsz hx hy
  by_cases hlt' : fragment.depth < d0
  · simp only [hlt', if_true] at hop
    refine ⟨_, hop, ?_, rfl, rfl, ?_⟩
    · exact ⟨by simp only [List.length_set]; exact hd,
        by simp only [List.length_set]; exact hc, hsz⟩
    · intro x' y' hxy
      by_cases hin : x' < g.viewportWidth ∧ y' < g.viewportHeight
      · obtain ⟨hi', hlt2, hne'⟩ := getLinearPixelCoord_inside g x' y' hsz hin.1 hin.2
        have hidx : y * g.viewportWidth + x ≠ y' * g.viewportWidth + x' := by
          intro heq
          obtain ⟨e1, e2⟩ := pixel_index_injective g.viewportWidth x y x' y' hx hin.1 heq
          exact hxy ⟨e1.symm, e2.symm⟩
        constructor
        · unfold gpu_getDepth getLinearPixelCoord
          simp only [ge_iff_le, not_le.mpr hin.1, not_le.mpr hin.2, if_false]
          rw [Nat.mod_eq_of_lt (lt_trans hlt2 hsz)]
          simp only [hne', if_false]
          exact List.getElem?_set_ne hidx
        · unfold cpu_getColor getLinearPixelCoord
          simp only [ge_iff_le, not_le.mpr hin.1, not_le.mpr hin.2, if_false]
          rw [Nat.mod_eq_of_lt (lt_trans hlt2 hsz)]
          simp only [hne', if_false]
          exact List.getElem?_set_ne hidx
      · have ho := getLinearPixelCoord_outside g x' y' hin
        have ho' : getLinearPixelCoord
            { g with
              colorBuffer := g.colorBuffer.set (y * g.viewportWidth + x) fragment.color,
              depthBuffer := g.depthBuffer.set (y * g.viewportWidth + x) fragment.depth }
            x' y' = outOfRange := getLinearPixelCoord_outside _ x' y' hin
        simp only [gpu_getDepth, cpu_getColor, ho, ho', if_true, and_self]
  · simp only [hlt', if_false] at hop
    exact ⟨g, hop, ⟨hd, hc, hsz⟩, rfl, rfl, fun _ _ _ => ⟨rfl, rfl⟩⟩

/-- A part of the rasterization that visits no pixel. -/
lemma rasterStep_refl (w h : ℕ) (call : ℕ → ℕ → FragmentCall) (P : ℕ → ℕ → Prop)
    (st : RasterState) (hs : st.framebuffer.Sized w h) (hP : ∀ x y, ¬ P x y) :
    RasterStep w h call P st st :=
  { sized := hs
    calls := fun _ => ⟨fun hc => Or.inl hc, fun hc => hc.elim id
      (fun ⟨x, y, hxy, _⟩ => absurd hxy (hP x y))⟩
    frame := fun _ _ _ => ⟨rfl, rfl⟩ }

/-- Two consecutive parts of the rasterization visit the union of their pixels. -/
lemma rasterStep_trans {w h : ℕ} {call : ℕ → ℕ → FragmentCall} {P Q R : ℕ → ℕ → Prop}
    {st st' st'' : RasterState} (h1 : RasterStep w h call P st st')
    (h2 : RasterStep w h call Q st' st'') (hR : ∀ x y, R x y ↔ P x y ∨ Q x y) :
    RasterStep w h call R st st'' :=
  { sized := h2.sized
    calls := by
      intro c
      rw [h2.calls, h1.calls]
      constructor
      · rintro ((hc | ⟨x, y, hp, hc⟩) | ⟨x, y, hq, hc⟩)
        · exact Or.inl hc
        · exact Or.inr ⟨x, y, (hR x y).mpr (Or.inl hp), hc⟩
        · exact Or.inr ⟨x, y, (hR x y).mpr (Or.inr hq), hc⟩
      · rintro (hc | ⟨x, y, hr, hc⟩)
        · exact Or.inl (Or.inl hc)
        · rcases (hR x y).mp hr with hp | hq
          · exact Or.inl (Or.inr ⟨x, y, hp, hc⟩)
          · exact Or.inr ⟨x, y, hq, hc⟩
    frame := by
      intro x y hxy
      have hp : ¬ P x y := fun hp => hxy ((hR x y).mpr (Or.inl hp))
      have hq : ¬ Q x y := fun hq => hxy ((hR x y).mpr (Or.inr hq))
      exact ⟨(h2.frame x y hq).1.trans (h1.frame x y hp).1,
        (h2.frame x y hq).2.trans (h1.frame x y hp).2⟩ }

/-- The visited pixels of a part of the rasterization may be described by an equivalent
condition. -/
lemma rasterStep_congr {w h : ℕ} {call : ℕ → ℕ → FragmentCall} {P R : ℕ → ℕ → Prop}
    {st st' : RasterState} (h1 : RasterStep w h call P st st')
    (hR : ∀ x y, R x y ↔ P x y) : RasterStep w h call R st st' := by
  have hPR : P = R := by
    funext x y
    exact propext (hR x y).symm
  rw [← hPR]
  exact h1

/-- A loop whose passes are parts of the rasterization is one: it visits the pixels of
its passes. -/
lemma forLoop_rasterStep (w h : ℕ) (call : ℕ → ℕ → FragmentCall)
    (body : ℕ → RasterState → Option RasterState) (P : ℕ → ℕ → ℕ → Prop) (lo : ℕ)
    (st : RasterState) (hs : st.framebuffer.Sized w h) (n : ℕ)
    (hbody : ∀ i s, lo ≤ i → i < lo + n → s.framebuffer.Sized w h →
      ∃ s', body i s = some s' ∧ RasterStep w h call (P i) s s') :
    ∃ st', forLoop n (fun i s => Option.bind s (body (lo + i))) (some st) = some st' ∧
      RasterStep w h call (fun x y => ∃ i, lo ≤ i ∧ i < lo + n ∧ P i x y) st st' := by
  induction n with
  | zero =>
    refine ⟨st, forLoop_zero _ _, rasterStep_refl w h call _ st hs ?_⟩
    rintro x y ⟨i, h1, h2, _⟩
    omega
  | succ n ih =>
    obtain ⟨st1, h1, hr1⟩ := ih (fun i s hi1 hi2 hsz => hbody i s hi1 (by omega) hsz)
    obtain ⟨st2, h2, hr2⟩ := hbody (lo + n) st1 (by omega) (by omega) hr1.sized
    refine ⟨st2, ?_, rasterStep_trans hr1 hr2 ?_⟩
    · rw [forLoop_succ, h1]
      exact h2
    · intro x y
      constructor
      · rintro ⟨i, hi1, hi2, hp⟩
        by_cases hi : i = lo + n
        · subst hi
          exact Or.inr hp
        · exact Or.inl ⟨i, hi1, by omega, hp⟩
      · rintro (⟨i, hi1, hi2, hp⟩ | hp)
        · exact ⟨i, hi1, by omega, hp⟩
        · exact ⟨lo + n, by omega, by omega, hp⟩

/-- The loop `for (i = lo; i < hi; ++i)` over parts of the rasterization. -/
lemma forRange_rasterStep (w h : ℕ) (call : ℕ → ℕ → FragmentCall)
    (body : ℕ → RasterState → Option RasterState) (P : ℕ → ℕ → ℕ → Prop) (lo hi : ℕ)
    (st : RasterState) (hs : st.framebuffer.Sized w h)
    (hbody : ∀ i s, lo ≤ i → i < hi → s.framebuffer.Sized w h →
      ∃ s', body i s = some s' ∧ RasterStep w h call (P i) s s') :
    ∃ st', forRange lo hi body st = some st' ∧
      RasterStep w h call (fun x y => ∃ i, lo ≤ i ∧ i < hi ∧ P i x y) st st' := by
  obtain ⟨st', h1, hr⟩ := forLoop_rasterStep w h call body P lo st hs (hi - lo)
    (fun i s hi1 hi2 hsz => hbody i s hi1 (by omega) hsz)
  refine ⟨st', h1, rasterStep_congr hr ?_⟩
  intro x y
  constructor
  · rintro ⟨i, hi1, hi2, hp⟩
    exact ⟨i, hi1, by omega, hp⟩
  · rintro ⟨i, hi1, hi2, hp⟩
    exact ⟨i, hi1, by omega, hp⟩

/-- The pass of the inner loop for a pixel of the viewport visits that pixel. -/
lemma rasterizeTriangle_pixel_step (MAX_ATTRIBUTES : ℕ) (fragmentShader : FragmentShader)
    (localInput : GPUFragmentShaderInput) (localOutput : GPUFragmentShaderOutput)
    (primitive : GPUPrimitive) (triangleVertices : Fin 3 → Vec2)
    (triangleLines : Fin 3 → Vec3) (w h x y : ℕ) (hx : x < w) (hy : y < h)
    (st : RasterState) (hs : st.framebuffer.Sized w h) :
    ∃ st', rasterizeTriangle_pixel MAX_ATTRIBUTES fragmentShader localInput localOutput
        primitive triangleVertices triangleLines ((y : ℚ) + PIXEL_CENTER) x st = some st' ∧
      RasterStep w h
        (fun x y => rasterizeTriangle_fragment MAX_ATTRIBUTES fragmentShader localInput
          localOutput primitive triangleVertices triangleLines ((y : ℚ) + PIXEL_CENTER) x)
        (fun x' y' => x' = x ∧ y' = y) st st' := by
  obtain ⟨hwf, hw, hh⟩ := hs
  have hcx : (rasterizeTriangle_fragment MAX_ATTRIBUTES fragmentShader localInput
      localOutput primitive triangleVertices triangleLines ((y : ℚ) + PIXEL_CENTER) x).x
        = x := by
    simp only [rasterizeTriangle_fragment, vec2_val0, truncf_pixel]
  have hcy : (rasterizeTriangle_fragment MAX_ATTRIBUTES fragmentShader localInput
      localOutput primitive triangleVertices triangleLines ((y : ℚ) + PIXEL_CENTER) x).y
        = y := by
    simp only [rasterizeTriangle_fragment, vec2_val1, truncf_pixel]
  unfold rasterizeTriangle_pixel
  simp only [hcx, hcy]
  obtain ⟨g', hop, hwf', hw', hh', hfr⟩ := perFragmentOperations_frame st.framebuffer
    (rasterizeTriangle_fragment MAX_ATTRIBUTES fragmentShader localInput
      localOutput primitive triangleVertices triangleLines ((y : ℚ) + PIXEL_CENTER) x).tested
    x y hwf (by rw [hw]; exact hx) (by rw [hh]; exact hy)
  rw [hop]
  refine ⟨_, rfl, ⟨hwf', hw'.trans hw, hh'.trans hh⟩, ?_, hfr⟩
  intro c
  simp only [List.mem_append, List.mem_singleton]
  constructor
  · rintro (hc | hc)
    · exact Or.inl hc
    · exact Or.inr ⟨x, y, ⟨rfl, rfl⟩, hc⟩
  · rintro (hc | ⟨x', y', ⟨hx', hy'⟩, hc⟩)
    · exact Or.inl hc
    · subst hx' hy'
      exact Or.inr hc

/-- Every float is at most `+INFINITY`. -/
lemma ExtFloat.le_posInf (a : ExtFloat) : a.le .posInf := by
  cases a <;> simp [ExtFloat.le]

/-- The clamp of a bound is a non-negative number, or `+INFINITY` for `+INFINITY`. -/
lemma clampNegative_cases (v : ExtFloat) :
    (∃ q : ℚ, 0 ≤ q ∧ clampNegative v = .fin q) ∨
      (v = .posInf ∧ clampNegative v = .posInf) := by
  cases v with
  | negInf => exact Or.inl ⟨0, le_refl _, by simp [clampNegative, ExtFloat.lt]⟩
  | fin q =>
    by_cases hq : q < 0
    · exact Or.inl ⟨0, le_refl _, by simp [clampNegative, ExtFloat.lt, hq]⟩
    · exact Or.inl ⟨q, not_lt.mp hq, by simp [clampNegative, ExtFloat.lt, hq]⟩
  | posInf => exact Or.inr ⟨rfl, by simp [clampNegative, ExtFloat.lt]⟩

/-- The pass of the outer loop for a scanline of the viewport whose upper border is not
`+INFINITY` visits the pixels of the scanline between the rounded borders. -/
lemma rasterizeTriangle_scanline_step (MAX_ATTRIBUTES : ℕ)
    (fragmentShader : FragmentShader)
    (localInput : GPUFragmentShaderInput) (localOutput : GPUFragmentShaderOutput)
    (primitive : GPUPrimitive) (triangleVertices : Fin 3 → Vec2)
    (triangleLines : Fin 3 → Vec3) (w h y : ℕ) (hy : y < h)
    (hfin : (gpu_computeLineBorders ((y : ℚ) + PIXEL_CENTER) triangleLines).2 ≠ .posInf)
    (st : RasterState) (hs : st.framebuffer.Sized w h) :
    ∃ st', rasterizeTriangle_scanline MAX_ATTRIBUTES fragmentShader localInput localOutput
        primitive triangleVertices triangleLines w y st = some st' ∧
      RasterStep w h
        (fun x y => rasterizeTriangle_fragment MAX_ATTRIBUTES fragmentShader localInput
          localOutput primitive triangleVertices triangleLines ((y : ℚ) + PIXEL_CENTER) x)
        (fun x' y' => y' = y ∧ x' < w ∧ scanlineCovers triangleLines y x') st st' := by
  unfold rasterizeTriangle_scanline scanlineCovers
  dsimp only
  generalize gpu_computeLineBorders ((y : ℚ) + PIXEL_CENTER) triangleLines = b at hfin ⊢
  by_cases hskip : (clampNegative b.2).le (clampNegative b.1)
  · rw [if_pos hskip]
    exact ⟨st, rfl, rasterStep_refl w h _ _ st hs (fun x' y' hp => hp.2.2.1 hskip)⟩
  · rw [if_neg hskip]
    rcases clampNegative_cases b.1 with ⟨qm, hqm, hm⟩ | ⟨_, hm⟩
    swap
    · rw [hm] at hskip
      exact absurd (ExtFloat.le_posInf _) hskip
    rcases clampNegative_cases b.2 with ⟨qM, hqM, hM⟩ | ⟨hM, _⟩
    swap
    · exact absurd hM hfin
    rw [hm, hM] at hskip ⊢
    obtain ⟨n0, hn0, hdown⟩ := roundDownPixelCoord_spec qm hqm
    obtain ⟨n1, hn1, hup⟩ := roundUpPixelCoord_spec qM hqM
    rw [hn0, hn1]
    dsimp only
    obtain ⟨st', hrun, hstep⟩ := forRange_rasterStep w h
      (fun x y => rasterizeTriangle_fragment MAX_ATTRIBUTES fragmentShader localInput
          localOutput primitive triangleVertices triangleLines ((y : ℚ) + PIXEL_CENTER) x)
      (rasterizeTriangle_pixel MAX_ATTRIBUTES fragmentShader localInput localOutput
          primitive triangleVertices triangleLines ((y : ℚ) + PIXEL_CENTER))
      (fun i x' y' => x' = i ∧ y' = y) n0 (if n1 ≥ w then w else n1) st hs
      (fun i s _ hi2 hsz =>
        rasterizeTriangle_pixel_step MAX_ATTRIBUTES fragmentShader localInput localOutput
          primitive triangleVertices triangleLines w h i y
          (by split_ifs at hi2 <;> omega) hy s hsz)
    refine ⟨st', hrun, rasterStep_congr hstep ?_⟩
    intro x' y'
    simp only [ExtFloat.le, PIXEL_CENTER]
    rw [← hdown x', ← hup x']
    constructor
    · rintro ⟨hy', hx', _, h0, h1⟩
      exact ⟨x', h0, by split_ifs <;> omega, rfl, hy'⟩
    · rintro ⟨i, h0, h1, hi, hy'⟩
      subst hi
      refine ⟨hy', ?_, hskip, h0, ?_⟩ <;> split_ifs at h1 <;> omega

/-! ### Rasterizer: the edge lines of a counter-clockwise triangle -/

/-- The line of `construct2DLine` for two distinct points is the edge function scaled by
the reciprocal of the length computed by `sqrtf`. -/
lemma construct2DLine_eq (sqrtf : ℚ → ℚ) (a b : Vec2)
    (hl : sqrtf ((a 1 - b 1) * (a 1 - b 1) + (b 0 - a 0) * (b 0 - a 0)) ≠ 0) :
    construct2DLine sqrtf a b 0 =
      (a 1 - b 1) * (1 / sqrtf ((a 1 - b 1) * (a 1 - b 1) + (b 0 - a 0) * (b 0 - a 0))) ∧
    ∀ p, distanceTo2DLine (construct2DLine sqrtf a b) p =
      (1 / sqrtf ((a 1 - b 1) * (a 1 - b 1) + (b 0 - a 0) * (b 0 - a 0))) *
        edgeFunction a b p := by
  have hd : dot_Vec3 ![a 1 - b 1, b 0 - a 0, 0] ![a 1 - b 1, b 0 - a 0, 0] =
      (a 1 - b 1) * (a 1 - b 1) + (b 0 - a 0) * (b 0 - a 0) := by
    simp only [dot_Vec3, vec3_val0, vec3_val1, vec3_val2]
    ring
  have hn : normalize_Vec3 sqrtf ![a 1 - b 1, b 0 - a 0, 0] ![a 1 - b 1, b 0 - a 0, 0] =
      multiply_Vec3_Float ![a 1 - b 1, b 0 - a 0, 0]
        (1 / sqrtf ((a 1 - b 1) * (a 1 - b 1) + (b 0 - a 0) * (b 0 - a 0))) := by
    unfold normalize_Vec3 length_Vec3
    rw [hd]
    simp only [hl, if_false]
  constructor
  · simp only [construct2DLine, hn, multiply_Vec3_Float, vec3_val0]
  · intro p
    simp only [construct2DLine, hn, multiply_Vec3_Float, distanceTo2DLine, edgeFunction,
      vec3_val0, vec3_val1, vec3_val2]
    ring

/-- Two vertices of a triangle with non-zero area are distinct: the squared length of
the edge between them is positive. -/
lemma edge_length_pos (V : Fin 3 → Vec2) (h : signedArea2 V ≠ 0) (i : Fin 3) :
    0 < (V i 1 - V (i + 1) 1) * (V i 1 - V (i + 1) 1) +
      (V (i + 1) 0 - V i 0) * (V (i + 1) 0 - V i 0) := by
  by_contra hc
  have h1 : V i 1 - V (i + 1) 1 = 0 := by
    nlinarith [sq_nonneg (V i 1 - V (i + 1) 1), sq_nonneg (V (i + 1) 0 - V i 0)]
  have h2 : V (i + 1) 0 - V i 0 = 0 := by
    nlinarith [sq_nonneg (V i 1 - V (i + 1) 1), sq_nonneg (V (i + 1) 0 - V i 0)]
  apply h
  unfold signedArea2
  fin_cases i
  · have e1 : V 0 1 = V 1 1 := by simpa [sub_eq_zero] using h1
    have e2 : V 1 0 = V 0 0 := by simpa [sub_eq_zero] using h2
    rw [e1, e2]; ring
  · have e1 : V 1 1 = V 2 1 := by simpa [sub_eq_zero] using h1
    have e2 : V 2 0 = V 1 0 := by simpa [sub_eq_zero] using h2
    rw [e1, e2]; ring
  · have e1 : V 2 1 = V 0 1 := by simpa [sub_eq_zero] using h1
    have e2 : V 0 0 = V 2 0 := by simpa [sub_eq_zero] using h2
    rw [e1, e2]; ring

/-- The three lines of `gpu_computeTriangleLines`, by edge. -/
lemma computeTriangleLines_apply (sqrtf : ℚ → ℚ) (V : Fin 3 → Vec2) (i : Fin 3) :
    gpu_computeTriangleLines sqrtf V i = construct2DLine sqrtf (V i) (V (i + 1)) := by
  unfold gpu_computeTriangleLines
  fin_cases i <;> rfl

/-- For a triangle with non-zero area and a `sqrtf` that is positive on positive
numbers, each edge line is a positive multiple of the edge function of its edge. -/
lemma triangleLines_scaled (sqrtf : ℚ → ℚ) (hsqrt : ∀ q, 0 < q → 0 < sqrtf q)
    (V : Fin 3 → Vec2) (h : signedArea2 V ≠ 0) (i : Fin 3) :
    ∃ s : ℚ, 0 < s ∧ gpu_computeTriangleLines sqrtf V i 0 = (V i 1 - V (i + 1) 1) * s ∧
      ∀ p, distanceTo2DLine (gpu_computeTriangleLines sqrtf V i) p =
        s * edgeFunction (V i) (V (i + 1)) p := by
  have hpos := hsqrt _ (edge_length_pos V h i)
  obtain ⟨h0, hp⟩ := construct2DLine_eq sqrtf (V i) (V (i + 1)) (ne_of_gt hpos)
  rw [computeTriangleLines_apply]
  exact ⟨_, one_div_pos.mpr hpos, h0, hp⟩

/-- A point satisfies the inequalities of the three edge lines exactly when the three
edge functions are non-negative at it. -/
lemma insideEdges_iff (sqrtf : ℚ → ℚ) (hsqrt : ∀ q, 0 < q → 0 < sqrtf q)
    (V : Fin 3 → Vec2) (h : signedArea2 V ≠ 0) (p : Vec2) :
    insideEdges (gpu_computeTriangleLines sqrtf V) p ↔
      ∀ i, 0 ≤ edgeFunction (V i) (V (i + 1)) p := by
  unfold insideEdges
  constructor
  · intro hi i
    obtain ⟨s, hs, _, hp⟩ := triangleLines_scaled sqrtf hsqrt V h i
    have := hi i
    rw [hp] at this
    exact nonneg_of_mul_nonneg_right this hs
  · intro hi i
    obtain ⟨s, hs, _, hp⟩ := triangleLines_scaled sqrtf hsqrt V h i
    rw [hp]
    exact mul_nonneg (le_of_lt hs) (hi i)

/-- The edge lines of a counter-clockwise triangle face inwards: each is positive at the
vertex opposite to its edge. -/
lemma triangleLines_inward (sqrtf : ℚ → ℚ) (hsqrt : ∀ q, 0 < q → 0 < sqrtf q)
    (V : Fin 3 → Vec2) (h : 0 < signedArea2 V) (i : Fin 3) :
    0 < distanceTo2DLine (gpu_computeTriangleLines sqrtf V i) (V (i + 2)) := by
  obtain ⟨s, hs, _, hp⟩ := triangleLines_scaled sqrtf hsqrt V (ne_of_gt h) i
  rw [hp]
  apply mul_pos hs
  have : edgeFunction (V i) (V (i + 1)) (V (i + 2)) = signedArea2 V := by
    unfold edgeFunction signedArea2
    fin_cases i
    · show (V 1 0 - V 0 0) * (V 2 1 - V 0 1) - (V 1 1 - V 0 1) * (V 2 0 - V 0 0) = _
      ring
    · show (V 2 0 - V 1 0) * (V 0 1 - V 1 1) - (V 2 1 - V 1 1) * (V 0 0 - V 1 0) = _
      ring
    · show (V 0 0 - V 2 0) * (V 1 1 - V 2 1) - (V 0 1 - V 2 1) * (V 1 0 - V 2 0) = _
      ring
  rw [this]
  exact h

/-- One of the edge lines of a triangle with non-zero area has a negative `a`. -/
lemma triangleLines_exists_neg (sqrtf : ℚ → ℚ) (hsqrt : ∀ q, 0 < q → 0 < sqrtf q)
    (V : Fin 3 → Vec2) (h : signedArea2 V ≠ 0) :
    ∃ i, gpu_computeTriangleLines sqrtf V i 0 < 0 := by
  have key : ∃ i : Fin 3, V i 1 - V (i + 1) 1 < 0 := by
    by_contra hc
    push_neg at hc
    have h0 := hc 0
    have h1 := hc 1
    have h2 := hc 2
    have e1 : ((1 : Fin 3) + 1) = 2 := rfl
    have e2 : ((2 : Fin 3) + 1) = 0 := rfl
    have e0 : ((0 : Fin 3) + 1) = 1 := rfl
    rw [e0] at h0
    rw [e1] at h1
    rw [e2] at h2
    have a1 : V 0 1 = V 1 1 := by linarith
    have a2 : V 1 1 = V 2 1 := by linarith
    apply h
    unfold signedArea2
    rw [← a2, ← a1]
    ring
  obtain ⟨i, hi⟩ := key
  obtain ⟨s, hs, h0, _⟩ := triangleLines_scaled sqrtf hsqrt V h i
  exact ⟨i, by rw [h0]; exact mul_neg_of_neg_of_pos hi hs⟩

/-- A point at which the three edge functions of a counter-clockwise triangle are
non-negative has its `y` coordinate between the least and the greatest `y` coordinate
of the vertices. -/
lemma inside_y_bounds (V : Fin 3 → Vec2) (h : 0 < signedArea2 V) (p : Vec2)
    (hp : ∀ i, 0 ≤ edgeFunction (V i) (V (i + 1)) p) :
    min (min (V 0 1) (V 1 1)) (V 2 1) ≤ p 1 ∧ p 1 ≤ max (max (V 0 1) (V 1 1)) (V 2 1) := by
  have h0 := hp 0
  have h1 := hp 1
  have h2 := hp 2
  have e1 : ((1 : Fin 3) + 1) = 2 := rfl
  have e2 : ((2 : Fin 3) + 1) = 0 := rfl
  have e0 : ((0 : Fin 3) + 1) = 1 := rfl
  rw [e0] at h0
  rw [e1] at h1
  rw [e2] at h2
  have hsum : edgeFunction (V 0) (V 1) p + edgeFunction (V 1) (V 2) p +
      edgeFunction (V 2) (V 0) p = signedArea2 V := by
    unfold edgeFunction signedArea2
    ring
  have hy : signedArea2 V * p 1 = edgeFunction (V 1) (V 2) p * V 0 1 +
      edgeFunction (V 2) (V 0) p * V 1 1 + edgeFunction (V 0) (V 1) p * V 2 1 := by
    unfold edgeFunction signedArea2
    ring
  set m := min (min (V 0 1) (V 1 1)) (V 2 1) with hm
  set M := max (max (V 0 1) (V 1 1)) (V 2 1) with hM
  have m0 : m ≤ V 0 1 := le_trans (min_le_left _ _) (min_le_left _ _)
  have m1 : m ≤ V 1 1 := le_trans (min_le_left _ _) (min_le_right _ _)
  have m2 : m ≤ V 2 1 := min_le_right _ _
  have M0 : V 0 1 ≤ M := le_trans (le_max_left _ _) (le_max_left _ _)
  have M1 : V 1 1 ≤ M := le_trans (le_max_right _ _) (le_max_left _ _)
  have M2 : V 2 1 ≤ M := le_max_right _ _
  constructor
  · have : signedArea2 V * m ≤ signedArea2 V * p 1 := by
      rw [hy, ← hsum]
      nlinarith [mul_nonneg h0 (sub_nonneg.mpr m2), mul_nonneg h1 (sub_nonneg.mpr m0),
        mul_nonneg h2 (sub_nonneg.mpr m1)]
    exact le_of_mul_le_mul_left this h
  · have : signedArea2 V * p 1 ≤ signedArea2 V * M := by
      rw [hy, ← hsum]
      nlinarith [mul_nonneg h0 (sub_nonneg.mpr M2), mul_nonneg h1 (sub_nonneg.mpr M0),
        mul_nonneg h2 (sub_nonneg.mpr M1)]
    exact le_of_mul_le_mul_left this h

/-! ### Rasterizer: coverage -/

lemma fminf_posInf_fin (q : ℚ) : fminf .posInf (.fin q) = .fin q := by
  simp [fminf, ExtFloat.lt]

lemma fmaxf_negInf_fin (q : ℚ) : fmaxf .negInf (.fin q) = .fin q := by
  simp [fmaxf, ExtFloat.lt]

lemma fminf_fin_fin (a b : ℚ) : fminf (.fin a) (.fin b) = .fin (min a b) := by
  by_cases h : b < a
  · simp [fminf, ExtFloat.lt, h, min_eq_right (le_of_lt h)]
  · simp [fminf, ExtFloat.lt, h, min_eq_left (not_lt.mp h)]

lemma fmaxf_fin_fin (a b : ℚ) : fmaxf (.fin a) (.fin b) = .fin (max a b) := by
  by_cases h : a < b
  · simp [fmaxf, ExtFloat.lt, h, max_eq_right (le_of_lt h)]
  · simp [fmaxf, ExtFloat.lt, h, max_eq_left (not_lt.mp h)]

lemma clampNegative_fin (q : ℚ) : clampNegative (.fin q) = .fin (max q 0) := by
  by_cases h : q < 0
  · simp [clampNegative, ExtFloat.lt, h, max_eq_right (le_of_lt h)]
  · simp [clampNegative, ExtFloat.lt, h, max_eq_left (not_lt.mp h)]

lemma clampNegative_negInf : clampNegative .negInf = .fin 0 := by
  simp [clampNegative, ExtFloat.lt]

lemma clampNegative_posInf : clampNegative .posInf = .posInf := by
  simp [clampNegative, ExtFloat.lt]

/-- The test of a scanline on its clamped borders, for a positive centre `cx`: the
centre is between the borders, and so is another number. -/
lemma covers_iff_borders (b1 b2 : ExtFloat) (cx : ℚ) (h : 0 < cx) :
    (¬ (clampNegative b2).le (clampNegative b1) ∧ (clampNegative b1).le (.fin cx) ∧
      (ExtFloat.fin cx).le (clampNegative b2)) ↔
    ((b1.le (.fin cx) ∧ (ExtFloat.fin cx).le b2) ∧
      ∃ x' : ℚ, x' ≠ cx ∧ (b1.le (.fin x') ∧ (ExtFloat.fin x').le b2)) := by
  cases b1 with
  | posInf =>
    simp only [clampNegative_posInf, ExtFloat.le_posInf (clampNegative b2), not_true_eq_false,
      false_and, false_iff]
    rintro ⟨⟨h1, _⟩, _⟩
    simp [ExtFloat.le] at h1
  | negInf =>
    cases b2 with
    | negInf =>
      simp only [clampNegative_negInf, ExtFloat.le, le_refl, not_true_eq_false, false_and,
        and_false]
    | posInf =>
      simp only [clampNegative_negInf, clampNegative_posInf, ExtFloat.le, not_false_eq_true,
        and_true, true_and]
      constructor
      · intro _
        exact ⟨cx + 1, by intro e; linarith⟩
      · intro _
        exact le_of_lt h
    | fin q =>
      simp only [clampNegative_negInf, clampNegative_fin, ExtFloat.le, true_and]
      constructor
      · rintro ⟨h1, _, h3⟩
        have hq : cx ≤ q := by
          rcases le_max_iff.mp h3 with h4 | h4
          · exact h4
          · linarith
        exact ⟨hq, cx - 1, by intro e; linarith, by linarith⟩
      · rintro ⟨h1, _⟩
        have hq : max q 0 = q := max_eq_left (by linarith)
        rw [hq]
        exact ⟨by linarith, le_of_lt h, h1⟩
  | fin p =>
    cases b2 with
    | negInf =>
      simp only [clampNegative_negInf, clampNegative_fin, ExtFloat.le, and_false, false_and,
        iff_false, not_and, not_not]
      intro h1
      exact absurd (le_max_right p 0) h1
    | posInf =>
      simp only [clampNegative_posInf, clampNegative_fin, ExtFloat.le, not_false_eq_true,
        and_true, true_and]
      constructor
      · intro h1
        have hp : p ≤ cx := le_trans (le_max_left p 0) h1
        exact ⟨hp, cx + 1, by intro e; linarith, by linarith⟩
      · rintro ⟨h1, _⟩
        exact max_le h1 (le_of_lt h)
    | fin q =>
      simp only [clampNegative_fin, ExtFloat.le, not_le]
      constructor
      · rintro ⟨h1, h2, h3⟩
        have hq : cx ≤ q := by
          rcases le_max_iff.mp h3 with h4 | h4
          · exact h4
          · linarith
        have hq' : max q 0 = q := max_eq_left (by linarith)
        rw [hq'] at h1
        have hp : p ≤ max p 0 := le_max_left p 0
        refine ⟨⟨by linarith, hq⟩, ?_⟩
        by_cases hlt : max p 0 < cx
        · exact ⟨max p 0, ne_of_lt hlt, hp, by linarith⟩
        · have : max p 0 = cx := le_antisymm h2 (not_lt.mp hlt)
          rw [this] at h1
          exact ⟨q, ne_of_gt h1, by linarith, le_refl _⟩
      · rintro ⟨⟨h1, h2⟩, x', hne, h3, h4⟩
        have hq' : max q 0 = q := max_eq_left (by linarith)
        rw [hq']
        refine ⟨?_, max_le h1 (le_of_lt h), h2⟩
        rcases lt_or_gt_of_ne hne with hlt | hgt
        · exact max_lt (by linarith) (by linarith)
        · have : max p 0 ≤ cx := max_le h1 (le_of_lt h)
          linarith

/-- The pixels between the rounded borders of a scanline are the covered pixels. -/
lemma scanlineCovers_iff (lines : Fin 3 → Vec3) (y x : ℕ) :
    scanlineCovers lines y x ↔ pixelCovered lines x y := by
  unfold scanlineCovers pixelCovered insideEdges
  have hc : (0 : ℚ) < (x : ℚ) + 1 / 2 := by positivity
  simp only [PIXEL_CENTER]
  rw [covers_iff_borders _ _ _ hc, computeLineBorders_spec]
  simp only [computeLineBorders_spec]

/-- The bounding interval computed by the first loop of `gpu_rasterizeTriangle` for a
primitive with three used vertices. -/
lemma rasterizeTriangle_bounds (primitive : GPUPrimitive)
    (hn : primitive.nofUsedVertices = 3) :
    forLoop primitive.nofUsedVertices
      (fun v (bounds : ExtFloat × ExtFloat) =>
        (fminf bounds.1 (.fin ((at3 primitive.vertices v).gl_Position 1)),
         fmaxf bounds.2 (.fin ((at3 primitive.vertices v).gl_Position 1))))
      (.posInf, .negInf) =
    (.fin (min (min (screenVertices primitive 0 1) (screenVertices primitive 1 1))
        (screenVertices primitive 2 1)),
     .fin (max (max (screenVertices primitive 0 1) (screenVertices primitive 1 1))
        (screenVertices primitive 2 1))) := by
  have e0 : (Fin.ofNat 0 : Fin 3) = 0 := rfl
  have e1 : (Fin.ofNat 1 : Fin 3) = 1 := rfl
  have e2 : (Fin.ofNat 2 : Fin 3) = 2 := rfl
  rw [hn, forLoop_three]
  simp only [at3, e0, e1, e2, fminf_posInf_fin, fmaxf_negInf_fin, fminf_fin_fin,
    fmaxf_fin_fin, screenVertices, copy_Vec4_To_Vec2, vec2_val1]

/-- The pixel coordinates recorded for the pass of the pixel `x` of the scanline `y`. -/
lemma rasterizeTriangle_fragment_xy (MAX_ATTRIBUTES : ℕ) (fragmentShader : FragmentShader)
    (localInput : GPUFragmentShaderInput) (localOutput : GPUFragmentShaderOutput)
    (primitive : GPUPrimitive) (triangleVertices : Fin 3 → Vec2)
    (triangleLines : Fin 3 → Vec3) (x y : ℕ) :
    (rasterizeTriangle_fragment MAX_ATTRIBUTES fragmentShader localInput localOutput
      primitive triangleVertices triangleLines ((y : ℚ) + PIXEL_CENTER) x).x = x ∧
    (rasterizeTriangle_fragment MAX_ATTRIBUTES fragmentShader localInput localOutput
      primitive triangleVertices triangleLines ((y : ℚ) + PIXEL_CENTER) x).y = y := by
  constructor
  · simp only [rasterizeTriangle_fragment, vec2_val0, truncf_pixel]
  · simp only [rasterizeTriangle_fragment, vec2_val1, truncf_pixel]

/-- The rasterization of a counter-clockwise triangle into a frame buffer of the size of
the viewport returns, and visits the covered pixels of the viewport. -/
lemma rasterizeTriangle_run (MAX_ATTRIBUTES : ℕ) (sqrtf : ℚ → ℚ)
    (fragmentShader : FragmentShader)
    (localInput : GPUFragmentShaderInput) (localOutput : GPUFragmentShaderOutput)
    (g : Framebuffer) (primitive : GPUPrimitive) (width height : ℕ)
    (hsqrt : ∀ q, 0 < q → 0 < sqrtf q)
    (hn : primitive.nofUsedVertices = 3)
    (hccw : 0 < signedArea2 (screenVertices primitive))
    (hs : g.Sized width height) :
    ∃ st', gpu_rasterizeTriangle MAX_ATTRIBUTES sqrtf (some fragmentShader) localInput
        localOutput g primitive width height = some st' ∧
      RasterStep width height
        (fun x y => rasterizeTriangle_fragment MAX_ATTRIBUTES fragmentShader localInput
          localOutput primitive (screenVertices primitive)
          (gpu_computeTriangleLines sqrtf (screenVertices primitive))
          ((y : ℚ) + PIXEL_CENTER) x)
        (fun x y => x < width ∧ y < height ∧
          pixelCovered (gpu_computeTriangleLines sqrtf (screenVertices primitive)) x y)
        { framebuffer := g, calls := [] } st' := by
  unfold gpu_rasterizeTriangle
  dsimp only
  rw [rasterizeTriangle_bounds primitive hn]
  dsimp only
  rw [clampNegative_fin, clampNegative_fin]
  rw [show (fun vertex => copy_Vec4_To_Vec2 (primitive.vertices vertex).gl_Position) =
    screenVertices primitive from rfl]
  set V := screenVertices primitive with hV
  set L := gpu_computeTriangleLines sqrtf V with hL
  obtain ⟨n0, hn0, hdown⟩ := roundDownPixelCoord_spec
    (max (min (min (V 0 1) (V 1 1)) (V 2 1)) 0) (le_max_right _ _)
  obtain ⟨n1, hn1, hup⟩ := roundUpPixelCoord_spec
    (max (max (max (V 0 1) (V 1 1)) (V 2 1)) 0) (le_max_right _ _)
  rw [hn0, hn1]
  dsimp only
  have hfin : ∀ y : ℕ, (gpu_computeLineBorders ((y : ℚ) + PIXEL_CENTER) L).2 ≠ .posInf :=
    fun y => computeLineBorders_max_ne _ L
      (triangleLines_exists_neg sqrtf hsqrt V (ne_of_gt hccw))
  obtain ⟨st', hrun, hstep⟩ := forRange_rasterStep width height
    (fun x y => rasterizeTriangle_fragment MAX_ATTRIBUTES fragmentShader localInput
      localOutput primitive V L ((y : ℚ) + PIXEL_CENTER) x)
    (rasterizeTriangle_scanline MAX_ATTRIBUTES fragmentShader localInput localOutput
      primitive V L width)
    (fun i x' y' => y' = i ∧ x' < width ∧ scanlineCovers L i x')
    n0 (if n1 ≥ height then height else n1) { framebuffer := g, calls := [] } hs
    (fun i s _ hi2 hsz =>
      rasterizeTriangle_scanline_step MAX_ATTRIBUTES fragmentShader localInput localOutput
        primitive V L width height i (by split_ifs at hi2 <;> omega) (hfin i) s hsz)
  refine ⟨st', hrun, rasterStep_congr hstep ?_⟩
  intro x y
  constructor
  · rintro ⟨hx, hy, hcov⟩
    have hin := (insideEdges_iff sqrtf hsqrt V (ne_of_gt hccw) _).mp hcov.1
    obtain ⟨hlo, hhi⟩ := inside_y_bounds V hccw _ hin
    rw [vec2_val1] at hlo hhi
    have hc : (0 : ℚ) ≤ (y : ℚ) + 1 / 2 := by positivity
    refine ⟨y, (hdown y).mpr (max_le hlo hc), ?_, rfl, hx,
      (scanlineCovers_iff L y x).mpr hcov⟩
    have : y < n1 := (hup y).mpr (le_trans hhi (le_max_left _ _))
    split_ifs <;> omega
  · rintro ⟨i, _, hi2, hy, hx, hcov⟩
    subst hy
    exact ⟨hx, by split_ifs at hi2 <;> omega, (scanlineCovers_iff L y x).mp hcov⟩

/-- C11 (amended): for a counter-clockwise screen-space triangle and a frame buffer of
the size `width × height` of the viewport, `gpu_rasterizeTriangle` returns, and it
invokes the fragment shader and the depth test for the pixel `(x, y)` exactly when
`x < width`, `y < height`, the pixel centre `(x + 1/2, y + 1/2)` satisfies the
inequalities `a * x + b * y + c ≥ 0` of the three edge lines, and the scanline through
the centre contains another point that satisfies them (a scanline that meets the
triangle in a single point is skipped).  Each invocation is the one made for its pixel,
every other pixel keeps its colour and depth, and the three edge lines face inwards. -/
theorem rasterizeTriangle_spec (MAX_ATTRIBUTES : ℕ) (sqrtf : ℚ → ℚ)
    (fragmentShader : FragmentShader)
    (localInput : GPUFragmentShaderInput) (localOutput : GPUFragmentShaderOutput)
    (g : Framebuffer) (primitive : GPUPrimitive) (width height : ℕ)
    (hsqrt : ∀ q, 0 < q → 0 < sqrtf q)
    (hn : primitive.nofUsedVertices = 3)
    (hccw : 0 < signedArea2 (screenVertices primitive))
    (hwf : g.WellFormed) (hw : g.viewportWidth = width) (hh : g.viewportHeight = height) :
    ∃ st', gpu_rasterizeTriangle MAX_ATTRIBUTES sqrtf (some fragmentShader) localInput
        localOutput g primitive width height = some st' ∧
      (∀ x y, (∃ c ∈ st'.calls, c.x = x ∧ c.y = y) ↔
        (x < width ∧ y < height ∧
          insideEdges (gpu_computeTriangleLines sqrtf (screenVertices primitive))
            ![(x : ℚ) + 1 / 2, (y : ℚ) + 1 / 2] ∧
          ∃ x' : ℚ, x' ≠ (x : ℚ) + 1 / 2 ∧
            insideEdges (gpu_computeTriangleLines sqrtf (screenVertices primitive))
              ![x', (y : ℚ) + 1 / 2])) ∧
      (∀ c ∈ st'.calls,
        c = rasterizeTriangle_fragment MAX_ATTRIBUTES fragmentShader localInput localOutput
          primitive (screenVertices primitive)
          (gpu_computeTriangleLines sqrtf (screenVertices primitive))
          ((c.y : ℚ) + PIXEL_CENTER) c.x) ∧
      (∀ x y, ¬ (∃ c ∈ st'.calls, c.x = x ∧ c.y = y) →
        gpu_getDepth st'.framebuffer x y = gpu_getDepth g x y ∧
        cpu_getColor st'.framebuffer x y = cpu_getColor g x y) ∧
      (∀ i, 0 < distanceTo2DLine
        (gpu_computeTriangleLines sqrtf (screenVertices primitive) i)
        (screenVertices primitive (i + 2))) := by
  obtain ⟨st', hrun, hstep⟩ := rasterizeTriangle_run MAX_ATTRIBUTES sqrtf fragmentShader
    localInput localOutput g primitive width height hsqrt hn hccw ⟨hwf, hw, hh⟩
  have hcalls : ∀ x y, (∃ c ∈ st'.calls, c.x = x ∧ c.y = y) ↔
      (x < width ∧ y < height ∧
        pixelCovered (gpu_computeTriangleLines sqrtf (screenVertices primitive)) x y) := by
    intro x y
    constructor
    · rintro ⟨c, hc, hx, hy⟩
      rcases (hstep.calls c).mp hc with hc' | ⟨x', y', hp, hc'⟩
      · exact absurd hc' (List.not_mem_nil c)
      · obtain ⟨e1, e2⟩ := rasterizeTriangle_fragment_xy MAX_ATTRIBUTES fragmentShader
          localInput localOutput primitive (screenVertices primitive)
          (gpu_computeTriangleLines sqrtf (screenVertices primitive)) x' y'
        rw [← hc'] at e1 e2
        rw [← hx, ← hy, e1, e2]
        exact hp
    · intro hp
      obtain ⟨e1, e2⟩ := rasterizeTriangle_fragment_xy MAX_ATTRIBUTES fragmentShader
        localInput localOutput primitive (screenVertices primitive)
        (gpu_computeTriangleLines sqrtf (screenVertices primitive)) x y
      exact ⟨_, (hstep.calls _).mpr (Or.inr ⟨x, y, hp, rfl⟩), e1, e2⟩
  refine ⟨st', hrun, hcalls, ?_, ?_, ?_⟩
  · intro c hc
    rcases (hstep.calls c).mp hc with hc' | ⟨x', y', _, hc'⟩
    · exact absurd hc' (List.not_mem_nil c)
    · obtain ⟨e1, e2⟩ := rasterizeTriangle_fragment_xy MAX_ATTRIBUTES fragmentShader
        localInput localOutput primitive (screenVertices primitive)
        (gpu_computeTriangleLines sqrtf (screenVertices primitive)) x' y'
      rw [← hc'] at e1 e2
      rw [e1, e2]
      exact hc'
  · intro x y hxy
    exact hstep.frame x y (fun hp => hxy ((hcalls x y).mpr hp))
  · exact triangleLines_inward sqrtf hsqrt (screenVertices primitive) hccw

/-! ### Rasterizer: the sample triangle -/

lemma sampleSqrt_pos (q : ℚ) (_h : 0 < q) : 0 < sampleSqrt q := by
  unfold sampleSqrt
  split_ifs <;> norm_num

lemma sampleApex_vertices :
    screenVertices sampleApexPrimitive 0 = ![1 / 2, 1 / 2] ∧
    screenVertices sampleApexPrimitive 1 = ![9 / 2, 1 / 2] ∧
    screenVertices sampleApexPrimitive 2 = ![9 / 2, 7 / 2] := by
  refine ⟨?_, ?_, ?_⟩ <;>
    simp only [screenVertices, sampleApexPrimitive, copy_Vec4_To_Vec2, vec3_val0, vec3_val1,
      vec3_val2, vec4_val0, vec4_val1]

lemma sampleApex_ccw : 0 < signedArea2 (screenVertices sampleApexPrimitive) := by
  obtain ⟨e0, e1, e2⟩ := sampleApex_vertices
  unfold signedArea2
  rw [e0, e1, e2]
  simp only [vec2_val0, vec2_val1]
  norm_num

lemma sampleApexFramebuffer_sized : sampleApexFramebuffer.Sized 5 4 := by
  refine ⟨⟨?_, ?_, ?_⟩, rfl, rfl⟩ <;> simp [sampleApexFramebuffer]

/-- The three inequalities of the edge lines of the sample triangle. -/
lemma sampleApex_inside (p : Vec2) :
    insideEdges (gpu_computeTriangleLines sampleSqrt (screenVertices sampleApexPrimitive)) p ↔
      (1 / 2 ≤ p 1 ∧ p 0 ≤ 9 / 2 ∧ 0 ≤ 3 * (p 0 - 9 / 2) - 4 * (p 1 - 7 / 2)) := by
  rw [insideEdges_iff sampleSqrt sampleSqrt_pos _ (ne_of_gt sampleApex_ccw)]
  obtain ⟨e0, e1, e2⟩ := sampleApex_vertices
  have a0 : ((0 : Fin 3) + 1) = 1 := rfl
  have a1 : ((1 : Fin 3) + 1) = 2 := rfl
  have a2 : ((2 : Fin 3) + 1) = 0 := rfl
  constructor
  · intro h
    have h0 := h 0
    have h1 := h 1
    have h2 := h 2
    rw [a0, e0, e1] at h0
    rw [a1, e1, e2] at h1
    rw [a2, e2, e0] at h2
    simp only [edgeFunction, vec2_val0, vec2_val1] at h0 h1 h2
    refine ⟨?_, ?_, ?_⟩ <;> linarith
  · rintro ⟨h0, h1, h2⟩ i
    fin_cases i
    · show 0 ≤ edgeFunction (screenVertices sampleApexPrimitive 0)
        (screenVertices sampleApexPrimitive ((0 : Fin 3) + 1)) p
      rw [a0, e0, e1]
      simp only [edgeFunction, vec2_val0, vec2_val1]
      linarith
    · show 0 ≤ edgeFunction (screenVertices sampleApexPrimitive 1)
        (screenVertices sampleApexPrimitive ((1 : Fin 3) + 1)) p
      rw [a1, e1, e2]
      simp only [edgeFunction, vec2_val0, vec2_val1]
      linarith
    · show 0 ≤ edgeFunction (screenVertices sampleApexPrimitive 2)
        (screenVertices sampleApexPrimitive ((2 : Fin 3) + 1)) p
      rw [a2, e2, e0]
      simp only [edgeFunction, vec2_val0, vec2_val1]
      linarith

/-- The centre of the pixel `(4, 3)` is the apex of the sample triangle: it satisfies
the three inequalities, and it is the only point of its scanline that does. -/
lemma sampleApex_not_covered :
    insideEdges (gpu_computeTriangleLines sampleSqrt (screenVertices sampleApexPrimitive))
      ![((4 : ℕ) : ℚ) + 1 / 2, ((3 : ℕ) : ℚ) + 1 / 2] ∧
    ¬ pixelCovered (gpu_computeTriangleLines sampleSqrt (screenVertices sampleApexPrimitive))
      4 3 := by
  constructor
  · rw [sampleApex_inside]
    simp only [vec2_val0, vec2_val1]
    norm_num
  · rintro ⟨_, x', hne, hin⟩
    rw [sampleApex_inside] at hin
    simp only [vec2_val0, vec2_val1] at hin
    obtain ⟨_, h1, h2⟩ := hin
    apply hne
    push_cast at h2 ⊢
    linarith

/-- The pixel `(0, 0)` of the sample triangle is covered. -/
lemma sampleApex_covered :
    pixelCovered (gpu_computeTriangleLines sampleSqrt (screenVertices sampleApexPrimitive))
      0 0 := by
  refine ⟨?_, 1, ?_, ?_⟩
  · rw [sampleApex_inside]
    simp only [vec2_val0, vec2_val1]
    norm_num
  · norm_num
  · rw [sampleApex_inside]
    simp only [vec2_val0, vec2_val1]
    norm_num

/-- The centre of the pixel `(4, 3)` of the 5×4 viewport satisfies the three edge
inequalities of the counter-clockwise sample triangle, and `gpu_rasterizeTriangle`
returns without invoking the fragment shader for this pixel. -/
theorem rasterizeTriangle_skips_apex :
    (∀ q, 0 < q → 0 < sampleSqrt q) ∧
    sampleApexPrimitive.nofUsedVertices = 3 ∧
    0 < signedArea2 (screenVertices sampleApexPrimitive) ∧
    sampleApexFramebuffer.WellFormed ∧
    sampleApexFramebuffer.viewportWidth = 5 ∧ sampleApexFramebuffer.viewportHeight = 4 ∧
    4 < 5 ∧ 3 < 4 ∧
    insideEdges (gpu_computeTriangleLines sampleSqrt (screenVertices sampleApexPrimitive))
      ![((4 : ℕ) : ℚ) + 1 / 2, ((3 : ℕ) : ℚ) + 1 / 2] ∧
    ∃ st', gpu_rasterizeTriangle 8 sampleSqrt (some sampleFragmentShader) emptyFragment
        sampleNearFragment sampleApexFramebuffer sampleApexPrimitive 5 4 = some st' ∧
      ¬ ∃ c ∈ st'.calls, c.x = 4 ∧ c.y = 3 := by
  obtain ⟨st', hrun, hstep⟩ := rasterizeTriangle_run 8 sampleSqrt sampleFragmentShader
    emptyFragment sampleNearFragment sampleApexFramebuffer sampleApexPrimitive 5 4
    sampleSqrt_pos rfl sampleApex_ccw sampleApexFramebuffer_sized
  refine ⟨sampleSqrt_pos, rfl, sampleApex_ccw, sampleApexFramebuffer_sized.1, rfl, rfl,
    by decide, by decide, sampleApex_not_covered.1, st', hrun, ?_⟩
  rintro ⟨c, hc, hx, hy⟩
  rcases (hstep.calls c).mp hc with hc' | ⟨x', y', hp, hc'⟩
  · exact absurd hc' (List.not_mem_nil c)
  · obtain ⟨e1, e2⟩ := rasterizeTriangle_fragment_xy 8 sampleFragmentShader
      emptyFragment sampleNearFragment sampleApexPrimitive (screenVertices sampleApexPrimitive)
      (gpu_computeTriangleLines sampleSqrt (screenVertices sampleApexPrimitive)) x' y'
    rw [← hc', hx] at e1
    rw [← hc', hy] at e2
    rw [← e1, ← e2] at hp
    exact sampleApex_not_covered.2 hp.2.2

/-- The sample triangle satisfies the hypotheses of C11, and the rasterization of it
into the 5×4 sample frame buffer has the effect stated in C11. -/
theorem rasterizeTriangle_spec_witness :
    (∀ q, 0 < q → 0 < sampleSqrt q) ∧
    sampleApexPrimitive.nofUsedVertices = 3 ∧
    0 < signedArea2 (screenVertices sampleApexPrimitive) ∧
    sampleApexFramebuffer.WellFormed ∧
    sampleApexFramebuffer.viewportWidth = 5 ∧ sampleApexFramebuffer.viewportHeight = 4 ∧
    ∃ st', gpu_rasterizeTriangle 8 sampleSqrt (some sampleFragmentShader) emptyFragment
        sampleNearFragment sampleApexFramebuffer sampleApexPrimitive 5 4 = some st' ∧
      (∀ x y, (∃ c ∈ st'.calls, c.x = x ∧ c.y = y) ↔
        (x < 5 ∧ y < 4 ∧
          insideEdges (gpu_computeTriangleLines sampleSqrt (screenVertices sampleApexPrimitive))
            ![(x : ℚ) + 1 / 2, (y : ℚ) + 1 / 2] ∧
          ∃ x' : ℚ, x' ≠ (x : ℚ) + 1 / 2 ∧
            insideEdges
              (gpu_computeTriangleLines sampleSqrt (screenVertices sampleApexPrimitive))
              ![x', (y : ℚ) + 1 / 2])) ∧
      (∀ c ∈ st'.calls,
        c = rasterizeTriangle_fragment 8 sampleFragmentShader emptyFragment sampleNearFragment
          sampleApexPrimitive (screenVertices sampleApexPrimitive)
          (gpu_computeTriangleLines sampleSqrt (screenVertices sampleApexPrimitive))
          ((c.y : ℚ) + PIXEL_CENTER) c.x) ∧
      (∀ x y, ¬ (∃ c ∈ st'.calls, c.x = x ∧ c.y = y) →
        gpu_getDepth st'.framebuffer x y = gpu_getDepth sampleApexFramebuffer x y ∧
        cpu_getColor st'.framebuffer x y = cpu_getColor sampleApexFramebuffer x y) ∧
      (∀ i, 0 < distanceTo2DLine
        (gpu_computeTriangleLines sampleSqrt (screenVertices sampleApexPrimitive) i)
        (screenVertices sampleApexPrimitive (i + 2))) :=
  ⟨sampleSqrt_pos, rfl, sampleApex_ccw, sampleApexFramebuffer_sized.1, rfl, rfl,
    rasterizeTriangle_spec 8 sampleSqrt sampleFragmentShader emptyFragment sampleNearFragment
      sampleApexFramebuffer sampleApexPrimitive 5 4 sampleSqrt_pos rfl sampleApex_ccw
      sampleApexFramebuffer_sized.1 rfl rfl⟩

/-! ### Rasterizer: the colour given to the depth test -/

/-- The invocations recorded by a loop that returns are those recorded before it and
those recorded by its passes. -/
lemma forLoop_calls (Q : FragmentCall → Prop) (body : ℕ → RasterState → Option RasterState)
    (lo : ℕ)
    (hbody : ∀ i s s', body i s = some s' → ∀ c ∈ s'.calls, c ∈ s.calls ∨ Q c)
    (st : RasterState) (n : ℕ) :
    ∀ st', forLoop n (fun i s => Option.bind s (body (lo + i))) (some st) = some st' →
      ∀ c ∈ st'.calls, c ∈ st.calls ∨ Q c := by
  induction n with
  | zero =>
    intro st' h c hc
    rw [forLoop_zero] at h
    rw [← Option.some.inj h] at hc
    exact Or.inl hc
  | succ n ih =>
    intro st' h c hc
    rw [forLoop_succ] at h
    cases hprev : forLoop n (fun i s => Option.bind s (body (lo + i))) (some st) with
    | none =>
      rw [hprev] at h
      exact absurd h (by simp)
    | some s1 =>
      rw [hprev] at h
      rcases hbody (lo + n) s1 st' h c hc with h1 | h1
      · exact ih s1 hprev c h1
      · exact Or.inr h1

/-- The invocations recorded by a loop `for (i = lo; i < hi; ++i)` that returns. -/
lemma forRange_calls (Q : FragmentCall → Prop) (body : ℕ → RasterState → Option RasterState)
    (lo hi : ℕ)
    (hbody : ∀ i s s', body i s = some s' → ∀ c ∈ s'.calls, c ∈ s.calls ∨ Q c)
    (st st' : RasterState) (h : forRange lo hi body st = some st') :
    ∀ c ∈ st'.calls, c ∈ st.calls ∨ Q c :=
  forLoop_calls Q body lo hbody st (hi - lo) st' h

/-- A pass of the inner loop that returns records one invocation. -/
lemma rasterizeTriangle_pixel_calls (MAX_ATTRIBUTES : ℕ) (fragmentShader : FragmentShader)
    (localInput : GPUFragmentShaderInput) (localOutput : GPUFragmentShaderOutput)
    (primitive : GPUPrimitive) (triangleVertices : Fin 3 → Vec2)
    (triangleLines : Fin 3 → Vec3) (pixelCoord1 : ℚ) (x : ℕ) (s s' : RasterState)
    (h : rasterizeTriangle_pixel MAX_ATTRIBUTES fragmentShader localInput localOutput
      primitive triangleVertices triangleLines pixelCoord1 x s = some s') :
    ∀ c ∈ s'.calls, c ∈ s.calls ∨
      ∃ (y : ℚ) (x : ℕ), c = rasterizeTriangle_fragment MAX_ATTRIBUTES fragmentShader
        localInput localOutput primitive triangleVertices triangleLines y x := by
  unfold rasterizeTriangle_pixel at h
  dsimp only at h
  cases hop : gpu_perFragmentOperations s.framebuffer
    (rasterizeTriangle_fragment MAX_ATTRIBUTES fragmentShader localInput localOutput
      primitive triangleVertices triangleLines pixelCoord1 x).tested
    (rasterizeTriangle_fragment MAX_ATTRIBUTES fragmentShader localInput localOutput
      primitive triangleVertices triangleLines pixelCoord1 x).x
    (rasterizeTriangle_fragment MAX_ATTRIBUTES fragmentShader localInput localOutput
      primitive triangleVertices triangleLines pixelCoord1 x).y with
  | none =>
    rw [hop] at h
    exact absurd h (by simp)
  | some fb =>
    rw [hop] at h
    intro c hc
    rw [← Option.some.inj h] at hc
    simp only [List.mem_append, List.mem_singleton] at hc
    rcases hc with hc | hc
    · exact Or.inl hc
    · exact Or.inr ⟨pixelCoord1, x, hc⟩

/-- A pass of the outer loop that returns records invocations of its pixels. -/
lemma rasterizeTriangle_scanline_calls (MAX_ATTRIBUTES : ℕ)
    (fragmentShader : FragmentShader)
    (localInput : GPUFragmentShaderInput) (localOutput : GPUFragmentShaderOutput)
    (primitive : GPUPrimitive) (triangleVertices : Fin 3 → Vec2)
    (triangleLines : Fin 3 → Vec3) (width y : ℕ) (s s' : RasterState)
    (h : rasterizeTriangle_scanline MAX_ATTRIBUTES fragmentShader localInput localOutput
      primitive triangleVertices triangleLines width y s = some s') :
    ∀ c ∈ s'.calls, c ∈ s.calls ∨
      ∃ (y : ℚ) (x : ℕ), c = rasterizeTriangle_fragment MAX_ATTRIBUTES fragmentShader
        localInput localOutput primitive triangleVertices triangleLines y x := by
  unfold rasterizeTriangle_scanline at h
  dsimp only at h
  split_ifs at h with hskip
  · intro c hc
    rw [← Option.some.inj h] at hc
    exact Or.inl hc
  · cases h0 : gpu_roundDownPixelCoord (clampNegative
      (gpu_computeLineBorders ((y : ℚ) + PIXEL_CENTER) triangleLines).1) with
    | none =>
      rw [h0] at h
      exact absurd h (by simp)
    | some n0 =>
      cases h1 : gpu_roundUpPixelCoord (clampNegative
        (gpu_computeLineBorders ((y : ℚ) + PIXEL_CENTER) triangleLines).2) with
      | none =>
        rw [h0, h1] at h
        exact absurd h (by simp)
      | some n1 =>
        rw [h0, h1] at h
        exact forRange_calls _ _ _ _
          (fun i s s' hb => rasterizeTriangle_pixel_calls MAX_ATTRIBUTES fragmentShader
            localInput localOutput primitive triangleVertices triangleLines _ i s s' hb)
          s s' h

/-- Every invocation recorded by a run of `gpu_rasterizeTriangle` that returns is made
with the active fragment shader for a pixel of a scanline. -/
lemma rasterizeTriangle_calls (MAX_ATTRIBUTES : ℕ) (sqrtf : ℚ → ℚ)
    (activeFragmentShader : Option FragmentShader)
    (localInput : GPUFragmentShaderInput) (localOutput : GPUFragmentShaderOutput)
    (g : Framebuffer) (primitive : GPUPrimitive) (width height : ℕ) (st' : RasterState)
    (h : gpu_rasterizeTriangle MAX_ATTRIBUTES sqrtf activeFragmentShader localInput
      localOutput g primitive width height = some st') :
    ∀ c ∈ st'.calls, ∃ fragmentShader, activeFragmentShader = some fragmentShader ∧
      ∃ (y : ℚ) (x : ℕ), c = rasterizeTriangle_fragment MAX_ATTRIBUTES fragmentShader
        localInput localOutput primitive (screenVertices primitive)
        (gpu_computeTriangleLines sqrtf (screenVertices primitive)) y x := by
  unfold gpu_rasterizeTriangle at h
  dsimp only at h
  rw [show (fun vertex => copy_Vec4_To_Vec2 (primitive.vertices vertex).gl_Position) =
    screenVertices primitive from rfl] at h
  generalize forLoop primitive.nofUsedVertices _ _ = bounds at h
  cases h0 : gpu_roundDownPixelCoord (clampNegative bounds.1) with
  | none =>
    rw [h0] at h
    exact absurd h (by simp)
  | some n0 =>
    cases h1 : gpu_roundUpPixelCoord (clampNegative bounds.2) with
    | none =>
      rw [h0, h1] at h
      exact absurd h (by simp)
    | some n1 =>
      rw [h0, h1] at h
      dsimp only at h
      cases activeFragmentShader with
      | none => exact absurd h (by simp)
      | some fragmentShader =>
        dsimp only at h
        intro c hc
        rcases forRange_calls _ _ _ _
          (fun i s s' hb => rasterizeTriangle_scanline_calls MAX_ATTRIBUTES fragmentShader
            localInput localOutput primitive (screenVertices primitive)
            (gpu_computeTriangleLines sqrtf (screenVertices primitive)) width i s s' hb)
          _ st' h c hc with hc' | hc'
        · exact absurd hc' (List.not_mem_nil c)
        · exact ⟨fragmentShader, rfl, hc'⟩

/-- C15: in every run of `gpu_rasterizeTriangle` that returns, each invocation `c` of
the fragment shader is made with the active fragment shader on the created fragment,
and the output `c.tested` given to `gpu_perFragmentOperations` is the output
`c.shaded` written by the shader after `gpu_clampFragmentColor`: each of the four
colour channels `v` is replaced by `min (max v 0) 1`, a channel in `[0, 1]` is
unchanged, and the depth is the depth left by the shader. -/
theorem rasterizeTriangle_clamps_color (MAX_ATTRIBUTES : ℕ) (sqrtf : ℚ → ℚ)
    (activeFragmentShader : Option FragmentShader)
    (localInput : GPUFragmentShaderInput) (localOutput : GPUFragmentShaderOutput)
    (g : Framebuffer) (primitive : GPUPrimitive) (width height : ℕ) (st' : RasterState)
    (hrun : gpu_rasterizeTriangle MAX_ATTRIBUTES sqrtf activeFragmentShader localInput
      localOutput g primitive width height = some st')
    (c : FragmentCall) (hc : c ∈ st'.calls) :
    (∃ fragmentShader, activeFragmentShader = some fragmentShader ∧
      c.shaded = fragmentShader { localOutput with depth := c.input.depth } c.input) ∧
    c.tested = gpu_clampFragmentColor c.shaded ∧
    (∀ i, c.tested.color i = min (max (c.shaded.color i) 0) 1) ∧
    (∀ i, 0 ≤ c.shaded.color i → c.shaded.color i ≤ 1 →
      c.tested.color i = c.shaded.color i) ∧
    c.tested.depth = c.shaded.depth := by
  obtain ⟨fragmentShader, hfs, y, x, hcall⟩ := rasterizeTriangle_calls MAX_ATTRIBUTES sqrtf
    activeFragmentShader localInput localOutput g primitive width height st' hrun c hc
  have ht : c.tested = gpu_clampFragmentColor c.shaded := by
    rw [hcall]
    rfl
  refine ⟨⟨fragmentShader, hfs, by rw [hcall]; rfl⟩, ht, ?_, ?_, ?_⟩
  · intro i
    rw [ht, clampFragmentColor_eq]
  · intro i h0 h1
    rw [ht, clampFragmentColor_eq]
    show min (max (c.shaded.color i) 0) 1 = c.shaded.color i
    rw [max_eq_left h0, min_eq_left h1]
  · rw [ht, clampFragmentColor_eq]

/-- The rasterization of the sample triangle returns and invokes the fragment shader for
the pixel `(0, 0)`; the colour `(2, -1, 1/2, 1)` written by the sample shader reaches
the depth test as `(1, 0, 1/2, 1)`, as stated in C15. -/
theorem rasterizeTriangle_clamps_color_witness :
    ∃ st' c, gpu_rasterizeTriangle 8 sampleSqrt (some sampleFragmentShader) emptyFragment
        sampleNearFragment sampleApexFramebuffer sampleApexPrimitive 5 4 = some st' ∧
      c ∈ st'.calls ∧ c.x = 0 ∧ c.y = 0 ∧
      c.shaded.color = ![2, -1, 1 / 2, 1] ∧
      c.tested.color = ![1, 0, 1 / 2, 1] ∧
      ((∃ fragmentShader, some sampleFragmentShader = some fragmentShader ∧
        c.shaded = fragmentShader { sampleNearFragment with depth := c.input.depth }
          c.input) ∧
      c.tested = gpu_clampFragmentColor c.shaded ∧
      (∀ i, c.tested.color i = min (max (c.shaded.color i) 0) 1) ∧
      (∀ i, 0 ≤ c.shaded.color i → c.shaded.color i ≤ 1 →
        c.tested.color i = c.shaded.color i) ∧
      c.tested.depth = c.shaded.depth) := by
  obtain ⟨st', hrun, hstep⟩ := rasterizeTriangle_run 8 sampleSqrt sampleFragmentShader
    emptyFragment sampleNearFragment sampleApexFramebuffer sampleApexPrimitive 5 4
    sampleSqrt_pos rfl sampleApex_ccw sampleApexFramebuffer_sized
  have hc := (hstep.calls _).mpr
    (Or.inr ⟨0, 0, ⟨by decide, by decide, sampleApex_covered⟩, rfl⟩)
  obtain ⟨e1, e2⟩ := rasterizeTriangle_fragment_xy 8 sampleFragmentShader
    emptyFragment sampleNearFragment sampleApexPrimitive (screenVertices sampleApexPrimitive)
    (gpu_computeTriangleLines sampleSqrt (screenVertices sampleApexPrimitive)) 0 0
  have hall := rasterizeTriangle_clamps_color 8 sampleSqrt (some sampleFragmentShader)
    emptyFragment sampleNearFragment sampleApexFramebuffer sampleApexPrimitive 5 4 st' hrun
    _ hc
  refine ⟨st', _, hrun, hc, e1, e2, rfl, ?_, hall⟩
  funext i
  rw [hall.2.2.1 i]
  show min (max ((![2, -1, 1 / 2, 1] : Vec4) i) 0) 1 = _
  fin_cases i <;> norm_num

/-! ### Clipping of an edge -/

/-- C29: for every edge `(A, B)`, axis and sign flag `p` (with `s = 2p - 1`), the
interval `(minT, maxT)` returned by `gpu_runFrustumPlaneClippingOnEdge` satisfies
`0 ≤ minT` and `maxT ≤ 1`, and for every `t` in `[0, 1]` the parameter is in the interval,
`minT ≤ t ≤ maxT`, exactly when the point `P(t) = A + t * (B - A)` satisfies
`-P(t).w ≤ s * P(t)[axis]`. -/
theorem runFrustumPlaneClippingOnEdge_interval (vertexA vertexB : Vec4) (axis : Fin 4)
    (positive : ℕ) :
    0 ≤ (gpu_runFrustumPlaneClippingOnEdge vertexA vertexB axis positive).1 ∧
    (gpu_runFrustumPlaneClippingOnEdge vertexA vertexB axis positive).2 ≤ 1 ∧
    ∀ t : ℚ, 0 ≤ t → t ≤ 1 →
      (((gpu_runFrustumPlaneClippingOnEdge vertexA vertexB axis positive).1 ≤ t ∧
        t ≤ (gpu_runFrustumPlaneClippingOnEdge vertexA vertexB axis positive).2) ↔
      -(vertexA 3 + t * (vertexB 3 - vertexA 3)) ≤
        (2 * (positive : ℚ) - 1) * (vertexA axis + t * (vertexB axis - vertexA axis))) := by
  unfold gpu_runFrustumPlaneClippingOnEdge
  dsimp only
  set M := -vertexB 3 + vertexA 3 - (2 * (positive : ℚ) - 1) * (vertexB axis - vertexA axis)
    with hM
  set N := (2 * (positive : ℚ) - 1) * vertexA axis + vertexA 3 with hN
  have key : ∀ t : ℚ, (-(vertexA 3 + t * (vertexB 3 - vertexA 3)) ≤
      (2 * (positive : ℚ) - 1) * (vertexA axis + t * (vertexB axis - vertexA axis))) ↔
      t * M ≤ N := by
    intro t
    rw [hM, hN]
    constructor <;> intro h <;> nlinarith [h]
  by_cases h1 : M > 0
  · simp only [h1, if_true]
    refine ⟨le_refl _, min_le_left _ _, ?_⟩
    intro t h0 ht
    rw [key t, le_min_iff, le_div_iff₀ h1]
    constructor
    · exact fun h => h.2.2
    · exact fun h => ⟨h0, ht, h⟩
  · by_cases h2 : M < 0
    · simp only [h1, h2, if_true, if_false]
      refine ⟨le_max_left _ _, le_refl _, ?_⟩
      intro t h0 ht
      rw [key t, max_le_iff, div_le_iff_of_neg h2]
      constructor
      · exact fun h => h.1.2
      · exact fun h => ⟨⟨h0, h⟩, ht⟩
    · have h0M : M = 0 := le_antisymm (not_lt.mp h1) (not_lt.mp h2)
      simp only [h1, h2, if_false]
      by_cases h3 : N < 0
      · simp only [h3, if_true]
        refine ⟨by norm_num, by norm_num, ?_⟩
        intro t h0 ht
        rw [key t, h0M, mul_zero]
        constructor
        · intro h
          linarith [h.1, h.2]
        · intro h
          linarith
      · simp only [h3, if_false]
        refine ⟨le_refl _, le_refl _, ?_⟩
        intro t h0 ht
        rw [key t, h0M, mul_zero]
        exact ⟨fun _ => not_lt.mp h3, fun _ => ⟨h0, ht⟩⟩

/-! ### Sub-primitives of clipped triangles -/

/-- A property kept by every pass of a loop holds after the loop. -/
lemma forLoop_invariant {σ : Type} (P : σ → Prop) (n : ℕ) (body : ℕ → σ → σ) (init : σ)
    (h0 : P init) (hstep : ∀ i s, i < n → P s → P (body i s)) :
    P (forLoop n body init) := by
  induction n with
  | zero => exact h0
  | succ n ih =>
    rw [forLoop_succ]
    exact hstep n _ (Nat.lt_succ_self n) (ih (fun i s hi hs => hstep i s (by omega) hs))

lemma recipeOf_copy (P : GPUPrimitive) (pos : Vec4) (co : Vec3) (h : RecipeOf P pos co) :
    RecipeOf P (copy_Vec4 pos) (copy_Vec3 co) := h

lemma recipeOf_mix (P : GPUPrimitive) (pa pb : Vec4) (ca cb : Vec3) (t : ℚ)
    (ha : RecipeOf P pa ca) (hb : RecipeOf P pb cb) :
    RecipeOf P (mix_Vec4 pa pb t) (mix_Vec3 ca cb t) := by
  intro j
  simp only [mix_Vec4, mix_Vec3]
  rw [ha j, hb j]
  ring

/-- Every triangle written by the clipper for a plane keeps the relation between
positions and recipe vectors of the clipped triangle. -/
lemma clippingOnTriangle_recipe (P : GPUPrimitive) (triangles : List GPUTriangle)
    (triangle : GPUTriangle) (plane : FrustumPlane)
    (h0 : ∀ T ∈ triangles, ∀ i, RecipeOf P (T.positions i) (T.coords i))
    (ht : ∀ i, RecipeOf P (triangle.positions i) (triangle.coords i)) :
    ∀ T ∈ gpu_runFrustumPlaneClippingOnTriangle triangles triangle plane,
      ∀ i, RecipeOf P (T.positions i) (T.coords i) := by
  have hat : ∀ n, RecipeOf P (at3 triangle.positions n) (at3 triangle.coords n) :=
    fun n => ht (Fin.ofNat n)
  unfold gpu_runFrustumPlaneClippingOnTriangle
  dsimp only
  split_ifs
  · exact h0
  · intro T hT i
    unfold gpu_writeClippedTriangle_OneVertexVisible at hT
    simp only [List.mem_append, List.mem_singleton] at hT
    rcases hT with hT | hT
    · exact h0 T hT i
    · subst hT
      fin_cases i
      · exact recipeOf_copy P _ _ (hat _)
      · exact recipeOf_mix P _ _ _ _ _ (hat _) (hat _)
      · exact recipeOf_mix P _ _ _ _ _ (hat _) (hat _)
  · intro T hT i
    unfold gpu_writeClippedTriangle_TwoVerticesVisible at hT
    simp only [List.mem_append, List.mem_singleton] at hT
    rcases hT with (hT | hT) | hT
    · exact h0 T hT i
    · subst hT
      unfold gpu_writeClippedTriangle_TwoVerticesVisible_FirstTriangle
      fin_cases i
      · exact recipeOf_mix P _ _ _ _ _ (hat _) (hat _)
      · exact recipeOf_copy P _ _ (hat _)
      · exact recipeOf_mix P _ _ _ _ _ (hat _) (hat _)
    · subst hT
      unfold gpu_writeClippedTriangle_TwoVerticesVisible_SecondTriangle
      fin_cases i
      · exact recipeOf_mix P _ _ _ _ _ (hat _) (hat _)
      · exact recipeOf_copy P _ _ (hat _)
      · exact recipeOf_copy P _ _ (hat _)
  · intro T hT i
    unfold gpu_writeClippedTriangle_ThreeVerticesVisible at hT
    simp only [List.mem_append, List.mem_singleton] at hT
    rcases hT with hT | hT
    · exact h0 T hT i
    · subst hT
      exact recipeOf_copy P _ _ (ht i)
  · exact h0

/-- The triangle of `gpu_initTriangle` has the positions of the primitive and identity
recipes. -/
lemma initTriangle_recipe (P : GPUPrimitive) (i : Fin 3) :
    RecipeOf P ((gpu_initTriangle P).positions i) ((gpu_initTriangle P).coords i) := by
  intro j
  fin_cases i <;> simp [gpu_initTriangle, copy_Vec4]


/-- The positions of all vertices are untouched by an attribute write. -/
lemma writeVertexAttribute_position (pr : GPUPrimitive) (v a c : ℕ) (value : ℚ) (u : Fin 3) :
    ((writeVertexAttribute pr v a c value).vertices u).gl_Position =
      (pr.vertices u).gl_Position := by
  unfold writeVertexAttribute
  by_cases h : u = Fin.ofNat v
  · subst h; simp
  · simp [Function.update, h]

/-- The loop of `gpu_createSubPrimitive` that copies the types and qualifiers. -/
lemma createSubPrimitive_copy_loop (P sub0 : GPUPrimitive) (n : ℕ) :
    (forLoop n
      (fun a (sub : GPUPrimitive) =>
        { sub with
          interpolations := Function.update sub.interpolations a (P.interpolations a),
          types := Function.update sub.types a (P.types a) })
      sub0) =
    { sub0 with
      interpolations := fun a => if a < n then P.interpolations a else sub0.interpolations a,
      types := fun a => if a < n then P.types a else sub0.types a } := by
  induction n with
  | zero => simp [forLoop_zero]
  | succ n ih =>
    rw [forLoop_succ, ih]
    congr 1
    · funext a
      by_cases h : a = n
      · subst h; simp
      · have h1 : a < n + 1 ↔ a < n := by omega
        simp [Function.update, h, h1]
    · funext a
      by_cases h : a = n
      · subst h; simp
      · have h1 : a < n + 1 ↔ a < n := by omega
        simp [Function.update, h, h1]

/-- The loop of `gpu_createSubPrimitive` that writes the four components of the position
of one vertex. -/
lemma createSubPrimitive_position_loop (P sub : GPUPrimitive) (T : GPUTriangle) (v : ℕ)
    (u : Fin 3) (j : Fin 4) :
    ((forLoop 4
      (fun componentIndex (sub : GPUPrimitive) =>
        let values : Fin 3 → ℚ :=
          fun k => (P.vertices k).gl_Position (Fin.ofNat componentIndex)
        modifyPosition sub v componentIndex
          (fun _ => gpu_noperspectiveInterpolate values (at3 T.coords v)))
      sub).vertices u).gl_Position j =
    if u = Fin.ofNat v then
      gpu_noperspectiveInterpolate (fun k => (P.vertices k).gl_Position j) (at3 T.coords v)
    else (sub.vertices u).gl_Position j := by
  rw [forLoop_four]
  simp only [modifyPosition_position]
  have e0 : (Fin.ofNat 0 : Fin 4) = 0 := rfl
  have e1 : (Fin.ofNat 1 : Fin 4) = 1 := rfl
  have e2 : (Fin.ofNat 2 : Fin 4) = 2 := rfl
  have e3 : (Fin.ofNat 3 : Fin 4) = 3 := rfl
  rw [e0, e1, e2, e3]
  by_cases h : u = Fin.ofNat v
  · simp only [h, true_and, if_true]
    fin_cases j <;> simp
  · simp only [h, false_and, if_false]

/-- The parts of a primitive other than the vertex positions are kept by the loops over
the vertices of `gpu_createSubPrimitive`, and the positions by its attribute loop. -/
lemma createSubPrimitive_attribute_loop (P sub : GPUPrimitive) (T : GPUTriangle) (v n : ℕ) :
    let r := forLoop n
      (fun attributeIndex (sub : GPUPrimitive) =>
        if P.types attributeIndex = .ATTRIB_EMPTY then sub
        else
          let dimension := (P.types attributeIndex).toNat
          forLoop dimension
            (fun componentIndex (sub : GPUPrimitive) =>
              let values : Fin 3 → ℚ :=
                fun k => (P.vertices k).attributes attributeIndex componentIndex
              writeVertexAttribute sub v attributeIndex componentIndex
                (gpu_noperspectiveInterpolate values (at3 T.coords v)))
            sub)
      sub
    r.types = sub.types ∧ r.interpolations = sub.interpolations ∧
      r.nofUsedVertices = sub.nofUsedVertices ∧
      ∀ u, (r.vertices u).gl_Position = (sub.vertices u).gl_Position := by
  intro r
  apply forLoop_invariant
    (fun s : GPUPrimitive => s.types = sub.types ∧ s.interpolations = sub.interpolations ∧
      s.nofUsedVertices = sub.nofUsedVertices ∧
      ∀ u, (s.vertices u).gl_Position = (sub.vertices u).gl_Position)
  · exact ⟨rfl, rfl, rfl, fun _ => rfl⟩
  · intro a s _ hs
    dsimp only
    split_ifs
    · exact hs
    · apply forLoop_invariant
        (fun s : GPUPrimitive => s.types = sub.types ∧
          s.interpolations = sub.interpolations ∧
          s.nofUsedVertices = sub.nofUsedVertices ∧
          ∀ u, (s.vertices u).gl_Position = (sub.vertices u).gl_Position)
      · exact hs
      · intro c s' _ hs'
        exact ⟨hs'.1, hs'.2.1, hs'.2.2.1, fun u =>
          (writeVertexAttribute_position s' v a c _ u).trans (hs'.2.2.2 u)⟩

/-- The closed form of the parts of the result of `gpu_createSubPrimitive` other than
the attributes. -/
lemma createSubPrimitive_eq (MAX_ATTRIBUTES : ℕ) (sub P : GPUPrimitive) (T : GPUTriangle) :
    (gpu_createSubPrimitive MAX_ATTRIBUTES sub P T).nofUsedVertices = 3 ∧
    (∀ a, (gpu_createSubPrimitive MAX_ATTRIBUTES sub P T).types a =
      if a < MAX_ATTRIBUTES then P.types a else sub.types a) ∧
    (∀ a, (gpu_createSubPrimitive MAX_ATTRIBUTES sub P T).interpolations a =
      if a < MAX_ATTRIBUTES then P.interpolations a else sub.interpolations a) ∧
    (∀ i j, ((gpu_createSubPrimitive MAX_ATTRIBUTES sub P T).vertices i).gl_Position j =
      gpu_noperspectiveInterpolate (fun k => (P.vertices k).gl_Position j) (T.coords i)) := by
  unfold gpu_createSubPrimitive
  dsimp only
  rw [createSubPrimitive_copy_loop]
  have key : ∀ n, n ≤ 3 → ∀ sub1 : GPUPrimitive,
      let r := forLoop n
        (fun vertexIndex (sub : GPUPrimitive) =>
          let sub2 := forLoop 4
            (fun componentIndex (sub : GPUPrimitive) =>
              let values : Fin 3 → ℚ :=
                fun k => (P.vertices k).gl_Position (Fin.ofNat componentIndex)
              modifyPosition sub vertexIndex componentIndex
                (fun _ => gpu_noperspectiveInterpolate values (at3 T.coords vertexIndex)))
            sub
          forLoop MAX_ATTRIBUTES
            (fun attributeIndex (sub : GPUPrimitive) =>
              if P.types attributeIndex = .ATTRIB_EMPTY then sub
              else
                let dimension := (P.types attributeIndex).toNat
                forLoop dimension
                  (fun componentIndex (sub : GPUPrimitive) =>
                    let values : Fin 3 → ℚ :=
                      fun k => (P.vertices k).attributes attributeIndex componentIndex
                    writeVertexAttribute sub vertexIndex attributeIndex componentIndex
                      (gpu_noperspectiveInterpolate values (at3 T.coords vertexIndex)))
                  sub)
            sub2)
        sub1
      r.types = sub1.types ∧ r.interpolations = sub1.interpolations ∧
        r.nofUsedVertices = sub1.nofUsedVertices ∧
        ∀ (u : Fin 3) j, (r.vertices u).gl_Position j =
          if u.val < n then
            gpu_noperspectiveInterpolate (fun k => (P.vertices k).gl_Position j) (T.coords u)
          else (sub1.vertices u).gl_Position j := by
    intro n
    induction n with
    | zero =>
      intro _ sub1
      simp [forLoop_zero]
    | succ n ih =>
      intro hn sub1
      have ih' := ih (by omega) sub1
      dsimp only at ih' ⊢
      rw [forLoop_succ]
      generalize forLoop n _ sub1 = R at ih' ⊢
      obtain ⟨h1, h2, h3, h4⟩ := createSubPrimitive_attribute_loop P
        (forLoop 4
          (fun componentIndex (sub : GPUPrimitive) =>
            let values : Fin 3 → ℚ :=
              fun k => (P.vertices k).gl_Position (Fin.ofNat componentIndex)
            modifyPosition sub n componentIndex
              (fun _ => gpu_noperspectiveInterpolate values (at3 T.coords n)))
          R) T n MAX_ATTRIBUTES
      have hinner : ∀ s : GPUPrimitive, (forLoop 4
          (fun componentIndex (sub : GPUPrimitive) =>
            let values : Fin 3 → ℚ :=
              fun k => (P.vertices k).gl_Position (Fin.ofNat componentIndex)
            modifyPosition sub n componentIndex
              (fun _ => gpu_noperspectiveInterpolate values (at3 T.coords n)))
          s).types = s.types ∧ (forLoop 4
          (fun componentIndex (sub : GPUPrimitive) =>
            let values : Fin 3 → ℚ :=
              fun k => (P.vertices k).gl_Position (Fin.ofNat componentIndex)
            modifyPosition sub n componentIndex
              (fun _ => gpu_noperspectiveInterpolate values (at3 T.coords n)))
          s).interpolations = s.interpolations ∧ (forLoop 4
          (fun componentIndex (sub : GPUPrimitive) =>
            let values : Fin 3 → ℚ :=
              fun k => (P.vertices k).gl_Position (Fin.ofNat componentIndex)
            modifyPosition sub n componentIndex
              (fun _ => gpu_noperspectiveInterpolate values (at3 T.coords n)))
          s).nofUsedVertices = s.nofUsedVertices := by
        intro s
        rw [forLoop_four]
        exact ⟨rfl, rfl, rfl⟩
      refine ⟨h1.trans ((hinner R).1.trans ih'.1), h2.trans ((hinner R).2.1.trans ih'.2.1),
        h3.trans ((hinner R).2.2.trans ih'.2.2.1), ?_⟩
      intro u j
      rw [h4 u, createSubPrimitive_position_loop, ih'.2.2.2 u j]
      have hv : (Fin.ofNat n : Fin 3).val = n := fin3_ofNat_val n (by omega)
      by_cases hu : u = Fin.ofNat n
      · have hlt : u.val < n + 1 := by rw [hu, hv]; omega
        simp only [hu, if_true, at3]
        rw [if_pos (by rw [hv]; omega)]
      · have hne : u.val ≠ n := fun h => hu (Fin.ext (by rw [hv]; exact h))
        have h1 : u.val < n + 1 ↔ u.val < n := by omega
        simp only [hu, if_false, h1]
  obtain ⟨k1, k2, k3, k4⟩ := key 3 (le_refl 3)
    { nofUsedVertices := VERTICES_PER_TRIANGLE, vertices := sub.vertices,
      interpolations := fun a =>
        if a < MAX_ATTRIBUTES then P.interpolations a else sub.interpolations a,
      types := fun a => if a < MAX_ATTRIBUTES then P.types a else sub.types a }
  refine ⟨?_, ?_, ?_, ?_⟩
  · exact k3
  · intro a
    exact congrFun k1 a
  · intro a
    exact congrFun k2 a
  · intro i j
    have := k4 i j
    rw [if_pos i.isLt] at this
    exact this


/-- C30: for every primitive `P` and every triangle `T` emitted by
`gpu_runTriangleClipping` from `gpu_initTriangle P`, the vertex positions of
`gpu_createSubPrimitive P T` are the clipped positions of `T`, which are the
combinations `T.coords[i][0] * P0 + T.coords[i][1] * P1 + T.coords[i][2] * P2` of the
vertex positions of `P`; the types and qualifiers of the slots below `MAX_ATTRIBUTES`
are those of `P`, and three vertices are used. -/
theorem createSubPrimitive_positions (MAX_ATTRIBUTES : ℕ) (subPrimitive P : GPUPrimitive)
    (T : GPUTriangle) (hT : T ∈ gpu_runTriangleClipping (gpu_initTriangle P)) :
    (∀ i j, ((gpu_createSubPrimitive MAX_ATTRIBUTES subPrimitive P T).vertices i).gl_Position j
      = T.positions i j) ∧
    (∀ i j, T.positions i j =
      T.coords i 0 * (P.vertices 0).gl_Position j +
      T.coords i 1 * (P.vertices 1).gl_Position j +
      T.coords i 2 * (P.vertices 2).gl_Position j) ∧
    (∀ a, a < MAX_ATTRIBUTES →
      (gpu_createSubPrimitive MAX_ATTRIBUTES subPrimitive P T).types a = P.types a ∧
      (gpu_createSubPrimitive MAX_ATTRIBUTES subPrimitive P T).interpolations a =
        P.interpolations a) ∧
    (gpu_createSubPrimitive MAX_ATTRIBUTES subPrimitive P T).nofUsedVertices = 3 := by
  obtain ⟨h1, h2, h3, h4⟩ := createSubPrimitive_eq MAX_ATTRIBUTES subPrimitive P T
  have hrec : ∀ i, RecipeOf P (T.positions i) (T.coords i) :=
    clippingOnTriangle_recipe P [] (gpu_initTriangle P) .NEAR
      (fun T hT => absurd hT (List.not_mem_nil T)) (initTriangle_recipe P) T hT
  refine ⟨?_, fun i j => hrec i j, ?_, h1⟩
  · intro i j
    rw [h4 i j, hrec i j]
    unfold gpu_noperspectiveInterpolate
    ring
  · intro a ha
    exact ⟨by rw [h2 a, if_pos ha], by rw [h3 a, if_pos ha]⟩

/-- The sample primitive has the vertex 1 alone in the near half-space; the corner
triangle cut at vertex 1 is emitted by the clipper, and the sub-primitive made from it
has the properties stated in C30. -/
theorem createSubPrimitive_positions_witness :
    cornerTriangle (gpu_initTriangle sampleCutPrimitive) 1
        (gpu_runFrustumPlaneClippingOnEdge ((gpu_initTriangle sampleCutPrimitive).positions 1)
          ((gpu_initTriangle sampleCutPrimitive).positions (1 + 1)) 2 1).2
        (gpu_runFrustumPlaneClippingOnEdge
          ((gpu_initTriangle sampleCutPrimitive).positions (1 + 2))
          ((gpu_initTriangle sampleCutPrimitive).positions (1 + 2 + 1)) 2 1).1
      ∈ gpu_runTriangleClipping (gpu_initTriangle sampleCutPrimitive) ∧
    ∃ T ∈ gpu_runTriangleClipping (gpu_initTriangle sampleCutPrimitive),
      (∀ i j, ((gpu_createSubPrimitive 8 sampleDepthPrimitive sampleCutPrimitive T).vertices
        i).gl_Position j = T.positions i j) ∧
      (∀ i j, T.positions i j =
        T.coords i 0 * (sampleCutPrimitive.vertices 0).gl_Position j +
        T.coords i 1 * (sampleCutPrimitive.vertices 1).gl_Position j +
        T.coords i 2 * (sampleCutPrimitive.vertices 2).gl_Position j) ∧
      (∀ a, a < 8 →
        (gpu_createSubPrimitive 8 sampleDepthPrimitive sampleCutPrimitive T).types a =
          sampleCutPrimitive.types a ∧
        (gpu_createSubPrimitive 8 sampleDepthPrimitive sampleCutPrimitive T).interpolations a =
          sampleCutPrimitive.interpolations a) ∧
      (gpu_createSubPrimitive 8 sampleDepthPrimitive sampleCutPrimitive T).nofUsedVertices = 3 :=
  have hmem : cornerTriangle (gpu_initTriangle sampleCutPrimitive) 1
        (gpu_runFrustumPlaneClippingOnEdge ((gpu_initTriangle sampleCutPrimitive).positions 1)
          ((gpu_initTriangle sampleCutPrimitive).positions (1 + 1)) 2 1).2
        (gpu_runFrustumPlaneClippingOnEdge
          ((gpu_initTriangle sampleCutPrimitive).positions (1 + 2))
          ((gpu_initTriangle sampleCutPrimitive).positions (1 + 2 + 1)) 2 1).1
      ∈ gpu_runTriangleClipping (gpu_initTriangle sampleCutPrimitive) := by
    rw [clipping_one_visible (gpu_initTriangle sampleCutPrimitive) 1]
    · exact List.mem_singleton.mpr rfl
    · simp only [inNearHalfSpace, gpu_initTriangle, copy_Vec4, sampleCutPrimitive, vec3_val1,
        vec4_val2, vec4_val3]
      norm_num
    · show ¬ inNearHalfSpace ((gpu_initTriangle sampleCutPrimitive).positions 2)
      simp only [inNearHalfSpace, gpu_initTriangle, copy_Vec4, sampleCutPrimitive, vec3_val2,
        vec4_val2, vec4_val3]
      norm_num
    · show ¬ inNearHalfSpace ((gpu_initTriangle sampleCutPrimitive).positions 0)
      simp only [inNearHalfSpace, gpu_initTriangle, copy_Vec4, sampleCutPrimitive, vec3_val0,
        vec4_val2, vec4_val3]
      norm_num
  ⟨hmem, _, hmem,
    createSubPrimitive_positions 8 sampleDepthPrimitive sampleCutPrimitive _ hmem⟩

/-! ### Matrices -/

/-- A loop over the four columns that rewrites the entry of row `x` of each column of two
matrices from the column itself. -/
lemma columnLoop (x : ℕ) (f : Vec4 → ℚ) (c o : Mat4) :
    forLoop 4
      (fun l (m : Mat4 × Mat4) =>
        (setEntry m.1 l x (f (m.1 (Fin.ofNat l))), setEntry m.2 l x (f (m.2 (Fin.ofNat l)))))
      (c, o) =
    (fun l r => if r = Fin.ofNat x then f (c l) else c l r,
     fun l r => if r = Fin.ofNat x then f (o l) else o l r) := by
  rw [forLoop_four]
  have e0 : (Fin.ofNat 0 : Fin 4) = 0 := rfl
  have e1 : (Fin.ofNat 1 : Fin 4) = 1 := rfl
  have e2 : (Fin.ofNat 2 : Fin 4) = 2 := rfl
  have e3 : (Fin.ofNat 3 : Fin 4) = 3 := rfl
  simp only [setEntry, e0, e1, e2, e3]
  refine Prod.ext ?_ ?_ <;>
  · funext l r
    fin_cases l <;> by_cases h : r = Fin.ofNat x <;> simp [Function.update, h, e0, e1, e2, e3]

/-- The loop of `invert_Mat4` that adds row `k` divided by `v` to row `x`. -/
lemma rowAdd_loop (x k : ℕ) (v : ℚ) (m : Mat4 × Mat4) :
    forLoop 4
      (fun l (m : Mat4 × Mat4) =>
        (setEntry m.1 l x (getEntry m.1 l x + getEntry m.1 l k / v),
         setEntry m.2 l x (getEntry m.2 l x + getEntry m.2 l k / v)))
      m =
    (fun l r => if r = Fin.ofNat x then m.1 l (Fin.ofNat x) + m.1 l (Fin.ofNat k) / v
        else m.1 l r,
     fun l r => if r = Fin.ofNat x then m.2 l (Fin.ofNat x) + m.2 l (Fin.ofNat k) / v
        else m.2 l r) :=
  columnLoop x (fun col => col (Fin.ofNat x) + col (Fin.ofNat k) / v) m.1 m.2

/-- The loop of `invert_Mat4` that divides row `x` by `v`. -/
lemma rowDiv_loop (x : ℕ) (v : ℚ) (m : Mat4 × Mat4) :
    forLoop 4
      (fun l (m : Mat4 × Mat4) =>
        (setEntry m.1 l x (getEntry m.1 l x / v), setEntry m.2 l x (getEntry m.2 l x / v)))
      m =
    (fun l r => if r = Fin.ofNat x then m.1 l (Fin.ofNat x) / v else m.1 l r,
     fun l r => if r = Fin.ofNat x then m.2 l (Fin.ofNat x) / v else m.2 l r) :=
  columnLoop x (fun col => col (Fin.ofNat x) / v) m.1 m.2

/-- The loop of `invert_Mat4` that subtracts `v` times row `x` from row `y`. -/
lemma rowSub_loop (x y : ℕ) (v : ℚ) (m : Mat4 × Mat4) :
    forLoop 4
      (fun l (m : Mat4 × Mat4) =>
        (setEntry m.1 l y (getEntry m.1 l y - v * getEntry m.1 l x),
         setEntry m.2 l y (getEntry m.2 l y - v * getEntry m.2 l x)))
      m =
    (fun l r => if r = Fin.ofNat y then m.1 l (Fin.ofNat y) - v * m.1 l (Fin.ofNat x)
        else m.1 l r,
     fun l r => if r = Fin.ofNat y then m.2 l (Fin.ofNat y) - v * m.2 l (Fin.ofNat x)
        else m.2 l r) :=
  columnLoop y (fun col => col (Fin.ofNat y) - v * col (Fin.ofNat x)) m.1 m.2


/-- The closed form of the elimination loop of `invert_Mat4` for the column `x`: the row
`x` is kept, and from every other row `r` the row `x` times the entry of row `r` in
column `x` of the work matrix is subtracted. -/
lemma invertEliminate_eq (x : ℕ) (hx : x < 4) (c o : Mat4) :
    invertEliminate x c o =
      (fun l r => if r = Fin.ofNat x then c l r
        else c l r - c (Fin.ofNat x) r * c l (Fin.ofNat x),
       fun l r => if r = Fin.ofNat x then o l r
        else o l r - c (Fin.ofNat x) r * o l (Fin.ofNat x)) := by
  have e0 : (Fin.ofNat 0 : Fin 4) = 0 := rfl
  have e1 : (Fin.ofNat 1 : Fin 4) = 1 := rfl
  have e2 : (Fin.ofNat 2 : Fin 4) = 2 := rfl
  have e3 : (Fin.ofNat 3 : Fin 4) = 3 := rfl
  unfold invertEliminate
  simp only [rowSub_loop]
  rw [forLoop_four]
  interval_cases x <;>
  · simp only [getEntry, e0, e1, e2, e3]
    refine Prod.ext ?_ ?_ <;>
    · funext l r
      fin_cases r <;> simp


/-- The closed form of the normalization of `invert_Mat4`: the row `x` is divided by the
pivot (a division by `1` when the pivot is `1` and the code skips it). -/
lemma invertNormalize_eq (x : ℕ) (c o : Mat4) :
    invertNormalize x c o =
      (fun l r => if r = Fin.ofNat x then c l r / c (Fin.ofNat x) (Fin.ofNat x) else c l r,
       fun l r => if r = Fin.ofNat x then o l r / c (Fin.ofNat x) (Fin.ofNat x) else o l r) := by
  unfold invertNormalize
  by_cases h : getEntry c x x ≠ 1
  · rw [if_pos h, rowDiv_loop]
    refine Prod.ext ?_ ?_ <;>
    · funext l r
      by_cases hr : r = Fin.ofNat x
      · simp [hr, getEntry]
      · simp [hr]
  · rw [if_neg h]
    have h1 : c (Fin.ofNat x) (Fin.ofNat x) = 1 := not_not.mp h
    refine Prod.ext ?_ ?_ <;>
    · funext l r
      by_cases hr : r = Fin.ofNat x
      · simp [hr, h1]
      · simp [hr]

/-- A pass of the loop of `invert_Mat4` on a non-zero pivot `p`: the row `x` is divided
by `p`, and from every other row `r` the entry of row `r` in column `x` times the
divided row `x` is subtracted, in the work matrix and in the output. -/
lemma invertStep_pivot (x : ℕ) (hx : x < 4) (st : InvertState)
    (hp : st.c (Fin.ofNat x) (Fin.ofNat x) ≠ 0) :
    invertStep x st =
      { c := fun l r =>
          if r = Fin.ofNat x then st.c l r / st.c (Fin.ofNat x) (Fin.ofNat x)
          else st.c l r - st.c (Fin.ofNat x) r *
            (st.c l (Fin.ofNat x) / st.c (Fin.ofNat x) (Fin.ofNat x)),
        output := fun l r =>
          if r = Fin.ofNat x then st.output l r / st.c (Fin.ofNat x) (Fin.ofNat x)
          else st.output l r - st.c (Fin.ofNat x) r *
            (st.output l (Fin.ofNat x) / st.c (Fin.ofNat x) (Fin.ofNat x)),
        stopped := false } := by
  unfold invertStep
  have h0 : ¬ getEntry st.c x x = 0 := hp
  simp only [h0, if_false, invertNormalize_eq, invertEliminate_eq x hx]
  simp only [Bool.true_eq_false, if_false]
  congr 1 <;>
  · funext l r
    by_cases hr : r = Fin.ofNat x
    · simp [hr]
    · simp [hr]

/-- The repair of the zero pivot of column `1` by row `0`: when the entry of row `0` in
column `1` is not zero, row `0` divided by that entry is added to row `1`. -/
lemma invertRepair_one (c o : Mat4) (hk : c 1 0 ≠ 0) :
    invertRepair 1 c o =
      (fun l r => if r = 1 then c l 1 + c l 0 / c 1 0 else c l r,
       fun l r => if r = 1 then o l 1 + o l 0 / c 1 0 else o l r, true) := by
  have e0 : (Fin.ofNat 0 : Fin 4) = 0 := rfl
  have e1 : (Fin.ofNat 1 : Fin 4) = 1 := rfl
  unfold invertRepair
  simp only [rowAdd_loop]
  rw [forLoop_four]
  have h0 : getEntry c 1 0 ≠ 0 := hk
  simp only [Bool.false_eq_true, if_false, zero_ne_one, h0, if_true, getEntry, e0, e1]
  simp [hk]

/-- A pass of the loop of `invert_Mat4` for column `1` on a zero pivot that is repaired
by row `0` continues as the pass on the repaired matrices. -/
lemma invertStep_repair_one (c o : Mat4) (hz : c 1 1 = 0) (hk : c 1 0 ≠ 0) :
    invertStep 1 { c := c, output := o, stopped := false } =
      invertStep 1
        { c := fun l r => if r = 1 then c l 1 + c l 0 / c 1 0 else c l r,
          output := fun l r => if r = 1 then o l 1 + o l 0 / c 1 0 else o l r,
          stopped := false } := by
  have hz' : getEntry c 1 1 = 0 := hz
  have hone : getEntry (fun l r => if r = 1 then c l 1 + c l 0 / c 1 0 else c l r) 1 1 ≠ 0 := by
    show (if (1 : Fin 4) = 1 then c 1 1 + c 1 0 / c 1 0 else c 1 1) ≠ 0
    rw [if_pos rfl, hz, zero_add, div_self hk]
    exact one_ne_zero
  unfold invertStep
  simp only [hz', if_true, invertRepair_one c o hk, hone, if_false]


/-- Distinct indices below four are distinct. -/
lemma fin4_ne :
    (((0 : Fin 4) = 1) = False) ∧
    (((0 : Fin 4) = 2) = False) ∧
    (((0 : Fin 4) = 3) = False) ∧
    (((1 : Fin 4) = 0) = False) ∧
    (((1 : Fin 4) = 2) = False) ∧
    (((1 : Fin 4) = 3) = False) ∧
    (((2 : Fin 4) = 0) = False) ∧
    (((2 : Fin 4) = 1) = False) ∧
    (((2 : Fin 4) = 3) = False) ∧
    (((3 : Fin 4) = 0) = False) ∧
    (((3 : Fin 4) = 1) = False) ∧
    (((3 : Fin 4) = 2) = False) := by
  decide

lemma invert_step0 :
    invertStep 0 { c := samplePivotMatrix, output := identity_Mat4, stopped := false } =
      { c := samplePivotMatrix, output := identity_Mat4, stopped := false } := by
  have hp : samplePivotMatrix (Fin.ofNat 0) (Fin.ofNat 0) ≠ 0 := by
    show samplePivotMatrix 0 0 ≠ 0
    simp only [samplePivotMatrix, vec4_val0]
    norm_num
  rw [invertStep_pivot 0 (by norm_num) _ hp]
  have e0 : (Fin.ofNat 0 : Fin 4) = 0 := rfl
  simp only [e0]
  congr 1 <;>
  · funext l r
    fin_cases l <;> fin_cases r <;>
    simp only [samplePivotMatrix, identity_Mat4, vec4_val0, vec4_val1, vec4_val2, vec4_val3,
      Fin.zero_eta, Fin.mk_one, Fin.reduceFinMk, fin4_ne.1, fin4_ne.2.1, fin4_ne.2.2.1, fin4_ne.2.2.2.1,
      fin4_ne.2.2.2.2.1, fin4_ne.2.2.2.2.2.1, fin4_ne.2.2.2.2.2.2.1, fin4_ne.2.2.2.2.2.2.2.1,
      fin4_ne.2.2.2.2.2.2.2.2.1, fin4_ne.2.2.2.2.2.2.2.2.2.1, fin4_ne.2.2.2.2.2.2.2.2.2.2.1,
      fin4_ne.2.2.2.2.2.2.2.2.2.2.2, if_false, if_true] <;>
    norm_num
  

lemma invert_step1 :
    invertStep 1 { c := samplePivotMatrix, output := identity_Mat4, stopped := false } =
      { c := samplePivotB, output := samplePivotOutB, stopped := false } := by
  have hz : samplePivotMatrix 1 1 = 0 := by
    simp only [samplePivotMatrix, vec4_val1]
  have hk : samplePivotMatrix 1 0 ≠ 0 := by
    simp only [samplePivotMatrix, vec4_val0, vec4_val1]
    norm_num
  rw [invertStep_repair_one _ _ hz hk]
  have hc : (fun l r => if r = 1 then samplePivotMatrix l 1 +
      samplePivotMatrix l 0 / samplePivotMatrix 1 0 else samplePivotMatrix l r) =
      samplePivotR := by
    funext l r
    fin_cases l <;> fin_cases r <;>
    simp only [samplePivotMatrix, samplePivotR, vec4_val0,
      vec4_val1, vec4_val2, vec4_val3, Fin.zero_eta, Fin.mk_one, Fin.reduceFinMk, fin4_ne.1, fin4_ne.2.1, fin4_ne.2.2.1, fin4_ne.2.2.2.1,
      fin4_ne.2.2.2.2.1, fin4_ne.2.2.2.2.2.1, fin4_ne.2.2.2.2.2.2.1, fin4_ne.2.2.2.2.2.2.2.1,
      fin4_ne.2.2.2.2.2.2.2.2.1, fin4_ne.2.2.2.2.2.2.2.2.2.1, fin4_ne.2.2.2.2.2.2.2.2.2.2.1,
      fin4_ne.2.2.2.2.2.2.2.2.2.2.2, if_false, if_true] <;>
    norm_num
  have ho : (fun l r => if r = 1 then identity_Mat4 l 1 +
      identity_Mat4 l 0 / samplePivotMatrix 1 0 else identity_Mat4 l r) =
      samplePivotOutR := by
    funext l r
    fin_cases l <;> fin_cases r <;>
    simp only [samplePivotMatrix, samplePivotOutR, identity_Mat4, vec4_val0,
      vec4_val1, vec4_val2, vec4_val3, Fin.zero_eta, Fin.mk_one, Fin.reduceFinMk, fin4_ne.1, fin4_ne.2.1, fin4_ne.2.2.1, fin4_ne.2.2.2.1,
      fin4_ne.2.2.2.2.1, fin4_ne.2.2.2.2.2.1, fin4_ne.2.2.2.2.2.2.1, fin4_ne.2.2.2.2.2.2.2.1,
      fin4_ne.2.2.2.2.2.2.2.2.1, fin4_ne.2.2.2.2.2.2.2.2.2.1, fin4_ne.2.2.2.2.2.2.2.2.2.2.1,
      fin4_ne.2.2.2.2.2.2.2.2.2.2.2, if_false, if_true] <;>
    norm_num
  rw [hc, ho]
  have hp : samplePivotR (Fin.ofNat 1) (Fin.ofNat 1) ≠ 0 := by
    show samplePivotR 1 1 ≠ 0
    simp only [samplePivotR, vec4_val1]
    norm_num
  rw [invertStep_pivot 1 (by norm_num) _ hp]
  have e1 : (Fin.ofNat 1 : Fin 4) = 1 := rfl
  simp only [e1]
  congr 1 <;>
  · funext l r
    fin_cases l <;> fin_cases r <;>
    simp only [samplePivotR, samplePivotOutR, samplePivotB, samplePivotOutB, vec4_val0,
      vec4_val1, vec4_val2, vec4_val3, Fin.zero_eta, Fin.mk_one, Fin.reduceFinMk, fin4_ne.1, fin4_ne.2.1, fin4_ne.2.2.1, fin4_ne.2.2.2.1,
      fin4_ne.2.2.2.2.1, fin4_ne.2.2.2.2.2.1, fin4_ne.2.2.2.2.2.2.1, fin4_ne.2.2.2.2.2.2.2.1,
      fin4_ne.2.2.2.2.2.2.2.2.1, fin4_ne.2.2.2.2.2.2.2.2.2.1, fin4_ne.2.2.2.2.2.2.2.2.2.2.1,
      fin4_ne.2.2.2.2.2.2.2.2.2.2.2, if_false, if_true] <;>
    norm_num

lemma invert_step2 :
    invertStep 2 { c := samplePivotB, output := samplePivotOutB, stopped := false } =
      { c := samplePivotC, output := samplePivotOutC, stopped := false } := by
  have hp : samplePivotB (Fin.ofNat 2) (Fin.ofNat 2) ≠ 0 := by
    show samplePivotB 2 2 ≠ 0
    simp only [samplePivotB, vec4_val2]
    norm_num
  rw [invertStep_pivot 2 (by norm_num) _ hp]
  have e2 : (Fin.ofNat 2 : Fin 4) = 2 := rfl
  simp only [e2]
  congr 1 <;>
  · funext l r
    fin_cases l <;> fin_cases r <;>
    simp only [samplePivotB, samplePivotOutB, samplePivotC, samplePivotOutC, vec4_val0,
      vec4_val1, vec4_val2, vec4_val3, Fin.zero_eta, Fin.mk_one, Fin.reduceFinMk, fin4_ne.1, fin4_ne.2.1, fin4_ne.2.2.1, fin4_ne.2.2.2.1,
      fin4_ne.2.2.2.2.1, fin4_ne.2.2.2.2.2.1, fin4_ne.2.2.2.2.2.2.1, fin4_ne.2.2.2.2.2.2.2.1,
      fin4_ne.2.2.2.2.2.2.2.2.1, fin4_ne.2.2.2.2.2.2.2.2.2.1, fin4_ne.2.2.2.2.2.2.2.2.2.2.1,
      fin4_ne.2.2.2.2.2.2.2.2.2.2.2, if_false, if_true] <;>
    norm_num

lemma invert_step3 :
    invertStep 3 { c := samplePivotC, output := samplePivotOutC, stopped := false } =
      { c := samplePivotC, output := samplePivotOutC, stopped := false } := by
  have hp : samplePivotC (Fin.ofNat 3) (Fin.ofNat 3) ≠ 0 := by
    show samplePivotC 3 3 ≠ 0
    simp only [samplePivotC, vec4_val3]
    norm_num
  rw [invertStep_pivot 3 (by norm_num) _ hp]
  have e3 : (Fin.ofNat 3 : Fin 4) = 3 := rfl
  simp only [e3]
  congr 1 <;>
  · funext l r
    fin_cases l <;> fin_cases r <;>
    simp only [samplePivotC, samplePivotOutC, vec4_val0,
      vec4_val1, vec4_val2, vec4_val3, Fin.zero_eta, Fin.mk_one, Fin.reduceFinMk, fin4_ne.1, fin4_ne.2.1, fin4_ne.2.2.1, fin4_ne.2.2.2.1,
      fin4_ne.2.2.2.2.1, fin4_ne.2.2.2.2.2.1, fin4_ne.2.2.2.2.2.2.1, fin4_ne.2.2.2.2.2.2.2.1,
      fin4_ne.2.2.2.2.2.2.2.2.1, fin4_ne.2.2.2.2.2.2.2.2.2.1, fin4_ne.2.2.2.2.2.2.2.2.2.2.1,
      fin4_ne.2.2.2.2.2.2.2.2.2.2.2, if_false, if_true] <;>
    norm_num

/-- The output of `invert_Mat4` for the sample matrix. -/
lemma invert_sample : invert_Mat4 samplePivotMatrix = samplePivotOutC := by
  unfold invert_Mat4
  rw [forLoop_four]
  rw [show copy_Mat4 samplePivotMatrix = samplePivotMatrix from rfl]
  simp only [Bool.false_eq_true, if_false, invert_step0, invert_step1, invert_step2,
    invert_step3]

/-- C28 (the code on a matrix with a repaired pivot): the sample matrix is invertible,
with the inverse `samplePivotInverse`, but the output of `invert_Mat4` for it is another
matrix, and its product with the sample matrix is not the identity: the entry in row 2
and column 0 of the product is `1`.  The zero pivot of column 1 is repaired by adding
row 0, a row that was reduced before, which puts a non-zero entry back into column 0. -/
theorem invert_Mat4_repair_wrong :
    multiply_Mat4_Mat4 samplePivotInverse samplePivotMatrix = identity_Mat4 ∧
    multiply_Mat4_Mat4 samplePivotMatrix samplePivotInverse = identity_Mat4 ∧
    invert_Mat4 samplePivotMatrix =
      ![![1, 0, 1, 0], ![0, 0, 1, 0], ![-1, 1, -1, 0], ![0, 0, 0, 1]] ∧
    multiply_Mat4_Mat4 (invert_Mat4 samplePivotMatrix) samplePivotMatrix 0 2 = 1 ∧
    multiply_Mat4_Mat4 (invert_Mat4 samplePivotMatrix) samplePivotMatrix ≠ identity_Mat4 := by
  have hentry : multiply_Mat4_Mat4 (invert_Mat4 samplePivotMatrix) samplePivotMatrix 0 2 = 1 := by
    rw [invert_sample]
    simp only [multiply_Mat4_Mat4, multiply_Mat4_Vec4, samplePivotMatrix, samplePivotOutC,
      vec4_val0, vec4_val1, vec4_val2, vec4_val3]
    norm_num
  refine ⟨?_, ?_, invert_sample, hentry, ?_⟩
  · funext l r
    fin_cases l <;> fin_cases r <;>
    simp only [multiply_Mat4_Mat4, multiply_Mat4_Vec4, samplePivotMatrix, samplePivotInverse,
      identity_Mat4, vec4_val0, vec4_val1, vec4_val2, vec4_val3, Fin.zero_eta, Fin.mk_one,
      Fin.reduceFinMk, fin4_ne.1, fin4_ne.2.1, fin4_ne.2.2.1, fin4_ne.2.2.2.1,
      fin4_ne.2.2.2.2.1, fin4_ne.2.2.2.2.2.1, fin4_ne.2.2.2.2.2.2.1, fin4_ne.2.2.2.2.2.2.2.1,
      fin4_ne.2.2.2.2.2.2.2.2.1, fin4_ne.2.2.2.2.2.2.2.2.2.1, fin4_ne.2.2.2.2.2.2.2.2.2.2.1,
      fin4_ne.2.2.2.2.2.2.2.2.2.2.2, if_false, if_true] <;>
    norm_num
  · funext l r
    fin_cases l <;> fin_cases r <;>
    simp only [multiply_Mat4_Mat4, multiply_Mat4_Vec4, samplePivotMatrix, samplePivotInverse,
      identity_Mat4, vec4_val0, vec4_val1, vec4_val2, vec4_val3, Fin.zero_eta, Fin.mk_one,
      Fin.reduceFinMk, fin4_ne.1, fin4_ne.2.1, fin4_ne.2.2.1, fin4_ne.2.2.2.1,
      fin4_ne.2.2.2.2.1, fin4_ne.2.2.2.2.2.1, fin4_ne.2.2.2.2.2.2.1, fin4_ne.2.2.2.2.2.2.2.1,
      fin4_ne.2.2.2.2.2.2.2.2.1, fin4_ne.2.2.2.2.2.2.2.2.2.1, fin4_ne.2.2.2.2.2.2.2.2.2.2.1,
      fin4_ne.2.2.2.2.2.2.2.2.2.2.2, if_false, if_true] <;>
    norm_num
  · intro h
    have h1 := congrFun (congrFun h 0) 2
    rw [hentry] at h1
    simp [identity_Mat4] at h1

/-- A pass of a loop whose condition holds. -/
lemma whileLoop_step {σ : Type} (cond : σ → Bool) (body : σ → Option σ) (fuel : ℕ) (s s' : σ)
    (hc : cond s = true) (hb : body s = some s') :
    whileLoop cond body (fuel + 1) s = whileLoop cond body fuel s' := by
  rw [whileLoop, if_pos hc, hb]

/-- A loop whose condition fails returns its state. -/
lemma whileLoop_done {σ : Type} (cond : σ → Bool) (body : σ → Option σ) (fuel : ℕ) (s : σ)
    (hc : cond s = false) : whileLoop cond body fuel s = some s := by
  cases fuel with
  | zero => simp [whileLoop, hc]
  | succ n => simp [whileLoop, hc]

/-- The inner loop of `transpose_Mat4` started at `x = 0`: it runs until `x = 4` and
writes the four entries of column `0` of the output. -/
lemma transpose_inner (fuel : ℕ) (output input : Mat4) :
    whileLoop (fun t : ℕ × Mat4 => decide (t.1 < 4))
      (fun t => some (t.1 + 1, setEntry t.2 0 t.1 (getEntry input t.1 0)))
      (fuel + 4) (0, output) =
    some (4, fun x y => if x = 0 then input y 0 else output x y) := by
  have h1 := whileLoop_step (fun t : ℕ × Mat4 => decide (t.1 < 4))
    (fun t => some (t.1 + 1, setEntry t.2 0 t.1 (getEntry input t.1 0)))
    (fuel + 3) (0, output) _ rfl rfl
  have h2 := whileLoop_step (fun t : ℕ × Mat4 => decide (t.1 < 4))
    (fun t => some (t.1 + 1, setEntry t.2 0 t.1 (getEntry input t.1 0)))
    (fuel + 2) (0 + 1, setEntry output 0 0 (getEntry input 0 0)) _ rfl rfl
  have h3 := whileLoop_step (fun t : ℕ × Mat4 => decide (t.1 < 4))
    (fun t => some (t.1 + 1, setEntry t.2 0 t.1 (getEntry input t.1 0)))
    (fuel + 1)
    (0 + 1 + 1, setEntry (setEntry output 0 0 (getEntry input 0 0)) 0 (0 + 1)
      (getEntry input (0 + 1) 0)) _ rfl rfl
  have h4 := whileLoop_step (fun t : ℕ × Mat4 => decide (t.1 < 4))
    (fun t => some (t.1 + 1, setEntry t.2 0 t.1 (getEntry input t.1 0)))
    fuel
    (0 + 1 + 1 + 1, setEntry (setEntry (setEntry output 0 0 (getEntry input 0 0)) 0 (0 + 1)
      (getEntry input (0 + 1) 0)) 0 (0 + 1 + 1) (getEntry input (0 + 1 + 1) 0)) _ rfl rfl
  have h5 := whileLoop_done (fun t : ℕ × Mat4 => decide (t.1 < 4))
    (fun t => some (t.1 + 1, setEntry t.2 0 t.1 (getEntry input t.1 0)))
    fuel
    (0 + 1 + 1 + 1 + 1, setEntry (setEntry (setEntry (setEntry output 0 0 (getEntry input 0 0))
      0 (0 + 1) (getEntry input (0 + 1) 0)) 0 (0 + 1 + 1) (getEntry input (0 + 1 + 1) 0))
      0 (0 + 1 + 1 + 1) (getEntry input (0 + 1 + 1 + 1) 0)) rfl
  rw [h1, h2, h3, h4, h5]
  have e0 : (Fin.ofNat 0 : Fin 4) = 0 := rfl
  have e1 : (Fin.ofNat 1 : Fin 4) = 1 := rfl
  have e2 : (Fin.ofNat 2 : Fin 4) = 2 := rfl
  have e3 : (Fin.ofNat 3 : Fin 4) = 3 := rfl
  simp only [setEntry, getEntry, e0, e1, e2, e3, zero_add, Nat.reduceAdd]
  congr 2
  funext x y
  by_cases hx : x = 0
  · subst hx
    fin_cases y <;> simp [Function.update]
  · simp [Function.update, hx]

/-- C27 (the code): `transpose_Mat4` returns after one pass of its outer loop, in which
the inner loop `for (size_t y = 0; x < 4; ++x)` has run `x` up to `4` with `y = 0`.
Only the column `0` of the output is written, `output.column[0].data[x] =
input.column[x].data[0]`; the twelve entries of the columns `1`, `2`, `3` keep the
content the output had before the call, and are not the entries of the transpose: for
the sample matrix and a zero output, the entry `output.column[1].data[2]` is `0` while
`input.column[2].data[1]` is `1`. -/
theorem transpose_Mat4_first_column_only (fuel : ℕ) (output input : Mat4) :
    transpose_Mat4 (fuel + 4) output input =
      some (fun x y => if x = 0 then input y 0 else output x y) ∧
    (∃ result, transpose_Mat4 4 (fun _ _ => 0) samplePivotMatrix = some result ∧
      result 1 2 = 0 ∧ samplePivotMatrix 2 1 = 1) := by
  have key : ∀ (fuel : ℕ) (output input : Mat4),
      transpose_Mat4 (fuel + 4) output input =
        some (fun x y => if x = 0 then input y 0 else output x y) := by
    intro fuel output input
    unfold transpose_Mat4
    have hbody : (fun s : ℕ × Mat4 =>
        Option.map (fun t : ℕ × Mat4 => (t.1 + 1, t.2))
          (whileLoop (fun t : ℕ × Mat4 => decide (t.1 < 4))
            (fun t => some (t.1 + 1, setEntry t.2 0 t.1 (getEntry input t.1 0)))
            (fuel + 4) s)) (0, output) =
        some (5, fun x y => if x = 0 then input y 0 else output x y) := by
      show Option.map _ (whileLoop _ _ (fuel + 4) (0, output)) = _
      rw [transpose_inner]
      rfl
    have h1 := whileLoop_step (fun s : ℕ × Mat4 => decide (s.1 < 4))
      (fun s : ℕ × Mat4 =>
        Option.map (fun t : ℕ × Mat4 => (t.1 + 1, t.2))
          (whileLoop (fun t : ℕ × Mat4 => decide (t.1 < 4))
            (fun t => some (t.1 + 1, setEntry t.2 0 t.1 (getEntry input t.1 0)))
            (fuel + 4) s))
      (fuel + 3) (0, output) _ rfl hbody
    have h2 := whileLoop_done (fun s : ℕ × Mat4 => decide (s.1 < 4))
      (fun s : ℕ × Mat4 =>
        Option.map (fun t : ℕ × Mat4 => (t.1 + 1, t.2))
          (whileLoop (fun t : ℕ × Mat4 => decide (t.1 < 4))
            (fun t => some (t.1 + 1, setEntry t.2 0 t.1 (getEntry input t.1 0)))
            (fuel + 4) s))
      (fuel + 3) (5, fun x y => if x = 0 then input y 0 else output x y) rfl
    show Option.map Prod.snd (whileLoop _ _ (fuel + 3 + 1) (0, output)) = _
    rw [h1, h2]
    rfl
  refine ⟨key fuel output input, _, key 0 _ _, ?_, ?_⟩
  · simp
  · simp only [samplePivotMatrix, vec4_val1, vec4_val2]

/-! ### Attribute interpolation of an unknown program -/

/-- C25 (amended): `cpu_setAttributeInterpolation` with a program identifier for which
no program exists does not return to its caller: after reporting the error the code
calls `exit(1)`. -/
theorem setAttributeInterpolation_unknown_program_exits (MAX_ATTRIBUTES : ℕ)
    (g : GpuImplementation) (program attribIndex : ℕ) (type : AttributeType)
    (interpolation : InterpolationType) (h : g.programs program = none) :
    cpu_setAttributeInterpolation MAX_ATTRIBUTES g program attribIndex type interpolation =
      .exited := by
  unfold cpu_setAttributeInterpolation
  split_ifs
  · rfl
  · rw [h]

/-- On a new GPU no program exists, and `cpu_setAttributeInterpolation (1, 0, ATTRIB_VEC3,
SMOOTH)` ends the process. -/
theorem setAttributeInterpolation_unknown_program_exits_witness :
    cpu_createGPU.programs 1 = none ∧
    cpu_setAttributeInterpolation 8 cpu_createGPU 1 0 .ATTRIB_VEC3 .SMOOTH = .exited :=
  ⟨rfl, setAttributeInterpolation_unknown_program_exits 8 cpu_createGPU 1 0 .ATTRIB_VEC3
    .SMOOTH rfl⟩

/-- C25 (the claim as stated fails): on a new GPU no program exists, and
`cpu_setAttributeInterpolation (1, 0, ATTRIB_VEC3, SMOOTH)` does not return to its caller
with any state: it ends the process. -/
theorem setAttributeInterpolation_unknown_program_fatal :
    cpu_createGPU.programs 1 = none ∧
    cpu_setAttributeInterpolation 8 cpu_createGPU 1 0 .ATTRIB_VEC3 .SMOOTH = .exited ∧
    ¬ ∃ g', cpu_setAttributeInterpolation 8 cpu_createGPU 1 0 .ATTRIB_VEC3 .SMOOTH =
      .returned g' := by
  have h : cpu_setAttributeInterpolation 8 cpu_createGPU 1 0 .ATTRIB_VEC3 .SMOOTH =
      .exited := by
    unfold cpu_setAttributeInterpolation
    rw [if_neg (by decide)]
    rfl
  refine ⟨rfl, h, ?_⟩
  rintro ⟨g', hg⟩
  rw [h] at hg
  exact Outcome.noConfusion hg

/-! ### Colour conversion -/

/-- For a channel value in `[0, 1]` the conversion gives the integer part of
`value * 255`. -/
lemma floatColorToUint32_eq_floor (v : ℚ) (h0 : 0 ≤ v) (h1 : v ≤ 1) :
    floatColorToUint32 v = some ⌊v * 255⌋.toNat := by
  unfold floatColorToUint32
  have hp : 0 ≤ v * 255 := by positivity
  rw [if_pos ⟨by linarith, by linarith⟩, truncf_nonneg _ hp]

/-- C26 (amended): for every channel value `v` in `[0, 1]`, `floatColorToUint32 v` is the
integer part `⌊v * 255⌋` of `v * 255` (the conversion to `uint8_t` truncates); it is the
nearest integer `round (v * 255)` exactly when the fractional part of `v * 255` is less
than `1/2`. -/
theorem floatColorToUint32_floor (v : ℚ) (h0 : 0 ≤ v) (h1 : v ≤ 1) :
    floatColorToUint32 v = some ⌊v * 255⌋.toNat ∧
    (floatColorToUint32 v = some (round (v * 255)).toNat ↔ Int.fract (v * 255) < 1 / 2) := by
  have hf := floatColorToUint32_eq_floor v h0 h1
  refine ⟨hf, ?_⟩
  have hp : 0 ≤ v * 255 := by positivity
  have hfl : 0 ≤ ⌊v * 255⌋ := Int.floor_nonneg.mpr hp
  have hr : 0 ≤ round (v * 255) := by
    rw [round_eq]
    exact Int.floor_nonneg.mpr (by linarith)
  rw [hf, Option.some.injEq]
  constructor
  · intro h
    have h2 : ⌊v * 255⌋ = round (v * 255) := by
      have := congrArg (fun n : ℕ => (n : ℤ)) h
      simpa [Int.toNat_of_nonneg hfl, Int.toNat_of_nonneg hr] using this
    rw [round_eq] at h2
    have h3 := Int.floor_le (v * 255 + 1 / 2)
    have h4 := Int.lt_floor_add_one (v * 255)
    rw [← h2] at h3
    have h5 : Int.fract (v * 255) = v * 255 - ⌊v * 255⌋ := rfl
    rw [h5]
    by_contra hc
    have hc' := not_lt.mp hc
    have h6 : ⌊v * 255⌋ + 1 ≤ ⌊v * 255 + 1 / 2⌋ := by
      rw [Int.le_floor]
      push_cast
      linarith
    omega
  · intro h
    have h5 : Int.fract (v * 255) = v * 255 - ⌊v * 255⌋ := rfl
    rw [h5] at h
    have h2 : round (v * 255) = ⌊v * 255⌋ := by
      rw [round_eq, Int.floor_eq_iff]
      constructor
      · have := Int.floor_le (v * 255)
        linarith
      · linarith
    rw [h2]

/-- The channel value `1/2` lies in `[0, 1]`, and its byte is `⌊127.5⌋ = 127`. -/
theorem floatColorToUint32_floor_witness :
    (0 : ℚ) ≤ 1 / 2 ∧ (1 / 2 : ℚ) ≤ 1 ∧
    floatColorToUint32 (1 / 2) = some ⌊(1 / 2 : ℚ) * 255⌋.toNat ∧
    (floatColorToUint32 (1 / 2) = some (round ((1 / 2 : ℚ) * 255)).toNat ↔
      Int.fract ((1 / 2 : ℚ) * 255) < 1 / 2) :=
  ⟨by norm_num, by norm_num, floatColorToUint32_floor (1 / 2) (by norm_num) (by norm_num)⟩

/-- C26 (the claim as stated fails): for every channel value `v` in `[0, 1]`,
`floatColorToUint32 v` is the integer part `⌊v * 255⌋` of `v * 255`, not the nearest
integer: for `v = 0.999` the result is `254`, while
`round (0.999 * 255) = round 254.745 = 255`. -/
theorem floatColorToUint32_truncates :
    (∀ v : ℚ, 0 ≤ v → v ≤ 1 → floatColorToUint32 v = some ⌊v * 255⌋.toNat) ∧
    floatColorToUint32 (999 / 1000) = some 254 ∧
    round ((999 / 1000 : ℚ) * 255) = 255 := by
  have key : ∀ v : ℚ, 0 ≤ v → v ≤ 1 → floatColorToUint32 v = some ⌊v * 255⌋.toNat := by
    intro v h0 h1
    unfold floatColorToUint32
    have hp : 0 ≤ v * 255 := by positivity
    rw [if_pos ⟨by linarith, by linarith⟩, truncf_nonneg _ hp]
  refine ⟨key, ?_, ?_⟩
  · rw [key _ (by norm_num) (by norm_num)]
    have : ⌊(999 / 1000 : ℚ) * 255⌋ = 254 := by
      rw [Int.floor_eq_iff]
      constructor <;> norm_num
    rw [this]
    rfl
  · rw [round_eq, Int.floor_eq_iff]
    constructor <;> norm_num

/-! ### Uniforms -/

/-- The lookup after an entry was appended. -/
lemma findLocation_append (xs : List (String × ℕ)) (n : String) (l : ℕ) (name : String) :
    findLocation (xs ++ [(n, l)]) name =
      match findLocation xs name with
      | some v => some v
      | none => if n = name then some l else none := by
  induction xs with
  | nil => simp [findLocation]
  | cons x xs ih =>
    obtain ⟨n', l'⟩ := x
    by_cases h : n' = name
    · simp [findLocation, h]
    · simp only [List.cons_append, findLocation, h, if_false]
      exact ih

/-- The lookup after a call of `cpu_reserveUniform`: a name that had a location keeps it,
and the reserved name gets the number of locations as its location when it had none. -/
lemma reserveUniform_find (u : AllUniforms) (n : String) (t : UniformType) (name : String) :
    findLocation (cpu_reserveUniform u n t).locations name =
      match findLocation u.locations name with
      | some v => some v
      | none => if n = name then some u.locations.length else none := by
  unfold cpu_reserveUniform
  cases hn : findLocation u.locations n with
  | some v =>
    dsimp only
    cases hname : findLocation u.locations name with
    | some w => rfl
    | none =>
      have : n ≠ name := by
        intro e
        rw [e, hname] at hn
        exact absurd hn (by simp)
      simp [this]
  | none =>
    dsimp only
    rw [findLocation_append]

/-- The state of the uniforms after a sequence of reservations: the names with a
location are the reserved names, and there are as many locations and as many stored
uniforms as reserved names. -/
lemma reserveAll_inv (calls : List (String × UniformType)) :
    (∀ name, findLocation (reserveAll calls).locations name ≠ none ↔
      name ∈ calls.map Prod.fst) ∧
    (reserveAll calls).locations.length = nofReservedNames calls ∧
    (reserveAll calls).uniforms.length = nofReservedNames calls := by
  induction calls using List.reverseRecOn with
  | nil =>
    refine ⟨?_, rfl, rfl⟩
    intro name
    simp [reserveAll, emptyUniforms, findLocation]
  | append_singleton calls call ih =>
    obtain ⟨n, t⟩ := call
    obtain ⟨h1, h2, h3⟩ := ih
    have hstep : reserveAll (calls ++ [(n, t)]) = cpu_reserveUniform (reserveAll calls) n t := by
      simp [reserveAll, List.foldl_append]
    rw [hstep]
    have hcard : nofReservedNames (calls ++ [(n, t)]) =
        if n ∈ calls.map Prod.fst then nofReservedNames calls
        else nofReservedNames calls + 1 := by
      unfold nofReservedNames
      rw [List.map_append, List.toFinset_append]
      simp only [List.map_cons, List.map_nil, List.toFinset_cons, List.toFinset_nil,
        insert_emptyc_eq]
      by_cases hn : n ∈ calls.map Prod.fst
      · rw [if_pos hn]
        congr 1
        rw [Finset.union_eq_left]
        intro x hx
        rw [Finset.mem_singleton] at hx
        rw [hx]
        exact List.mem_toFinset.mpr hn
      · rw [if_neg hn, Finset.union_comm, ← Finset.insert_eq,
          Finset.card_insert_of_not_mem (fun h => hn (List.mem_toFinset.mp h))]
    refine ⟨?_, ?_, ?_⟩
    · intro name
      rw [reserveUniform_find]
      cases hname : findLocation (reserveAll calls).locations name with
      | some v =>
        have := (h1 name).mp (by rw [hname]; simp)
        simp only [ne_eq, reduceCtorEq, not_false_eq_true, true_iff, List.map_append,
          List.mem_append]
        exact Or.inl this
      | none =>
        have hnot : name ∉ calls.map Prod.fst := fun h => (h1 name).mpr h hname
        by_cases e : n = name
        · subst e
          simp
        · have e' : ¬ name = n := fun h => e h.symm
          simp only [e, if_false, ne_eq, not_true_eq_false, false_iff, List.map_append,
            List.mem_append, not_or]
          exact ⟨hnot, by simp [e']⟩
    · rw [hcard]
      unfold cpu_reserveUniform
      by_cases hn : n ∈ calls.map Prod.fst
      · have := (h1 n).mpr hn
        obtain ⟨v, hv⟩ := Option.ne_none_iff_exists'.mp this
        rw [hv, if_pos hn]
        exact h2
      · have hnone : findLocation (reserveAll calls).locations n = none := by
          by_contra h
          exact hn ((h1 n).mp h)
        rw [hnone, if_neg hn]
        simp [h2]
    · rw [hcard]
      unfold cpu_reserveUniform
      by_cases hn : n ∈ calls.map Prod.fst
      · have := (h1 n).mpr hn
        obtain ⟨v, hv⟩ := Option.ne_none_iff_exists'.mp this
        rw [hv, if_pos hn]
        exact h3
      · have hnone : findLocation (reserveAll calls).locations n = none := by
          by_contra h
          exact hn ((h1 n).mp h)
        rw [hnone, if_neg hn]
        simp [h3]

/-- A name that has a location keeps it over every further sequence of reservations. -/
lemma reserveAll_find_stable (calls post : List (String × UniformType)) (name : String)
    (l : ℕ) (h : findLocation (reserveAll calls).locations name = some l) :
    findLocation (reserveAll (calls ++ post)).locations name = some l := by
  induction post using List.reverseRecOn with
  | nil => simpa using h
  | append_singleton post call ih =>
    have hstep : reserveAll (calls ++ (post ++ [call])) =
        cpu_reserveUniform (reserveAll (calls ++ post)) call.1 call.2 := by
      simp [reserveAll, List.foldl_append]
    rw [hstep, reserveUniform_find, ih]


/-- The stored uniforms are only appended to by further reservations. -/
lemma reserveAll_uniforms_prefix (calls post : List (String × UniformType)) :
    ∃ more, (reserveAll (calls ++ post)).uniforms = (reserveAll calls).uniforms ++ more := by
  induction post using List.reverseRecOn with
  | nil => exact ⟨[], by simp⟩
  | append_singleton post call ih =>
    obtain ⟨more, hm⟩ := ih
    have hstep : reserveAll (calls ++ (post ++ [call])) =
        cpu_reserveUniform (reserveAll (calls ++ post)) call.1 call.2 := by
      simp [reserveAll, List.foldl_append]
    rw [hstep]
    unfold cpu_reserveUniform
    cases findLocation (reserveAll (calls ++ post)).locations call.1 with
    | some v => exact ⟨more, hm⟩
    | none =>
      dsimp only
      rw [hm, List.append_assoc]
      exact ⟨_, rfl⟩

/-- C22: for every sequence of `cpu_reserveUniform` calls on a new GPU:
`getUniformLocation` returns `-1` for a name that was never reserved; the first
reservation of a name gives it the number of names reserved before it as location, and
`getUniformLocation` returns that location after every further sequence of
reservations, where the uniform stored at the location has the type of the first
reservation; a call of `cpu_reserveUniform` with a name that has a location returns the
uniforms as they were, in every state, so after any sequence of reservations too; and the number of stored uniforms
and of locations is the number of reserved names. -/
theorem reserveUniform_locations :
    (∀ calls name, name ∉ calls.map Prod.fst →
      getUniformLocation (reserveAll calls) name = -1) ∧
    (∀ pre post name t, name ∉ pre.map Prod.fst →
      getUniformLocation (reserveAll (pre ++ (name, t) :: post)) name =
        (nofReservedNames pre : ℤ) ∧
      ∃ uniform, (reserveAll (pre ++ (name, t) :: post)).uniforms[nofReservedNames pre]? =
        some uniform ∧ uniform.type = t) ∧
    (∀ u name t, findLocation u.locations name ≠ none → cpu_reserveUniform u name t = u) ∧
    (∀ calls name t, name ∈ calls.map Prod.fst →
      cpu_reserveUniform (reserveAll calls) name t = reserveAll calls) ∧
    (∀ calls, (reserveAll calls).uniforms.length = nofReservedNames calls ∧
      (reserveAll calls).locations.length = nofReservedNames calls) := by
  refine ⟨?_, ?_, ?_, ?_, ?_⟩
  · intro calls name hname
    have h := (reserveAll_inv calls).1 name
    have hnone : findLocation (reserveAll calls).locations name = none := by
      by_contra hc
      exact hname (h.mp hc)
    unfold getUniformLocation
    rw [hnone]
  · intro pre post name t hname
    obtain ⟨h1, h2, h3⟩ := reserveAll_inv pre
    have hnone : findLocation (reserveAll pre).locations name = none := by
      by_contra hc
      exact hname ((h1 name).mp hc)
    have hstep : reserveAll (pre ++ [(name, t)]) = cpu_reserveUniform (reserveAll pre) name t := by
      simp [reserveAll, List.foldl_append]
    have hfind : findLocation (reserveAll (pre ++ [(name, t)])).locations name =
        some (nofReservedNames pre) := by
      rw [hstep, reserveUniform_find, hnone]
      simp [h2]
    have hsplit : pre ++ (name, t) :: post = (pre ++ [(name, t)]) ++ post := by simp
    constructor
    · unfold getUniformLocation
      rw [hsplit, reserveAll_find_stable _ post name _ hfind]
    · obtain ⟨more, hm⟩ := reserveAll_uniforms_prefix (pre ++ [(name, t)]) post
      rw [hsplit, hm, hstep]
      unfold cpu_reserveUniform
      rw [hnone]
      dsimp only
      refine ⟨{ type := t, data := List.replicate (uniformSize t / sizeofFloat) 0 }, ?_, rfl⟩
      rw [List.append_assoc, ← h3, List.getElem?_append_right (le_refl _)]
      simp
  · intro u name t h
    obtain ⟨v, hv⟩ := Option.ne_none_iff_exists'.mp h
    unfold cpu_reserveUniform
    rw [hv]
  · intro calls name t hname
    have h := ((reserveAll_inv calls).1 name).mpr hname
    obtain ⟨v, hv⟩ := Option.ne_none_iff_exists'.mp h
    unfold cpu_reserveUniform
    rw [hv]
  · intro calls
    exact ⟨(reserveAll_inv calls).2.2, (reserveAll_inv calls).2.1⟩

/-- The result of the macro `GPU_UNIFORM_DOWNLOAD_IMPLEMENTATION` for a type. -/
lemma uniformDownload_spec (T : UniformType) (u : AllUniforms) (location : ℤ) :
    (GPU_UNIFORM_DOWNLOAD_IMPLEMENTATION T u location = none ↔
      (location < 0 ∨ u.uniforms.length ≤ location.toNat ∨
        ∃ uniform, u.uniforms[location.toNat]? = some uniform ∧ uniform.type ≠ T)) ∧
    (∀ uniform, 0 ≤ location → u.uniforms[location.toNat]? = some uniform →
      uniform.type = T → GPU_UNIFORM_DOWNLOAD_IMPLEMENTATION T u location = some uniform.data) := by
  unfold GPU_UNIFORM_DOWNLOAD_IMPLEMENTATION
  by_cases h0 : location < 0
  · simp only [h0, if_true, true_or, iff_true, true_and]
    intro uniform hn
    exact absurd h0 (not_lt.mpr hn)
  · simp only [h0, if_false, false_or]
    by_cases h1 : location.toNat ≥ u.uniforms.length
    · simp only [h1, if_true, true_iff, ge_iff_le, true_or, true_and]
      intro uniform _ hget
      rw [List.getElem?_eq_none h1] at hget
      exact absurd hget (by simp)
    · have hlt : location.toNat < u.uniforms.length := not_le.mp h1
      simp only [h1, if_false, ge_iff_le, false_or]
      rw [List.getElem?_eq_getElem hlt]
      dsimp only
      by_cases ht : u.uniforms[location.toNat].type = T
      · simp [ht]
      · simp [ht]

/-- C23: for each typed reader `shader_interpretUniformAs{Float,Vec2,Vec3,Vec4,Mat4}` and
every location, the result is the null pointer exactly when the location is negative,
not below the number of stored uniforms, or the uniform at the location was reserved
with another type than the type of the reader; otherwise the result is the stored data
of that uniform. -/
theorem interpretUniform_null_iff (u : AllUniforms) (location : ℤ) :
    ((shader_interpretUniformAsFloat u location = none ↔
        (location < 0 ∨ u.uniforms.length ≤ location.toNat ∨
          ∃ uniform, u.uniforms[location.toNat]? = some uniform ∧
            uniform.type ≠ .UNIFORM_FLOAT)) ∧
      (∀ uniform, 0 ≤ location → u.uniforms[location.toNat]? = some uniform →
        uniform.type = .UNIFORM_FLOAT →
        shader_interpretUniformAsFloat u location = some uniform.data)) ∧
    ((shader_interpretUniformAsVec2 u location = none ↔
        (location < 0 ∨ u.uniforms.length ≤ location.toNat ∨
          ∃ uniform, u.uniforms[location.toNat]? = some uniform ∧
            uniform.type ≠ .UNIFORM_VEC2)) ∧
      (∀ uniform, 0 ≤ location → u.uniforms[location.toNat]? = some uniform →
        uniform.type = .UNIFORM_VEC2 →
        shader_interpretUniformAsVec2 u location = some uniform.data)) ∧
    ((shader_interpretUniformAsVec3 u location = none ↔
        (location < 0 ∨ u.uniforms.length ≤ location.toNat ∨
          ∃ uniform, u.uniforms[location.toNat]? = some uniform ∧
            uniform.type ≠ .UNIFORM_VEC3)) ∧
      (∀ uniform, 0 ≤ location → u.uniforms[location.toNat]? = some uniform →
        uniform.type = .UNIFORM_VEC3 →
        shader_interpretUniformAsVec3 u location = some uniform.data)) ∧
    ((shader_interpretUniformAsVec4 u location = none ↔
        (location < 0 ∨ u.uniforms.length ≤ location.toNat ∨
          ∃ uniform, u.uniforms[location.toNat]? = some uniform ∧
            uniform.type ≠ .UNIFORM_VEC4)) ∧
      (∀ uniform, 0 ≤ location → u.uniforms[location.toNat]? = some uniform →
        uniform.type = .UNIFORM_VEC4 →
        shader_interpretUniformAsVec4 u location = some uniform.data)) ∧
    ((shader_interpretUniformAsMat4 u location = none ↔
        (location < 0 ∨ u.uniforms.length ≤ location.toNat ∨
          ∃ uniform, u.uniforms[location.toNat]? = some uniform ∧
            uniform.type ≠ .UNIFORM_MAT4)) ∧
      (∀ uniform, 0 ≤ location → u.uniforms[location.toNat]? = some uniform →
        uniform.type = .UNIFORM_MAT4 →
        shader_interpretUniformAsMat4 u location = some uniform.data)) :=
  ⟨uniformDownload_spec .UNIFORM_FLOAT u location,
    uniformDownload_spec .UNIFORM_VEC2 u location,
    uniformDownload_spec .UNIFORM_VEC3 u location,
    uniformDownload_spec .UNIFORM_VEC4 u location,
    uniformDownload_spec .UNIFORM_MAT4 u location⟩

/-- The result of an upload to a location in range: the declared type of the uniform is
not consulted; the values are written when the blob has room for them, and the write
goes past the end of the blob otherwise. -/
lemma uniformUpload_eq (u : AllUniforms) (location : ℤ) (values : List ℚ)
    (uniform : UniformImplementation) (h0 : 0 ≤ location)
    (hget : u.uniforms[location.toNat]? = some uniform) :
    CPU_UNIFORM_UPLOAD_IMPLEMENTATION u location values =
      if values.length ≤ uniform.data.length then
        .returned { u with
          uniforms := u.uniforms.set location.toNat
            { uniform with data := values ++ uniform.data.drop values.length } }
      else .overflow := by
  unfold CPU_UNIFORM_UPLOAD_IMPLEMENTATION
  have hlt : location.toNat < u.uniforms.length := by
    by_contra hc
    rw [List.getElem?_eq_none (not_lt.mp hc)] at hget
    exact absurd hget (by simp)
  rw [if_neg (not_lt.mpr h0)]
  dsimp only
  rw [if_neg (not_le.mpr hlt), hget]
  dsimp only
  unfold writeCells
  split_ifs <;> rfl

/-- C24 (the code): the upload functions do not compare the declared type of the uniform
with the type they write.  On a location reserved as `UNIFORM_MAT4`, `cpu_uniform1f`
returns with the first cell of the blob overwritten; on a location reserved as
`UNIFORM_FLOAT`, whose blob has four bytes, `cpu_uniformMatrix4fv` copies sixty-four
bytes and writes past the end of the blob, and so does `cpu_uniform2f`. -/
theorem uniformUpload_ignores_type :
    (uniformSize .UNIFORM_FLOAT = 4 ∧ uniformSize .UNIFORM_MAT4 = 64) ∧
    cpu_uniform1f (reserveAll [("m", .UNIFORM_MAT4)]) 0 5 =
      .returned
        { uniforms := [{ type := .UNIFORM_MAT4, data := 5 :: List.replicate 15 0 }],
          locations := [("m", 0)] } ∧
    (∀ data, cpu_uniformMatrix4fv (reserveAll [("f", .UNIFORM_FLOAT)]) 0 data = .overflow) ∧
    (∀ v0 v1, cpu_uniform2f (reserveAll [("f", .UNIFORM_FLOAT)]) 0 v0 v1 = .overflow) := by
  have hm : reserveAll [("m", .UNIFORM_MAT4)] =
      { uniforms := [{ type := .UNIFORM_MAT4, data := List.replicate 16 0 }],
        locations := [("m", 0)] } := by
    simp [reserveAll, cpu_reserveUniform, emptyUniforms, findLocation, uniformSize, sizeofFloat]
  have hf : reserveAll [("f", .UNIFORM_FLOAT)] =
      { uniforms := [{ type := .UNIFORM_FLOAT, data := List.replicate 1 0 }],
        locations := [("f", 0)] } := by
    simp [reserveAll, cpu_reserveUniform, emptyUniforms, findLocation, uniformSize, sizeofFloat]
  refine ⟨⟨rfl, rfl⟩, ?_, ?_, ?_⟩
  · unfold cpu_uniform1f
    rw [hm, uniformUpload_eq
      { uniforms := [{ type := .UNIFORM_MAT4, data := List.replicate 16 0 }],
        locations := [("m", 0)] } 0 [5]
      { type := .UNIFORM_MAT4, data := List.replicate 16 0 } (le_refl 0) rfl]
    simp
  · intro data
    unfold cpu_uniformMatrix4fv
    rw [hf, uniformUpload_eq
      { uniforms := [{ type := .UNIFORM_FLOAT, data := List.replicate 1 0 }],
        locations := [("f", 0)] } 0 _
      { type := .UNIFORM_FLOAT, data := List.replicate 1 0 } (le_refl 0) rfl]
    simp
  · intro v0 v1
    unfold cpu_uniform2f
    rw [hf, uniformUpload_eq
      { uniforms := [{ type := .UNIFORM_FLOAT, data := List.replicate 1 0 }],
        locations := [("f", 0)] } 0 _
      { type := .UNIFORM_FLOAT, data := List.replicate 1 0 } (le_refl 0) rfl]
    simp

/-! ### Index element width -/

/-- C21 (amended): `cpu_setIndexing` checks the element width `s` and then does not
store it.  In every reachable state, for an existing puller `p` and an existing buffer
`b` with storage, the call returns the same state for `s = 1`, `s = 2` and `s = 4`, the
index pointer of `p` is the address of the storage of `b`, and the vertex id that
`gpu_computeGLVertexID` reads through that pointer for invocation `n` is the element `n`
of `b` of the width `sizeof(VertexIndex)`, whatever `s` was. -/
theorem setIndexing_discards_width (MAX_ATTRIBUTES : ℕ) (ops : List RegistryOp)
    (sizeofVertexIndex p b s : ℕ) (buf : ByteVector)
    (hp : (runRegistry MAX_ATTRIBUTES ops).state.vaos p ≠ none)
    (hb : (runRegistry MAX_ATTRIBUTES ops).state.buffers b = some buf)
    (hd : buf.data ≠ 0) (hs : s = 1 ∨ s = 2 ∨ s = 4) :
    ∃ g' vao',
      cpu_setIndexing (runRegistry MAX_ATTRIBUTES ops).state p b s = .returned g' ∧
      cpu_setIndexing (runRegistry MAX_ATTRIBUTES ops).state p b 1 = .returned g' ∧
      cpu_setIndexing (runRegistry MAX_ATTRIBUTES ops).state p b 2 = .returned g' ∧
      cpu_setIndexing (runRegistry MAX_ATTRIBUTES ops).state p b 4 = .returned g' ∧
      g'.vaos p = some vao' ∧ g'.buffers b = some buf ∧ vao'.indices = buf.data ∧
      ∀ n, gpu_computeGLVertexID (indexArray (indexMemory sizeofVertexIndex buf) vao'.indices) n =
        if n < buf.content.length / sizeofVertexIndex then
          some (readUnsigned buf.content sizeofVertexIndex n)
        else none := by
  have hi := (runRegistry_runInv MAX_ATTRIBUTES ops).inv
  obtain ⟨vao, hv⟩ := Option.ne_none_iff_exists'.mp hp
  obtain ⟨pr, hpr, heq⟩ := setIndexing_eq _ p b s vao buf hi hs hv hb
  obtain ⟨pr1, hpr1, heq1⟩ := setIndexing_eq _ p b 1 vao buf hi (Or.inl rfl) hv hb
  obtain ⟨pr2, hpr2, heq2⟩ := setIndexing_eq _ p b 2 vao buf hi (Or.inr (Or.inl rfl)) hv hb
  obtain ⟨pr4, hpr4, heq4⟩ := setIndexing_eq _ p b 4 vao buf hi (Or.inr (Or.inr rfl)) hv hb
  rw [hpr] at hpr1 hpr2 hpr4
  cases hpr1
  cases hpr2
  cases hpr4
  refine ⟨_, { vao with indices := buf.data }, heq, heq1, heq2, heq4, ?_, hb, rfl, ?_⟩
  · simp
  · intro n
    unfold gpu_computeGLVertexID indexArray indexMemory
    simp only [hd, if_false, if_true]
    by_cases hn : n < buf.content.length / sizeofVertexIndex
    · simp [hn]
    · simp [hn]
      exact not_lt.mp hn

/-- In the sample run the puller `1` and the buffer `1` with the bytes `1, 1, 1, 1` at the
address `100` exist; with a four-byte `VertexIndex`, `cpu_setIndexing (1, 1, 2)` makes
the vertex id of invocation `0` the four-byte element `16843009`, while the two-byte
element `0` of the buffer is `257` and its one-byte element `0` is `1`. -/
theorem setIndexing_discards_width_witness :
    (runRegistry 8 sampleOpsIndexed).state.vaos 1 ≠ none ∧
    (runRegistry 8 sampleOpsIndexed).state.buffers 1 =
      some { content := [1, 1, 1, 1], data := 100 } ∧
    (∃ g' vao',
      cpu_setIndexing (runRegistry 8 sampleOpsIndexed).state 1 1 2 = .returned g' ∧
      cpu_setIndexing (runRegistry 8 sampleOpsIndexed).state 1 1 1 = .returned g' ∧
      cpu_setIndexing (runRegistry 8 sampleOpsIndexed).state 1 1 2 = .returned g' ∧
      cpu_setIndexing (runRegistry 8 sampleOpsIndexed).state 1 1 4 = .returned g' ∧
      g'.vaos 1 = some vao' ∧
      g'.buffers 1 = some { content := [1, 1, 1, 1], data := 100 } ∧
      vao'.indices = 100 ∧
      ∀ n, gpu_computeGLVertexID
          (indexArray (indexMemory 4 { content := [1, 1, 1, 1], data := 100 }) vao'.indices) n =
        if n < ([1, 1, 1, 1] : List Byte).length / 4 then
          some (readUnsigned [1, 1, 1, 1] 4 n)
        else none) ∧
    readUnsigned [1, 1, 1, 1] 4 0 = 16843009 ∧
    readUnsigned [1, 1, 1, 1] 2 0 = 257 ∧
    readUnsigned [1, 1, 1, 1] 1 0 = 1 :=
  have hp : (runRegistry 8 sampleOpsIndexed).state.vaos 1 ≠ none := by
    simp [runRegistry, sampleOpsIndexed, RegistryRun.step, RegistryOp.apply,
      createBuffers_eq, createVertexPullers_eq, cpu_createGPU, cpu_bufferData,
      refreshIndexPointers, refreshHeadPointers]
  have hb : (runRegistry 8 sampleOpsIndexed).state.buffers 1 =
      some { content := [1, 1, 1, 1], data := 100 } := by
    simp [runRegistry, sampleOpsIndexed, RegistryRun.step, RegistryOp.apply,
      createBuffers_eq, createVertexPullers_eq, cpu_createGPU, cpu_bufferData,
      refreshIndexPointers, refreshHeadPointers, List.range_succ]
  ⟨hp, hb,
    setIndexing_discards_width 8 sampleOpsIndexed 4 1 1 2
      { content := [1, 1, 1, 1], data := 100 } hp hb (by decide) (Or.inr (Or.inl rfl)),
    by decide, by decide, by decide⟩

/-- C21 (the claim as stated fails): in the sample run the buffer `1` holds the bytes
`1, 1, 1, 1`, whose one-byte element `0` is `1` and whose two-byte element `0` is `257`.
Whatever the size of `VertexIndex` is, it is not the case that after
`cpu_setIndexing (1, 1, s)` the vertex id of invocation `0` is the `s`-byte element `0`
of the buffer for each `s` in `1, 2, 4`: the calls with `s = 1` and `s = 2` leave the
same index pointer, so the same id is computed after both. -/
theorem setIndexing_width_not_read :
    readUnsigned [1, 1, 1, 1] 1 0 = 1 ∧
    readUnsigned [1, 1, 1, 1] 2 0 = 257 ∧
    ¬ ∃ sizeofVertexIndex : ℕ, ∀ s, s = 1 ∨ s = 2 ∨ s = 4 →
      ∃ g' vao',
        cpu_setIndexing (runRegistry 8 sampleOpsIndexed).state 1 1 s = .returned g' ∧
        g'.vaos 1 = some vao' ∧
        gpu_computeGLVertexID
          (indexArray (indexMemory sizeofVertexIndex { content := [1, 1, 1, 1], data := 100 })
            vao'.indices) 0 = some (readUnsigned [1, 1, 1, 1] s 0) := by
  have hp : (runRegistry 8 sampleOpsIndexed).state.vaos 1 ≠ none := by
    simp [runRegistry, sampleOpsIndexed, RegistryRun.step, RegistryOp.apply,
      createBuffers_eq, createVertexPullers_eq, cpu_createGPU, cpu_bufferData,
      refreshIndexPointers, refreshHeadPointers]
  have hb : (runRegistry 8 sampleOpsIndexed).state.buffers 1 =
      some { content := [1, 1, 1, 1], data := 100 } := by
    simp [runRegistry, sampleOpsIndexed, RegistryRun.step, RegistryOp.apply,
      createBuffers_eq, createVertexPullers_eq, cpu_createGPU, cpu_bufferData,
      refreshIndexPointers, refreshHeadPointers, List.range_succ]
  have hi := (runRegistry_runInv 8 sampleOpsIndexed).inv
  obtain ⟨vao, hv⟩ := Option.ne_none_iff_exists'.mp hp
  obtain ⟨pr1, hpr1, heq1⟩ := setIndexing_eq _ 1 1 1 vao _ hi (Or.inl rfl) hv hb
  obtain ⟨pr2, hpr2, heq2⟩ := setIndexing_eq _ 1 1 2 vao _ hi (Or.inr (Or.inl rfl)) hv hb
  have h1 : readUnsigned [1, 1, 1, 1] 1 0 = 1 := by decide
  have h2 : readUnsigned [1, 1, 1, 1] 2 0 = 257 := by decide
  refine ⟨h1, h2, ?_⟩
  rintro ⟨w, hw⟩
  obtain ⟨g1, vao1, hg1, hvao1, hid1⟩ := hw 1 (Or.inl rfl)
  obtain ⟨g2, vao2, hg2, hvao2, hid2⟩ := hw 2 (Or.inr (Or.inl rfl))
  rw [heq1] at hg1
  rw [heq2] at hg2
  have e1 := Outcome.returned.inj hg1
  have e2 := Outcome.returned.inj hg2
  rw [← e1] at hvao1
  rw [← e2] at hvao2
  simp only [Function.update_same, Option.some.injEq] at hvao1 hvao2
  rw [← hvao1] at hid1
  rw [← hvao2] at hid2
  rw [hid1, h1, h2] at hid2
  exact absurd hid2 (by decide)

/-! ### Clipping of an edge behind the plane -/

/-- An edge behind the plane has an empty interval: if both end points `A` and `B` of the
edge violate `-w ≤ s * component`, the interval returned by
`gpu_runFrustumPlaneClippingOnEdge` is empty, `maxT < minT`; it is the pair `minT = 1`,
`maxT = 0` exactly when the two end points have the same value of `s * component + w`
(the case `M = 0` of the code). -/
theorem runFrustumPlaneClippingOnEdge_behind (vertexA vertexB : Vec4) (axis : Fin 4)
    (positive : ℕ)
    (hA : ¬ (-(vertexA 3) ≤ (2 * (positive : ℚ) - 1) * vertexA axis))
    (hB : ¬ (-(vertexB 3) ≤ (2 * (positive : ℚ) - 1) * vertexB axis)) :
    (gpu_runFrustumPlaneClippingOnEdge vertexA vertexB axis positive).2 <
      (gpu_runFrustumPlaneClippingOnEdge vertexA vertexB axis positive).1 ∧
    (gpu_runFrustumPlaneClippingOnEdge vertexA vertexB axis positive = (1, 0) ↔
      (2 * (positive : ℚ) - 1) * vertexA axis + vertexA 3 =
        (2 * (positive : ℚ) - 1) * vertexB axis + vertexB 3) := by
  unfold gpu_runFrustumPlaneClippingOnEdge
  dsimp only
  set s : ℚ := 2 * (positive : ℚ) - 1 with hs
  have hNA : s * vertexA axis + vertexA 3 < 0 := by
    have := not_le.mp hA
    linarith
  have hNB : s * vertexB axis + vertexB 3 < 0 := by
    have := not_le.mp hB
    linarith
  have hM : -vertexB 3 + vertexA 3 - s * (vertexB axis - vertexA axis) =
      (s * vertexA axis + vertexA 3) - (s * vertexB axis + vertexB 3) := by ring
  rw [hM]
  set NA := s * vertexA axis + vertexA 3 with hNAdef
  set NB := s * vertexB axis + vertexB 3 with hNBdef
  by_cases h1 : NA - NB > 0
  · simp only [h1, if_true]
    have hq : NA / (NA - NB) < 0 := div_neg_of_neg_of_pos hNA h1
    refine ⟨lt_of_le_of_lt (min_le_right _ _) hq, ?_⟩
    constructor
    · intro h
      have := congrArg Prod.fst h
      simp at this
    · intro h
      rw [h] at h1
      simp at h1
  · by_cases h2 : NA - NB < 0
    · simp only [h1, h2, if_true, if_false]
      have hq : 1 < NA / (NA - NB) := by
        rw [lt_div_iff_of_neg h2]
        linarith
      refine ⟨lt_of_lt_of_le hq (le_max_right _ _), ?_⟩
      constructor
      · intro h
        have := congrArg Prod.snd h
        simp at this
      · intro h
        rw [h] at h2
        simp at h2
    · have h0 : NA - NB = 0 := le_antisymm (not_lt.mp h1) (not_lt.mp h2)
      simp only [h1, h2, hNA, if_true, if_false]
      refine ⟨by norm_num, ?_⟩
      constructor
      · intro _
        linarith
      · intro _
        trivial

/-- The edge from `(0, 0, 0, -1)` to `(0, 0, 0, -1)` is behind the near plane, and its
interval is the pair `(1, 0)` of an empty interval. -/
theorem runFrustumPlaneClippingOnEdge_behind_witness :
    ¬ (-((![0, 0, 0, -1] : Vec4) 3) ≤ (2 * ((1 : ℕ) : ℚ) - 1) * (![0, 0, 0, -1] : Vec4) 2) ∧
    (gpu_runFrustumPlaneClippingOnEdge ![0, 0, 0, -1] ![0, 0, 0, -1] 2 1).2 <
      (gpu_runFrustumPlaneClippingOnEdge ![0, 0, 0, -1] ![0, 0, 0, -1] 2 1).1 ∧
    (gpu_runFrustumPlaneClippingOnEdge ![0, 0, 0, -1] ![0, 0, 0, -1] 2 1 = (1, 0) ↔
      (2 * ((1 : ℕ) : ℚ) - 1) * (![0, 0, 0, -1] : Vec4) 2 + (![0, 0, 0, -1] : Vec4) 3 =
        (2 * ((1 : ℕ) : ℚ) - 1) * (![0, 0, 0, -1] : Vec4) 2 + (![0, 0, 0, -1] : Vec4) 3) :=
  have h : ¬ (-((![0, 0, 0, -1] : Vec4) 3) ≤
      (2 * ((1 : ℕ) : ℚ) - 1) * (![0, 0, 0, -1] : Vec4) 2) := by
    simp only [vec4_val2, vec4_val3]
    norm_num
  ⟨h, runFrustumPlaneClippingOnEdge_behind ![0, 0, 0, -1] ![0, 0, 0, -1] 2 1 h h⟩

/-- C40 (the code departs from the documentation of the function, which promises
`minT = 1`, `maxT = 0` for an edge behind the plane): both end points `A = (0, 0, 0, -1)`
and `B = (0, 0, 0, -2)` violate `-w ≤ z` (the near plane, `s = 1`), and the code returns
`minT = 0`, `maxT = -1`: here `M = 1 > 0` and `N = -1`, so only `maxT = fminf (1, N / M)`
is assigned. -/
theorem runFrustumPlaneClippingOnEdge_behind_not_one_zero :
    ¬ (-((![0, 0, 0, -1] : Vec4) 3) ≤ (2 * ((1 : ℕ) : ℚ) - 1) * (![0, 0, 0, -1] : Vec4) 2) ∧
    ¬ (-((![0, 0, 0, -2] : Vec4) 3) ≤ (2 * ((1 : ℕ) : ℚ) - 1) * (![0, 0, 0, -2] : Vec4) 2) ∧
    gpu_runFrustumPlaneClippingOnEdge ![0, 0, 0, -1] ![0, 0, 0, -2] 2 1 = (0, -1) ∧
    gpu_runFrustumPlaneClippingOnEdge ![0, 0, 0, -1] ![0, 0, 0, -2] 2 1 ≠ (1, 0) := by
  have hr : gpu_runFrustumPlaneClippingOnEdge ![0, 0, 0, -1] ![0, 0, 0, -2] 2 1 = (0, -1) := by
    simp only [gpu_runFrustumPlaneClippingOnEdge, vec4_val2, vec4_val3]
    norm_num
  refine ⟨?_, ?_, hr, ?_⟩
  · simp only [vec4_val2, vec4_val3]
    norm_num
  · simp only [vec4_val2, vec4_val3]
    norm_num
  · rw [hr]
    intro h
    have := congrArg Prod.fst h
    norm_num at this

/-! ### Scanline interval: emptiness -/

/-- One restriction keeps the borders consistent. -/
lemma restrictLineBorders_consistent (minX maxX : ExtFloat) (y : ℚ) (edgeLine : Vec3)
    (h : bordersConsistent (minX, maxX)) :
    bordersConsistent (gpu_restrictLineBorders minX maxX y edgeLine) := by
  unfold gpu_restrictLineBorders
  dsimp only
  unfold bordersConsistent at h ⊢
  split_ifs
  · cases minX <;> cases maxX <;> simp only [fmaxf, ExtFloat.lt] <;> (try split_ifs) <;>
      simp_all
  · cases minX <;> cases maxX <;> simp only [fminf, ExtFloat.lt] <;> (try split_ifs) <;>
      simp_all
  · exact Or.inl ⟨rfl, rfl⟩
  · exact h

/-- The borders computed by `gpu_computeLineBorders` are consistent. -/
lemma computeLineBorders_consistent (y : ℚ) (triangleLines : Fin 3 → Vec3) :
    bordersConsistent (gpu_computeLineBorders y triangleLines) := by
  unfold gpu_computeLineBorders EDGES_PER_TRIANGLE
  rw [forLoop_three]
  apply restrictLineBorders_consistent
  apply restrictLineBorders_consistent
  apply restrictLineBorders_consistent
  exact Or.inr ⟨by simp, by simp⟩

/-- Consistent borders have no number between them exactly when the upper border is
below the lower border. -/
lemma consistent_empty_iff (b : ExtFloat × ExtFloat) (h : bordersConsistent b) :
    (¬ ∃ x : ℚ, b.1.le (.fin x) ∧ (ExtFloat.fin x).le b.2) ↔ b.2.lt b.1 := by
  obtain ⟨b1, b2⟩ := b
  unfold bordersConsistent at h
  cases b1 with
  | negInf =>
    cases b2 with
    | negInf => simp at h
    | fin b =>
      simp only [ExtFloat.lt, ExtFloat.le, true_and, iff_false, not_not]
      exact ⟨b, le_refl b⟩
    | posInf =>
      simp only [ExtFloat.lt, ExtFloat.le, and_self, iff_false, not_not]
      exact ⟨0, trivial⟩
  | fin a =>
    cases b2 with
    | negInf => simp at h
    | fin b =>
      simp only [ExtFloat.lt, ExtFloat.le]
      constructor
      · intro hx
        by_contra hc
        exact hx ⟨a, le_refl a, not_lt.mp hc⟩
      · rintro hlt ⟨x, hax, hxb⟩
        linarith
    | posInf =>
      simp only [ExtFloat.lt, ExtFloat.le, and_true, iff_false, not_not]
      exact ⟨a, le_refl a⟩
  | posInf =>
    cases b2 with
    | negInf => simp [ExtFloat.lt, ExtFloat.le]
    | fin b => simp at h
    | posInf => simp at h

/-- The borders of a scanline are in the order of an empty interval exactly when no
number satisfies the inequalities of the three edge lines. -/
lemma computeLineBorders_empty_iff (y : ℚ) (triangleLines : Fin 3 → Vec3) :
    (gpu_computeLineBorders y triangleLines).2.lt (gpu_computeLineBorders y triangleLines).1 ↔
      ¬ ∃ x : ℚ, ∀ i, 0 ≤ distanceTo2DLine (triangleLines i) ![x, y] := by
  rw [← consistent_empty_iff _ (computeLineBorders_consistent y triangleLines)]
  constructor
  · rintro h ⟨x, hx⟩
    exact h ⟨x, (computeLineBorders_spec y triangleLines x).mpr hx⟩
  · rintro h ⟨x, hx⟩
    exact h ⟨x, (computeLineBorders_spec y triangleLines x).mp hx⟩

/-- C31: for every scanline coordinate `y` and every three edge lines `(a_i, b_i, c_i)`,
a number `x` is between the borders computed by `gpu_computeLineBorders`,
`minX ≤ x ≤ maxX`, exactly when `a_i * x + b_i * y + c_i ≥ 0` for `i = 0, 1, 2`; and the
borders are in the order `maxX < minX` exactly when no `x` satisfies the three
inequalities.  The borders are floats with `-INFINITY` and `+INFINITY`. -/
theorem computeLineBorders_interval (y : ℚ) (triangleLines : Fin 3 → Vec3) :
    (∀ x : ℚ,
      ((gpu_computeLineBorders y triangleLines).1.le (.fin x) ∧
        (ExtFloat.fin x).le (gpu_computeLineBorders y triangleLines).2) ↔
      ∀ i, 0 ≤ triangleLines i 0 * x + triangleLines i 1 * y + triangleLines i 2) ∧
    ((gpu_computeLineBorders y triangleLines).2.lt (gpu_computeLineBorders y triangleLines).1 ↔
      ¬ ∃ x : ℚ, ∀ i, 0 ≤ triangleLines i 0 * x + triangleLines i 1 * y + triangleLines i 2) := by
  have hd : ∀ (x : ℚ) (i : Fin 3), distanceTo2DLine (triangleLines i) ![x, y] =
      triangleLines i 0 * x + triangleLines i 1 * y + triangleLines i 2 := by
    intro x i
    simp only [distanceTo2DLine, vec2_val0, vec2_val1]
  constructor
  · intro x
    rw [computeLineBorders_spec]
    simp only [hd]
  · rw [computeLineBorders_empty_iff]
    simp only [hd]

/-! ### Clipping: the emitted triangles -/

/-- The four shapes of the output of the clipper: nothing; the input; the corner triangle
at the one visible vertex `v`; the two triangles of the quad left when the vertex `v` is
cut off.  The cut parameters are in `[0, 1]` and the cut points lie on the near plane. -/
lemma runTriangleClipping_cases (input : GPUTriangle) :
    gpu_runTriangleClipping input = [] ∨
    ((∀ i, inNearHalfSpace (input.positions i)) ∧ gpu_runTriangleClipping input = [input]) ∨
    (∃ (v : Fin 3) (s t : ℚ),
      inNearHalfSpace (input.positions v) ∧
      0 ≤ s ∧ s ≤ 1 ∧ 0 ≤ t ∧ t ≤ 1 ∧
      onNearPlane (mix_Vec4 (input.positions v) (input.positions (v + 1)) s) ∧
      onNearPlane (mix_Vec4 (input.positions (v + 2)) (input.positions v) t) ∧
      gpu_runTriangleClipping input = [cornerTriangle input v s t]) ∨
    (∃ (v : Fin 3) (s t : ℚ),
      inNearHalfSpace (input.positions (v + 1)) ∧
      inNearHalfSpace (input.positions (v + 2)) ∧
      0 ≤ s ∧ s ≤ 1 ∧ 0 ≤ t ∧ t ≤ 1 ∧
      onNearPlane (mix_Vec4 (input.positions v) (input.positions (v + 1)) s) ∧
      onNearPlane (mix_Vec4 (input.positions (v + 2)) (input.positions v) t) ∧
      gpu_runTriangleClipping input =
        [{ positions := ![mix_Vec4 (input.positions v) (input.positions (v + 1)) s,
                          input.positions (v + 1),
                          mix_Vec4 (input.positions (v + 2)) (input.positions v) t],
           coords := ![mix_Vec3 (input.coords v) (input.coords (v + 1)) s,
                       input.coords (v + 1),
                       mix_Vec3 (input.coords (v + 2)) (input.coords v) t] },
         { positions := ![mix_Vec4 (input.positions (v + 2)) (input.positions v) t,
                          input.positions (v + 1),
                          input.positions (v + 2)],
           coords := ![mix_Vec3 (input.coords (v + 2)) (input.coords v) t,
                       input.coords (v + 1),
                       input.coords (v + 2)] }]) := by
  have one : ∀ v : Fin 3, inNearHalfSpace (input.positions v) →
      ¬ inNearHalfSpace (input.positions (v + 1)) →
      ¬ inNearHalfSpace (input.positions (v + 2)) →
      ∃ (v : Fin 3) (s t : ℚ),
        inNearHalfSpace (input.positions v) ∧
        0 ≤ s ∧ s ≤ 1 ∧ 0 ≤ t ∧ t ≤ 1 ∧
        onNearPlane (mix_Vec4 (input.positions v) (input.positions (v + 1)) s) ∧
        onNearPlane (mix_Vec4 (input.positions (v + 2)) (input.positions v) t) ∧
        gpu_runTriangleClipping input = [cornerTriangle input v s t] := by
    intro v hv hn hp
    have hA := edge_exit (input.positions v) (input.positions (v + 1)) hv hn
    have hB := edge_enter (input.positions (v + 2)) (input.positions (v + 2 + 1)) hp
      (by rw [fin3_add_two_add_one]; exact hv)
    have hc := clipping_one_visible input v hv hn hp
    rw [fin3_add_two_add_one] at hB hc
    exact ⟨v, _, _, hv, hA.1, hA.2.1, hB.1, hB.2.1, hA.2.2, hB.2.2, hc⟩
  have two : ∀ v : Fin 3, ¬ inNearHalfSpace (input.positions v) →
      inNearHalfSpace (input.positions (v + 1)) →
      inNearHalfSpace (input.positions (v + 2)) →
      ∃ (v : Fin 3) (s t : ℚ),
        inNearHalfSpace (input.positions (v + 1)) ∧
        inNearHalfSpace (input.positions (v + 2)) ∧
        0 ≤ s ∧ s ≤ 1 ∧ 0 ≤ t ∧ t ≤ 1 ∧
        onNearPlane (mix_Vec4 (input.positions v) (input.positions (v + 1)) s) ∧
        onNearPlane (mix_Vec4 (input.positions (v + 2)) (input.positions v) t) ∧
        gpu_runTriangleClipping input =
          [{ positions := ![mix_Vec4 (input.positions v) (input.positions (v + 1)) s,
                            input.positions (v + 1),
                            mix_Vec4 (input.positions (v + 2)) (input.positions v) t],
             coords := ![mix_Vec3 (input.coords v) (input.coords (v + 1)) s,
                         input.coords (v + 1),
                         mix_Vec3 (input.coords (v + 2)) (input.coords v) t] },
           { positions := ![mix_Vec4 (input.positions (v + 2)) (input.positions v) t,
                            input.positions (v + 1),
                            input.positions (v + 2)],
             coords := ![mix_Vec3 (input.coords (v + 2)) (input.coords v) t,
                         input.coords (v + 1),
                         input.coords (v + 2)] }] := by
    intro v hv hn hp
    have hA := edge_enter (input.positions v) (input.positions (v + 1)) hv hn
    have hB := edge_exit (input.positions (v + 2)) (input.positions (v + 2 + 1)) hp
      (by rw [fin3_add_two_add_one]; exact hv)
    rw [fin3_add_two_add_one] at hB
    have hc := clipping_two_visible input v hv hn hp
    rw [writeTwo_mask] at hc
    simp only [fin3_add_two_add_one] at hc
    exact ⟨v, _, _, hn, hp, hA.1, hA.2.1, hB.1, hB.2.1, hA.2.2, hB.2.2, hc⟩
  by_cases h0 : inNearHalfSpace (input.positions 0) <;>
  by_cases h1 : inNearHalfSpace (input.positions 1) <;>
  by_cases h2 : inNearHalfSpace (input.positions 2)
  · right; left
    refine ⟨fun i => by fin_cases i <;> assumption, ?_⟩
    rw [runTriangleClipping_eq]
    simp [h0, h1, h2, gpu_writeClippedTriangle_ThreeVerticesVisible]
    rfl
  · right; right; right
    exact two 2 h2 h0 h1
  · right; right; right
    exact two 1 h1 h2 h0
  · right; right; left
    exact one 0 h0 h1 h2
  · right; right; right
    exact two 0 h0 h1 h2
  · right; right; left
    exact one 1 h1 h2 h0
  · right; right; left
    exact one 2 h2 h0 h1
  · left
    rw [runTriangleClipping_eq]
    simp [h0, h1, h2]

/-- A point on the near plane lies in the near half-space. -/
lemma onNearPlane_near (p : Vec4) (h : onNearPlane p) : inNearHalfSpace p := by
  unfold onNearPlane at h
  unfold inNearHalfSpace
  rw [h]

/-- C34: every vertex of every triangle emitted by `gpu_runTriangleClipping` lies in the
near half-space: its position satisfies `-w ≤ z`, for every input triangle. -/
theorem runTriangleClipping_vertices_near (input T : GPUTriangle)
    (hT : T ∈ gpu_runTriangleClipping input) (i : Fin 3) :
    -(T.positions i 3) ≤ T.positions i 2 := by
  show inNearHalfSpace (T.positions i)
  rcases runTriangleClipping_cases input with h | ⟨hall, h⟩ | ⟨v, s, t, hv, _, _, _, _, hA, hB, h⟩ |
    ⟨v, s, t, hn, hp, _, _, _, _, hA, hB, h⟩
  · rw [h] at hT
    exact absurd hT (List.not_mem_nil T)
  · rw [h, List.mem_singleton] at hT
    rw [hT]
    exact hall i
  · rw [h, List.mem_singleton] at hT
    rw [hT]
    fin_cases i
    · exact hv
    · exact onNearPlane_near _ hA
    · exact onNearPlane_near _ hB
  · rw [h] at hT
    simp only [List.mem_cons, List.mem_singleton, List.not_mem_nil, or_false] at hT
    rcases hT with hT | hT
    · rw [hT]
      fin_cases i
      · exact onNearPlane_near _ hA
      · exact hn
      · exact onNearPlane_near _ hB
    · rw [hT]
      fin_cases i
      · exact onNearPlane_near _ hB
      · exact hn
      · exact hp

/-- The sample triangle with the vertex 1 alone in the near half-space is clipped to a
triangle, and the three vertices of that triangle satisfy `-w ≤ z`. -/
theorem runTriangleClipping_vertices_near_witness :
    ∃ T ∈ gpu_runTriangleClipping sampleOneInside,
      ∀ i : Fin 3, -(T.positions i 3) ≤ T.positions i 2 := by
  have h1 : inNearHalfSpace (sampleOneInside.positions 1) := by
    simp only [inNearHalfSpace, sampleOneInside, vec3_val1, vec4_val2, vec4_val3]
    norm_num
  have h2 : ¬ inNearHalfSpace (sampleOneInside.positions (1 + 1)) := by
    show ¬ inNearHalfSpace (sampleOneInside.positions 2)
    simp only [inNearHalfSpace, sampleOneInside, vec3_val2, vec4_val2, vec4_val3]
    norm_num
  have h0 : ¬ inNearHalfSpace (sampleOneInside.positions (1 + 2)) := by
    show ¬ inNearHalfSpace (sampleOneInside.positions 0)
    simp only [inNearHalfSpace, sampleOneInside, vec3_val0, vec4_val2, vec4_val3]
    norm_num
  have hc := clipping_one_visible sampleOneInside 1 h1 h2 h0
  have hmem : cornerTriangle sampleOneInside 1
      (gpu_runFrustumPlaneClippingOnEdge (sampleOneInside.positions 1)
        (sampleOneInside.positions (1 + 1)) 2 1).2
      (gpu_runFrustumPlaneClippingOnEdge (sampleOneInside.positions (1 + 2))
        (sampleOneInside.positions (1 + 2 + 1)) 2 1).1
      ∈ gpu_runTriangleClipping sampleOneInside := by
    rw [hc]
    exact List.mem_singleton_self _
  exact ⟨_, hmem, fun i => runTriangleClipping_vertices_near sampleOneInside _ hmem i⟩

/-- The determinant of the recipe rows of the corner triangle. -/
lemma orientedArea_corner (a b c : Vec3) (s t : ℚ) :
    orientedArea ![a, mix_Vec3 a b s, mix_Vec3 c a t] =
      (s * (1 - t)) * orientedArea ![a, b, c] := by
  simp only [orientedArea, mix_Vec3, Matrix.cons_val_zero, Matrix.cons_val_one,
    Matrix.head_cons, Matrix.cons_val_two, Matrix.tail_cons]
  ring

/-- The determinant of the recipe rows of the first triangle of the quad. -/
lemma orientedArea_quad_first (a b c : Vec3) (s t : ℚ) :
    orientedArea ![mix_Vec3 a b s, b, mix_Vec3 c a t] =
      ((1 - s) * (1 - t)) * orientedArea ![a, b, c] := by
  simp only [orientedArea, mix_Vec3, Matrix.cons_val_zero, Matrix.cons_val_one,
    Matrix.head_cons, Matrix.cons_val_two, Matrix.tail_cons]
  ring

/-- The determinant of the recipe rows of the second triangle of the quad. -/
lemma orientedArea_quad_second (a b c : Vec3) (t : ℚ) :
    orientedArea ![mix_Vec3 c a t, b, c] = t * orientedArea ![a, b, c] := by
  simp only [orientedArea, mix_Vec3, Matrix.cons_val_zero, Matrix.cons_val_one,
    Matrix.head_cons, Matrix.cons_val_two, Matrix.tail_cons]
  ring

/-- The determinant of the recipe rows of an emitted triangle is the determinant of the
recipe rows of the input, scaled by a factor in `[0, 1]`. -/
lemma clipping_orientedArea (input T : GPUTriangle)
    (hT : T ∈ gpu_runTriangleClipping input) :
    ∃ k : ℚ, 0 ≤ k ∧ k ≤ 1 ∧ orientedArea T.coords = k * orientedArea input.coords := by
  rcases runTriangleClipping_cases input with h | ⟨_, h⟩ | ⟨v, s, t, _, hs0, hs1, ht0, ht1, _, _, h⟩ |
    ⟨v, s, t, _, _, hs0, hs1, ht0, ht1, _, _, h⟩
  · rw [h] at hT
    exact absurd hT (List.not_mem_nil T)
  · rw [h, List.mem_singleton] at hT
    rw [hT]
    exact ⟨1, by norm_num, le_refl 1, by ring⟩
  · rw [h, List.mem_singleton] at hT
    rw [hT]
    refine ⟨s * (1 - t), by nlinarith, by nlinarith, ?_⟩
    simp only [cornerTriangle]
    rw [orientedArea_corner, orientedArea_cyclic]
  · rw [h] at hT
    simp only [List.mem_cons, List.mem_singleton, List.not_mem_nil, or_false] at hT
    rcases hT with hT | hT
    · rw [hT]
      refine ⟨(1 - s) * (1 - t), by nlinarith, by nlinarith, ?_⟩
      rw [orientedArea_quad_first, orientedArea_cyclic]
    · rw [hT]
      refine ⟨t, ht0, ht1, ?_⟩
      rw [orientedArea_quad_second, orientedArea_cyclic]

/-- C35: clipping preserves winding.  For every primitive `P`, the recipe vectors of
`gpu_initTriangle P` are the rows of the identity, with determinant `1`, and for every
triangle `T` emitted by `gpu_runTriangleClipping` from it the determinant of the 3×3
matrix of the three recipe vectors of `T` is in `[0, 1]`, so it is never negative. -/
theorem runTriangleClipping_winding (P : GPUPrimitive) (T : GPUTriangle)
    (hT : T ∈ gpu_runTriangleClipping (gpu_initTriangle P)) :
    orientedArea (gpu_initTriangle P).coords = 1 ∧
    orientedArea T.coords = Matrix.det (Matrix.of T.coords) ∧
    0 ≤ orientedArea T.coords ∧ orientedArea T.coords ≤ 1 := by
  have hid : orientedArea (gpu_initTriangle P).coords = 1 := by
    simp [orientedArea, gpu_initTriangle]
  obtain ⟨k, hk0, hk1, hk⟩ := clipping_orientedArea (gpu_initTriangle P) T hT
  rw [hid, mul_one] at hk
  refine ⟨hid, ?_, by rw [hk]; exact hk0, by rw [hk]; exact hk1⟩
  rw [Matrix.det_fin_three]
  simp only [orientedArea, Matrix.of_apply]
  ring

/-- The sample primitive has the vertex 1 alone in the near half-space; the corner
triangle cut at vertex 1 is emitted by the clipper, and the determinant of its recipe
vectors is in `[0, 1]`. -/
theorem runTriangleClipping_winding_witness :
    ∃ T ∈ gpu_runTriangleClipping (gpu_initTriangle sampleCutPrimitive),
      orientedArea (gpu_initTriangle sampleCutPrimitive).coords = 1 ∧
      orientedArea T.coords = Matrix.det (Matrix.of T.coords) ∧
      0 ≤ orientedArea T.coords ∧ orientedArea T.coords ≤ 1 := by
  have h1 : inNearHalfSpace ((gpu_initTriangle sampleCutPrimitive).positions 1) := by
    simp only [inNearHalfSpace, gpu_initTriangle, sampleCutPrimitive, copy_Vec4, vec3_val1,
      vec4_val2, vec4_val3]
    norm_num
  have h2 : ¬ inNearHalfSpace ((gpu_initTriangle sampleCutPrimitive).positions (1 + 1)) := by
    show ¬ inNearHalfSpace ((gpu_initTriangle sampleCutPrimitive).positions 2)
    simp only [inNearHalfSpace, gpu_initTriangle, sampleCutPrimitive, copy_Vec4, vec3_val2,
      vec4_val2, vec4_val3]
    norm_num
  have h0 : ¬ inNearHalfSpace ((gpu_initTriangle sampleCutPrimitive).positions (1 + 2)) := by
    show ¬ inNearHalfSpace ((gpu_initTriangle sampleCutPrimitive).positions 0)
    simp only [inNearHalfSpace, gpu_initTriangle, sampleCutPrimitive, copy_Vec4, vec3_val0,
      vec4_val2, vec4_val3]
    norm_num
  have hc := clipping_one_visible (gpu_initTriangle sampleCutPrimitive) 1 h1 h2 h0
  have hmem : cornerTriangle (gpu_initTriangle sampleCutPrimitive) 1
      (gpu_runFrustumPlaneClippingOnEdge ((gpu_initTriangle sampleCutPrimitive).positions 1)
        ((gpu_initTriangle sampleCutPrimitive).positions (1 + 1)) 2 1).2
      (gpu_runFrustumPlaneClippingOnEdge
        ((gpu_initTriangle sampleCutPrimitive).positions (1 + 2))
        ((gpu_initTriangle sampleCutPrimitive).positions (1 + 2 + 1)) 2 1).1
      ∈ gpu_runTriangleClipping (gpu_initTriangle sampleCutPrimitive) := by
    rw [hc]
    exact List.mem_singleton_self _
  exact ⟨_, hmem, runTriangleClipping_winding sampleCutPrimitive _ hmem⟩

/-! ### Rasterizer: clockwise triangles -/

/-- The three edge functions of a triangle add up to twice its signed area at every
point. -/
lemma edgeFunction_sum (V : Fin 3 → Vec2) (p : Vec2) :
    edgeFunction (V 0) (V 1) p + edgeFunction (V 1) (V 2) p + edgeFunction (V 2) (V 0) p =
      signedArea2 V := by
  unfold edgeFunction signedArea2
  ring

/-- No point satisfies the inequalities of the three edge lines of a clockwise
triangle. -/
lemma clockwise_not_inside (sqrtf : ℚ → ℚ) (hsqrt : ∀ q, 0 < q → 0 < sqrtf q)
    (V : Fin 3 → Vec2) (h : signedArea2 V < 0) (p : Vec2) :
    ¬ insideEdges (gpu_computeTriangleLines sqrtf V) p := by
  intro hin
  have he := (insideEdges_iff sqrtf hsqrt V (ne_of_lt h) p).mp hin
  have h0 := he 0
  have h1 := he 1
  have h2 := he 2
  have e1 : (0 : Fin 3) + 1 = 1 := rfl
  have e2 : (1 : Fin 3) + 1 = 2 := rfl
  have e3 : (2 : Fin 3) + 1 = 0 := rfl
  rw [e1] at h0
  rw [e2] at h1
  rw [e3] at h2
  have hs := edgeFunction_sum V p
  linarith

/-- Borders in the order of an empty interval stay in that order when negative borders
are replaced by zero. -/
lemma clampNegative_le_of_lt (b1 b2 : ExtFloat) (h : b2.lt b1) :
    (clampNegative b2).le (clampNegative b1) := by
  cases b1 with
  | negInf => cases b2 <;> simp [ExtFloat.lt] at h
  | fin a =>
    cases b2 with
    | negInf =>
      rw [clampNegative_negInf, clampNegative_fin]
      exact le_max_right a 0
    | fin b =>
      rw [clampNegative_fin, clampNegative_fin]
      simp only [ExtFloat.lt] at h
      exact max_le_max (le_of_lt h) (le_refl 0)
    | posInf => simp [ExtFloat.lt] at h
  | posInf =>
    rw [clampNegative_posInf]
    exact ExtFloat.le_posInf _

/-- A loop whose passes all return the state they are given returns the initial
state. -/
lemma forRange_skip {σ : Type} (lo hi : ℕ) (body : ℕ → σ → Option σ) (st : σ)
    (h : ∀ i s, body i s = some s) : forRange lo hi body st = some st := by
  unfold forRange
  generalize hi - lo = n
  induction n with
  | zero => rfl
  | succ n ih =>
    rw [forLoop_succ, ih]
    exact h _ _

/-- Every scanline of a clockwise triangle is skipped. -/
lemma rasterizeTriangle_scanline_clockwise (MAX_ATTRIBUTES : ℕ) (sqrtf : ℚ → ℚ)
    (hsqrt : ∀ q, 0 < q → 0 < sqrtf q) (fragmentShader : FragmentShader)
    (localInput : GPUFragmentShaderInput) (localOutput : GPUFragmentShaderOutput)
    (primitive : GPUPrimitive) (V : Fin 3 → Vec2) (h : signedArea2 V < 0)
    (width y : ℕ) (st : RasterState) :
    rasterizeTriangle_scanline MAX_ATTRIBUTES fragmentShader localInput localOutput
      primitive V (gpu_computeTriangleLines sqrtf V) width y st = some st := by
  unfold rasterizeTriangle_scanline
  dsimp only
  have hempty := (computeLineBorders_empty_iff ((y : ℚ) + PIXEL_CENTER)
    (gpu_computeTriangleLines sqrtf V)).mpr
    (fun ⟨x, hx⟩ => clockwise_not_inside sqrtf hsqrt V h ![x, (y : ℚ) + PIXEL_CENTER] hx)
  rw [if_pos (clampNegative_le_of_lt _ _ hempty)]

/-- C36: back-facing triangles are culled.  For every screen-space triangle of three
used vertices in clockwise order (negative signed area) `gpu_rasterizeTriangle` returns,
it invokes the fragment shader for no pixel, and the frame buffer it leaves is the frame
buffer it was given (`sqrtf` only has to be positive on positive numbers). -/
theorem rasterizeTriangle_culls_clockwise (MAX_ATTRIBUTES : ℕ) (sqrtf : ℚ → ℚ)
    (fragmentShader : FragmentShader)
    (localInput : GPUFragmentShaderInput) (localOutput : GPUFragmentShaderOutput)
    (g : Framebuffer) (primitive : GPUPrimitive) (width height : ℕ)
    (hsqrt : ∀ q, 0 < q → 0 < sqrtf q)
    (hn : primitive.nofUsedVertices = 3)
    (hcw : signedArea2 (screenVertices primitive) < 0) :
    gpu_rasterizeTriangle MAX_ATTRIBUTES sqrtf (some fragmentShader) localInput
      localOutput g primitive width height = some { framebuffer := g, calls := [] } := by
  unfold gpu_rasterizeTriangle
  dsimp only
  rw [rasterizeTriangle_bounds primitive hn]
  dsimp only
  rw [clampNegative_fin, clampNegative_fin]
  rw [show (fun vertex => copy_Vec4_To_Vec2 (primitive.vertices vertex).gl_Position) =
    screenVertices primitive from rfl]
  set V := screenVertices primitive with hV
  obtain ⟨n0, hn0, _⟩ := roundDownPixelCoord_spec
    (max (min (min (V 0 1) (V 1 1)) (V 2 1)) 0) (le_max_right _ _)
  obtain ⟨n1, hn1, _⟩ := roundUpPixelCoord_spec
    (max (max (max (V 0 1) (V 1 1)) (V 2 1)) 0) (le_max_right _ _)
  rw [hn0, hn1]
  dsimp only
  exact forRange_skip _ _ _ _
    (fun i s => rasterizeTriangle_scanline_clockwise MAX_ATTRIBUTES sqrtf hsqrt fragmentShader
      localInput localOutput primitive V hcw width i s)

/-- The sample triangle is clockwise, and its rasterization into the sample frame buffer
invokes no fragment shader and leaves the frame buffer as it was. -/
theorem rasterizeTriangle_culls_clockwise_witness :
    (∀ q, 0 < q → 0 < sampleSqrt q) ∧
    sampleClockwisePrimitive.nofUsedVertices = 3 ∧
    signedArea2 (screenVertices sampleClockwisePrimitive) < 0 ∧
    gpu_rasterizeTriangle 8 sampleSqrt (some sampleFragmentShader) emptyFragment
      sampleNearFragment sampleApexFramebuffer sampleClockwisePrimitive 5 4 =
        some { framebuffer := sampleApexFramebuffer, calls := [] } :=
  have hcw : signedArea2 (screenVertices sampleClockwisePrimitive) < 0 := by
    simp only [signedArea2, screenVertices, sampleClockwisePrimitive, copy_Vec4_To_Vec2,
      vec3_val0, vec3_val1, vec3_val2, vec4_val0, vec4_val1, vec2_val0, vec2_val1]
    norm_num
  ⟨sampleSqrt_pos, rfl, hcw,
    rasterizeTriangle_culls_clockwise 8 sampleSqrt sampleFragmentShader emptyFragment
      sampleNearFragment sampleApexFramebuffer sampleClockwisePrimitive 5 4 sampleSqrt_pos rfl
      hcw⟩

/-! ### Rasterizer: the pixels given to the depth test -/

/-- The invocations recorded by a loop that returns, when the passes are known for the
indices of the loop only. -/
lemma forLoop_calls_bounded (Q : FragmentCall → Prop)
    (body : ℕ → RasterState → Option RasterState) (lo : ℕ) (st : RasterState) (n : ℕ) :
    (∀ i s s', lo ≤ i → i < lo + n → body i s = some s' →
      ∀ c ∈ s'.calls, c ∈ s.calls ∨ Q c) →
    ∀ st', forLoop n (fun i s => Option.bind s (body (lo + i))) (some st) = some st' →
      ∀ c ∈ st'.calls, c ∈ st.calls ∨ Q c := by
  induction n with
  | zero =>
    intro _ st' h c hc
    rw [forLoop_zero] at h
    rw [← Option.some.inj h] at hc
    exact Or.inl hc
  | succ n ih =>
    intro hbody st' h c hc
    rw [forLoop_succ] at h
    cases hprev : forLoop n (fun i s => Option.bind s (body (lo + i))) (some st) with
    | none =>
      rw [hprev] at h
      exact absurd h (by simp)
    | some s1 =>
      rw [hprev] at h
      rcases hbody (lo + n) s1 st' (by omega) (by omega) h c hc with h1 | h1
      · exact ih (fun i s s' h1 h2 => hbody i s s' h1 (by omega)) s1 hprev c h1
      · exact Or.inr h1

/-- The invocations recorded by a loop `for (i = lo; i < hi; ++i)` that returns, when the
passes are known for the indices of the loop only. -/
lemma forRange_calls_bounded (Q : FragmentCall → Prop)
    (body : ℕ → RasterState → Option RasterState) (lo hi : ℕ)
    (hbody : ∀ i s s', lo ≤ i → i < hi → body i s = some s' →
      ∀ c ∈ s'.calls, c ∈ s.calls ∨ Q c)
    (st st' : RasterState) (h : forRange lo hi body st = some st') :
    ∀ c ∈ st'.calls, c ∈ st.calls ∨ Q c :=
  forLoop_calls_bounded Q body lo st (hi - lo)
    (fun i s s' h1 h2 => hbody i s s' h1 (by omega)) st' h

/-- A pass of the inner loop that returns records the invocation of its pixel. -/
lemma rasterizeTriangle_pixel_xy (MAX_ATTRIBUTES : ℕ) (fragmentShader : FragmentShader)
    (localInput : GPUFragmentShaderInput) (localOutput : GPUFragmentShaderOutput)
    (primitive : GPUPrimitive) (triangleVertices : Fin 3 → Vec2)
    (triangleLines : Fin 3 → Vec3) (x y : ℕ) (s s' : RasterState)
    (h : rasterizeTriangle_pixel MAX_ATTRIBUTES fragmentShader localInput localOutput
      primitive triangleVertices triangleLines ((y : ℚ) + PIXEL_CENTER) x s = some s') :
    ∀ c ∈ s'.calls, c ∈ s.calls ∨ (c.x = x ∧ c.y = y) := by
  unfold rasterizeTriangle_pixel at h
  dsimp only at h
  cases hop : gpu_perFragmentOperations s.framebuffer
    (rasterizeTriangle_fragment MAX_ATTRIBUTES fragmentShader localInput localOutput
      primitive triangleVertices triangleLines ((y : ℚ) + PIXEL_CENTER) x).tested
    (rasterizeTriangle_fragment MAX_ATTRIBUTES fragmentShader localInput localOutput
      primitive triangleVertices triangleLines ((y : ℚ) + PIXEL_CENTER) x).x
    (rasterizeTriangle_fragment MAX_ATTRIBUTES fragmentShader localInput localOutput
      primitive triangleVertices triangleLines ((y : ℚ) + PIXEL_CENTER) x).y with
  | none =>
    rw [hop] at h
    exact absurd h (by simp)
  | some fb =>
    rw [hop] at h
    intro c hc
    rw [← Option.some.inj h] at hc
    simp only [List.mem_append, List.mem_singleton] at hc
    rcases hc with hc | hc
    · exact Or.inl hc
    · right
      rw [hc]
      exact rasterizeTriangle_fragment_xy MAX_ATTRIBUTES fragmentShader localInput
        localOutput primitive triangleVertices triangleLines x y

/-- A pass of the outer loop that returns records invocations of pixels of its scanline
with `x` below the width. -/
lemma rasterizeTriangle_scanline_xy (MAX_ATTRIBUTES : ℕ)
    (fragmentShader : FragmentShader)
    (localInput : GPUFragmentShaderInput) (localOutput : GPUFragmentShaderOutput)
    (primitive : GPUPrimitive) (triangleVertices : Fin 3 → Vec2)
    (triangleLines : Fin 3 → Vec3) (width y : ℕ) (s s' : RasterState)
    (h : rasterizeTriangle_scanline MAX_ATTRIBUTES fragmentShader localInput localOutput
      primitive triangleVertices triangleLines width y s = some s') :
    ∀ c ∈ s'.calls, c ∈ s.calls ∨ (c.x < width ∧ c.y = y) := by
  unfold rasterizeTriangle_scanline at h
  dsimp only at h
  split_ifs at h with hskip
  · intro c hc
    rw [← Option.some.inj h] at hc
    exact Or.inl hc
  · cases h0 : gpu_roundDownPixelCoord (clampNegative
      (gpu_computeLineBorders ((y : ℚ) + PIXEL_CENTER) triangleLines).1) with
    | none =>
      rw [h0] at h
      exact absurd h (by simp)
    | some n0 =>
      cases h1 : gpu_roundUpPixelCoord (clampNegative
        (gpu_computeLineBorders ((y : ℚ) + PIXEL_CENTER) triangleLines).2) with
      | none =>
        rw [h0, h1] at h
        exact absurd h (by simp)
      | some n1 =>
        rw [h0, h1] at h
        dsimp only at h
        exact forRange_calls_bounded _ _ _ _
          (fun i s s' _ hi hb c hc => by
            rcases rasterizeTriangle_pixel_xy MAX_ATTRIBUTES fragmentShader
              localInput localOutput primitive triangleVertices triangleLines i y s s' hb c hc
              with h2 | ⟨h2, h3⟩
            · exact Or.inl h2
            · right
              refine ⟨?_, h3⟩
              rw [h2]
              split_ifs at hi <;> omega)
          s s' h

/-- Every invocation recorded by a run of `gpu_rasterizeTriangle` that returns is made
for a pixel of the viewport. -/
lemma rasterizeTriangle_calls_xy (MAX_ATTRIBUTES : ℕ) (sqrtf : ℚ → ℚ)
    (activeFragmentShader : Option FragmentShader)
    (localInput : GPUFragmentShaderInput) (localOutput : GPUFragmentShaderOutput)
    (g : Framebuffer) (primitive : GPUPrimitive) (width height : ℕ) (st' : RasterState)
    (h : gpu_rasterizeTriangle MAX_ATTRIBUTES sqrtf activeFragmentShader localInput
      localOutput g primitive width height = some st') :
    ∀ c ∈ st'.calls, c.x < width ∧ c.y < height := by
  unfold gpu_rasterizeTriangle at h
  dsimp only at h
  generalize forLoop primitive.nofUsedVertices _ _ = bounds at h
  cases h0 : gpu_roundDownPixelCoord (clampNegative bounds.1) with
  | none =>
    rw [h0] at h
    exact absurd h (by simp)
  | some n0 =>
    cases h1 : gpu_roundUpPixelCoord (clampNegative bounds.2) with
    | none =>
      rw [h0, h1] at h
      exact absurd h (by simp)
    | some n1 =>
      rw [h0, h1] at h
      dsimp only at h
      cases activeFragmentShader with
      | none => exact absurd h (by simp)
      | some fragmentShader =>
        dsimp only at h
        intro c hc
        rcases forRange_calls_bounded (fun c => c.x < width ∧ c.y < height) _ _ _
          (fun i s s' _ hi hb c hc => by
            rcases rasterizeTriangle_scanline_xy MAX_ATTRIBUTES fragmentShader
              localInput localOutput primitive _ _ width i s s' hb c hc with h2 | ⟨h2, h3⟩
            · exact Or.inl h2
            · right
              refine ⟨h2, ?_⟩
              rw [h3]
              split_ifs at hi <;> omega)
          _ st' h c hc with hc' | hc'
        · exact absurd hc' (List.not_mem_nil c)
        · exact hc'

/-- A scanline of the viewport whose upper border is finite, or which is skipped,
returns, and the frame buffer keeps its size. -/
lemma rasterizeTriangle_scanline_returns (MAX_ATTRIBUTES : ℕ)
    (fragmentShader : FragmentShader)
    (localInput : GPUFragmentShaderInput) (localOutput : GPUFragmentShaderOutput)
    (primitive : GPUPrimitive) (triangleVertices : Fin 3 → Vec2)
    (triangleLines : Fin 3 → Vec3) (w h y : ℕ) (hy : y < h)
    (hfin : (gpu_computeLineBorders ((y : ℚ) + PIXEL_CENTER) triangleLines).2 = .posInf →
      (clampNegative (gpu_computeLineBorders ((y : ℚ) + PIXEL_CENTER) triangleLines).2).le
        (clampNegative (gpu_computeLineBorders ((y : ℚ) + PIXEL_CENTER) triangleLines).1))
    (st : RasterState) (hs : st.framebuffer.Sized w h) :
    ∃ st', rasterizeTriangle_scanline MAX_ATTRIBUTES fragmentShader localInput localOutput
        primitive triangleVertices triangleLines w y st = some st' ∧
      st'.framebuffer.Sized w h := by
  by_cases hinf : (gpu_computeLineBorders ((y : ℚ) + PIXEL_CENTER) triangleLines).2 = .posInf
  · refine ⟨st, ?_, hs⟩
    unfold rasterizeTriangle_scanline
    dsimp only
    rw [if_pos (hfin hinf)]
  · obtain ⟨st', h1, h2⟩ := rasterizeTriangle_scanline_step MAX_ATTRIBUTES fragmentShader
      localInput localOutput primitive triangleVertices triangleLines w h y hy hinf st hs
    exact ⟨st', h1, h2.sized⟩

/-- A loop whose passes return and keep a property of the state returns. -/
lemma forRange_returns {σ : Type} (I : σ → Prop) (lo hi : ℕ) (body : ℕ → σ → Option σ)
    (st : σ) (h0 : I st)
    (h : ∀ i s, lo ≤ i → i < hi → I s → ∃ s', body i s = some s' ∧ I s') :
    ∃ st', forRange lo hi body st = some st' ∧ I st' := by
  unfold forRange
  have key : ∀ n, n ≤ hi - lo →
      ∃ st', forLoop n (fun i s => Option.bind s (body (lo + i))) (some st) = some st' ∧
        I st' := by
    intro n
    induction n with
    | zero => exact fun _ => ⟨st, rfl, h0⟩
    | succ n ih =>
      intro hn
      obtain ⟨s1, h1, hI⟩ := ih (by omega)
      obtain ⟨s2, h2, hI2⟩ := h (lo + n) s1 (by omega) (by omega) hI
      exact ⟨s2, by rw [forLoop_succ, h1]; exact h2, hI2⟩
  exact key (hi - lo) (le_refl _)

/-- The run of `gpu_rasterizeTriangle` returns when no scanline of the viewport that is
not skipped has the upper border `+INFINITY`. -/
lemma rasterizeTriangle_returns (MAX_ATTRIBUTES : ℕ) (sqrtf : ℚ → ℚ)
    (fragmentShader : FragmentShader)
    (localInput : GPUFragmentShaderInput) (localOutput : GPUFragmentShaderOutput)
    (g : Framebuffer) (primitive : GPUPrimitive) (width height : ℕ)
    (hs : g.Sized width height) (hn : primitive.nofUsedVertices = 3)
    (hfin : ∀ y, y < height →
      (gpu_computeLineBorders ((y : ℚ) + PIXEL_CENTER)
        (gpu_computeTriangleLines sqrtf (screenVertices primitive))).2 = .posInf →
      (clampNegative (gpu_computeLineBorders ((y : ℚ) + PIXEL_CENTER)
        (gpu_computeTriangleLines sqrtf (screenVertices primitive))).2).le
        (clampNegative (gpu_computeLineBorders ((y : ℚ) + PIXEL_CENTER)
          (gpu_computeTriangleLines sqrtf (screenVertices primitive))).1)) :
    ∃ st', gpu_rasterizeTriangle MAX_ATTRIBUTES sqrtf (some fragmentShader) localInput
      localOutput g primitive width height = some st' := by
  unfold gpu_rasterizeTriangle
  dsimp only
  rw [rasterizeTriangle_bounds primitive hn]
  dsimp only
  rw [clampNegative_fin, clampNegative_fin]
  rw [show (fun vertex => copy_Vec4_To_Vec2 (primitive.vertices vertex).gl_Position) =
    screenVertices primitive from rfl]
  set V := screenVertices primitive with hV
  obtain ⟨n0, hn0, _⟩ := roundDownPixelCoord_spec
    (max (min (min (V 0 1) (V 1 1)) (V 2 1)) 0) (le_max_right _ _)
  obtain ⟨n1, hn1, _⟩ := roundUpPixelCoord_spec
    (max (max (max (V 0 1) (V 1 1)) (V 2 1)) 0) (le_max_right _ _)
  rw [hn0, hn1]
  dsimp only
  obtain ⟨st', h1, _⟩ := forRange_returns (fun s : RasterState => s.framebuffer.Sized width height)
    n0 (if n1 ≥ height then height else n1)
    (rasterizeTriangle_scanline MAX_ATTRIBUTES fragmentShader localInput localOutput
      primitive V (gpu_computeTriangleLines sqrtf V) width)
    { framebuffer := g, calls := [] } hs
    (fun i s _ hi hI =>
      rasterizeTriangle_scanline_returns MAX_ATTRIBUTES fragmentShader localInput localOutput
        primitive V (gpu_computeTriangleLines sqrtf V) width height i
        (by split_ifs at hi <;> omega)
        (hfin i (by split_ifs at hi <;> omega)) s hI)
  exact ⟨st', h1⟩

/-! ### Pixel centres in binary32 -/

/-- An integer is its own nearest integer. -/
lemma roundHalfEven_intCast (m : ℤ) : roundHalfEven (m : ℚ) = m := by
  unfold roundHalfEven
  rw [Int.fract_intCast, if_pos (by norm_num), Int.floor_intCast]

/-- A positive number whose multiple by `2^k`, `k ≤ 149`, is an integer of 24 bits is a
`float`. -/
lemma roundBinary32_of_scaled (q : ℚ) (k m : ℕ) (hk : k ≤ 149) (hm1 : 2 ^ 23 ≤ m)
    (hm2 : m < 2 ^ 24) (hq : q * 2 ^ k = m) : roundBinary32 q = q := by
  have h2k : (0 : ℚ) < 2 ^ k := by positivity
  have hm0 : (0 : ℚ) < m := by
    have : 0 < m := lt_of_lt_of_le (by norm_num) hm1
    exact_mod_cast this
  have hqpos : 0 < q := by
    by_contra hc
    have := mul_nonpos_of_nonpos_of_nonneg (not_lt.mp hc) (le_of_lt h2k)
    rw [hq] at this
    linarith
  have hz1 : (2 : ℚ) ^ ((23 : ℤ) - k) = 2 ^ 23 / 2 ^ k := by
    rw [zpow_sub₀ (by norm_num : (2 : ℚ) ≠ 0), zpow_natCast]
    norm_num
  have hz2 : (2 : ℚ) ^ ((24 : ℤ) - k) = 2 ^ 24 / 2 ^ k := by
    rw [zpow_sub₀ (by norm_num : (2 : ℚ) ≠ 0), zpow_natCast]
    norm_num
  have hlog : Int.log 2 |q| = 23 - k := by
    rw [abs_of_pos hqpos]
    apply le_antisymm
    · have h : Int.log 2 q < 24 - (k : ℤ) := by
        rw [← Int.lt_zpow_iff_log_lt (by norm_num) hqpos]
        push_cast
        rw [hz2, lt_div_iff₀ h2k, hq]
        exact_mod_cast hm2
      omega
    · rw [← Int.zpow_le_iff_le_log (by norm_num) hqpos]
      push_cast
      rw [hz1, div_le_iff₀ h2k, hq]
      exact_mod_cast hm1
  have he : max (Int.log 2 |q|) (-126) - 23 = -(k : ℤ) := by
    rw [hlog, max_eq_left (by omega)]
    omega
  unfold roundBinary32
  rw [if_neg (ne_of_gt hqpos)]
  simp only [he]
  rw [zpow_neg, zpow_natCast, div_inv_eq_mul, hq]
  have hc : ((m : ℕ) : ℚ) = ((m : ℤ) : ℚ) := by push_cast; rfl
  rw [hc, roundHalfEven_intCast, ← hc, ← hq]
  field_simp

/-- Every `size_t` below `2^24` is a `float`. -/
lemma roundBinary32_natCast (n : ℕ) (h : n < 2 ^ 24) : roundBinary32 (n : ℚ) = n := by
  by_cases h0 : n = 0
  · subst h0
    unfold roundBinary32
    simp
  · have hlog1 := Nat.pow_log_le_self 2 h0
    have hlog2 := Nat.lt_pow_succ_log_self (by norm_num : 1 < 2) n
    have hE : Nat.log 2 n < 24 := by
      by_contra hc
      have : 2 ^ 24 ≤ 2 ^ Nat.log 2 n := Nat.pow_le_pow_right (by norm_num) (not_lt.mp hc)
      omega
    obtain ⟨k, hk⟩ : ∃ k, Nat.log 2 n + k = 23 := ⟨23 - Nat.log 2 n, by omega⟩
    have hp : 2 ^ Nat.log 2 n * 2 ^ k = 2 ^ 23 := by rw [← pow_add, hk]
    have hp2 : 2 ^ (Nat.log 2 n + 1) * 2 ^ k = 2 ^ 24 := by
      rw [← pow_add]
      congr 1
      omega
    apply roundBinary32_of_scaled (n : ℚ) k (n * 2 ^ k) (by omega)
    · rw [← hp]
      exact Nat.mul_le_mul_right _ hlog1
    · rw [← hp2]
      exact Nat.mul_lt_mul_of_pos_right hlog2 (by positivity)
    · push_cast
      rfl

/-- For every `size_t` `n` below `2^23` the number `n + 1/2` is a `float`. -/
lemma roundBinary32_add_half (n : ℕ) (h : n < 2 ^ 23) :
    roundBinary32 ((n : ℚ) + 1 / 2) = (n : ℚ) + 1 / 2 := by
  by_cases h0 : n = 0
  · subst h0
    apply roundBinary32_of_scaled _ 24 (2 ^ 23) (by norm_num) (le_refl _) (by norm_num)
    norm_num
  · have hlog1 := Nat.pow_log_le_self 2 h0
    have hlog2 := Nat.lt_pow_succ_log_self (by norm_num : 1 < 2) n
    have hE : Nat.log 2 n < 23 := by
      by_contra hc
      have : 2 ^ 23 ≤ 2 ^ Nat.log 2 n := Nat.pow_le_pow_right (by norm_num) (not_lt.mp hc)
      omega
    obtain ⟨k, hk⟩ : ∃ k, Nat.log 2 n + k = 22 := ⟨22 - Nat.log 2 n, by omega⟩
    have hp : 2 ^ (Nat.log 2 n + 1) * 2 ^ k = 2 ^ 23 := by
      rw [← pow_add]
      congr 1
      omega
    have hp2 : 2 ^ (Nat.log 2 n + 2) * 2 ^ k = 2 ^ 24 := by
      rw [← pow_add]
      congr 1
      omega
    have hs1 : 2 ^ (Nat.log 2 n + 1) ≤ 2 * n + 1 := by
      rw [pow_succ]
      omega
    have hs2 : 2 * n + 1 < 2 ^ (Nat.log 2 n + 2) := by
      have : 2 ^ (Nat.log 2 n + 2) = 2 * 2 ^ (Nat.log 2 n + 1) := by
        rw [pow_succ (2 : ℕ) (Nat.log 2 n + 1)]
        ring
      rw [this]
      have hle : n + 1 ≤ 2 ^ (Nat.log 2 n).succ := hlog2
      have e : (Nat.log 2 n).succ = Nat.log 2 n + 1 := rfl
      rw [e] at hle
      omega
    apply roundBinary32_of_scaled _ (k + 1) ((2 * n + 1) * 2 ^ k) (by omega)
    · rw [← hp]
      exact Nat.mul_le_mul_right _ hs1
    · rw [← hp2]
      exact Nat.mul_lt_mul_of_pos_right hs2 (by positivity)
    · push_cast
      ring

/-- The pixel centre of a loop counter below `2^23` is computed without rounding. -/
lemma pixelCenter_exact (n : ℕ) (h : n < 2 ^ 23) :
    pixelCenter roundBinary32 n = (n : ℚ) + PIXEL_CENTER := by
  unfold pixelCenter PIXEL_CENTER
  rw [roundBinary32_natCast n (by omega), roundBinary32_add_half n h]

/-- The `float` nearest to `8388609.5` is `8388610`: the two neighbours `8388609` and
`8388610` are equally near, and `8388610` is the even one. -/
lemma roundBinary32_tie : roundBinary32 (8388609 + 1 / 2) = 8388610 := by
  have hlog : Int.log 2 |(8388609 + 1 / 2 : ℚ)| = 23 := by
    rw [abs_of_pos (by norm_num)]
    apply le_antisymm
    · have h : Int.log 2 (8388609 + 1 / 2 : ℚ) < 24 := by
        rw [← Int.lt_zpow_iff_log_lt (by norm_num) (by norm_num)]
        norm_num
      omega
    · rw [← Int.zpow_le_iff_le_log (by norm_num) (by norm_num)]
      norm_num
  have hfl : ⌊(8388609 + 1 / 2 : ℚ)⌋ = 8388609 := by
    rw [Int.floor_eq_iff]
    constructor <;> norm_num
  have hfr : Int.fract (8388609 + 1 / 2 : ℚ) = 1 / 2 := by
    unfold Int.fract
    rw [hfl]
    norm_num
  have hr : roundHalfEven (8388609 + 1 / 2 : ℚ) = 8388610 := by
    unfold roundHalfEven
    rw [hfr, hfl, if_neg (lt_irrefl _), if_neg (lt_irrefl _), if_neg (by decide)]
    rfl
  unfold roundBinary32
  rw [if_neg (by norm_num)]
  simp only [hlog]
  have he : max (23 : ℤ) (-126) - 23 = 0 := by decide
  rw [he, zpow_zero, div_one, mul_one, hr]
  norm_num

/-- The pixel centre that the code computes for the loop counter `8388609 = 2^23 + 1` is
`8388610`, not `8388609.5`. -/
lemma pixelCenter_tie : pixelCenter roundBinary32 8388609 = 8388610 := by
  unfold pixelCenter PIXEL_CENTER
  have h := roundBinary32_natCast 8388609 (by norm_num)
  simp only [Nat.cast_ofNat] at h ⊢
  rw [h]
  exact roundBinary32_tie

/-- Two loops whose bodies agree on the range of the counter give the same result. -/
lemma forRange_congr {σ : Type} (lo hi : ℕ) (body body' : ℕ → σ → Option σ) (init : σ)
    (h : ∀ i, lo ≤ i → i < hi → ∀ s, body i s = body' i s) :
    forRange lo hi body init = forRange lo hi body' init := by
  unfold forRange
  have key : ∀ n, n ≤ hi - lo →
      forLoop n (fun i st => Option.bind st (body (lo + i))) (some init) =
      forLoop n (fun i st => Option.bind st (body' (lo + i))) (some init) := by
    intro n
    induction n with
    | zero => intro _; rfl
    | succ n ih =>
      intro hn
      rw [forLoop_succ, forLoop_succ, ih (by omega)]
      cases forLoop n (fun i st => Option.bind st (body' (lo + i))) (some init) with
      | none => rfl
      | some s => exact h (lo + n) (by omega) (by omega) s
  exact key _ (le_refl _)

/-- Where the pixel centre of `x` is computed without rounding, the recorded call is the
one of the exact model. -/
lemma rasterizeTriangle_fragment_rounded_eq (fl : ℚ → ℚ) (MAX_ATTRIBUTES : ℕ)
    (fragmentShader : FragmentShader)
    (localInput : GPUFragmentShaderInput) (localOutput : GPUFragmentShaderOutput)
    (primitive : GPUPrimitive) (triangleVertices : Fin 3 → Vec2)
    (triangleLines : Fin 3 → Vec3) (pixelCoord1 : ℚ) (x : ℕ)
    (hx : pixelCenter fl x = (x : ℚ) + PIXEL_CENTER) :
    rasterizeTriangle_fragment_rounded fl MAX_ATTRIBUTES fragmentShader localInput
      localOutput primitive triangleVertices triangleLines pixelCoord1 x =
    rasterizeTriangle_fragment MAX_ATTRIBUTES fragmentShader localInput localOutput
      primitive triangleVertices triangleLines pixelCoord1 x := by
  unfold rasterizeTriangle_fragment_rounded rasterizeTriangle_fragment
  rw [hx]

/-- Where the pixel centre of `x` is computed without rounding, the pass of the inner
loop is the one of the exact model. -/
lemma rasterizeTriangle_pixel_rounded_eq (fl : ℚ → ℚ) (MAX_ATTRIBUTES : ℕ)
    (fragmentShader : FragmentShader)
    (localInput : GPUFragmentShaderInput) (localOutput : GPUFragmentShaderOutput)
    (primitive : GPUPrimitive) (triangleVertices : Fin 3 → Vec2)
    (triangleLines : Fin 3 → Vec3) (pixelCoord1 : ℚ) (x : ℕ) (st : RasterState)
    (hx : pixelCenter fl x = (x : ℚ) + PIXEL_CENTER) :
    rasterizeTriangle_pixel_rounded fl MAX_ATTRIBUTES fragmentShader localInput
      localOutput primitive triangleVertices triangleLines pixelCoord1 x st =
    rasterizeTriangle_pixel MAX_ATTRIBUTES fragmentShader localInput localOutput
      primitive triangleVertices triangleLines pixelCoord1 x st := by
  unfold rasterizeTriangle_pixel_rounded rasterizeTriangle_pixel
  dsimp only
  rw [rasterizeTriangle_fragment_rounded_eq fl MAX_ATTRIBUTES fragmentShader localInput
    localOutput primitive triangleVertices triangleLines pixelCoord1 x hx]

/-- Where the pixel centres of `y` and of every `x` below the width are computed without
rounding, the pass of the outer loop is the one of the exact model. -/
lemma rasterizeTriangle_scanline_rounded_eq (fl : ℚ → ℚ) (MAX_ATTRIBUTES : ℕ)
    (fragmentShader : FragmentShader)
    (localInput : GPUFragmentShaderInput) (localOutput : GPUFragmentShaderOutput)
    (primitive : GPUPrimitive) (triangleVertices : Fin 3 → Vec2)
    (triangleLines : Fin 3 → Vec3) (width : ℕ) (y : ℕ) (st : RasterState)
    (hy : pixelCenter fl y = (y : ℚ) + PIXEL_CENTER)
    (hx : ∀ x, x < width → pixelCenter fl x = (x : ℚ) + PIXEL_CENTER) :
    rasterizeTriangle_scanline_rounded fl MAX_ATTRIBUTES fragmentShader localInput
      localOutput primitive triangleVertices triangleLines width y st =
    rasterizeTriangle_scanline MAX_ATTRIBUTES fragmentShader localInput localOutput
      primitive triangleVertices triangleLines width y st := by
  unfold rasterizeTriangle_scanline_rounded rasterizeTriangle_scanline
  rw [hy]
  dsimp only
  split_ifs with hskip
  · rfl
  · cases gpu_roundDownPixelCoord
        (clampNegative (gpu_computeLineBorders ((y : ℚ) + PIXEL_CENTER) triangleLines).1) with
    | none => rfl
    | some xMinI =>
      cases gpu_roundUpPixelCoord
          (clampNegative (gpu_computeLineBorders ((y : ℚ) + PIXEL_CENTER) triangleLines).2) with
      | none => rfl
      | some xMaxI =>
        dsimp only
        apply forRange_congr
        intro i _ hi s
        apply rasterizeTriangle_pixel_rounded_eq
        apply hx
        split_ifs at hi <;> omega

/-- Where the pixel centres of the loop counters below the width and below the height
are computed without rounding, the rasterization is the one of the exact model. -/
lemma rasterizeTriangle_rounded_eq (fl : ℚ → ℚ) (MAX_ATTRIBUTES : ℕ) (sqrtf : ℚ → ℚ)
    (activeFragmentShader : Option FragmentShader)
    (localInput : GPUFragmentShaderInput) (localOutput : GPUFragmentShaderOutput)
    (g : Framebuffer) (primitive : GPUPrimitive) (width height : ℕ)
    (hx : ∀ x, x < width → pixelCenter fl x = (x : ℚ) + PIXEL_CENTER)
    (hy : ∀ y, y < height → pixelCenter fl y = (y : ℚ) + PIXEL_CENTER) :
    gpu_rasterizeTriangle_rounded fl MAX_ATTRIBUTES sqrtf activeFragmentShader localInput
      localOutput g primitive width height =
    gpu_rasterizeTriangle MAX_ATTRIBUTES sqrtf activeFragmentShader localInput
      localOutput g primitive width height := by
  unfold gpu_rasterizeTriangle_rounded gpu_rasterizeTriangle
  dsimp only
  cases gpu_roundDownPixelCoord (clampNegative (forLoop primitive.nofUsedVertices
      (fun v (bounds : ExtFloat × ExtFloat) =>
        (fminf bounds.1 (.fin ((at3 primitive.vertices v).gl_Position 1)),
         fmaxf bounds.2 (.fin ((at3 primitive.vertices v).gl_Position 1))))
      (.posInf, .negInf)).1) with
  | none => rfl
  | some yMinI =>
    cases gpu_roundUpPixelCoord (clampNegative (forLoop primitive.nofUsedVertices
        (fun v (bounds : ExtFloat × ExtFloat) =>
          (fminf bounds.1 (.fin ((at3 primitive.vertices v).gl_Position 1)),
           fmaxf bounds.2 (.fin ((at3 primitive.vertices v).gl_Position 1))))
        (.posInf, .negInf)).2) with
    | none => rfl
    | some yMaxI =>
      cases activeFragmentShader with
      | none => rfl
      | some fragmentShader =>
        dsimp only
        apply forRange_congr
        intro i _ hi s
        apply rasterizeTriangle_scanline_rounded_eq _ _ _ _ _ _ _ _ _ _ _ _ hx
        apply hy
        split_ifs at hi <;> omega

/-- In a viewport of at most `2^23` columns and rows the pixel centres are computed
without rounding in binary32, and the rasterization is the one of the exact model. -/
lemma rasterizeTriangle_binary32_eq (MAX_ATTRIBUTES : ℕ) (sqrtf : ℚ → ℚ)
    (activeFragmentShader : Option FragmentShader)
    (localInput : GPUFragmentShaderInput) (localOutput : GPUFragmentShaderOutput)
    (g : Framebuffer) (primitive : GPUPrimitive) (width height : ℕ)
    (hw : width ≤ 2 ^ 23) (hh : height ≤ 2 ^ 23) :
    gpu_rasterizeTriangle_rounded roundBinary32 MAX_ATTRIBUTES sqrtf activeFragmentShader
      localInput localOutput g primitive width height =
    gpu_rasterizeTriangle MAX_ATTRIBUTES sqrtf activeFragmentShader localInput
      localOutput g primitive width height :=
  rasterizeTriangle_rounded_eq roundBinary32 MAX_ATTRIBUTES sqrtf activeFragmentShader
    localInput localOutput g primitive width height
    (fun x hx => pixelCenter_exact x (by omega))
    (fun y hy => pixelCenter_exact y (by omega))

/-- C37 (amended: exact arithmetic): for every primitive and every frame buffer of the
size `width × height` of the viewport, each call of `gpu_perFragmentOperations` recorded
by a run of `gpu_rasterizeTriangle` in exact arithmetic has `x < width` and `y < height`;
for such a pixel the index of `getLinearPixelCoord` is not the sentinel and the depth
test returns, on every frame buffer of that size.  The run returns for three used
vertices when no scanline that is not skipped has the upper border `+INFINITY` (whose
conversion to `size_t` is undefined), in particular for every triangle with a non-zero
area.  In a viewport of at most `2^23` columns and rows the pixel centres
`(float) x + PIXEL_CENTER` are exact in binary32, and the rasterization with the pixel
centres of binary32 is the one with exact pixel centres. -/
theorem rasterizeTriangle_pixels_in_viewport (MAX_ATTRIBUTES : ℕ) (sqrtf : ℚ → ℚ)
    (fragmentShader : FragmentShader)
    (localInput : GPUFragmentShaderInput) (localOutput : GPUFragmentShaderOutput)
    (g : Framebuffer) (primitive : GPUPrimitive) (width height : ℕ)
    (hs : g.Sized width height) :
    (∀ st', gpu_rasterizeTriangle MAX_ATTRIBUTES sqrtf (some fragmentShader) localInput
        localOutput g primitive width height = some st' →
      ∀ c ∈ st'.calls, c.x < width ∧ c.y < height ∧
        ∀ g' : Framebuffer, g'.Sized width height →
          getLinearPixelCoord g' c.x c.y ≠ outOfRange ∧
          ∃ g'', gpu_perFragmentOperations g' c.tested c.x c.y = some g'') ∧
    (primitive.nofUsedVertices = 3 →
      (∀ y, y < height →
        (gpu_computeLineBorders ((y : ℚ) + PIXEL_CENTER)
          (gpu_computeTriangleLines sqrtf (screenVertices primitive))).2 = .posInf →
        (clampNegative (gpu_computeLineBorders ((y : ℚ) + PIXEL_CENTER)
          (gpu_computeTriangleLines sqrtf (screenVertices primitive))).2).le
          (clampNegative (gpu_computeLineBorders ((y : ℚ) + PIXEL_CENTER)
            (gpu_computeTriangleLines sqrtf (screenVertices primitive))).1)) →
      ∃ st', gpu_rasterizeTriangle MAX_ATTRIBUTES sqrtf (some fragmentShader) localInput
        localOutput g primitive width height = some st') ∧
    (primitive.nofUsedVertices = 3 → (∀ q, 0 < q → 0 < sqrtf q) →
      signedArea2 (screenVertices primitive) ≠ 0 →
      ∃ st', gpu_rasterizeTriangle MAX_ATTRIBUTES sqrtf (some fragmentShader) localInput
        localOutput g primitive width height = some st') ∧
    (width ≤ 2 ^ 23 → height ≤ 2 ^ 23 →
      gpu_rasterizeTriangle_rounded roundBinary32 MAX_ATTRIBUTES sqrtf (some fragmentShader)
        localInput localOutput g primitive width height =
      gpu_rasterizeTriangle MAX_ATTRIBUTES sqrtf (some fragmentShader) localInput
        localOutput g primitive width height) := by
  refine ⟨?_, ?_, ?_, ?_⟩
  rotate_left 3
  · intro hw hh
    exact rasterizeTriangle_binary32_eq MAX_ATTRIBUTES sqrtf (some fragmentShader)
      localInput localOutput g primitive width height hw hh
  · intro st' hrun c hc
    obtain ⟨hx, hy⟩ := rasterizeTriangle_calls_xy MAX_ATTRIBUTES sqrtf (some fragmentShader)
      localInput localOutput g primitive width height st' hrun c hc
    refine ⟨hx, hy, ?_⟩
    intro g' hg'
    obtain ⟨hwf, hw, hh⟩ := hg'
    have hx' : c.x < g'.viewportWidth := by rw [hw]; exact hx
    have hy' : c.y < g'.viewportHeight := by rw [hh]; exact hy
    obtain ⟨e1, _, e3⟩ := getLinearPixelCoord_inside g' c.x c.y hwf.2.2 hx' hy'
    obtain ⟨g'', hg'', _⟩ := perFragmentOperations_frame g' c.tested c.x c.y hwf hx' hy'
    exact ⟨by rw [e1]; exact e3, g'', hg''⟩
  · intro hn hfin
    exact rasterizeTriangle_returns MAX_ATTRIBUTES sqrtf fragmentShader localInput localOutput
      g primitive width height hs hn hfin
  · intro hn hsqrt harea
    refine rasterizeTriangle_returns MAX_ATTRIBUTES sqrtf fragmentShader localInput localOutput
      g primitive width height hs hn ?_
    intro y _ hinf
    exact absurd hinf (computeLineBorders_max_ne _ _
      (triangleLines_exists_neg sqrtf hsqrt _ harea))

/-- The sample frame buffer has the size `5 × 4`, and the pixels given to the depth test
by the rasterization of the sample triangle are pixels of the viewport; the rasterization
returns, and it is also the rasterization with the pixel centres of binary32. -/
theorem rasterizeTriangle_pixels_in_viewport_witness :
    sampleApexFramebuffer.Sized 5 4 ∧
    (∀ st', gpu_rasterizeTriangle 8 sampleSqrt (some sampleFragmentShader) emptyFragment
        sampleNearFragment sampleApexFramebuffer sampleApexPrimitive 5 4 = some st' →
      ∀ c ∈ st'.calls, c.x < 5 ∧ c.y < 4 ∧
        ∀ g' : Framebuffer, g'.Sized 5 4 →
          getLinearPixelCoord g' c.x c.y ≠ outOfRange ∧
          ∃ g'', gpu_perFragmentOperations g' c.tested c.x c.y = some g'') ∧
    (∃ st', gpu_rasterizeTriangle 8 sampleSqrt (some sampleFragmentShader) emptyFragment
      sampleNearFragment sampleApexFramebuffer sampleApexPrimitive 5 4 = some st') ∧
    gpu_rasterizeTriangle_rounded roundBinary32 8 sampleSqrt (some sampleFragmentShader)
        emptyFragment sampleNearFragment sampleApexFramebuffer sampleApexPrimitive 5 4 =
      gpu_rasterizeTriangle 8 sampleSqrt (some sampleFragmentShader) emptyFragment
        sampleNearFragment sampleApexFramebuffer sampleApexPrimitive 5 4 :=
  ⟨sampleApexFramebuffer_sized,
    (rasterizeTriangle_pixels_in_viewport 8 sampleSqrt sampleFragmentShader emptyFragment
      sampleNearFragment sampleApexFramebuffer sampleApexPrimitive 5 4
      sampleApexFramebuffer_sized).1,
    (rasterizeTriangle_pixels_in_viewport 8 sampleSqrt sampleFragmentShader emptyFragment
      sampleNearFragment sampleApexFramebuffer sampleApexPrimitive 5 4
      sampleApexFramebuffer_sized).2.2.1 rfl sampleSqrt_pos (ne_of_gt sampleApex_ccw),
    (rasterizeTriangle_pixels_in_viewport 8 sampleSqrt sampleFragmentShader emptyFragment
      sampleNearFragment sampleApexFramebuffer sampleApexPrimitive 5 4
      sampleApexFramebuffer_sized).2.2.2 (by norm_num) (by norm_num)⟩

/-! ### A viewport of more than `2^23` rows -/

lemma sampleTall_vertices :
    screenVertices sampleTallPrimitive 0 = ![-1, 8388609] ∧
    screenVertices sampleTallPrimitive 1 = ![7, 8388609] ∧
    screenVertices sampleTallPrimitive 2 = ![-1, 8388617] := by
  refine ⟨?_, ?_, ?_⟩ <;>
    simp only [screenVertices, sampleTallPrimitive, copy_Vec4_To_Vec2, vec3_val0, vec3_val1,
      vec3_val2, vec4_val0, vec4_val1]

lemma sampleTall_ccw : 0 < signedArea2 (screenVertices sampleTallPrimitive) := by
  obtain ⟨e0, e1, e2⟩ := sampleTall_vertices
  unfold signedArea2
  rw [e0, e1, e2]
  simp only [vec2_val0, vec2_val1]
  norm_num

lemma sampleTallSqrt_pos (q : ℚ) (_h : 0 < q) : 0 < sampleTallSqrt q := by
  unfold sampleTallSqrt
  split_ifs <;> norm_num

lemma sampleTallFramebuffer_sized : sampleTallFramebuffer.Sized 1 8388610 := by
  refine ⟨⟨?_, ?_, ?_⟩, rfl, rfl⟩
  · exact List.length_replicate _ _
  · exact List.length_replicate _ _
  · show 1 * 8388610 < 2 ^ 64
    norm_num

lemma sampleTall_line0 :
    construct2DLine sampleTallSqrt ![-1, 8388609] ![7, 8388609] = ![0, 1, -8388609] := by
  funext i
  fin_cases i <;>
    simp only [construct2DLine, normalize_Vec3, length_Vec3, dot_Vec3, multiply_Vec3_Float,
      sampleTallSqrt, vec2_val0, vec2_val1, vec3_val0, vec3_val1, vec3_val2] <;>
    norm_num <;>
    simp only [multiply_Vec3_Float, vec3_val0, vec3_val1, vec3_val2] <;>
    norm_num

lemma sampleTall_line1 :
    construct2DLine sampleTallSqrt ![7, 8388609] ![-1, 8388617] =
      ![-8 * (1048576 / 11863283), -8 * (1048576 / 11863283),
        8 * (1048576 / 11863283) * 8388616] := by
  funext i
  fin_cases i <;>
    simp only [construct2DLine, normalize_Vec3, length_Vec3, dot_Vec3, multiply_Vec3_Float,
      sampleTallSqrt, vec2_val0, vec2_val1, vec3_val0, vec3_val1, vec3_val2] <;>
    norm_num <;>
    simp only [multiply_Vec3_Float, vec3_val0, vec3_val1, vec3_val2] <;>
    norm_num

lemma sampleTall_line2 :
    construct2DLine sampleTallSqrt ![-1, 8388617] ![-1, 8388609] = ![1, 0, 1] := by
  funext i
  fin_cases i <;>
    simp only [construct2DLine, normalize_Vec3, length_Vec3, dot_Vec3, multiply_Vec3_Float,
      sampleTallSqrt, vec2_val0, vec2_val1, vec3_val0, vec3_val1, vec3_val2] <;>
    norm_num <;>
    simp only [multiply_Vec3_Float, vec3_val0, vec3_val1, vec3_val2] <;>
    norm_num

/-- The three edge lines of the sample triangle. -/
lemma sampleTall_lines :
    gpu_computeTriangleLines sampleTallSqrt (screenVertices sampleTallPrimitive) =
      ![![0, 1, -8388609],
        ![-8 * (1048576 / 11863283), -8 * (1048576 / 11863283),
          8 * (1048576 / 11863283) * 8388616],
        ![1, 0, 1]] := by
  obtain ⟨e0, e1, e2⟩ := sampleTall_vertices
  unfold gpu_computeTriangleLines
  rw [e0, e1, e2, sampleTall_line0, sampleTall_line1, sampleTall_line2]

/-- The borders of the sample triangle on the line `y = 8388610`, its upper edge in the
viewport: the pixels from `-1` to `6`. -/
lemma sampleTall_borders :
    gpu_computeLineBorders 8388610
      (gpu_computeTriangleLines sampleTallSqrt (screenVertices sampleTallPrimitive)) =
      (.fin (-1), .fin 6) := by
  rw [sampleTall_lines]
  unfold gpu_computeLineBorders EDGES_PER_TRIANGLE
  rw [forLoop_three]
  have a0 : (Fin.ofNat 0 : Fin 3) = 0 := rfl
  have a1 : (Fin.ofNat 1 : Fin 3) = 1 := rfl
  have a2 : (Fin.ofNat 2 : Fin 3) = 2 := rfl
  simp only [at3, a0, a1, a2, vec3_val0, vec3_val1, vec3_val2]
  have s0 : gpu_restrictLineBorders .negInf .posInf 8388610 ![0, 1, -8388609] =
      (.negInf, .posInf) := by
    simp only [gpu_restrictLineBorders, vec3_val0, vec3_val1, vec3_val2]
    norm_num
  rw [s0]
  have s1 : gpu_restrictLineBorders .negInf .posInf 8388610
      ![-8 * (1048576 / 11863283), -8 * (1048576 / 11863283),
        8 * (1048576 / 11863283) * 8388616] = (.negInf, .fin 6) := by
    simp only [gpu_restrictLineBorders, vec3_val0, vec3_val1, vec3_val2]
    norm_num
    rfl
  rw [s1]
  simp only [gpu_restrictLineBorders, vec3_val0, vec3_val1, vec3_val2]
  norm_num
  rfl

/-- A loop of one pass. -/
lemma forRange_single {σ : Type} (lo : ℕ) (body : ℕ → σ → Option σ) (init : σ) :
    forRange lo (lo + 1) body init = body lo init := by
  unfold forRange
  rw [Nat.add_sub_cancel_left, forLoop_succ, forLoop_zero]
  rfl

/-- The depth test of a pixel outside the viewport ends the program. -/
lemma perFragmentOperations_outside (g : Framebuffer) (fragment : GPUFragmentShaderOutput)
    (x y : ℕ) (h : ¬ (x < g.viewportWidth ∧ y < g.viewportHeight)) :
    gpu_perFragmentOperations g fragment x y = none := by
  unfold gpu_perFragmentOperations gpu_getDepth
  simp [getLinearPixelCoord_outside g x y h]

/-- The pixel coordinates given to the depth test are the integer parts of the two
components of the pixel centre. -/
lemma rasterizeTriangle_fragment_rounded_xy (fl : ℚ → ℚ) (MAX_ATTRIBUTES : ℕ)
    (fragmentShader : FragmentShader)
    (localInput : GPUFragmentShaderInput) (localOutput : GPUFragmentShaderOutput)
    (primitive : GPUPrimitive) (triangleVertices : Fin 3 → Vec2)
    (triangleLines : Fin 3 → Vec3) (pixelCoord1 : ℚ) (x : ℕ) :
    (rasterizeTriangle_fragment_rounded fl MAX_ATTRIBUTES fragmentShader localInput
      localOutput primitive triangleVertices triangleLines pixelCoord1 x).x =
      (truncf (pixelCenter fl x)).toNat ∧
    (rasterizeTriangle_fragment_rounded fl MAX_ATTRIBUTES fragmentShader localInput
      localOutput primitive triangleVertices triangleLines pixelCoord1 x).y =
      (truncf pixelCoord1).toNat :=
  ⟨rfl, rfl⟩

/-- The integer part of the pixel centre `8388610`. -/
lemma truncf_tie : (truncf (8388610 : ℚ)).toNat = 8388610 := by
  rw [truncf_nonneg _ (by norm_num)]
  have : ⌊(8388610 : ℚ)⌋ = ((8388610 : ℕ) : ℤ) := by
    rw [Int.floor_eq_iff]
    constructor <;> norm_num
  rw [this, Int.toNat_natCast]

/-- The pixel coordinates of the call for the loop counters `x = 0` and `y = 8388609`:
the row is `8388610`. -/
lemma sampleTall_call_xy (triangleLines : Fin 3 → Vec3) :
    (rasterizeTriangle_fragment_rounded roundBinary32 8 sampleFragmentShader emptyFragment
      sampleNearFragment sampleTallPrimitive (screenVertices sampleTallPrimitive)
      triangleLines 8388610 0).x = 0 ∧
    (rasterizeTriangle_fragment_rounded roundBinary32 8 sampleFragmentShader emptyFragment
      sampleNearFragment sampleTallPrimitive (screenVertices sampleTallPrimitive)
      triangleLines 8388610 0).y = 8388610 := by
  obtain ⟨hx, hy⟩ := rasterizeTriangle_fragment_rounded_xy roundBinary32 8
    sampleFragmentShader emptyFragment sampleNearFragment sampleTallPrimitive
    (screenVertices sampleTallPrimitive) triangleLines 8388610 0
  rw [hx, hy, pixelCenter_exact 0 (by norm_num)]
  exact ⟨truncf_pixel 0, truncf_tie⟩

/-- A scanline whose clamped borders are `0` and a number from `1/2` on, in a viewport
of one column, is the pass of the inner loop for `x = 0`. -/
lemma rasterizeTriangle_scanline_rounded_first (fl : ℚ → ℚ) (MAX_ATTRIBUTES : ℕ)
    (fragmentShader : FragmentShader)
    (localInput : GPUFragmentShaderInput) (localOutput : GPUFragmentShaderOutput)
    (primitive : GPUPrimitive) (triangleVertices : Fin 3 → Vec2)
    (triangleLines : Fin 3 → Vec3) (y : ℕ) (st : RasterState) (c xlo xhi : ℚ)
    (hc : pixelCenter fl y = c)
    (hb : gpu_computeLineBorders c triangleLines = (.fin xlo, .fin xhi))
    (hlo : xlo ≤ 0) (hhi : 1 / 2 ≤ xhi) :
    rasterizeTriangle_scanline_rounded fl MAX_ATTRIBUTES fragmentShader localInput
      localOutput primitive triangleVertices triangleLines 1 y st =
    rasterizeTriangle_pixel_rounded fl MAX_ATTRIBUTES fragmentShader localInput
      localOutput primitive triangleVertices triangleLines c 0 st := by
  unfold rasterizeTriangle_scanline_rounded
  dsimp only
  rw [hc, hb]
  dsimp only
  rw [clampNegative_fin, clampNegative_fin, max_eq_right hlo,
    max_eq_left (by linarith : (0 : ℚ) ≤ xhi)]
  have hle : ¬ (ExtFloat.fin xhi).le (.fin 0) := by
    unfold ExtFloat.le
    intro h
    linarith
  rw [if_neg hle]
  obtain ⟨n0, h0, hn0⟩ := roundDownPixelCoord_spec 0 (le_refl _)
  obtain ⟨n1, h1, hn1⟩ := roundUpPixelCoord_spec xhi (by linarith)
  have e0 : n0 = 0 := by
    have := (hn0 0).mpr (by norm_num)
    omega
  have e1 : 1 ≤ n1 := by
    have := (hn1 0).mpr (by push_cast; linarith)
    omega
  rw [h0, h1, e0]
  dsimp only
  rw [if_pos (by omega)]
  exact forRange_single 0 _ st

/-- A triangle whose lowest vertex is on the line `y0` and whose highest vertex is on the
upper border `y0 + 1` of the viewport or above it is rasterized in one pass of the outer
loop, the scanline `y0`. -/
lemma rasterizeTriangle_rounded_one_row (fl : ℚ → ℚ) (MAX_ATTRIBUTES : ℕ) (sqrtf : ℚ → ℚ)
    (fragmentShader : FragmentShader)
    (localInput : GPUFragmentShaderInput) (localOutput : GPUFragmentShaderOutput)
    (g : Framebuffer) (primitive : GPUPrimitive) (width y0 : ℕ) (top : ℚ)
    (hn : primitive.nofUsedVertices = 3)
    (hmin : min (min (screenVertices primitive 0 1) (screenVertices primitive 1 1))
      (screenVertices primitive 2 1) = (y0 : ℚ))
    (hmax : max (max (screenVertices primitive 0 1) (screenVertices primitive 1 1))
      (screenVertices primitive 2 1) = top)
    (htop : (y0 : ℚ) + 1 ≤ top) :
    gpu_rasterizeTriangle_rounded fl MAX_ATTRIBUTES sqrtf (some fragmentShader) localInput
      localOutput g primitive width (y0 + 1) =
    rasterizeTriangle_scanline_rounded fl MAX_ATTRIBUTES fragmentShader localInput
      localOutput primitive (screenVertices primitive)
      (gpu_computeTriangleLines sqrtf (screenVertices primitive)) width y0
      { framebuffer := g, calls := [] } := by
  unfold gpu_rasterizeTriangle_rounded
  dsimp only
  rw [rasterizeTriangle_bounds primitive hn, hmin, hmax]
  dsimp only
  have hy0 : (0 : ℚ) ≤ (y0 : ℚ) := Nat.cast_nonneg y0
  rw [clampNegative_fin, clampNegative_fin, max_eq_left hy0,
    max_eq_left (by linarith : (0 : ℚ) ≤ top)]
  obtain ⟨n0, h0, hn0⟩ := roundDownPixelCoord_spec (y0 : ℚ) hy0
  obtain ⟨n1, h1, hn1⟩ := roundUpPixelCoord_spec top (by linarith)
  have c0 : n0 = y0 := by
    have a := (hn0 y0).mpr (by linarith)
    by_cases hz : y0 = 0
    · omega
    · have b := (hn0 (y0 - 1)).not.mpr (by
        have : ((y0 - 1 : ℕ) : ℚ) = (y0 : ℚ) - 1 := by
          rw [Nat.cast_sub (by omega)]
          norm_num
        rw [this]
        linarith)
      omega
  have c1 : y0 + 1 ≤ n1 := by
    have := (hn1 y0).mpr (by linarith)
    omega
  rw [h0, h1, c0]
  dsimp only
  rw [if_pos c1]
  exact forRange_single y0 _ _

/-- The rasterization of the sample triangle in binary32 is one pass of the inner loop:
the loop counters `y = 8388609`, `x = 0`. -/
lemma sampleTall_run :
    gpu_rasterizeTriangle_rounded roundBinary32 8 sampleTallSqrt (some sampleFragmentShader)
      emptyFragment sampleNearFragment sampleTallFramebuffer sampleTallPrimitive 1
      (8388609 + 1) =
    rasterizeTriangle_pixel_rounded roundBinary32 8 sampleFragmentShader emptyFragment
      sampleNearFragment sampleTallPrimitive (screenVertices sampleTallPrimitive)
      (gpu_computeTriangleLines sampleTallSqrt (screenVertices sampleTallPrimitive))
      8388610 0 { framebuffer := sampleTallFramebuffer, calls := [] } := by
  obtain ⟨e0, e1, e2⟩ := sampleTall_vertices
  have hmin : min (min (screenVertices sampleTallPrimitive 0 1)
      (screenVertices sampleTallPrimitive 1 1)) (screenVertices sampleTallPrimitive 2 1) =
      ((8388609 : ℕ) : ℚ) := by
    rw [e0, e1, e2]
    simp only [vec2_val1]
    norm_num
  have hmax : max (max (screenVertices sampleTallPrimitive 0 1)
      (screenVertices sampleTallPrimitive 1 1)) (screenVertices sampleTallPrimitive 2 1) =
      8388617 := by
    rw [e0, e1, e2]
    simp only [vec2_val1]
    norm_num
  rw [rasterizeTriangle_rounded_one_row roundBinary32 8 sampleTallSqrt sampleFragmentShader
    emptyFragment sampleNearFragment sampleTallFramebuffer sampleTallPrimitive 1 8388609
    8388617 rfl hmin hmax (by norm_num)]
  exact rasterizeTriangle_scanline_rounded_first roundBinary32 8 sampleFragmentShader
    emptyFragment sampleNearFragment sampleTallPrimitive (screenVertices sampleTallPrimitive)
    (gpu_computeTriangleLines sampleTallSqrt (screenVertices sampleTallPrimitive))
    8388609 _ 8388610 (-1) 6 pixelCenter_tie sampleTall_borders (by norm_num) (by norm_num)

/-- A pass of the inner loop whose depth test ends the program ends the program. -/
lemma rasterizeTriangle_pixel_rounded_exits (fl : ℚ → ℚ) (MAX_ATTRIBUTES : ℕ)
    (fragmentShader : FragmentShader)
    (localInput : GPUFragmentShaderInput) (localOutput : GPUFragmentShaderOutput)
    (primitive : GPUPrimitive) (triangleVertices : Fin 3 → Vec2)
    (triangleLines : Fin 3 → Vec3) (pixelCoord1 : ℚ) (x : ℕ) (st : RasterState)
    (h : gpu_perFragmentOperations st.framebuffer
      (rasterizeTriangle_fragment_rounded fl MAX_ATTRIBUTES fragmentShader localInput
        localOutput primitive triangleVertices triangleLines pixelCoord1 x).tested
      (rasterizeTriangle_fragment_rounded fl MAX_ATTRIBUTES fragmentShader localInput
        localOutput primitive triangleVertices triangleLines pixelCoord1 x).x
      (rasterizeTriangle_fragment_rounded fl MAX_ATTRIBUTES fragmentShader localInput
        localOutput primitive triangleVertices triangleLines pixelCoord1 x).y = none) :
    rasterizeTriangle_pixel_rounded fl MAX_ATTRIBUTES fragmentShader localInput
      localOutput primitive triangleVertices triangleLines pixelCoord1 x st = none := by
  unfold rasterizeTriangle_pixel_rounded
  dsimp only
  rw [h]

/-- The pixel coordinates of `sampleTallCall`: the column `0` and the row `8388610`. -/
lemma sampleTallCall_xy : sampleTallCall.x = 0 ∧ sampleTallCall.y = 8388610 :=
  sampleTall_call_xy _

/-- The depth test of `sampleTallCall` ends the program. -/
lemma sampleTallCall_exits :
    gpu_perFragmentOperations sampleTallFramebuffer sampleTallCall.tested sampleTallCall.x
      sampleTallCall.y = none := by
  obtain ⟨hx, hy⟩ := sampleTallCall_xy
  rw [hx, hy]
  apply perFragmentOperations_outside
  rintro ⟨_, h⟩
  exact absurd h (lt_irrefl _)

/-- C37 (the claim as stated fails in the arithmetic of `float`): the frame buffer has
the size `1 × 8388610` and the counter-clockwise sample triangle has the finite vertices
`(-1, 8388609)`, `(7, 8388609)`, `(-1, 8388617)`.  The pixel centre
`(float) y + PIXEL_CENTER` of the loop counter `y = 8388609` is `8388610` in binary32,
since `8388609.5` is half-way between two `float`s.  The rasterization with these pixel
centres is the single pass of the inner loop for `y = 8388609`, `x = 0`; it calls
`gpu_perFragmentOperations` with `x = 0` and `y = 8388610`, which is not less than the
height, the index of that pixel is the sentinel, and the run ends the program.  With
exact pixel centres the same rasterization returns and all its calls are in the
viewport. -/
theorem rasterizeTriangle_binary32_leaves_viewport :
    sampleTallFramebuffer.Sized 1 8388610 ∧
    sampleTallPrimitive.nofUsedVertices = 3 ∧
    0 < signedArea2 (screenVertices sampleTallPrimitive) ∧
    pixelCenter roundBinary32 8388609 = 8388610 ∧
    gpu_rasterizeTriangle_rounded roundBinary32 8 sampleTallSqrt (some sampleFragmentShader)
        emptyFragment sampleNearFragment sampleTallFramebuffer sampleTallPrimitive 1 8388610 =
      (match gpu_perFragmentOperations sampleTallFramebuffer sampleTallCall.tested
          sampleTallCall.x sampleTallCall.y with
        | none => none
        | some framebuffer => some { framebuffer := framebuffer, calls := [sampleTallCall] }) ∧
    sampleTallCall.x = 0 ∧
    sampleTallCall.y = 8388610 ∧
    ¬ sampleTallCall.y < 8388610 ∧
    getLinearPixelCoord sampleTallFramebuffer sampleTallCall.x sampleTallCall.y = outOfRange ∧
    gpu_perFragmentOperations sampleTallFramebuffer sampleTallCall.tested sampleTallCall.x
      sampleTallCall.y = none ∧
    gpu_rasterizeTriangle_rounded roundBinary32 8 sampleTallSqrt (some sampleFragmentShader)
      emptyFragment sampleNearFragment sampleTallFramebuffer sampleTallPrimitive 1 8388610 =
      none ∧
    ∃ st', gpu_rasterizeTriangle 8 sampleTallSqrt (some sampleFragmentShader) emptyFragment
        sampleNearFragment sampleTallFramebuffer sampleTallPrimitive 1 8388610 = some st' ∧
      ∀ c ∈ st'.calls, c.x < 1 ∧ c.y < 8388610 := by
  obtain ⟨hx, hy⟩ := sampleTallCall_xy
  have hrun : gpu_rasterizeTriangle_rounded roundBinary32 8 sampleTallSqrt
      (some sampleFragmentShader) emptyFragment sampleNearFragment sampleTallFramebuffer
      sampleTallPrimitive 1 8388610 =
      rasterizeTriangle_pixel_rounded roundBinary32 8 sampleFragmentShader emptyFragment
        sampleNearFragment sampleTallPrimitive (screenVertices sampleTallPrimitive)
        (gpu_computeTriangleLines sampleTallSqrt (screenVertices sampleTallPrimitive))
        8388610 0 { framebuffer := sampleTallFramebuffer, calls := [] } := sampleTall_run
  have hnone : gpu_rasterizeTriangle_rounded roundBinary32 8 sampleTallSqrt
      (some sampleFragmentShader) emptyFragment sampleNearFragment sampleTallFramebuffer
      sampleTallPrimitive 1 8388610 = none := by
    rw [hrun]
    exact rasterizeTriangle_pixel_rounded_exits _ _ _ _ _ _ _ _ _ _ _ sampleTallCall_exits
  obtain ⟨st', hst, _⟩ := rasterizeTriangle_run 8 sampleTallSqrt sampleFragmentShader
    emptyFragment sampleNearFragment sampleTallFramebuffer sampleTallPrimitive 1 8388610
    sampleTallSqrt_pos rfl sampleTall_ccw sampleTallFramebuffer_sized
  refine ⟨sampleTallFramebuffer_sized, rfl, sampleTall_ccw, pixelCenter_tie, ?_, hx, hy, ?_,
    ?_, sampleTallCall_exits, hnone, st', hst, ?_⟩
  · rw [hnone, sampleTallCall_exits]
  · rw [hy]
    exact lt_irrefl _
  · rw [hx, hy]
    apply getLinearPixelCoord_outside
    rintro ⟨_, h⟩
    exact absurd h (lt_irrefl _)
  · exact rasterizeTriangle_calls_xy 8 sampleTallSqrt (some sampleFragmentShader)
      emptyFragment sampleNearFragment sampleTallFramebuffer sampleTallPrimitive 1 8388610
      st' hst

/-! ### Uniforms: upload and read -/

/-- An upload of as many values as the blob of the uniform at `loc` has cells returns;
the typed read of the declared type then gives the uploaded values, and no other uniform
has changed. -/
lemma upload_download (u : AllUniforms) (loc : ℕ) (e : UniformImplementation)
    (values : List ℚ) (hget : u.uniforms[loc]? = some e)
    (hlen : values.length = e.data.length) :
    ∃ u', CPU_UNIFORM_UPLOAD_IMPLEMENTATION u (loc : ℤ) values = .returned u' ∧
      GPU_UNIFORM_DOWNLOAD_IMPLEMENTATION e.type u' (loc : ℤ) = some values ∧
      OtherUniformsKept u u' loc := by
  have h0 : (0 : ℤ) ≤ (loc : ℤ) := Int.natCast_nonneg loc
  have hnat : ((loc : ℤ)).toNat = loc := Int.toNat_natCast loc
  have hlt : loc < u.uniforms.length := by
    by_contra hc
    rw [List.getElem?_eq_none (not_lt.mp hc)] at hget
    exact absurd hget (by simp)
  have hup := uniformUpload_eq u (loc : ℤ) values e h0 (by rw [hnat]; exact hget)
  rw [if_pos (le_of_eq hlen), hnat] at hup
  have hdrop : List.drop values.length e.data = [] := by
    rw [hlen]
    exact List.drop_length e.data
  rw [hdrop, List.append_nil] at hup
  refine ⟨_, hup, ?_, rfl, ?_, ?_⟩
  · refine (uniformDownload_spec e.type _ (loc : ℤ)).2 { e with data := values } h0 ?_ rfl
    rw [hnat]
    simp [hlt]
  · simp
  · intro other hne
    simp [List.getElem?_set, Ne.symm hne]

/-- The uniform stored for a name by its first reservation, after further reservations:
it has the type of the reservation and a zeroed blob of the size of that type. -/
lemma reserveAll_uniform_at (pre post : List (String × UniformType)) (name : String)
    (t : UniformType) (hname : name ∉ pre.map Prod.fst) :
    (reserveAll (pre ++ (name, t) :: post)).uniforms[nofReservedNames pre]? =
      some { type := t, data := List.replicate (uniformSize t / sizeofFloat) 0 } := by
  obtain ⟨h1, _, h3⟩ := reserveAll_inv pre
  have hnone : findLocation (reserveAll pre).locations name = none := by
    by_contra hc
    exact hname ((h1 name).mp hc)
  have hstep : reserveAll (pre ++ [(name, t)]) = cpu_reserveUniform (reserveAll pre) name t := by
    simp [reserveAll, List.foldl_append]
  have hsplit : pre ++ (name, t) :: post = (pre ++ [(name, t)]) ++ post := by simp
  obtain ⟨more, hm⟩ := reserveAll_uniforms_prefix (pre ++ [(name, t)]) post
  rw [hsplit, hm, hstep]
  unfold cpu_reserveUniform
  rw [hnone]
  dsimp only
  rw [List.append_assoc, ← h3, List.getElem?_append_right (le_refl _)]
  simp

/-- C39: uniform upload and typed read round-trip.  For a uniform at the location `loc`
with a blob of the size of its declared type `T` (as allocated by `cpu_reserveUniform`),
the upload function of `T` returns, the read `shader_interpretUniformAs<T> (loc)` that
follows gives exactly the uploaded components, and the upload changes no other uniform
and no location.  A uniform that was reserved and never uploaded reads as zeros. -/
theorem uniform_roundtrip (u : AllUniforms) (loc : ℕ) (e : UniformImplementation)
    (hget : u.uniforms[loc]? = some e)
    (hsz : e.data.length = uniformSize e.type / sizeofFloat) :
    (e.type = .UNIFORM_FLOAT → ∀ v0, ∃ u',
      cpu_uniform1f u (loc : ℤ) v0 = .returned u' ∧
      shader_interpretUniformAsFloat u' (loc : ℤ) = some [v0] ∧
      OtherUniformsKept u u' loc) ∧
    (e.type = .UNIFORM_VEC2 → ∀ v0 v1, ∃ u',
      cpu_uniform2f u (loc : ℤ) v0 v1 = .returned u' ∧
      shader_interpretUniformAsVec2 u' (loc : ℤ) = some [v0, v1] ∧
      OtherUniformsKept u u' loc) ∧
    (e.type = .UNIFORM_VEC3 → ∀ v0 v1 v2, ∃ u',
      cpu_uniform3f u (loc : ℤ) v0 v1 v2 = .returned u' ∧
      shader_interpretUniformAsVec3 u' (loc : ℤ) = some [v0, v1, v2] ∧
      OtherUniformsKept u u' loc) ∧
    (e.type = .UNIFORM_VEC4 → ∀ v0 v1 v2 v3, ∃ u',
      cpu_uniform4f u (loc : ℤ) v0 v1 v2 v3 = .returned u' ∧
      shader_interpretUniformAsVec4 u' (loc : ℤ) = some [v0, v1, v2, v3] ∧
      OtherUniformsKept u u' loc) ∧
    (e.type = .UNIFORM_MAT4 → ∀ data : Fin 16 → ℚ, ∃ u',
      cpu_uniformMatrix4fv u (loc : ℤ) data = .returned u' ∧
      shader_interpretUniformAsMat4 u' (loc : ℤ) = some (List.ofFn data) ∧
      OtherUniformsKept u u' loc) ∧
    (∀ (pre post : List (String × UniformType)) (name : String) (t : UniformType),
      name ∉ pre.map Prod.fst →
      getUniformLocation (reserveAll (pre ++ (name, t) :: post)) name =
        (nofReservedNames pre : ℤ) ∧
      GPU_UNIFORM_DOWNLOAD_IMPLEMENTATION t (reserveAll (pre ++ (name, t) :: post))
        (nofReservedNames pre : ℤ) = some (List.replicate (uniformSize t / sizeofFloat) 0)) := by
  refine ⟨?_, ?_, ?_, ?_, ?_, ?_⟩
  · intro ht v0
    have h := upload_download u loc e [v0] hget
      (by rw [hsz, ht]; simp [uniformSize, sizeofFloat])
    rw [ht] at h
    exact h
  · intro ht v0 v1
    have h := upload_download u loc e [v0, v1] hget
      (by rw [hsz, ht]; simp [uniformSize, sizeofFloat])
    rw [ht] at h
    exact h
  · intro ht v0 v1 v2
    have h := upload_download u loc e [v0, v1, v2] hget
      (by rw [hsz, ht]; simp [uniformSize, sizeofFloat])
    rw [ht] at h
    exact h
  · intro ht v0 v1 v2 v3
    have h := upload_download u loc e [v0, v1, v2, v3] hget
      (by rw [hsz, ht]; simp [uniformSize, sizeofFloat])
    rw [ht] at h
    exact h
  · intro ht data
    have h := upload_download u loc e (List.ofFn data) hget
      (by rw [hsz, ht, List.length_ofFn]; simp [uniformSize, sizeofFloat])
    rw [ht] at h
    exact h
  · intro pre post name t hname
    have hat := reserveAll_uniform_at pre post name t hname
    constructor
    · obtain ⟨h1, h2, _⟩ := reserveAll_inv pre
      have hnone : findLocation (reserveAll pre).locations name = none := by
        by_contra hc
        exact hname ((h1 name).mp hc)
      have hstep : reserveAll (pre ++ [(name, t)]) =
          cpu_reserveUniform (reserveAll pre) name t := by
        simp [reserveAll, List.foldl_append]
      have hfind : findLocation (reserveAll (pre ++ [(name, t)])).locations name =
          some (nofReservedNames pre) := by
        rw [hstep, reserveUniform_find, hnone]
        simp [h2]
      have hsplit : pre ++ (name, t) :: post = (pre ++ [(name, t)]) ++ post := by simp
      unfold getUniformLocation
      rw [hsplit, reserveAll_find_stable _ post name _ hfind]
    · exact (uniformDownload_spec t _ _).2 _ (Int.natCast_nonneg _)
        (by rw [Int.toNat_natCast]; exact hat) rfl

/-- After the reservation of `"color"` as `UNIFORM_VEC3` the location `0` holds a uniform
of that type with three cells, and the round trip of C39 holds for it. -/
theorem uniform_roundtrip_witness :
    (reserveAll [("color", .UNIFORM_VEC3)]).uniforms[0]? =
      some { type := .UNIFORM_VEC3, data := [0, 0, 0] } ∧
    ([0, 0, 0] : List ℚ).length = uniformSize .UNIFORM_VEC3 / sizeofFloat ∧
    (∀ v0 v1 v2, ∃ u',
      cpu_uniform3f (reserveAll [("color", .UNIFORM_VEC3)]) ((0 : ℕ) : ℤ) v0 v1 v2 =
        .returned u' ∧
      shader_interpretUniformAsVec3 u' ((0 : ℕ) : ℤ) = some [v0, v1, v2] ∧
      OtherUniformsKept (reserveAll [("color", .UNIFORM_VEC3)]) u' 0) :=
  have hget : (reserveAll [("color", .UNIFORM_VEC3)]).uniforms[0]? =
      some { type := .UNIFORM_VEC3, data := [0, 0, 0] } := by
    simp [reserveAll, cpu_reserveUniform, emptyUniforms, findLocation, uniformSize, sizeofFloat,
      List.replicate]
  ⟨hget, rfl,
    (uniform_roundtrip (reserveAll [("color", .UNIFORM_VEC3)]) 0
      { type := .UNIFORM_VEC3, data := [0, 0, 0] } hget rfl).2.2.1 rfl⟩

/-! ### The active program -/

/-- The first loop of `cpu_bufferData` does not touch the programs. -/
lemma refreshIndexPointers_samePrograms (ptr : ℕ) (l : List ℕ) :
    ∀ (g g' : GpuImplementation), (refreshIndexPointers g ptr l).state = some g' →
      SamePrograms g g' := by
  induction l with
  | nil =>
    intro g g' h
    simp only [refreshIndexPointers, Outcome.state, Option.some.injEq] at h
    subst h
    exact ⟨rfl, rfl, rfl⟩
  | cons p rest ih =>
    intro g g' h
    unfold refreshIndexPointers at h
    cases hv : g.vaos p with
    | none =>
      simp only [hv, Outcome.state, Option.some.injEq] at h
      subst h
      exact ⟨rfl, rfl, rfl⟩
    | some vao =>
      simp only [hv] at h
      have h2 := ih _ g' h
      exact ⟨h2.1, h2.2.1, h2.2.2⟩

/-- The second loop of `cpu_bufferData` does not touch the programs. -/
lemma refreshHeadPointers_samePrograms (ptr : ℕ) (l : List PullerAttrib) :
    ∀ (g g' : GpuImplementation), (refreshHeadPointers g ptr l).state = some g' →
      SamePrograms g g' := by
  induction l with
  | nil =>
    intro g g' h
    simp only [refreshHeadPointers, Outcome.state, Option.some.injEq] at h
    subst h
    exact ⟨rfl, rfl, rfl⟩
  | cons pa rest ih =>
    intro g g' h
    unfold refreshHeadPointers at h
    cases hv : g.vaos (ofLex pa).1 with
    | none =>
      simp only [hv, Outcome.state, Option.some.injEq] at h
      subst h
      exact ⟨rfl, rfl, rfl⟩
    | some vao =>
      simp only [hv] at h
      have h2 := ih _ g' h
      exact ⟨h2.1, h2.2.1, h2.2.2⟩

/-- The two loops of `cpu_bufferData` do not touch the programs. -/
lemma refreshPointers_samePrograms (ptr : ℕ) (l1 : List ℕ) (l2 : List PullerAttrib)
    (g g' : GpuImplementation)
    (h : (match refreshIndexPointers g ptr l1 with
      | .returned g2 => refreshHeadPointers g2 ptr l2
      | other => other).state = some g') : SamePrograms g g' := by
  cases h2 : refreshIndexPointers g ptr l1 with
  | returned g2 =>
    simp only [h2] at h
    have h3 := refreshIndexPointers_samePrograms ptr l1 g g2 (by rw [h2]; rfl)
    have h4 := refreshHeadPointers_samePrograms ptr l2 g2 g' h
    exact ⟨h4.1.trans h3.1, h4.2.1.trans h3.2.1, h4.2.2.trans h3.2.2⟩
  | thrown g2 =>
    simp only [h2, Outcome.state, Option.some.injEq] at h
    subst h
    exact refreshIndexPointers_samePrograms ptr l1 g g2 (by rw [h2]; rfl)
  | exited =>
    simp only [h2, Outcome.state] at h
    exact absurd h (by simp)

/-- `cpu_bufferData` does not touch the programs, however it ends. -/
lemma bufferData_samePrograms (g g' : GpuImplementation) (buffer : ℕ) (size : ℕ)
    (data : ℕ → Byte) (newData : ℕ)
    (h : (cpu_bufferData g buffer size data newData).state = some g') :
    SamePrograms g g' := by
  unfold cpu_bufferData at h
  cases hb : g.buffers buffer with
  | none =>
    simp only [hb, Outcome.state, Option.some.injEq] at h
    subst h
    exact ⟨rfl, rfl, rfl⟩
  | some buf =>
    simp only [hb] at h
    cases hr : g.bufferReferences buffer with
    | none =>
      simp only [hr, Outcome.state, Option.some.injEq] at h
      subst h
      exact ⟨rfl, rfl, rfl⟩
    | some refs =>
      simp only [hr] at h
      have h2 := refreshPointers_samePrograms _ _ _ _ _ h
      exact ⟨h2.1, h2.2.1, h2.2.2⟩

/-- `cpu_setIndexing` does not touch the programs, however it ends. -/
lemma setIndexing_samePrograms (g g' : GpuImplementation) (puller buffer indexSize : ℕ)
    (h : (cpu_setIndexing g puller buffer indexSize).state = some g') :
    SamePrograms g g' := by
  unfold cpu_setIndexing at h
  dsimp only at h
  repeat' split at h
  all_goals try (simp only [Outcome.state, Option.some.injEq] at h
                 subst h
                 exact ⟨rfl, rfl, rfl⟩)
  all_goals first
    | (rename_i g2 he _ _ _
       have hg2 : SamePrograms g g2 := by
         repeat' split at he
         all_goals first
           | (simp only [Option.some.injEq] at he
              rw [← he]
              exact ⟨rfl, rfl, rfl⟩)
           | exact absurd he (by simp)
       simp only [Outcome.state, Option.some.injEq] at h
       subst h
       exact ⟨hg2.1, hg2.2.1, hg2.2.2⟩)
    | (rename_i g2 he _ _
       have hg2 : SamePrograms g g2 := by
         repeat' split at he
         all_goals first
           | (simp only [Option.some.injEq] at he
              rw [← he]
              exact ⟨rfl, rfl, rfl⟩)
           | exact absurd he (by simp)
       simp only [Outcome.state, Option.some.injEq] at h
       subst h
       exact ⟨hg2.1, hg2.2.1, hg2.2.2⟩)

/-- `cpu_setVertexPullerHead` does not touch the programs, however it ends. -/
lemma setVertexPullerHead_samePrograms (MAX_ATTRIBUTES : ℕ) (g g' : GpuImplementation)
    (puller attribIndex buffer offset stride : ℕ)
    (h : (cpu_setVertexPullerHead MAX_ATTRIBUTES g puller attribIndex buffer offset
      stride).state = some g') : SamePrograms g g' := by
  unfold cpu_setVertexPullerHead at h
  dsimp only at h
  repeat' split at h
  all_goals try (simp only [Outcome.state, Option.some.injEq] at h
                 subst h
                 exact ⟨rfl, rfl, rfl⟩)
  all_goals first
    | (rename_i g2 he _ _ _
       have hg2 : SamePrograms g g2 := by
         repeat' split at he
         all_goals first
           | (simp only [Option.some.injEq] at he
              rw [← he]
              exact ⟨rfl, rfl, rfl⟩)
           | exact absurd he (by simp)
       simp only [Outcome.state, Option.some.injEq] at h
       subst h
       exact ⟨hg2.1, hg2.2.1, hg2.2.2⟩)
    | (rename_i g2 he _ _
       have hg2 : SamePrograms g g2 := by
         repeat' split at he
         all_goals first
           | (simp only [Option.some.injEq] at he
              rw [← he]
              exact ⟨rfl, rfl, rfl⟩)
           | exact absurd he (by simp)
       simp only [Outcome.state, Option.some.injEq] at h
       subst h
       exact ⟨hg2.1, hg2.2.1, hg2.2.2⟩)

/-- `setEnableVertexAttrib` does not touch the programs. -/
lemma setEnableVertexAttrib_samePrograms (MAX_ATTRIBUTES : ℕ) (g : GpuImplementation)
    (puller headIndex : ℕ) (enable : Bool) :
    SamePrograms g (setEnableVertexAttrib MAX_ATTRIBUTES g puller headIndex enable) := by
  unfold setEnableVertexAttrib
  by_cases hh : headIndex ≥ MAX_ATTRIBUTES
  · rw [if_pos hh]
    exact ⟨rfl, rfl, rfl⟩
  · rw [if_neg hh]
    cases g.vaos puller <;> exact ⟨rfl, rfl, rfl⟩

/-- One more operation in the list keeps what holds of the programs of a state. -/
lemma programInv_mono (ops : List RegistryOp) (op : RegistryOp) (g : GpuImplementation)
    (h : ProgramInv ops g) : ProgramInv (ops ++ [op]) g :=
  ⟨h.counter_pos, h.programs_bound, h.active_bound,
    fun p h1 h2 h3 => List.mem_append_left _ (h.deleted p h1 h2 h3)⟩

/-- An operation that does not touch the programs keeps what holds of them. -/
lemma programInv_same (ops : List RegistryOp) (op : RegistryOp) (g g' : GpuImplementation)
    (hs : SamePrograms g g') (h : ProgramInv ops g) : ProgramInv (ops ++ [op]) g' := by
  obtain ⟨e1, e2, e3⟩ := hs
  refine ⟨by rw [e2]; exact h.counter_pos, ?_, ?_, ?_⟩
  · intro p hp
    rw [e1] at hp
    rw [e2]
    exact h.programs_bound p hp
  · rw [e2, e3]
    exact h.active_bound
  · intro p h1 h2 h3
    rw [e2] at h2
    rw [e1] at h3
    exact List.mem_append_left _ (h.deleted p h1 h2 h3)

/-- New settings for an existing program keep what holds of the programs. -/
lemma programInv_update (ops : List RegistryOp) (op : RegistryOp) (g : GpuImplementation)
    (q : ℕ) (v : ProgramSettings) (hq : g.programs q ≠ none) (h : ProgramInv ops g) :
    ProgramInv (ops ++ [op])
      { g with programs := Function.update g.programs q (some v) } := by
  refine ⟨h.counter_pos, ?_, h.active_bound, ?_⟩
  · intro p hp
    by_cases hpq : p = q
    · rw [hpq]
      exact h.programs_bound q hq
    · simp only [Function.update_noteq hpq] at hp
      exact h.programs_bound p hp
  · intro p h1 h2 h3
    by_cases hpq : p = q
    · rw [hpq] at h3
      simp at h3
    · simp only [Function.update_noteq hpq] at h3
      exact List.mem_append_left _ (h.deleted p h1 h2 h3)

/-- One operation of the registry keeps what holds of the programs, however it ends. -/
lemma apply_programInv (MAX_ATTRIBUTES : ℕ) (ops : List RegistryOp) (g g' : GpuImplementation)
    (op : RegistryOp) (h : ProgramInv ops g)
    (ho : (op.apply MAX_ATTRIBUTES g).outcome.state = some g') :
    ProgramInv (ops ++ [op]) g' := by
  cases op with
  | createBuffers n =>
    simp only [RegistryOp.apply, Outcome.state, Option.some.injEq] at ho
    subst ho
    rw [createBuffers_eq]
    exact programInv_same ops _ g _ ⟨rfl, rfl, rfl⟩ h
  | bufferData buffer size data newData =>
    exact programInv_same ops _ g g' (bufferData_samePrograms g g' buffer size data newData ho) h
  | createVertexPullers n =>
    simp only [RegistryOp.apply, Outcome.state, Option.some.injEq] at ho
    subst ho
    rw [createVertexPullers_eq]
    exact programInv_same ops _ g _ ⟨rfl, rfl, rfl⟩ h
  | setVertexPullerHead puller attribIndex buffer offset stride =>
    exact programInv_same ops _ g g'
      (setVertexPullerHead_samePrograms MAX_ATTRIBUTES g g' puller attribIndex buffer offset
        stride ho) h
  | setIndexing puller buffer indexSize =>
    exact programInv_same ops _ g g' (setIndexing_samePrograms g g' puller buffer indexSize ho) h
  | enableVertexPullerHead puller attribIndex =>
    simp only [RegistryOp.apply, Outcome.state, Option.some.injEq] at ho
    subst ho
    exact programInv_same ops _ g _ (setEnableVertexAttrib_samePrograms _ _ _ _ _) h
  | disableVertexPullerHead puller attribIndex =>
    simp only [RegistryOp.apply, Outcome.state, Option.some.injEq] at ho
    subst ho
    exact programInv_same ops _ g _ (setEnableVertexAttrib_samePrograms _ _ _ _ _) h
  | bindVertexPuller id =>
    simp only [RegistryOp.apply, Outcome.state, Option.some.injEq] at ho
    subst ho
    refine programInv_same ops _ g _ ?_ h
    unfold cpu_bindVertexPuller
    cases g.vaos id <;> exact ⟨rfl, rfl, rfl⟩
  | createProgram =>
    simp only [RegistryOp.apply, Outcome.state, Option.some.injEq] at ho
    subst ho
    have hc := h.counter_pos
    refine ⟨?_, ?_, ?_, ?_⟩
    · show 1 ≤ g.programCounter + 1
      omega
    · intro p hp
      show 1 ≤ p ∧ p < g.programCounter + 1
      by_cases hpq : p = g.programCounter
      · omega
      · simp only [cpu_createProgram, Function.update_noteq hpq] at hp
        have := h.programs_bound p hp
        omega
    · show g.activeProgram = 0 ∨ (1 ≤ g.activeProgram ∧ g.activeProgram < g.programCounter + 1)
      rcases h.active_bound with ha | ha
      · exact Or.inl ha
      · exact Or.inr ⟨ha.1, by omega⟩
    · intro p h1 h2 h3
      have h2' : p < g.programCounter + 1 := h2
      by_cases hpq : p = g.programCounter
      · rw [hpq] at h3
        simp [cpu_createProgram] at h3
      · simp only [cpu_createProgram, Function.update_noteq hpq] at h3
        exact List.mem_append_left _ (h.deleted p h1 (by omega) h3)
  | deleteProgram program =>
    simp only [RegistryOp.apply, Outcome.state, Option.some.injEq] at ho
    subst ho
    unfold cpu_deleteProgram
    cases hq : g.programs program with
    | none => exact programInv_mono ops _ g h
    | some settings =>
      refine ⟨h.counter_pos, ?_, h.active_bound, ?_⟩
      · intro p hp
        by_cases hpq : p = program
        · rw [hpq] at hp
          simp at hp
        · simp only [Function.update_noteq hpq] at hp
          exact h.programs_bound p hp
      · intro p h1 h2 h3
        by_cases hpq : p = program
        · rw [hpq]
          exact List.mem_append_right _ (List.mem_singleton_self _)
        · simp only [Function.update_noteq hpq] at h3
          exact List.mem_append_left _ (h.deleted p h1 h2 h3)
  | attachVertexShader program shader =>
    simp only [RegistryOp.apply, Outcome.state, Option.some.injEq] at ho
    subst ho
    unfold cpu_attachVertexShader
    cases hq : g.programs program with
    | none => exact programInv_mono ops _ g h
    | some settings => exact programInv_update ops _ g program _ (by rw [hq]; simp) h
  | attachFragmentShader program shader =>
    simp only [RegistryOp.apply, Outcome.state, Option.some.injEq] at ho
    subst ho
    unfold cpu_attachFragmentShader
    cases hq : g.programs program with
    | none => exact programInv_mono ops _ g h
    | some settings => exact programInv_update ops _ g program _ (by rw [hq]; simp) h
  | useProgram program =>
    simp only [RegistryOp.apply, Outcome.state, Option.some.injEq] at ho
    subst ho
    unfold cpu_useProgram
    cases hq : g.programs program with
    | none => exact programInv_mono ops _ g h
    | some settings =>
      exact ⟨h.counter_pos, h.programs_bound,
        Or.inr (h.programs_bound program (by rw [hq]; simp)),
        fun p h1 h2 h3 => List.mem_append_left _ (h.deleted p h1 h2 h3)⟩
  | setAttributeInterpolation program attribIndex type interpolation =>
    simp only [RegistryOp.apply, cpu_setAttributeInterpolation] at ho
    split_ifs at ho
    · simp [Outcome.state] at ho
    · cases hq : g.programs program with
      | none =>
        rw [hq] at ho
        simp [Outcome.state] at ho
      | some settings =>
        rw [hq] at ho
        simp only [Outcome.state, Option.some.injEq] at ho
        subst ho
        exact programInv_update ops _ g program _ (by rw [hq]; simp) h

/-- One more operation of a run keeps what holds of the programs. -/
lemma step_programInv (MAX_ATTRIBUTES : ℕ) (ops : List RegistryOp) (r : RegistryRun)
    (op : RegistryOp) (h : ProgramInv ops r.state) :
    ProgramInv (ops ++ [op]) (r.step MAX_ATTRIBUTES op).state := by
  unfold RegistryRun.step
  by_cases ha : r.alive = true
  swap
  · simp only [ha, Bool.false_eq_true, if_false]
    exact programInv_mono ops op _ h
  simp only [ha, if_true]
  cases ho : (op.apply MAX_ATTRIBUTES r.state).outcome with
  | returned g =>
    exact apply_programInv MAX_ATTRIBUTES ops r.state g op h (by rw [ho]; rfl)
  | thrown g =>
    exact apply_programInv MAX_ATTRIBUTES ops r.state g op h (by rw [ho]; rfl)
  | exited => exact programInv_mono ops op _ h

/-- What holds of the programs after every run of the registry. -/
lemma runRegistry_programInv (MAX_ATTRIBUTES : ℕ) (ops : List RegistryOp) :
    ProgramInv ops (runRegistry MAX_ATTRIBUTES ops).state := by
  induction ops using List.reverseRecOn with
  | nil =>
    refine ⟨le_refl 1, ?_, Or.inl rfl, ?_⟩
    · intro p hp
      exact absurd rfl hp
    · intro p h1 h2 _
      have h2' : p < 1 := h2
      omega
  | append_singleton ops op ih =>
    have hstep : runRegistry MAX_ATTRIBUTES (ops ++ [op]) =
        (runRegistry MAX_ATTRIBUTES ops).step MAX_ATTRIBUTES op := by
      simp [runRegistry, List.foldl_append]
    rw [hstep]
    exact step_programInv MAX_ATTRIBUTES ops _ op ih

/-- C38 (amended): in every state reached from `cpu_createGPU` by registry operations,
the active program id is `0` or an identifier issued by `cpu_createProgram` (positive and
below the program counter), and no program has the identifier `0`.  The program with the
active id exists unless `cpu_deleteProgram` was called on that id, which does not reset
the active id; so `gpu_getActiveVertexShader` and `gpu_getActiveFragmentShader` are fatal
exactly when no program has the active id, which happens only while no program has been
activated or after the active program was deleted. -/
theorem activeProgram_issued_or_zero (MAX_ATTRIBUTES : ℕ) (ops : List RegistryOp) :
    ((runRegistry MAX_ATTRIBUTES ops).state.activeProgram = 0 ∨
      (1 ≤ (runRegistry MAX_ATTRIBUTES ops).state.activeProgram ∧
        (runRegistry MAX_ATTRIBUTES ops).state.activeProgram <
          (runRegistry MAX_ATTRIBUTES ops).state.programCounter)) ∧
    (runRegistry MAX_ATTRIBUTES ops).state.programs 0 = none ∧
    ((runRegistry MAX_ATTRIBUTES ops).state.programs
        (runRegistry MAX_ATTRIBUTES ops).state.activeProgram = none →
      (runRegistry MAX_ATTRIBUTES ops).state.activeProgram = 0 ∨
      RegistryOp.deleteProgram (runRegistry MAX_ATTRIBUTES ops).state.activeProgram ∈ ops) ∧
    (gpu_getActiveVertexShader (runRegistry MAX_ATTRIBUTES ops).state = none ↔
      (runRegistry MAX_ATTRIBUTES ops).state.programs
        (runRegistry MAX_ATTRIBUTES ops).state.activeProgram = none) ∧
    (gpu_getActiveFragmentShader (runRegistry MAX_ATTRIBUTES ops).state = none ↔
      (runRegistry MAX_ATTRIBUTES ops).state.programs
        (runRegistry MAX_ATTRIBUTES ops).state.activeProgram = none) := by
  have h := runRegistry_programInv MAX_ATTRIBUTES ops
  refine ⟨h.active_bound, ?_, ?_, ?_, ?_⟩
  · by_contra hc
    have := h.programs_bound 0 hc
    omega
  · intro hnone
    rcases h.active_bound with ha | ha
    · exact Or.inl ha
    · exact Or.inr (h.deleted _ ha.1 ha.2 hnone)
  · unfold gpu_getActiveVertexShader
    cases (runRegistry MAX_ATTRIBUTES ops).state.programs
      (runRegistry MAX_ATTRIBUTES ops).state.activeProgram <;> simp
  · unfold gpu_getActiveFragmentShader
    cases (runRegistry MAX_ATTRIBUTES ops).state.programs
      (runRegistry MAX_ATTRIBUTES ops).state.activeProgram <;> simp

/-- C38 (the claim as stated fails): after `cpu_createProgram` (which issues the id `1`),
`cpu_useProgram (1)` and `cpu_deleteProgram (1)` the process is alive, the active program
id is still `1`, which is not `0`, and no program has that id; the lookups of the active
shaders are fatal although a program has been activated. -/
theorem activeProgram_dangling_after_delete :
    (runRegistry 8 sampleOpsDeleted).alive = true ∧
    (runRegistry 8 sampleOpsDeleted).state.activeProgram = 1 ∧
    (runRegistry 8 sampleOpsDeleted).state.programs 1 = none ∧
    gpu_getActiveVertexShader (runRegistry 8 sampleOpsDeleted).state = none ∧
    gpu_getActiveFragmentShader (runRegistry 8 sampleOpsDeleted).state = none := by
  have hs : (runRegistry 8 sampleOpsDeleted).state.activeProgram = 1 ∧
      (runRegistry 8 sampleOpsDeleted).state.programs 1 = none ∧
      (runRegistry 8 sampleOpsDeleted).alive = true := by
    simp [runRegistry, sampleOpsDeleted, RegistryRun.step, RegistryOp.apply, cpu_createGPU,
      cpu_createProgram, cpu_useProgram, cpu_deleteProgram]
  refine ⟨hs.2.2, hs.1, hs.2.1, ?_, ?_⟩
  · unfold gpu_getActiveVertexShader
    rw [hs.1, hs.2.1]
  · unfold gpu_getActiveFragmentShader
    rw [hs.1, hs.2.1]

/-! ### Draw call -/

/-- A loop whose state is a counter and a value, unrolled `k` times: when the condition
holds at the first `k` counters, the loop makes `k` passes and goes on from the counter
reached. -/
lemma whileLoop_unroll {σ : Type} (cond : ℕ → Bool) (next : ℕ → ℕ) (step : ℕ → σ → Option σ)
    (fuel : ℕ) (k : ℕ) :
    ∀ (b : ℕ) (st : σ), (∀ j, j < k → cond (next^[j] b) = true) →
      whileLoop (fun s : ℕ × σ => cond s.1)
          (fun s => (step s.1 s.2).map (fun st => (next s.1, st))) (fuel + k) (b, st) =
        ((List.range k).foldlM (fun st j => step (next^[j] b) st) st).bind
          (fun st' => whileLoop (fun s : ℕ × σ => cond s.1)
            (fun s => (step s.1 s.2).map (fun st => (next s.1, st))) fuel (next^[k] b, st')) := by
  induction k with
  | zero =>
    intro b st _
    simp
  | succ k ih =>
    intro b st hc
    have h0 : cond b = true := hc 0 (Nat.succ_pos k)
    rw [show fuel + (k + 1) = (fuel + k) + 1 from rfl]
    rw [List.range_succ_eq_map, List.foldlM_cons]
    cases hs : step b st with
    | none =>
      simp [whileLoop, h0, hs]
    | some st1 =>
      rw [whileLoop_step _ _ (fuel + k) (b, st) (next b, st1) h0 (by simp [hs])]
      rw [ih (next b) st1 (fun j hj => by
        have := hc (j + 1) (Nat.succ_lt_succ hj)
        rwa [Function.iterate_succ_apply] at this)]
      simp only [Function.iterate_zero, id_eq, hs, Option.some_bind, List.foldlM_map,
        Function.iterate_succ_apply]
      rfl

/-- The base invocation after `j` passes of the loop of `cpu_drawTriangles`. -/
lemma drawTriangles_next_iterate (j : ℕ) : drawTriangles_next^[j] 0 = (3 * j) % 2 ^ 64 := by
  induction j with
  | zero => rfl
  | succ j ih =>
    rw [Function.iterate_succ_apply', ih]
    unfold drawTriangles_next VERTICES_PER_TRIANGLE
    omega


/-- Two bodies that agree on the elements of the list give the same fold. -/
lemma foldlM_congr_mem {σ α : Type} (L : List α) (f g : σ → α → Option σ)
    (h : ∀ x ∈ L, ∀ s, f s x = g s x) : ∀ s, L.foldlM f s = L.foldlM g s := by
  induction L with
  | nil => intro s; rfl
  | cons x rest ih =>
    intro s
    rw [List.foldlM_cons, List.foldlM_cons, h x (List.mem_cons_self x rest) s]
    cases g s x with
    | none => rfl
    | some s1 =>
      exact ih (fun y hy => h y (List.mem_cons_of_mem x hy)) s1

/-- The loop of `cpu_drawTriangles` for less than `2^64 - 1` vertices, with a bound of at
least `nofVertices / 3` passes: it makes one pass for each of the base invocations
`0, 3, ..., 3 * (nofVertices / 3 - 1)` and ends with the base `3 * (nofVertices / 3)`. -/
lemma drawTriangles_loop_eq (fuel : ℕ) (ctx : DrawContext)
    (puller : GPUVertexPullerConfiguration) (vertexShader : VertexShader)
    (width height nofVertices : ℕ) (st : DrawState)
    (hn : nofVertices + 1 < 2 ^ 64) (hfuel : nofVertices / 3 ≤ fuel) :
    drawTriangles_loop fuel ctx puller vertexShader width height nofVertices (0, st) =
      ((List.range (nofVertices / 3)).foldlM
        (fun st j => drawTriangles_triangle ctx puller vertexShader width height (3 * j) st)
        st).map (fun st' => (3 * (nofVertices / 3), st')) := by
  unfold drawTriangles_loop
  obtain ⟨f, rfl⟩ : ∃ f, fuel = f + nofVertices / 3 := ⟨fuel - nofVertices / 3, by omega⟩
  have hcond : ∀ j, j < nofVertices / 3 →
      drawTriangles_continues nofVertices (drawTriangles_next^[j] 0) = true := by
    intro j hj
    rw [drawTriangles_next_iterate]
    unfold drawTriangles_continues VERTICES_PER_TRIANGLE
    rw [decide_eq_true_iff]
    omega
  rw [whileLoop_unroll (drawTriangles_continues nofVertices) drawTriangles_next
    (drawTriangles_triangle ctx puller vertexShader width height) f (nofVertices / 3) 0 st hcond]
  have hfold : (List.range (nofVertices / 3)).foldlM
      (fun st j => drawTriangles_triangle ctx puller vertexShader width height
        (drawTriangles_next^[j] 0) st) st =
      (List.range (nofVertices / 3)).foldlM
        (fun st j => drawTriangles_triangle ctx puller vertexShader width height (3 * j) st)
        st := by
    apply foldlM_congr_mem
    intro j hj s
    have hj' := List.mem_range.mp hj
    rw [drawTriangles_next_iterate]
    have : (3 * j) % 2 ^ 64 = 3 * j := by omega
    rw [this]
  rw [hfold]
  cases (List.range (nofVertices / 3)).foldlM
      (fun st j => drawTriangles_triangle ctx puller vertexShader width height (3 * j) st)
      st with
  | none => rfl
  | some st' =>
    simp only [Option.some_bind, Option.map_some']
    rw [whileLoop_done]
    · rw [drawTriangles_next_iterate]
      have : (3 * (nofVertices / 3)) % 2 ^ 64 = 3 * (nofVertices / 3) := by omega
      rw [this]
    · show drawTriangles_continues nofVertices (drawTriangles_next^[nofVertices / 3] 0) = false
      rw [drawTriangles_next_iterate]
      unfold drawTriangles_continues VERTICES_PER_TRIANGLE
      rw [decide_eq_false_iff_not]
      omega

/-- An assembly of three vertices that returns has made its three index reads, and its
record holds the three vertex shader calls for the vertex ids read. -/
lemma runPrimitiveAssembly_some (MAX_ATTRIBUTES : ℕ) (readIndices : ℕ → List VertexIndex)
    (primitive : GPUPrimitive) (puller : GPUVertexPullerConfiguration)
    (b : VertexShaderInvocation) (vertexShader : VertexShader) (a : AssemblyState)
    (h : gpu_runPrimitiveAssembly MAX_ATTRIBUTES readIndices primitive 3 puller b
      vertexShader = some a) :
    ∃ ids : ℕ → VertexIndex,
      (∀ i, i < 3 →
        gpu_computeGLVertexID (indexArray readIndices puller.indices) (b + i) =
          some (ids i)) ∧
      a.calls = (List.range 3).map (fun i => (i, assemblyInput MAX_ATTRIBUTES puller (ids i))) ∧
      ∀ u : Fin 3, a.primitive.vertices u =
        vertexShader (primitive.vertices u) (assemblyInput MAX_ATTRIBUTES puller (ids u.val)) := by
  cases h0 : gpu_computeGLVertexID (indexArray readIndices puller.indices) (b + 0) with
  | none =>
    unfold gpu_runPrimitiveAssembly at h
    rw [forLoop_three] at h
    simp [gpu_runVertexPuller, h0] at h
    simp at h0
    simp [h0] at h
  | some id0 =>
    cases h1 : gpu_computeGLVertexID (indexArray readIndices puller.indices) (b + 1) with
    | none =>
      unfold gpu_runPrimitiveAssembly at h
      rw [forLoop_three] at h
      have h0' := h0
      simp only [Nat.add_zero] at h0'
      simp [gpu_runVertexPuller, h0', h1] at h
    | some id1 =>
      cases h2 : gpu_computeGLVertexID (indexArray readIndices puller.indices) (b + 2) with
      | none =>
        unfold gpu_runPrimitiveAssembly at h
        rw [forLoop_three] at h
        have h0' := h0
        simp only [Nat.add_zero] at h0'
        simp [gpu_runVertexPuller, h0', h1, h2] at h
      | some id2 =>
        have hid : ∀ i, i < 3 →
            gpu_computeGLVertexID (indexArray readIndices puller.indices) (b + i) =
              some ((fun i => if i = 0 then id0 else if i = 1 then id1 else id2) i) := by
          intro i hi
          interval_cases i
          · exact h0
          · exact h1
          · exact h2
        refine ⟨_, hid, ?_, ?_⟩
        · unfold gpu_runPrimitiveAssembly at h
          simp only [runPrimitiveAssembly_loop MAX_ATTRIBUTES readIndices primitive puller b
            vertexShader _ 3 (le_refl 3) hid, Option.some.injEq] at h
          rw [← h]
        · intro u
          unfold gpu_runPrimitiveAssembly at h
          simp only [runPrimitiveAssembly_loop MAX_ATTRIBUTES readIndices primitive puller b
            vertexShader _ 3 (le_refl 3) hid, Option.some.injEq] at h
          rw [← h]
          simp only [u.isLt, if_true]


/-- A pass of the loop of `cpu_drawTriangles` that returns appends the record of one
triangle, assembled from the invocations `base`, `base + 1`, `base + 2`. -/
lemma drawTriangles_triangle_record (ctx : DrawContext)
    (puller : GPUVertexPullerConfiguration) (vertexShader : VertexShader)
    (width height base : ℕ) (st st' : DrawState)
    (h : drawTriangles_triangle ctx puller vertexShader width height base st = some st') :
    ∃ calls, st'.assemblies = st.assemblies ++ [(base, calls)] ∧
      AssembledFrom ctx.MAX_ATTRIBUTES ctx.readIndices puller (base, calls) := by
  unfold drawTriangles_triangle at h
  cases hp : gpu_initPrimitive ctx.MAX_ATTRIBUTES ctx.activeProgram ctx.localPrimitive with
  | none =>
    rw [hp] at h
    exact absurd h (by simp)
  | some primitive =>
    rw [hp] at h
    dsimp only at h
    cases ha : gpu_runPrimitiveAssembly ctx.MAX_ATTRIBUTES ctx.readIndices primitive
        VERTICES_PER_TRIANGLE puller base vertexShader with
    | none =>
      rw [ha] at h
      exact absurd h (by simp)
    | some assembled =>
      rw [ha] at h
      dsimp only at h
      obtain ⟨ids, hid, hcalls, _⟩ := runPrimitiveAssembly_some ctx.MAX_ATTRIBUTES
        ctx.readIndices primitive puller base vertexShader assembled ha
      cases hf : (gpu_runTriangleClipping (gpu_initTriangle assembled.primitive)).foldlM
          (drawTriangles_subPrimitive ctx assembled.primitive width height)
          st.framebuffer with
      | none =>
        rw [hf] at h
        exact absurd h (by simp)
      | some framebuffer =>
        rw [hf] at h
        simp only [Option.some.injEq] at h
        refine ⟨assembled.calls, by rw [← h], ids, hid, ?_⟩
        rw [hcalls]
        rfl

/-- The records of a sequence of passes that returns: their base invocations are those
of the passes, in order, after those recorded before. -/
lemma drawTriangles_fold_records (ctx : DrawContext)
    (puller : GPUVertexPullerConfiguration) (vertexShader : VertexShader)
    (width height : ℕ) (bases : List ℕ) :
    ∀ st st' : DrawState,
      bases.foldlM
        (fun st base => drawTriangles_triangle ctx puller vertexShader width height base st)
        st = some st' →
      st'.assemblies.map Prod.fst = st.assemblies.map Prod.fst ++ bases ∧
      ∀ r ∈ st'.assemblies, r ∈ st.assemblies ∨
        AssembledFrom ctx.MAX_ATTRIBUTES ctx.readIndices puller r := by
  induction bases with
  | nil =>
    intro st st' h
    simp only [List.foldlM_nil] at h
    rw [← Option.some.inj h]
    exact ⟨by simp, fun r hr => Or.inl hr⟩
  | cons base rest ih =>
    intro st st' h
    rw [List.foldlM_cons] at h
    cases h1 : drawTriangles_triangle ctx puller vertexShader width height base st with
    | none =>
      rw [h1] at h
      exact absurd h (by simp)
    | some st1 =>
      rw [h1] at h
      obtain ⟨calls, hrec, hgood⟩ := drawTriangles_triangle_record ctx puller vertexShader
        width height base st st1 h1
      obtain ⟨e1, e2⟩ := ih st1 st' h
      constructor
      · rw [e1, hrec]
        simp
      · intro r hr
        rcases e2 r hr with hr1 | hr1
        · rw [hrec] at hr1
          rcases List.mem_append.mp hr1 with hr2 | hr2
          · exact Or.inl hr2
          · rw [List.mem_singleton] at hr2
            rw [hr2]
            exact Or.inr hgood
        · exact Or.inr hr1

/-- The function `gpu_initPrimitive` returns when the active program exists. -/
lemma initPrimitive_some (MAX_ATTRIBUTES : ℕ) (settings : ProgramSettings)
    (primitive : GPUPrimitive) :
    ∃ pr, gpu_initPrimitive MAX_ATTRIBUTES (some settings) primitive = some pr := by
  unfold gpu_initPrimitive
  induction MAX_ATTRIBUTES with
  | zero => exact ⟨primitive, rfl⟩
  | succ n ih =>
    obtain ⟨pr, hpr⟩ := ih
    rw [forLoop_succ, hpr]
    exact ⟨_, rfl⟩

/-- A pass of the loop of `cpu_drawTriangles` in a draw without indexing whose vertex
shader puts every vertex behind the near plane: the triangle is assembled, nothing is
left of it after clipping, and the frame buffer is kept. -/
lemma drawTriangles_triangle_hidden (ctx : DrawContext)
    (puller : GPUVertexPullerConfiguration) (vertexShader : VertexShader)
    (width height base : ℕ) (st : DrawState) (settings : ProgramSettings)
    (hprog : ctx.activeProgram = some settings) (hidx : puller.indices = 0)
    (hvs : ∀ out inp, ¬ inNearHalfSpace (vertexShader out inp).gl_Position) :
    drawTriangles_triangle ctx puller vertexShader width height base st =
      some { framebuffer := st.framebuffer,
             assemblies := st.assemblies ++ [plainAssembly ctx.MAX_ATTRIBUTES puller base] } := by
  unfold drawTriangles_triangle
  rw [hprog]
  obtain ⟨pr, hpr⟩ := initPrimitive_some ctx.MAX_ATTRIBUTES settings ctx.localPrimitive
  rw [hpr]
  dsimp only
  have hid : ∀ i, i < 3 →
      gpu_computeGLVertexID (indexArray ctx.readIndices puller.indices) (base + i) =
        some ((fun i => base + i) i) := by
    intro i _
    simp [indexArray, gpu_computeGLVertexID, hidx]
  have hasm : gpu_runPrimitiveAssembly ctx.MAX_ATTRIBUTES ctx.readIndices pr
      VERTICES_PER_TRIANGLE puller base vertexShader =
      some { primitive := { pr with
                vertices := fun u =>
                  if u.val < 3 then
                    vertexShader (pr.vertices u)
                      (assemblyInput ctx.MAX_ATTRIBUTES puller (base + u.val))
                  else pr.vertices u,
                nofUsedVertices := 3 },
             calls := (List.range 3).map
               (fun i => (i, assemblyInput ctx.MAX_ATTRIBUTES puller (base + i))) } := by
    unfold gpu_runPrimitiveAssembly VERTICES_PER_TRIANGLE
    simp only [runPrimitiveAssembly_loop ctx.MAX_ATTRIBUTES ctx.readIndices pr puller base
      vertexShader _ 3 (le_refl 3) hid]
  rw [hasm]
  dsimp only
  have hclip : ∀ T : GPUTriangle, (∀ u : Fin 3, ¬ inNearHalfSpace (T.positions u)) →
      gpu_runTriangleClipping T = [] := by
    intro T hnot
    rw [runTriangleClipping_eq]
    simp [hnot 0, hnot 1, hnot 2]
  rw [hclip _ (fun u => by
    simp only [gpu_initTriangle, copy_Vec4, u.isLt, if_true]
    exact hvs _ _)]
  rfl

/-- A sequence of passes of the loop of `cpu_drawTriangles` in a draw without indexing
whose vertex shader puts every vertex behind the near plane returns, with the records of
all passes. -/
lemma drawTriangles_fold_hidden (ctx : DrawContext)
    (puller : GPUVertexPullerConfiguration) (vertexShader : VertexShader)
    (width height : ℕ) (settings : ProgramSettings)
    (hprog : ctx.activeProgram = some settings) (hidx : puller.indices = 0)
    (hvs : ∀ out inp, ¬ inNearHalfSpace (vertexShader out inp).gl_Position)
    (bases : List ℕ) :
    ∀ st : DrawState,
      bases.foldlM
        (fun st base => drawTriangles_triangle ctx puller vertexShader width height base st)
        st =
      some { framebuffer := st.framebuffer,
             assemblies := st.assemblies ++
               bases.map (plainAssembly ctx.MAX_ATTRIBUTES puller) } := by
  induction bases with
  | nil =>
    intro st
    simp only [List.foldlM_nil, List.map_nil, List.append_nil]
    rfl
  | cons base rest ih =>
    intro st
    rw [List.foldlM_cons, drawTriangles_triangle_hidden ctx puller vertexShader width height
      base st settings hprog hidx hvs]
    simp [ih]


/-- The record of the assemblies only grows in the loop of `cpu_drawTriangles`. -/
lemma drawTriangles_loop_length (ctx : DrawContext)
    (puller : GPUVertexPullerConfiguration) (vertexShader : VertexShader)
    (width height nofVertices : ℕ) (fuel : ℕ) :
    ∀ s s' : ℕ × DrawState,
      drawTriangles_loop fuel ctx puller vertexShader width height nofVertices s = some s' →
      s.2.assemblies.length ≤ s'.2.assemblies.length := by
  unfold drawTriangles_loop
  induction fuel with
  | zero =>
    intro s s' h
    unfold whileLoop at h
    split_ifs at h
    rw [← Option.some.inj h]
  | succ fuel ih =>
    intro s s' h
    unfold whileLoop at h
    split_ifs at h
    · cases h1 : drawTriangles_triangle ctx puller vertexShader width height s.1 s.2 with
      | none =>
        simp [h1] at h
      | some st1 =>
        simp only [h1, Option.map_some'] at h
        obtain ⟨calls, hrec, _⟩ := drawTriangles_triangle_record ctx puller vertexShader
          width height s.1 s.2 st1 h1
        have h2 := ih _ s' h
        simp only [hrec, List.length_append, List.length_singleton] at h2
        omega
    · rw [← Option.some.inj h]

/-- C33 (amended): for every number of vertices `n` below `2^64 - 1` (every `size_t` but
the largest) and a bound of at least `n / 3` passes, `cpu_drawTriangles (gpu, n)` is the
sequence of `n / 3` passes of its loop body for the base invocations `0, 3, 6, ...`; when
it returns, it has assembled exactly `n / 3` triangles, the `j`-th from the vertex shader
invocations `3 j`, `3 j + 1`, `3 j + 2` in that order, and no invocation from
`3 * (n / 3)` on, so none of the trailing `n mod 3` vertices, is passed to the vertex
shader.  It returns, for example, in a draw without indexing whose vertex shader puts
every vertex behind the near plane. -/
theorem drawTriangles_triples (fuel : ℕ) (ctx : DrawContext) (g : Framebuffer)
    (nofVertices : ℕ) (puller : GPUVertexPullerConfiguration) (vertexShader : VertexShader)
    (hp : ctx.activePuller = some puller) (hv : ctx.activeVertexShader = some vertexShader)
    (hn : nofVertices + 1 < 2 ^ 64) (hfuel : nofVertices / 3 ≤ fuel) :
    cpu_drawTriangles fuel ctx g nofVertices =
      (List.range (nofVertices / 3)).foldlM
        (fun st j => drawTriangles_triangle ctx puller vertexShader g.viewportWidth
          g.viewportHeight (3 * j) st)
        { framebuffer := g, assemblies := [] } ∧
    (∀ st', cpu_drawTriangles fuel ctx g nofVertices = some st' →
      st'.assemblies.length = nofVertices / 3 ∧
      st'.assemblies.map Prod.fst = (List.range (nofVertices / 3)).map (fun j => 3 * j) ∧
      (∀ r ∈ st'.assemblies, AssembledFrom ctx.MAX_ATTRIBUTES ctx.readIndices puller r) ∧
      ∀ r ∈ st'.assemblies, ∀ i, i < 3 → r.1 + i < 3 * (nofVertices / 3)) ∧
    (∀ settings, ctx.activeProgram = some settings → puller.indices = 0 →
      (∀ out inp, ¬ inNearHalfSpace (vertexShader out inp).gl_Position) →
      cpu_drawTriangles fuel ctx g nofVertices =
        some { framebuffer := g,
               assemblies := (List.range (nofVertices / 3)).map
                 (fun j => plainAssembly ctx.MAX_ATTRIBUTES puller (3 * j)) }) := by
  have hclosed : cpu_drawTriangles fuel ctx g nofVertices =
      (List.range (nofVertices / 3)).foldlM
        (fun st j => drawTriangles_triangle ctx puller vertexShader g.viewportWidth
          g.viewportHeight (3 * j) st)
        { framebuffer := g, assemblies := [] } := by
    unfold cpu_drawTriangles
    rw [hp, hv]
    dsimp only
    rw [drawTriangles_loop_eq fuel ctx puller vertexShader g.viewportWidth g.viewportHeight
      nofVertices _ hn hfuel]
    cases (List.range (nofVertices / 3)).foldlM
      (fun st j => drawTriangles_triangle ctx puller vertexShader g.viewportWidth
        g.viewportHeight (3 * j) st)
      { framebuffer := g, assemblies := [] } <;> rfl
  have hmap : (List.range (nofVertices / 3)).foldlM
      (fun st j => drawTriangles_triangle ctx puller vertexShader g.viewportWidth
        g.viewportHeight (3 * j) st)
      { framebuffer := g, assemblies := [] } =
      ((List.range (nofVertices / 3)).map (fun j => 3 * j)).foldlM
        (fun st base => drawTriangles_triangle ctx puller vertexShader g.viewportWidth
          g.viewportHeight base st)
        { framebuffer := g, assemblies := [] } := by
    rw [List.foldlM_map]
  refine ⟨hclosed, ?_, ?_⟩
  · intro st' hst
    rw [hclosed, hmap] at hst
    obtain ⟨e1, e2⟩ := drawTriangles_fold_records ctx puller vertexShader g.viewportWidth
      g.viewportHeight _ _ st' hst
    simp only [List.map_nil, List.nil_append] at e1
    have hlen : st'.assemblies.length = nofVertices / 3 := by
      have := congrArg List.length e1
      simpa using this
    refine ⟨hlen, e1, ?_, ?_⟩
    · intro r hr
      rcases e2 r hr with h1 | h1
      · exact absurd h1 (List.not_mem_nil r)
      · exact h1
    · intro r hr i hi
      have hmem : r.1 ∈ st'.assemblies.map Prod.fst := List.mem_map_of_mem Prod.fst hr
      rw [e1] at hmem
      obtain ⟨j, hj, hj2⟩ := List.mem_map.mp hmem
      have hj3 : 3 * j = r.1 := hj2
      have hj4 : j < nofVertices / 3 := List.mem_range.mp hj
      omega
  · intro settings hprog hidx hvs
    rw [hclosed, hmap, drawTriangles_fold_hidden ctx puller vertexShader g.viewportWidth
      g.viewportHeight settings hprog hidx hvs]
    simp [List.map_map, Function.comp_def]

/-- The hidden vertex shader puts every vertex behind the near plane. -/
lemma sampleHiddenVertexShader_hidden (out : GPUVertexShaderOutput)
    (inp : GPUVertexShaderInput) :
    ¬ inNearHalfSpace (sampleHiddenVertexShader out inp).gl_Position := by
  simp only [inNearHalfSpace, sampleHiddenVertexShader, vec4_val2, vec4_val3]
  norm_num

/-- A draw of seven vertices with the sample context assembles two triangles, from the
base invocations `0` and `3`, and returns. -/
theorem drawTriangles_triples_witness :
    sampleDrawContext.activePuller = some samplePlainPuller ∧
    sampleDrawContext.activeVertexShader = some sampleHiddenVertexShader ∧
    7 + 1 < 2 ^ 64 ∧ 7 / 3 ≤ 2 ∧
    cpu_drawTriangles 2 sampleDrawContext sampleApexFramebuffer 7 =
      some { framebuffer := sampleApexFramebuffer,
             assemblies := (List.range (7 / 3)).map
               (fun j => plainAssembly sampleDrawContext.MAX_ATTRIBUTES samplePlainPuller
                 (3 * j)) } ∧
    (List.range (7 / 3)).map (fun j => 3 * j) = [0, 3] :=
  ⟨rfl, rfl, by norm_num, by norm_num,
    (drawTriangles_triples 2 sampleDrawContext sampleApexFramebuffer 7 samplePlainPuller
      sampleHiddenVertexShader rfl rfl (by norm_num) (by norm_num)).2.2 _ rfl rfl
      sampleHiddenVertexShader_hidden,
    by decide⟩

/-- C33 (the claim as stated fails for the largest `size_t`): for `n = 2^64 - 1` the base
invocation after `n / 3` passes is `3 * (n / 3) = 2^64 - 1`, and the condition
`base + 3 - 1 < n` of the loop holds there, because `base + 2` wraps around to `1`.  In
the sample draw, which returns from every pass, `cpu_drawTriangles` makes the pass number
`n / 3 + 1`, assembling a triangle from the base invocation `2^64 - 1`, and goes on with
the base `2`; whenever it returns, it has assembled more than `n / 3` triangles. -/
theorem drawTriangles_size_max_wraps :
    3 * ((2 ^ 64 - 1) / 3) = 2 ^ 64 - 1 ∧
    drawTriangles_continues (2 ^ 64 - 1) (2 ^ 64 - 1) = true ∧
    drawTriangles_next (2 ^ 64 - 1) = 2 ∧
    (∀ fuel, cpu_drawTriangles (fuel + ((2 ^ 64 - 1) / 3 + 1)) sampleDrawContext
        sampleApexFramebuffer (2 ^ 64 - 1) =
      (drawTriangles_loop fuel sampleDrawContext samplePlainPuller sampleHiddenVertexShader
        5 4 (2 ^ 64 - 1)
        (2, hiddenDrawState 8 samplePlainPuller sampleApexFramebuffer
          ((2 ^ 64 - 1) / 3 + 1))).map Prod.snd) ∧
    (hiddenDrawState 8 samplePlainPuller sampleApexFramebuffer
      ((2 ^ 64 - 1) / 3 + 1)).assemblies.length = (2 ^ 64 - 1) / 3 + 1 ∧
    (∀ fuel st', cpu_drawTriangles fuel sampleDrawContext sampleApexFramebuffer
        (2 ^ 64 - 1) = some st' → (2 ^ 64 - 1) / 3 < st'.assemblies.length) := by
  have hcond : ∀ j, j < (2 ^ 64 - 1) / 3 + 1 →
      drawTriangles_continues (2 ^ 64 - 1) (drawTriangles_next^[j] 0) = true := by
    intro j hj
    rw [drawTriangles_next_iterate]
    have h3 : 3 * j < 2 ^ 64 := by omega
    rw [Nat.mod_eq_of_lt h3]
    unfold drawTriangles_continues VERTICES_PER_TRIANGLE
    rw [decide_eq_true_iff]
    by_cases hK : j = (2 ^ 64 - 1) / 3
    · rw [hK]
      norm_num
    · have h4 : 3 * j + 3 - 1 < 2 ^ 64 - 1 := by omega
      rw [Nat.mod_eq_of_lt (by omega)]
      exact h4
  have hbases : ∀ (k : ℕ), k ≤ (2 ^ 64 - 1) / 3 + 1 → ∀ st : DrawState,
      (List.range k).foldlM
        (fun st j => drawTriangles_triangle sampleDrawContext samplePlainPuller
          sampleHiddenVertexShader 5 4 (drawTriangles_next^[j] 0) st) st =
      some { framebuffer := st.framebuffer,
             assemblies := st.assemblies ++
               (List.range k).map (fun j => plainAssembly 8 samplePlainPuller (3 * j)) } := by
    intro k hk st
    have h1 : (List.range k).foldlM
        (fun st j => drawTriangles_triangle sampleDrawContext samplePlainPuller
          sampleHiddenVertexShader 5 4 (drawTriangles_next^[j] 0) st) st =
        (List.range k).foldlM
          (fun st j => drawTriangles_triangle sampleDrawContext samplePlainPuller
            sampleHiddenVertexShader 5 4 (3 * j) st) st := by
      apply foldlM_congr_mem
      intro j hj s
      have hj' := List.mem_range.mp hj
      rw [drawTriangles_next_iterate]
      have : (3 * j) % 2 ^ 64 = 3 * j := Nat.mod_eq_of_lt (by omega)
      rw [this]
    rw [h1, ← List.foldlM_map (fun j => 3 * j)
      (fun st base => drawTriangles_triangle sampleDrawContext samplePlainPuller
        sampleHiddenVertexShader 5 4 base st),
      drawTriangles_fold_hidden sampleDrawContext samplePlainPuller sampleHiddenVertexShader
        5 4 _ rfl rfl sampleHiddenVertexShader_hidden]
    simp only [List.map_map, Function.comp_def]
    rfl
  have hunroll : ∀ (fuel k : ℕ), k ≤ (2 ^ 64 - 1) / 3 + 1 →
      cpu_drawTriangles (fuel + k) sampleDrawContext sampleApexFramebuffer (2 ^ 64 - 1) =
      (drawTriangles_loop fuel sampleDrawContext samplePlainPuller sampleHiddenVertexShader
        5 4 (2 ^ 64 - 1)
        ((3 * k) % 2 ^ 64,
          hiddenDrawState 8 samplePlainPuller sampleApexFramebuffer k)).map Prod.snd := by
    intro fuel k hk
    show Option.map Prod.snd (drawTriangles_loop (fuel + k) sampleDrawContext samplePlainPuller
      sampleHiddenVertexShader 5 4 (2 ^ 64 - 1)
      (0, { framebuffer := sampleApexFramebuffer, assemblies := [] })) = _
    unfold drawTriangles_loop
    rw [whileLoop_unroll (drawTriangles_continues (2 ^ 64 - 1)) drawTriangles_next
      (drawTriangles_triangle sampleDrawContext samplePlainPuller sampleHiddenVertexShader 5 4)
      fuel k 0 _ (fun j hj => hcond j (by omega))]
    rw [hbases k hk]
    simp only [Option.some_bind, List.nil_append, drawTriangles_next_iterate]
    rfl
  refine ⟨by norm_num, ?_, ?_, ?_, ?_, ?_⟩
  · unfold drawTriangles_continues VERTICES_PER_TRIANGLE
    rw [decide_eq_true_iff]
    norm_num
  · unfold drawTriangles_next VERTICES_PER_TRIANGLE
    norm_num
  · intro fuel
    rw [hunroll fuel _ (le_refl _)]
    have : (3 * ((2 ^ 64 - 1) / 3 + 1)) % 2 ^ 64 = 2 := by norm_num
    rw [this]
  · unfold hiddenDrawState
    rw [List.length_map, List.length_range]
  · intro fuel st' hst
    by_cases hf : fuel < (2 ^ 64 - 1) / 3 + 1
    · have h0 := hunroll 0 fuel (le_of_lt hf)
      rw [Nat.zero_add] at h0
      rw [h0] at hst
      unfold drawTriangles_loop whileLoop at hst
      have hc : drawTriangles_continues (2 ^ 64 - 1) ((3 * fuel) % 2 ^ 64) = true := by
        have := hcond fuel hf
        rwa [drawTriangles_next_iterate] at this
      simp only [hc, if_true, Option.map_none'] at hst
      exact absurd hst (by simp)
    · obtain ⟨f, rfl⟩ : ∃ f, fuel = f + ((2 ^ 64 - 1) / 3 + 1) :=
        ⟨fuel - ((2 ^ 64 - 1) / 3 + 1), by omega⟩
      rw [hunroll f _ (le_refl _)] at hst
      cases hl : drawTriangles_loop f sampleDrawContext samplePlainPuller
          sampleHiddenVertexShader 5 4 (2 ^ 64 - 1)
          ((3 * ((2 ^ 64 - 1) / 3 + 1)) % 2 ^ 64,
            hiddenDrawState 8 samplePlainPuller sampleApexFramebuffer
              ((2 ^ 64 - 1) / 3 + 1)) with
      | none =>
        rw [hl] at hst
        exact absurd hst (by simp)
      | some s' =>
        rw [hl] at hst
        have hlen := drawTriangles_loop_length sampleDrawContext samplePlainPuller
          sampleHiddenVertexShader 5 4 (2 ^ 64 - 1) f _ s' hl
        simp only [Option.map_some', Option.some.injEq] at hst
        rw [← hst]
        have hl2 : (hiddenDrawState 8 samplePlainPuller sampleApexFramebuffer
            ((2 ^ 64 - 1) / 3 + 1)).assemblies.length = (2 ^ 64 - 1) / 3 + 1 := by
          unfold hiddenDrawState
          rw [List.length_map, List.length_range]
        rw [hl2] at hlen
        exact Nat.lt_of_succ_le hlen

/-! ### Viewport size -/

/-- A call of `vector::resize(n)` returns exactly when the vector is resizable to `n`. -/
lemma vectorResize_isSome {α : Type} (elementSize : ℕ) (allocates : ℕ → Bool)
    (v : List α) (n : ℕ) (fill : α) :
    (∃ v', vectorResize elementSize allocates v n fill = some v') ↔
      Resizable elementSize allocates v.length n := by
  unfold vectorResize Resizable
  by_cases h1 : n ≤ v.length
  · simp [h1]
  · by_cases h2 : vectorMaxSize elementSize < n
    · simp [h1, h2, not_le.mpr h2]
    · by_cases h3 : allocates (n * elementSize) = true
      · simp [h1, h2, h3, not_lt.mp h2]
      · simp [h1, h2, h3]

/-- The vector has `n` elements after `vector::resize(n)` has returned. -/
lemma vectorResize_length {α : Type} (elementSize : ℕ) (allocates : ℕ → Bool)
    (v v' : List α) (n : ℕ) (fill : α)
    (h : vectorResize elementSize allocates v n fill = some v') : v'.length = n := by
  unfold vectorResize at h
  split_ifs at h with h1 h2 h3
  · rw [← Option.some.inj h, List.length_take]
    omega
  · rw [← Option.some.inj h, List.length_append, List.length_replicate]
    omega

/-- The outcome of `cpu_setViewportSize` by the outcomes of the two calls of
`vector::resize`. -/
lemma setViewportSize_cases (allocates : ℕ → Bool) (g : Framebuffer) (width height : ℕ) :
    (vectorResize sizeofVec4 allocates g.colorBuffer ((width * height) % 2 ^ 64)
        zeroVec4 = none ∧
      cpu_setViewportSize allocates g width height =
        .thrown { g with viewportWidth := width, viewportHeight := height }) ∨
    (∃ colorBuffer,
      vectorResize sizeofVec4 allocates g.colorBuffer ((width * height) % 2 ^ 64)
        zeroVec4 = some colorBuffer ∧
      vectorResize sizeofFloat allocates g.depthBuffer ((width * height) % 2 ^ 64) 0 =
        none ∧
      cpu_setViewportSize allocates g width height =
        .thrown { g with viewportWidth := width, viewportHeight := height,
                         colorBuffer := colorBuffer }) ∨
    (∃ colorBuffer depthBuffer,
      vectorResize sizeofVec4 allocates g.colorBuffer ((width * height) % 2 ^ 64)
        zeroVec4 = some colorBuffer ∧
      vectorResize sizeofFloat allocates g.depthBuffer ((width * height) % 2 ^ 64) 0 =
        some depthBuffer ∧
      cpu_setViewportSize allocates g width height =
        .returned { viewportWidth := width, viewportHeight := height,
                    depthBuffer := depthBuffer, colorBuffer := colorBuffer }) := by
  unfold cpu_setViewportSize
  dsimp only
  cases hc : vectorResize sizeofVec4 allocates g.colorBuffer ((width * height) % 2 ^ 64)
      zeroVec4 with
  | none => exact Or.inl ⟨rfl, rfl⟩
  | some colorBuffer =>
    cases hd : vectorResize sizeofFloat allocates g.depthBuffer
        ((width * height) % 2 ^ 64) 0 with
    | none => exact Or.inr (Or.inl ⟨colorBuffer, rfl, rfl, rfl⟩)
    | some depthBuffer => exact Or.inr (Or.inr ⟨colorBuffer, depthBuffer, rfl, rfl, rfl⟩)

/-- The members of the frame buffer after `cpu_setViewportSize` has returned. -/
lemma setViewportSize_fields (allocates : ℕ → Bool) (g g' : Framebuffer)
    (width height : ℕ) (h : cpu_setViewportSize allocates g width height = .returned g') :
    g'.viewportWidth = width ∧ g'.viewportHeight = height ∧
    g'.colorBuffer.length = (width * height) % 2 ^ 64 ∧
    g'.depthBuffer.length = (width * height) % 2 ^ 64 := by
  rcases setViewportSize_cases allocates g width height with
    ⟨_, h1⟩ | ⟨c, _, _, h1⟩ | ⟨c, d, hc, hd, h1⟩
  · rw [h1] at h
    exact ViewportOutcome.noConfusion h
  · rw [h1] at h
    exact ViewportOutcome.noConfusion h
  · rw [h1] at h
    rw [← ViewportOutcome.returned.inj h]
    exact ⟨rfl, rfl, vectorResize_length _ _ _ _ _ _ hc, vectorResize_length _ _ _ _ _ _ hd⟩

/-- The call `cpu_setViewportSize` returns exactly when both buffers are resizable. -/
lemma setViewportSize_returns_iff (allocates : ℕ → Bool) (g : Framebuffer)
    (width height : ℕ) :
    (∃ g', cpu_setViewportSize allocates g width height = .returned g') ↔
      Resizable sizeofVec4 allocates g.colorBuffer.length ((width * height) % 2 ^ 64) ∧
      Resizable sizeofFloat allocates g.depthBuffer.length ((width * height) % 2 ^ 64) := by
  rw [← vectorResize_isSome sizeofVec4 allocates g.colorBuffer _ zeroVec4,
    ← vectorResize_isSome sizeofFloat allocates g.depthBuffer _ 0]
  rcases setViewportSize_cases allocates g width height with
    ⟨hc, h1⟩ | ⟨c, hc, hd, h1⟩ | ⟨c, d, hc, hd, h1⟩
  · rw [h1, hc]
    simp
  · rw [h1, hd]
    simp
  · rw [h1, hc, hd]
    simp

/-- C32 (amended: the product fits a `size_t` and the call returns): for `w * h < 2^64`,
`cpu_setViewportSize(w, h)` returns exactly when both calls of `vector::resize(w * h)`
return, and it leaves by `std::length_error`, with the size stored and both buffers as
they were, when the colour buffer would have to grow beyond `max_size()`.  After the call
has returned, the viewport has the size `w × h` and the colour buffer and the depth
buffer have `w * h` entries each.  For `x < w` and `y < h` the index of the pixel is
`y * w + x`, which is less than `w * h` and is not the sentinel, and the four pixel
accessors return; pixels of the viewport with the same index are the same pixel.  For
`x ≥ w` or `y ≥ h` the index is the sentinel `outOfRange`, and the four pixel accessors
end the program.  No index less than `w * h` is the sentinel. -/
theorem setViewportSize_pixels (allocates : ℕ → Bool) (g : Framebuffer) (width height : ℕ)
    (hsz : width * height < 2 ^ 64) :
    ((∃ g', cpu_setViewportSize allocates g width height = .returned g') ↔
      Resizable sizeofVec4 allocates g.colorBuffer.length (width * height) ∧
      Resizable sizeofFloat allocates g.depthBuffer.length (width * height)) ∧
    (g.colorBuffer.length < width * height → vectorMaxSize sizeofVec4 < width * height →
      cpu_setViewportSize allocates g width height =
        .thrown { g with viewportWidth := width, viewportHeight := height }) ∧
    (∀ g', cpu_setViewportSize allocates g width height = .returned g' →
      g'.viewportWidth = width ∧
      g'.viewportHeight = height ∧
      g'.colorBuffer.length = width * height ∧
      g'.depthBuffer.length = width * height ∧
      (∀ x y, x < width → y < height →
        getLinearPixelCoord g' x y = y * width + x ∧
        y * width + x < width * height ∧
        getLinearPixelCoord g' x y ≠ outOfRange ∧
        (∃ c, cpu_getColor g' x y = some c) ∧
        (∃ d, gpu_getDepth g' x y = some d) ∧
        (∀ c, ∃ g'', gpu_setColor g' x y c = some g'') ∧
        (∀ d, ∃ g'', gpu_setDepth g' x y d = some g'')) ∧
      (∀ x y x' y', x < width → y < height → x' < width → y' < height →
        getLinearPixelCoord g' x y = getLinearPixelCoord g' x' y' → x = x' ∧ y = y') ∧
      (∀ x y, ¬ (x < width ∧ y < height) →
        getLinearPixelCoord g' x y = outOfRange ∧
        cpu_getColor g' x y = none ∧
        gpu_getDepth g' x y = none ∧
        (∀ c, gpu_setColor g' x y c = none) ∧
        (∀ d, gpu_setDepth g' x y d = none)) ∧
      (∀ i, i < width * height → i ≠ outOfRange)) := by
  refine ⟨?_, ?_, ?_⟩
  · have h := setViewportSize_returns_iff allocates g width height
    rw [Nat.mod_eq_of_lt hsz] at h
    exact h
  · intro hlen hmax
    rcases setViewportSize_cases allocates g width height with
      ⟨_, h1⟩ | ⟨c, hc, _, _⟩ | ⟨c, d, hc, _, _⟩
    · exact h1
    · rw [Nat.mod_eq_of_lt hsz] at hc
      unfold vectorResize at hc
      rw [if_neg (not_le.mpr hlen), if_pos hmax] at hc
      exact absurd hc (by simp)
    · rw [Nat.mod_eq_of_lt hsz] at hc
      unfold vectorResize at hc
      rw [if_neg (not_le.mpr hlen), if_pos hmax] at hc
      exact absurd hc (by simp)
  intro g' hret
  obtain ⟨hw, hh, hc, hd⟩ := setViewportSize_fields allocates g g' width height hret
  rw [Nat.mod_eq_of_lt hsz] at hc hd
  have hin : ∀ x y, x < width → y < height →
      getLinearPixelCoord g' x y = y * width + x ∧
      y * width + x < width * height ∧ y * width + x ≠ outOfRange := by
    intro x y hx hy
    have h := getLinearPixelCoord_inside g' x y
      (by rw [hw, hh]; exact hsz) (by rw [hw]; exact hx) (by rw [hh]; exact hy)
    rw [hw, hh] at h
    exact h
  refine ⟨hw, hh, hc, hd, ?_, ?_, ?_, ?_⟩
  · intro x y hx hy
    obtain ⟨h1, h2, h3⟩ := hin x y hx hy
    refine ⟨h1, h2, by rw [h1]; exact h3, ?_, ?_, ?_, ?_⟩
    · have hlt : y * width + x < g'.colorBuffer.length := by
        rw [hc]; exact h2
      refine ⟨g'.colorBuffer.get ⟨_, hlt⟩, ?_⟩
      unfold cpu_getColor
      simp only [h1, if_neg h3]
      exact List.getElem?_eq_getElem hlt
    · have hlt : y * width + x < g'.depthBuffer.length := by
        rw [hd]; exact h2
      refine ⟨g'.depthBuffer.get ⟨_, hlt⟩, ?_⟩
      unfold gpu_getDepth
      simp only [h1, if_neg h3]
      exact List.getElem?_eq_getElem hlt
    · intro c
      have hlt : y * width + x < g'.colorBuffer.length := by
        rw [hc]; exact h2
      unfold gpu_setColor
      simp only [h1, if_neg h3, if_pos hlt]
      exact ⟨_, rfl⟩
    · intro d
      have hlt : y * width + x < g'.depthBuffer.length := by
        rw [hd]; exact h2
      unfold gpu_setDepth
      simp only [h1, if_neg h3, if_pos hlt]
      exact ⟨_, rfl⟩
  · intro x y x' y' hx hy hx' hy' heq
    rw [(hin x y hx hy).1, (hin x' y' hx' hy').1] at heq
    exact pixel_index_injective width x y x' y' hx hx' heq
  · intro x y hout
    have h := getLinearPixelCoord_outside g' x y (by rw [hw, hh]; exact hout)
    refine ⟨h, ?_, ?_, ?_, ?_⟩
    · unfold cpu_getColor
      simp only [h, if_true]
    · unfold gpu_getDepth
      simp only [h, if_true]
    · intro c
      unfold gpu_setColor
      simp only [h, if_true]
    · intro d
      unfold gpu_setDepth
      simp only [h, if_true]
  · intro i hi
    unfold outOfRange
    omega

/-- The size `3 × 2` on the frame buffer of a new GPU, with every allocation served: the
call returns, each buffer has six entries, the pixel `(2, 1)` has the index `5`, and the
pixel `(3, 1)` has the sentinel as its index. -/
theorem setViewportSize_pixels_witness :
    3 * 2 < 2 ^ 64 ∧
    ∃ g', cpu_setViewportSize (fun _ => true) initialFramebuffer 3 2 = .returned g' ∧
      g'.colorBuffer.length = 3 * 2 ∧
      g'.depthBuffer.length = 3 * 2 ∧
      getLinearPixelCoord g' 2 1 = 1 * 3 + 2 ∧
      getLinearPixelCoord g' 3 1 = outOfRange := by
  have h := setViewportSize_pixels (fun _ => true) initialFramebuffer 3 2 (by norm_num)
  have hr : Resizable sizeofVec4 (fun _ => true) initialFramebuffer.colorBuffer.length
      (3 * 2) ∧
      Resizable sizeofFloat (fun _ => true) initialFramebuffer.depthBuffer.length
        (3 * 2) := by
    constructor
    · right
      exact ⟨by unfold vectorMaxSize sizeofVec4 sizeofFloat; norm_num, rfl⟩
    · right
      exact ⟨by unfold vectorMaxSize sizeofFloat; norm_num, rfl⟩
  obtain ⟨g', hg⟩ := h.1.mpr hr
  have h2 := h.2.2 g' hg
  exact ⟨by norm_num, g', hg, h2.2.2.1, h2.2.2.2.1,
    (h2.2.2.2.2.1 2 1 (by norm_num) (by norm_num)).1,
    (h2.2.2.2.2.2.2.1 3 1 (by norm_num)).1⟩

/-- C32 (the claim as stated fails when `w * h` does not fit a `size_t`):
`cpu_setViewportSize(2^32, 2^32)` on the frame buffer of a new GPU returns, no vector
has to grow: the product `w * h` has wrapped around to `0` and both buffers are empty,
not of `2^64` entries; the pixel `(0, 0)` of the viewport has the index `0`, which is not
the sentinel, and the accessors `cpu_getColor` and `gpu_getDepth` end the program at
it. -/
theorem setViewportSize_product_wraps :
    (2 : ℕ) ^ 32 < 2 ^ 64 ∧
    (∀ allocates, cpu_setViewportSize allocates initialFramebuffer (2 ^ 32) (2 ^ 32) =
      .returned sampleWrappedFramebuffer) ∧
    sampleWrappedFramebuffer.colorBuffer.length = 0 ∧
    sampleWrappedFramebuffer.depthBuffer.length = 0 ∧
    sampleWrappedFramebuffer.colorBuffer.length ≠ 2 ^ 32 * 2 ^ 32 ∧
    getLinearPixelCoord sampleWrappedFramebuffer 0 0 = 0 ∧
    (0 : ℕ) ≠ outOfRange ∧
    cpu_getColor sampleWrappedFramebuffer 0 0 = none ∧
    gpu_getDepth sampleWrappedFramebuffer 0 0 = none := by
  have h0 : (2 ^ 32 * 2 ^ 32) % 2 ^ 64 = 0 := by norm_num
  have hi : getLinearPixelCoord sampleWrappedFramebuffer 0 0 = 0 := by
    unfold getLinearPixelCoord sampleWrappedFramebuffer
    norm_num
  have hne : (0 : ℕ) ≠ outOfRange := by
    unfold outOfRange
    norm_num
  refine ⟨by norm_num, ?_, rfl, rfl, ?_, hi, hne, ?_, ?_⟩
  · intro allocates
    unfold cpu_setViewportSize
    dsimp only
    rw [h0]
    rfl
  · show (0 : ℕ) ≠ 2 ^ 32 * 2 ^ 32
    norm_num
  · unfold cpu_getColor
    simp only [hi, if_neg hne]
    rfl
  · unfold gpu_getDepth
    simp only [hi, if_neg hne]
    rfl

end IzgGpu
